import Mathlib

/-!
# Genius TCAD: nodal data, control-volume nodes and the Newton damping of the Mix3 solver

A shallow embedding of

* `include/solution/fvm_node_data_insulator.h` (class `FVM_Insulator_NodeData`),
* `include/solution/fvm_node_info.h` (class `FVM_Node`),
* `src/solver/mix3/mix3.cc` (the damping steps of `Mix3Solver`).

`PetscScalar` and `Real` are read as an arbitrary linearly ordered field `α`
(exact arithmetic); every statement therefore holds over the rationals and over
the reals.  Unsigned machine integers are natural numbers with an explicit
reduction modulo `2 ^ 32` at the places where the source can wrap around.
-/

namespace Genius

/-! ## Solution variables -/

/-- The enumeration `SolutionVariable`.  Its declaration is outside the translated
sources; the first nine constructors are the enumerators that the sources name,
`OTHER` stands for every further enumerator of the type. -/
inductive SolutionVariable
  | POTENTIAL
  | E_FIELD
  | ELECTRON
  | HOLE
  | TEMPERATURE
  | E_TEMP
  | H_TEMP
  | QFN
  | QFP
  | OTHER (tag : Nat)
  deriving DecidableEq, Repr

/-- A value of `VectorValue<PetscScalar>`: three Cartesian components, as built by
`VectorValue<PetscScalar>(0.0, 0.0, 0.0)` in the constructor of the node data. -/
structure VectorValue (α : Type) where
  x : α
  y : α
  z : α
  deriving DecidableEq, Repr

/-! ## `FVM_Insulator_NodeData` -/

/-- The enumeration `InsulatorData`: the independent variables of an insulator node. -/
inductive InsulatorData
  | _psi_
  | _T_
  deriving DecidableEq, Repr

/-- The enumeration `InsulatorAuxData`. -/
inductive InsulatorAuxData
  | _density_
  | _affinity_
  | _Ec_
  | _Ev_
  | _Eg_
  | _eps_
  | _mu_
  | _psi_last_
  | _T_last_
  deriving DecidableEq, Repr

/-- The enumeration `InsulatorAuxVecData`. -/
inductive InsulatorAuxVecData
  | _E_
  deriving DecidableEq, Repr

/-- The enumeration `InsulatorAuxComplexData`. -/
inductive InsulatorAuxComplexData
  | _psi_ac_
  | _T_ac_
  | _OpE_complex_
  | _OpH_complex_
  deriving DecidableEq, Repr

/-- The stored values of an `FVM_Insulator_NodeData` object: the four arrays
`_scalar_value`, `_aux_scalar_value`, `_complex_value` (real and imaginary part)
and `_vecctor_value`, each indexed by its enumeration. -/
structure FVM_Insulator_NodeData (α : Type) where
  _scalar_value : InsulatorData → α
  _aux_scalar_value : InsulatorAuxData → α
  _complex_value : InsulatorAuxComplexData → α × α
  _vecctor_value : InsulatorAuxVecData → VectorValue α

namespace FVM_Insulator_NodeData

variable {α : Type}

/-- The reader `psi()`: `_scalar_value[_psi_]`. -/
def psi (s : FVM_Insulator_NodeData α) : α :=
  s._scalar_value InsulatorData._psi_

/-- The reader `T()`: `_scalar_value[_T_]`. -/
def T (s : FVM_Insulator_NodeData α) : α :=
  s._scalar_value InsulatorData._T_

/-- The assignment `psi() = value` through the reference returned by `psi()`. -/
def set_psi (s : FVM_Insulator_NodeData α) (value : α) : FVM_Insulator_NodeData α :=
  { s with _scalar_value := Function.update s._scalar_value InsulatorData._psi_ value }

/-- The assignment `T() = value` through the reference returned by `T()`. -/
def set_T (s : FVM_Insulator_NodeData α) (value : α) : FVM_Insulator_NodeData α :=
  { s with _scalar_value := Function.update s._scalar_value InsulatorData._T_ value }

/-- The method `get_variable`.  `size` is `VectorValue<PetscScalar>::size()`, whose
definition is outside the translated sources. -/
def get_variable [Zero α] (size : VectorValue α → α) (s : FVM_Insulator_NodeData α)
    (var : SolutionVariable) : α :=
  match var with
  | SolutionVariable.POTENTIAL => s.psi
  | SolutionVariable.E_FIELD => size (s._vecctor_value InsulatorAuxVecData._E_)
  | SolutionVariable.ELECTRON => 0
  | SolutionVariable.HOLE => 0
  | SolutionVariable.TEMPERATURE => s.T
  | SolutionVariable.E_TEMP => s.T
  | SolutionVariable.H_TEMP => s.T
  | SolutionVariable.QFN => s.psi
  | SolutionVariable.QFP => s.psi
  | _ => 0

/-- The method `set_variable`.  The `switch` has no `break`: the `POTENTIAL` case
runs its own assignment and then the one of the `TEMPERATURE` case before it
reaches `default: return`. -/
def set_variable (s : FVM_Insulator_NodeData α) (var : SolutionVariable) (value : α) :
    FVM_Insulator_NodeData α :=
  match var with
  | SolutionVariable.POTENTIAL => (s.set_psi value).set_T value
  | SolutionVariable.TEMPERATURE => s.set_T value
  | _ => s

/-- The method `is_variable_valid`. -/
def is_variable_valid (var : SolutionVariable) : Bool :=
  match var with
  | SolutionVariable.POTENTIAL => true
  | SolutionVariable.TEMPERATURE => true
  | _ => false

/-- What `get_variable` returns for a kind that `is_variable_valid` rejects, read off
the `switch` case by case. -/
def invalid_kind_value [Zero α] (size : VectorValue α → α) (s : FVM_Insulator_NodeData α)
    (var : SolutionVariable) : α :=
  match var with
  | SolutionVariable.E_FIELD => size (s._vecctor_value InsulatorAuxVecData._E_)
  | SolutionVariable.E_TEMP => s.T
  | SolutionVariable.H_TEMP => s.T
  | SolutionVariable.QFN => s.psi
  | SolutionVariable.QFP => s.psi
  | _ => 0

/-- A sample insulator node: potential `0`, lattice temperature `300`, everything
else zero. -/
def sample : FVM_Insulator_NodeData ℚ where
  _scalar_value := fun i => match i with
    | InsulatorData._psi_ => 0
    | InsulatorData._T_ => 300
  _aux_scalar_value := fun _ => 0
  _complex_value := fun _ => (0, 0)
  _vecctor_value := fun _ => ⟨0, 0, 0⟩

/-- A stand-in for `VectorValue::size()` on rational samples: the sum of the squares
of the components (the samples only use the zero vector). -/
def sample_size (v : VectorValue ℚ) : ℚ :=
  v.x * v.x + v.y * v.y + v.z * v.z

end FVM_Insulator_NodeData

/-! ## `FVM_Node` -/

/-- The sentinel `invalid_uint` that marks an offset as unassigned.  Its declaration
is outside the translated sources; it is the largest `unsigned int`,
`static_cast<unsigned int>(-1)`.  No statement below depends on the numeral. -/
def invalid_uint : Nat := 4294967295

/-- The part of an `FVM_Node` that the translated methods read or write.

* `processor_id` is `_node->processor_id()` of the root node;
* `_ghost_nodes` is the pointer to the ghost-node map: `none` for the null
  pointer, otherwise the entries of the `std::map` in its iteration order, each
  entry a key (the address of the peer `FVM_Node`, `0` for `NULL`) with its
  pair `(subdomain id, interface area)`;
* `_global_offset` and `_local_offset` are the two offsets. -/
structure FVM_Node (α : Type) where
  processor_id : Nat
  _ghost_nodes : Option (List (Nat × (Nat × α)))
  _global_offset : Nat
  _local_offset : Nat

namespace FVM_Node

variable {α : Type}

/-- The method `on_processor`; `self` is the value of `Genius::processor_id()`. -/
def on_processor (self : Nat) (n : FVM_Node α) : Bool :=
  n.processor_id == self

/-- The method `is_valid`. -/
def is_valid (n : FVM_Node α) : Bool :=
  n._global_offset != invalid_uint && n._local_offset != invalid_uint

/-- The method `set_global_offset`. -/
def set_global_offset (n : FVM_Node α) (pos : Nat) : FVM_Node α :=
  { n with _global_offset := pos }

/-- The method `set_local_offset`. -/
def set_local_offset (n : FVM_Node α) (pos : Nat) : FVM_Node α :=
  { n with _local_offset := pos }

/-- The method `local_offset`. -/
def local_offset (n : FVM_Node α) : Nat :=
  n._local_offset

/-- The method `n_ghost_node`: the size of the map (`none` when the assertion
`genius_assert(_ghost_nodes)` fails). -/
def n_ghost_node (n : FVM_Node α) : Option Nat :=
  n._ghost_nodes.map List.length

/-- The loop `for(unsigned int l=0; l<i; ++i, ++it);` of `ghost_fvm_node`.  The
counter `l` stays `0`; every round increments the 32-bit unsigned `i` (wrapping
at `2 ^ 32`) and the iterator position `it`.  The result is the iterator position
at which the loop stops. -/
def ghost_fvm_node_loop (i it : Nat) : Nat :=
  if 0 < i % 4294967296 then ghost_fvm_node_loop ((i + 1) % 4294967296) (it + 1) else it
termination_by (4294967296 - i % 4294967296) % 4294967296
decreasing_by omega

/-- The method `ghost_fvm_node`.  The iterator is a position in the map, starting
at `ghost_node_begin()` (position `0`); the result is `none` when an assertion
fails or when the position that is dereferenced is not an entry of the map
(dereferencing `end()` or beyond is undefined). -/
def ghost_fvm_node (n : FVM_Node α) (i : Nat) : Option Nat :=
  match n._ghost_nodes with
  | none => none
  | some m =>
    if i < m.length then (m.get? (ghost_fvm_node_loop i 0)).map Prod.fst else none

/-- The key of the `i`-th entry of the ghost-node map in iteration order: what the
documentation of `ghost_fvm_node` announces (`@return ith ghost FVM_Node`). -/
def ith_ghost_key (n : FVM_Node α) (i : Nat) : Option Nat :=
  match n._ghost_nodes with
  | none => none
  | some m => (m.get? i).map Prod.fst

/-- A node as the constructor leaves it: no ghost map, both offsets unassigned. -/
def fresh : FVM_Node ℚ where
  processor_id := 0
  _ghost_nodes := none
  _global_offset := invalid_uint
  _local_offset := invalid_uint

/-- A node on an interface with two peers, stored at the addresses `100` and `200`. -/
def two_ghosts : FVM_Node ℚ where
  processor_id := 0
  _ghost_nodes := some [(100, (1, 1)), (200, (2, 1))]
  _global_offset := 0
  _local_offset := 0

end FVM_Node

/-! ## The simulation system seen by `Mix3Solver` -/

/-- The constants of `PhysicalUnit` that `mix3.cc` imports: `cm`, `K`, `kb`, `e`.
Their values are outside the translated sources and are kept as data. -/
structure PhysicalUnit (α : Type) where
  cm : α
  K : α
  kb : α
  e : α

/-- The region kinds that `mix3.cc` tells apart through `region->type()`. -/
inductive SimulationRegionType
  | SemiconductorRegion
  | InsulatorRegion
  | ConductorRegion
  | VacuumRegion
  | OtherRegion (tag : Nat)
  deriving DecidableEq, Repr

/-- The switches of `region->get_advanced_model()` that the damping steps read. -/
structure AdvancedModelSpecification where
  enable_Tl : Bool
  enable_Tn : Bool
  enable_Tp : Bool
  deriving DecidableEq, Repr

/-- A `SimulationRegion` as the damping steps use it: its `type()`, the table
behind `ebm_variable_offset`, its advanced model and its `FVM_Node`s in the order
of `nodes_begin() .. nodes_end()`. -/
structure SimulationRegion (α : Type) where
  type : SimulationRegionType
  ebm_variable_offset : SolutionVariable → Nat
  get_advanced_model : AdvancedModelSpecification
  nodes : List (FVM_Node α)

/-- The `SimulationSystem`: regions `0 .. n_regions()-1`, the external temperature
`T_external()` and the rank `Genius::processor_id()` of the running process. -/
structure SimulationSystem (α : Type) where
  regions : List (SimulationRegion α)
  T_external : α
  processor_id : Nat

/-- Addition of two `unsigned int` values, as in `local_offset + node_psi_offset`. -/
def uadd (a b : Nat) : Nat :=
  (a + b) % 4294967296

/-- The statement `if ( ww[i] < v ) ww[i] = v;` on an array `ww`. -/
def raise_to {α : Type} [LinearOrderedField α] (ww : Nat → α) (i : Nat) (v : α) : Nat → α :=
  if ww i < v then Function.update ww i v else ww

/-- The arrays and flags that a damping step of the line search receives and may
change: `xx` (previous iterate), `yy` (search direction), `ww` (candidate
iterate) and the two out-parameters `*changed_y`, `*changed_w`. -/
structure DampingState (α : Type) where
  xx : Nat → α
  yy : Nat → α
  ww : Nat → α
  changed_y : Bool
  changed_w : Bool

namespace Mix3Solver

open SolutionVariable

variable {α : Type} [LinearOrderedField α]

/-- The test `!fvm_node->on_processor() || !fvm_node->is_valid()` that makes the
node loops `continue`. -/
def skipped (self : Nat) (fvm_node : FVM_Node α) : Bool :=
  !fvm_node.on_processor self || !fvm_node.is_valid

/-- The constant `onePerCMC = 1.0*std::pow(cm,-3)`. -/
def onePerCMC (u : PhysicalUnit α) : α :=
  1 * u.cm ^ (-3 : ℤ)

/-- The body of the node loop in the first pass of `potential_damping`
(lines 572-605), on the pair `(dV_max, ww)`. -/
def potential_damping_node (u : PhysicalUnit α) (T_external : α) (self : Nat)
    (region : SimulationRegion α) (yy : Nat → α) (st : α × (Nat → α))
    (fvm_node : FVM_Node α) : α × (Nat → α) :=
  if skipped self fvm_node then st else
  let node_psi_offset := region.ebm_variable_offset POTENTIAL
  let node_n_offset := region.ebm_variable_offset ELECTRON
  let node_p_offset := region.ebm_variable_offset HOLE
  let node_Tl_offset := region.ebm_variable_offset TEMPERATURE
  let node_Tn_offset := region.ebm_variable_offset E_TEMP
  let node_Tp_offset := region.ebm_variable_offset H_TEMP
  let local_offset := fvm_node.local_offset
  let dV_max :=
    if |yy (uadd local_offset node_psi_offset)| > st.1 then
      |yy (uadd local_offset node_psi_offset)| else st.1
  let ww := st.2
  let ww := raise_to ww (uadd local_offset node_n_offset) (onePerCMC u)
  let ww := raise_to ww (uadd local_offset node_p_offset) (onePerCMC u)
  let ww :=
    if region.get_advanced_model.enable_Tl then
      raise_to ww (uadd local_offset node_Tl_offset) (T_external - 50 * u.K)
    else ww
  let ww :=
    if region.get_advanced_model.enable_Tn then
      raise_to ww (uadd local_offset node_Tn_offset)
        (9 / 10 * ww (uadd local_offset node_n_offset) * T_external)
    else ww
  let ww :=
    if region.get_advanced_model.enable_Tp then
      raise_to ww (uadd local_offset node_Tp_offset)
        (9 / 10 * ww (uadd local_offset node_p_offset) * T_external)
    else ww
  (dV_max, ww)

/-- The first pass of `potential_damping` (lines 555-607): all regions, only the
semiconductor ones, all their nodes. -/
def potential_damping_pass1 (u : PhysicalUnit α) (sys : SimulationSystem α)
    (yy : Nat → α) (st : α × (Nat → α)) : α × (Nat → α) :=
  sys.regions.foldl
    (fun st region =>
      if region.type ≠ SimulationRegionType.SemiconductorRegion then st else
      region.nodes.foldl
        (potential_damping_node u sys.T_external sys.processor_id region yy) st)
    st

/-- The body of the node loop in the second pass of `potential_damping`
(lines 632-638): the damped potential update. -/
def potential_damping_update (self : Nat) (region : SimulationRegion α) (f : α)
    (xx yy : Nat → α) (ww : Nat → α) (fvm_node : FVM_Node α) : Nat → α :=
  if skipped self fvm_node then ww else
  let node_psi_offset := region.ebm_variable_offset POTENTIAL
  let local_offset := fvm_node.local_offset
  Function.update ww (uadd local_offset node_psi_offset)
    (xx (uadd local_offset node_psi_offset) - f * yy (uadd local_offset node_psi_offset))

/-- The second pass of `potential_damping` (lines 620-640). -/
def potential_damping_pass2 (sys : SimulationSystem α) (f : α) (xx yy : Nat → α)
    (ww : Nat → α) : Nat → α :=
  sys.regions.foldl
    (fun ww region =>
      if region.type ≠ SimulationRegionType.SemiconductorRegion then ww else
      region.nodes.foldl (potential_damping_update sys.processor_id region f xx yy) ww)
    ww

/-- The value of `dV_max` after `Parallel::max( dV_max )`: the larger of the local
value and `remote`, the largest value held by the other processes (`0`, the
initial value of `dV_max`, when the process runs alone). -/
def Parallel_max (dV_max remote : α) : α :=
  max dV_max remote

/-- The logarithmic damping factor `f = log(1+dV_max/Vt)/(dV_max/Vt)` with
`Vt = kb*T_external/e`; `log` is the natural logarithm of the C library. -/
def damping_factor (log : α → α) (u : PhysicalUnit α) (T_external dV_max : α) : α :=
  let Vt := u.kb * T_external / u.e
  log (1 + dV_max / Vt) / (dV_max / Vt)

/-- The method `Mix3Solver::potential_damping`. -/
def potential_damping (log : α → α) (u : PhysicalUnit α) (sys : SimulationSystem α)
    (remote : α) (s : DampingState α) : DampingState α :=
  let st := potential_damping_pass1 u sys s.yy (0, s.ww)
  let dV_max := Parallel_max st.1 remote
  let ww :=
    if dV_max > 1 / 1000000 then
      potential_damping_pass2 sys (damping_factor log u sys.T_external dV_max) s.xx s.yy st.2
    else st.2
  { s with ww := ww, changed_y := false, changed_w := true }

/-- The method `Mix3Solver::bank_rose_damping`: it touches no array. -/
def bank_rose_damping (s : DampingState α) : DampingState α :=
  { s with changed_y := false, changed_w := false }

/-- The block `{ ww[i] = v; changed_flag = 1; }` on the pair `(ww, changed_flag)`. -/
def write_flagged (st : (Nat → α) × Nat) (i : Nat) (v : α) : (Nat → α) × Nat :=
  (Function.update st.1 i v, 1)

/-- The body of the node loop of `positive_density_damping` (lines 705-748), on the
pair `(ww, changed_flag)`.  `sign` is `std::sign`, declared outside the
translated sources.  The electron test reads `ww[local_offset+1]`, the write goes
to `ww[local_offset + node_n_offset]`. -/
def positive_density_damping_node (sign : α → α) (u : PhysicalUnit α) (T_external : α)
    (self : Nat) (region : SimulationRegion α) (xx yy : Nat → α)
    (st : (Nat → α) × Nat) (fvm_node : FVM_Node α) : (Nat → α) × Nat :=
  if skipped self fvm_node then st else
  let node_psi_offset := region.ebm_variable_offset POTENTIAL
  let node_n_offset := region.ebm_variable_offset ELECTRON
  let node_p_offset := region.ebm_variable_offset HOLE
  let node_Tl_offset := region.ebm_variable_offset TEMPERATURE
  let node_Tn_offset := region.ebm_variable_offset E_TEMP
  let node_Tp_offset := region.ebm_variable_offset H_TEMP
  let local_offset := fvm_node.local_offset
  let st :=
    if |yy (uadd local_offset node_psi_offset)| > 1 then
      write_flagged st (uadd local_offset node_psi_offset)
        (xx (uadd local_offset node_psi_offset)
          - sign (yy (uadd local_offset node_psi_offset)) * 1)
    else st
  let st :=
    if st.1 (uadd local_offset 1) < onePerCMC u then
      write_flagged st (uadd local_offset node_n_offset) (onePerCMC u)
    else st
  let st :=
    if st.1 (uadd local_offset node_p_offset) < onePerCMC u then
      write_flagged st (uadd local_offset node_p_offset) (onePerCMC u)
    else st
  let st :=
    if region.get_advanced_model.enable_Tl then
      if st.1 (uadd local_offset node_Tl_offset) < T_external - 50 * u.K then
        write_flagged st (uadd local_offset node_Tl_offset) (T_external - 50 * u.K)
      else st
    else st
  let st :=
    if region.get_advanced_model.enable_Tn then
      if st.1 (uadd local_offset node_Tn_offset)
          < 9 / 10 * st.1 (uadd local_offset node_n_offset) * T_external then
        write_flagged st (uadd local_offset node_Tn_offset)
          (9 / 10 * st.1 (uadd local_offset node_n_offset) * T_external)
      else st
    else st
  let st :=
    if region.get_advanced_model.enable_Tp then
      if st.1 (uadd local_offset node_Tp_offset)
          < 9 / 10 * st.1 (uadd local_offset node_p_offset) * T_external then
        write_flagged st (uadd local_offset node_Tp_offset)
          (9 / 10 * st.1 (uadd local_offset node_p_offset) * T_external)
      else st
    else st
  st

/-- The region and node loops of `positive_density_damping` (lines 688-751). -/
def positive_density_damping_pass (sign : α → α) (u : PhysicalUnit α)
    (sys : SimulationSystem α) (xx yy : Nat → α) (st : (Nat → α) × Nat) : (Nat → α) × Nat :=
  sys.regions.foldl
    (fun st region =>
      if region.type ≠ SimulationRegionType.SemiconductorRegion then st else
      region.nodes.foldl
        (positive_density_damping_node sign u sys.T_external sys.processor_id region xx yy) st)
    st

/-- The value of `changed_flag` after `Parallel::sum( changed_flag )`: the local
flag plus `remote`, the sum of the flags of the other processes. -/
def Parallel_sum (changed_flag remote : Nat) : Nat :=
  changed_flag + remote

/-- The method `Mix3Solver::positive_density_damping`.  The two out-parameters are
written only when the summed flag is not zero. -/
def positive_density_damping (sign : α → α) (u : PhysicalUnit α) (sys : SimulationSystem α)
    (remote : Nat) (s : DampingState α) : DampingState α :=
  let st := positive_density_damping_pass sign u sys s.xx s.yy (s.ww, 0)
  let changed_flag := Parallel_sum st.2 remote
  if changed_flag ≠ 0 then
    { s with ww := st.1, changed_y := false, changed_w := true }
  else
    { s with ww := st.1 }

/-! ### The layout of the solution vector

The index `local_offset + ebm_variable_offset(kind)` is the slot of a variable of
a node.  The statements about the damping steps are made for the nodes that the
loops treat (semiconductor region, on processor, valid) and assume that the slots
of their variables are pairwise distinct. -/

/-- The slot `local_offset + ebm_variable_offset(var)` of a variable of a node. -/
def slot (region : SimulationRegion α) (fvm_node : FVM_Node α) (var : SolutionVariable) : Nat :=
  uadd fvm_node.local_offset (region.ebm_variable_offset var)

/-- The kinds whose floor a damping step may enforce in a region: the two carrier
densities and the temperatures that the advanced model enables. -/
def clamped_variables (region : SimulationRegion α) : List SolutionVariable :=
  [ELECTRON, HOLE]
    ++ (if region.get_advanced_model.enable_Tl then [TEMPERATURE] else [])
    ++ (if region.get_advanced_model.enable_Tn then [E_TEMP] else [])
    ++ (if region.get_advanced_model.enable_Tp then [H_TEMP] else [])

/-- The slots of a node whose floor may be enforced; none for a node that the loop
skips. -/
def clamp_slots (self : Nat) (region : SimulationRegion α) (fvm_node : FVM_Node α) : List Nat :=
  if skipped self fvm_node then [] else (clamped_variables region).map (slot region fvm_node)

/-- The potential slot of a node; none for a node that the loop skips. -/
def psi_slots (self : Nat) (region : SimulationRegion α) (fvm_node : FVM_Node α) : List Nat :=
  if skipped self fvm_node then [] else [slot region fvm_node POTENTIAL]

/-- All slots of a node that a damping step may write: the potential slot followed by
the clamped slots. -/
def node_slots (self : Nat) (region : SimulationRegion α) (fvm_node : FVM_Node α) : List Nat :=
  psi_slots self region fvm_node ++ clamp_slots self region fvm_node

/-- The slots of all treated nodes of a region; none outside semiconductor regions. -/
def region_slots (self : Nat) (region : SimulationRegion α) : List Nat :=
  if region.type ≠ SimulationRegionType.SemiconductorRegion then []
  else region.nodes.flatMap (node_slots self region)

/-- The slots of all treated nodes of the system, region by region. -/
def system_slots (sys : SimulationSystem α) : List Nat :=
  sys.regions.flatMap (region_slots sys.processor_id)

/-- The potential slots of all treated nodes of the system, in loop order. -/
def system_psi_slots (sys : SimulationSystem α) : List Nat :=
  sys.regions.flatMap (fun region =>
    if region.type ≠ SimulationRegionType.SemiconductorRegion then []
    else region.nodes.flatMap (psi_slots sys.processor_id region))

/-- The largest `|y[psi]|` over the treated nodes (`0` when there is none), written
as the claim words it. -/
def max_abs_potential_step (sys : SimulationSystem α) (yy : Nat → α) : α :=
  (system_psi_slots sys).foldl (fun m j => max m |yy j|) 0

/-- A node that the damping loops treat: it lies in a semiconductor region of the
system, on this processor, with valid offsets. -/
def Treated (sys : SimulationSystem α) (region : SimulationRegion α)
    (fvm_node : FVM_Node α) : Prop :=
  region ∈ sys.regions ∧ region.type = SimulationRegionType.SemiconductorRegion ∧
    fvm_node ∈ region.nodes ∧ skipped sys.processor_id fvm_node = false

/-- The density floors at a node: `n >= 1 cm^-3` and `p >= 1 cm^-3`. -/
def DensityFloors (u : PhysicalUnit α) (region : SimulationRegion α)
    (fvm_node : FVM_Node α) (ww : Nat → α) : Prop :=
  onePerCMC u ≤ ww (slot region fvm_node ELECTRON) ∧
    onePerCMC u ≤ ww (slot region fvm_node HOLE)

/-- The lattice-temperature floor at a node: `T_l >= T_ext - 50 K` when the lattice
temperature is enabled. -/
def LatticeFloor (u : PhysicalUnit α) (T_external : α) (region : SimulationRegion α)
    (fvm_node : FVM_Node α) (ww : Nat → α) : Prop :=
  region.get_advanced_model.enable_Tl = true →
    T_external - 50 * u.K ≤ ww (slot region fvm_node TEMPERATURE)

/-- The carrier-temperature floors at a node: `Tn >= 0.9 * T_ext * n` and
`Tp >= 0.9 * T_ext * p` when the respective model is enabled. -/
def CarrierTemperatureFloors (T_external : α) (region : SimulationRegion α)
    (fvm_node : FVM_Node α) (ww : Nat → α) : Prop :=
  (region.get_advanced_model.enable_Tn = true →
      9 / 10 * T_external * ww (slot region fvm_node ELECTRON)
        ≤ ww (slot region fvm_node E_TEMP)) ∧
    (region.get_advanced_model.enable_Tp = true →
      9 / 10 * T_external * ww (slot region fvm_node HOLE)
        ≤ ww (slot region fvm_node H_TEMP))

/-- The slots that the node step of `positive_density_damping` may write for the step
`yy`: the potential slot only when `|y[psi]| > 1`, and the clamped slots. -/
def clipped_slots (self : Nat) (region : SimulationRegion α) (yy : Nat → α)
    (fvm_node : FVM_Node α) : List Nat :=
  (if |yy (slot region fvm_node POTENTIAL)| > 1 then psi_slots self region fvm_node else [])
    ++ clamp_slots self region fvm_node

/-! ### Rational samples -/

/-- Units for the rational samples: `cm = 1`, `K = 1`, `kb = 1/10000`, `e = 1`. -/
def sample_unit : PhysicalUnit ℚ where
  cm := 1
  K := 1
  kb := 1 / 10000
  e := 1

/-- A node of the samples: on processor `0`, both offsets equal to `lo`. -/
def sample_node (lo : Nat) : FVM_Node ℚ where
  processor_id := 0
  _ghost_nodes := none
  _global_offset := lo
  _local_offset := lo

/-- The offsets `psi, n, p, Tl, Tn, Tp = 0, 1, 2, 3, 4, 5`. -/
def sample_offsets (var : SolutionVariable) : Nat :=
  match var with
  | POTENTIAL => 0
  | ELECTRON => 1
  | HOLE => 2
  | TEMPERATURE => 3
  | E_TEMP => 4
  | H_TEMP => 5
  | _ => invalid_uint

/-- A semiconductor region with all three temperatures enabled and two nodes, at the
local offsets `0` and `6`. -/
def sample_region : SimulationRegion ℚ where
  type := SimulationRegionType.SemiconductorRegion
  ebm_variable_offset := sample_offsets
  get_advanced_model := ⟨true, true, true⟩
  nodes := [sample_node 0, sample_node 6]

/-- An insulator region with one node at the local offset `12`. -/
def sample_oxide : SimulationRegion ℚ where
  type := SimulationRegionType.InsulatorRegion
  ebm_variable_offset := fun var =>
    match var with
    | POTENTIAL => 0
    | TEMPERATURE => 1
    | _ => invalid_uint
  get_advanced_model := ⟨true, false, false⟩
  nodes := [sample_node 12]

/-- The sample system: the two regions above, `T_external = 300`, on processor `0`. -/
def sample_system : SimulationSystem ℚ where
  regions := [sample_region, sample_oxide]
  T_external := 300
  processor_id := 0

/-- A line-search state with all arrays zero. -/
def sample_state : DampingState ℚ where
  xx := fun _ => 0
  yy := fun _ => 0
  ww := fun _ => 0
  changed_y := false
  changed_w := false

/-- A line-search state with `w = x - y`: previous iterate `10` everywhere, a potential
step of `2` at slot `0`. -/
def sample_step_state : DampingState ℚ where
  xx := fun _ => 10
  yy := fun j => if j = 0 then 2 else 0
  ww := fun j => 10 - (if j = 0 then 2 else 0)
  changed_y := false
  changed_w := false

/-- A sign function on the rationals, standing for `std::sign` in the samples. -/
def sample_sign (v : ℚ) : ℚ :=
  if v < 0 then -1 else 1

/-- A rational stand-in for `log`, used only to instantiate statements at the samples. -/
def sample_log (v : ℚ) : ℚ :=
  v - 1

/-- A semiconductor region whose table puts the hole density at offset `1` and the
electron density at offset `2`; no temperature is enabled; one node at offset `0`. -/
def swapped_region : SimulationRegion ℚ where
  type := SimulationRegionType.SemiconductorRegion
  ebm_variable_offset := fun var =>
    match var with
    | POTENTIAL => 0
    | HOLE => 1
    | ELECTRON => 2
    | _ => invalid_uint
  get_advanced_model := ⟨false, false, false⟩
  nodes := [sample_node 0]

/-- The system made of `swapped_region` alone. -/
def swapped_system : SimulationSystem ℚ where
  regions := [swapped_region]
  T_external := 300
  processor_id := 0

/-- A candidate iterate with hole density `5` (slot `1`) and electron density `0`
(slot `2`); no step. -/
def swapped_state : DampingState ℚ where
  xx := fun _ => 0
  yy := fun _ => 0
  ww := fun j => if j = 1 then 5 else 0
  changed_y := false
  changed_w := false

end Mix3Solver

end Genius

namespace Genius

namespace Mix3Solver

open SolutionVariable

variable {α : Type} [LinearOrderedField α]

/-! ### `projection_positive_density_check` -/

/-- The arrays of `projection_positive_density_check(Vec x, Vec xo)`: `xx` and `oo`. -/
structure ProjectionState (α : Type) where
  xx : Nat → α
  oo : Nat → α

/-- The body of the node loop of `projection_positive_density_check` (lines 798-830). -/
def projection_positive_density_check_node (u : PhysicalUnit α) (T_external : α) (self : Nat)
    (region : SimulationRegion α) (xx : Nat → α) (fvm_node : FVM_Node α) : Nat → α :=
  if skipped self fvm_node then xx else
  let node_n_offset := region.ebm_variable_offset ELECTRON
  let node_p_offset := region.ebm_variable_offset HOLE
  let node_Tl_offset := region.ebm_variable_offset TEMPERATURE
  let node_Tn_offset := region.ebm_variable_offset E_TEMP
  let node_Tp_offset := region.ebm_variable_offset H_TEMP
  let local_offset := fvm_node.local_offset
  let xx := raise_to xx (uadd local_offset node_n_offset) (onePerCMC u)
  let xx := raise_to xx (uadd local_offset node_p_offset) (onePerCMC u)
  let xx :=
    if region.get_advanced_model.enable_Tl then
      raise_to xx (uadd local_offset node_Tl_offset) (T_external - 50 * u.K)
    else xx
  let xx :=
    if region.get_advanced_model.enable_Tn then
      raise_to xx (uadd local_offset node_Tn_offset)
        (9 / 10 * xx (uadd local_offset node_n_offset) * T_external)
    else xx
  let xx :=
    if region.get_advanced_model.enable_Tp then
      raise_to xx (uadd local_offset node_Tp_offset)
        (9 / 10 * xx (uadd local_offset node_p_offset) * T_external)
    else xx
  xx

/-- The method `Mix3Solver::projection_positive_density_check`. -/
def projection_positive_density_check (u : PhysicalUnit α) (sys : SimulationSystem α)
    (s : ProjectionState α) : ProjectionState α :=
  { s with
    xx := sys.regions.foldl
      (fun xx region =>
        if region.type ≠ SimulationRegionType.SemiconductorRegion then xx else
        region.nodes.foldl
          (projection_positive_density_check_node u sys.T_external sys.processor_id region) xx)
      s.xx }

/-- The floor that the projection applies to the slot of a kind at a node, given the
array `xx` that holds the clamped densities. -/
def projection_floor (u : PhysicalUnit α) (T_external : α) (region : SimulationRegion α)
    (fvm_node : FVM_Node α) (xx : Nat → α) (var : SolutionVariable) : α :=
  match var with
  | TEMPERATURE => T_external - 50 * u.K
  | E_TEMP => 9 / 10 * T_external * xx (slot region fvm_node ELECTRON)
  | H_TEMP => 9 / 10 * T_external * xx (slot region fvm_node HOLE)
  | _ => onePerCMC u

/-- A solution and its copy for the samples: all entries `2`, except the electron
density of the first node (slot `1`), which is `0`. -/
def sample_projection_state : ProjectionState ℚ where
  xx := fun j => if j = 1 then 0 else 2
  oo := fun _ => 0

end Mix3Solver

end Genius

namespace Genius

/-! ## Assembly drivers of `Mix3Solver` -/

/-- The values of PETSc's `InsertMode` that the sources use. -/
inductive InsertMode
  | NOT_SET_VALUES
  | INSERT_VALUES
  | ADD_VALUES
  deriving DecidableEq, Repr

/-- The collaborators of `build_petsc_sens_residual` whose code is outside the
translated sources: the virtual methods of region `n` and boundary condition `b`, each
acting on the residual array and the `InsertMode` flag for the local solution `lxx`,
the scatter of `x` into `lx`, and `VecAssemblyBegin/End` on the residual. -/
structure ResidualKernels (α : Type) where
  VecScatter : (Nat → α) → (Nat → α)
  EBM3_Function : Nat → (Nat → α) → (Nat → α) × InsertMode → (Nat → α) × InsertMode
  EBM3_Time_Dependent_Function :
    Nat → (Nat → α) → (Nat → α) × InsertMode → (Nat → α) × InsertMode
  EBM3_Function_Hanging_Node :
    Nat → (Nat → α) → (Nat → α) × InsertMode → (Nat → α) × InsertMode
  Mix_EBM3_Function : Nat → (Nat → α) → (Nat → α) × InsertMode → (Nat → α) × InsertMode
  VecAssembly : (Nat → α) → (Nat → α)

/-- The calls that the Jacobian drivers of `Mix3Solver` issue, in the order of issue:
the virtual methods of region `n` or boundary condition `b` and the PETSc calls on the
matrix. -/
inductive DriverCall
  | VecScatter
  | MatZeroEntries
  | EBM3_Jacobian (n : Nat)
  | EBM3_Time_Dependent_Jacobian (n : Nat)
  | Mix_EBM3_Jacobian_Reserve (b : Nat)
  | MatSetOption_IGNORE_ZERO_ENTRIES
  | EBM3_Jacobian_Hanging_Node (n : Nat)
  | Mix_EBM3_Jacobian (b : Nat)
  | Mix_EBM3_Electrode_Load (b : Nat)
  | MatAssembly_FINAL
  | MatDiagonalScale
  deriving DecidableEq, Repr

/-- The two members of the solver that record whether the pattern of `J` and of `G` has
been reserved. -/
structure FirstAssemble where
  jacobian_matrix_first_assemble : Bool
  g_matrix_first_assemble : Bool
  deriving DecidableEq, Repr

namespace Mix3Solver

variable {α : Type} [LinearOrderedField α]

/-- The loop `for(unsigned int n=0; n<n_local_dofs; n++) ff[n] *= scale[n];`. -/
def scale_rows (n_local_dofs : Nat) (scale ff : Nat → α) : Nat → α :=
  (List.range n_local_dofs).foldl (fun ff n => Function.update ff n (ff n * scale n)) ff

/-- The part of `build_petsc_sens_residual` before the scaling (lines 1029-1090): the
residual after the region terms, the time-dependent terms, the hanging-node terms, the
boundary terms and the vector assembly. -/
def assemble_residual (k : ResidualKernels α) (n_regions n_bcs : Nat) (TimeDependent : Bool)
    (x : Nat → α) : Nat → α :=
  let lxx := k.VecScatter x
  let st : (Nat → α) × InsertMode := (fun _ => 0, InsertMode.NOT_SET_VALUES)
  let st := (List.range n_regions).foldl (fun st n => k.EBM3_Function n lxx st) st
  let st :=
    if TimeDependent = true then
      (List.range n_regions).foldl (fun st n => k.EBM3_Time_Dependent_Function n lxx st) st
    else st
  let st := (List.range n_regions).foldl (fun st n => k.EBM3_Function_Hanging_Node n lxx st) st
  let st := (List.range n_bcs).foldl (fun st b => k.Mix_EBM3_Function b lxx st) st
  k.VecAssembly st.1

/-- The method `Mix3Solver::build_petsc_sens_residual`: the residual `r` and the scaling
vector `L` when it returns.  The incoming content of `r` is cleared by
`VecZeroEntries`. -/
def build_petsc_sens_residual (k : ResidualKernels α) (n_regions n_bcs : Nat)
    (TimeDependent : Bool) (n_local_dofs : Nat) (L : Nat → α) (x : Nat → α) :
    (Nat → α) × (Nat → α) :=
  let ff := assemble_residual k n_regions n_bcs TimeDependent x
  let scale := L
  (scale_rows n_local_dofs scale ff, L)

/-- The method `Mix3Solver::build_petsc_sens_jacobian`, as the sequence of calls it
issues and its effect on `jacobian_matrix_first_assemble`. -/
def build_petsc_sens_jacobian (n_regions n_bcs : Nat) (TimeDependent : Bool)
    (s : FirstAssemble) : FirstAssemble × List DriverCall :=
  let t := [DriverCall.VecScatter, DriverCall.MatZeroEntries]
  let t := t ++ (List.range n_regions).map DriverCall.EBM3_Jacobian
  let t :=
    if TimeDependent = true then
      t ++ (List.range n_regions).map DriverCall.EBM3_Time_Dependent_Jacobian
    else t
  let st : FirstAssemble × List DriverCall :=
    if !s.jacobian_matrix_first_assemble then
      ({ s with jacobian_matrix_first_assemble := true },
        t ++ (List.range n_bcs).map DriverCall.Mix_EBM3_Jacobian_Reserve
          ++ [DriverCall.MatSetOption_IGNORE_ZERO_ENTRIES])
    else (s, t)
  let t := st.2 ++ (List.range n_regions).map DriverCall.EBM3_Jacobian_Hanging_Node
  let t := t ++ (List.range n_bcs).map DriverCall.Mix_EBM3_Jacobian
  let t := t ++ [DriverCall.MatAssembly_FINAL, DriverCall.MatDiagonalScale]
  (st.1, t)

/-- The method `Mix3Solver::get_electrode_load`, as the sequence of calls it issues on
`G` and its effect on `g_matrix_first_assemble`; `is_electrode b` is
`bc->is_electrode()` of boundary condition `b`. -/
def get_electrode_load (n_regions n_bcs : Nat) (is_electrode : Nat → Bool)
    (TimeDependent : Bool) (s : FirstAssemble) : FirstAssemble × List DriverCall :=
  let t := [DriverCall.VecScatter, DriverCall.MatZeroEntries]
  let t := t ++ (List.range n_regions).map DriverCall.EBM3_Jacobian
  let t :=
    if !s.g_matrix_first_assemble then
      t ++ (List.range n_bcs).map DriverCall.Mix_EBM3_Jacobian_Reserve
    else t
  let s := { s with g_matrix_first_assemble := true }
  let t := t ++ [DriverCall.MatAssembly_FINAL]
  let t := t ++ ((List.range n_bcs).filter is_electrode).map DriverCall.Mix_EBM3_Electrode_Load
  let t :=
    if TimeDependent = true then
      t ++ (List.range n_regions).map DriverCall.EBM3_Time_Dependent_Jacobian
    else t
  let t := t ++ (List.range n_bcs).map DriverCall.Mix_EBM3_Jacobian
  let t := t ++ [DriverCall.MatAssembly_FINAL, DriverCall.MatDiagonalScale]
  (s, t)

/-- A sequence of calls of a driver, one per entry of `calls` (the value of
`SolverSpecify::TimeDependent` at that call): the flags at the end and the call
sequences, one per call. -/
def run_driver (driver : Bool → FirstAssemble → FirstAssemble × List DriverCall)
    (calls : List Bool) (s : FirstAssemble) : FirstAssemble × List (List DriverCall) :=
  calls.foldl (fun acc td => ((driver td acc.1).1, acc.2 ++ [(driver td acc.1).2])) (s, [])

/-- Whether a call is a call of `Mix_EBM3_Jacobian_Reserve`. -/
def is_reserve (c : DriverCall) : Bool :=
  match c with
  | DriverCall.Mix_EBM3_Jacobian_Reserve _ => true
  | _ => false

/-- Whether a call is a call of `Mix_EBM3_Jacobian`. -/
def is_bc_jacobian (c : DriverCall) : Bool :=
  match c with
  | DriverCall.Mix_EBM3_Jacobian _ => true
  | _ => false

/-- The calls of `Mix_EBM3_Jacobian_Reserve` in a call sequence. -/
def reserve_calls (t : List DriverCall) : List DriverCall :=
  t.filter is_reserve

/-- The call sequence from the first call of `Mix_EBM3_Jacobian` on. -/
def from_first_bc_jacobian (t : List DriverCall) : List DriverCall :=
  t.dropWhile (fun c => !is_bc_jacobian c)

/-- Rational stand-ins for the collaborators of the residual driver: region `n` adds
`n + 1` to row `n`, nothing else writes. -/
def sample_kernels : ResidualKernels ℚ where
  VecScatter := fun x => x
  EBM3_Function := fun n _ st => (Function.update st.1 n (st.1 n + (n + 1)), InsertMode.ADD_VALUES)
  EBM3_Time_Dependent_Function := fun _ _ st => st
  EBM3_Function_Hanging_Node := fun _ _ st => st
  Mix_EBM3_Function := fun _ _ st => st
  VecAssembly := fun r => r

/-- Modelled from the spec: the collaborators are outside the translated sources, and the
spec (section 5, ordering) gives all contributions `ADD` semantics.  Region `n` adds `F n lxx j`
(`EBM3_Function`), `T n lxx j` (`EBM3_Time_Dependent_Function`) and `H n lxx j`
(`EBM3_Function_Hanging_Node`) to row `j`, boundary condition `b` adds `B b lxx j`
(`Mix_EBM3_Function`), and the vector assembly of a residual without off-process rows
returns it as it is. -/
def adding_kernels (scatter : (Nat → α) → (Nat → α))
    (F T H B : Nat → (Nat → α) → Nat → α) : ResidualKernels α where
  VecScatter := scatter
  EBM3_Function := fun n lxx st => (fun j => st.1 j + F n lxx j, InsertMode.ADD_VALUES)
  EBM3_Time_Dependent_Function :=
    fun n lxx st => (fun j => st.1 j + T n lxx j, InsertMode.ADD_VALUES)
  EBM3_Function_Hanging_Node :=
    fun n lxx st => (fun j => st.1 j + H n lxx j, InsertMode.ADD_VALUES)
  Mix_EBM3_Function := fun b lxx st => (fun j => st.1 j + B b lxx j, InsertMode.ADD_VALUES)
  VecAssembly := fun r => r

/-- The assembled residual in the words of the claim: the sum at row `i` of the region
terms, the time-dependent terms (when `TimeDependent` holds), the hanging-node terms and
the boundary terms. -/
def assembled_residual_sum (F T H B : Nat → (Nat → α) → Nat → α) (n_regions n_bcs : Nat)
    (TimeDependent : Bool) (lxx : Nat → α) (i : Nat) : α :=
  ((List.range n_regions).map fun n => F n lxx i).sum
    + (if TimeDependent = true then ((List.range n_regions).map fun n => T n lxx i).sum
        else 0)
    + ((List.range n_regions).map fun n => H n lxx i).sum
    + ((List.range n_bcs).map fun b => B b lxx i).sum

end Mix3Solver

end Genius

namespace Genius

/-! ## The SPICE checkpoint of `Mix3Solver` -/

/-- The nodal values of an `FVM_NodeData` object that the SPICE checkpoint reads and
writes through the accessors `psi()`, `n()`, `p()`, `T()`, `Tn()`, `Tp()` and their
`_last` companions, and the store of user-defined named scalars (`none`: no scalar of
that name has been created). -/
structure FVM_NodeData (α : Type) where
  psi : α
  n : α
  p : α
  T : α
  Tn : α
  Tp : α
  psi_last : α
  n_last : α
  p_last : α
  T_last : α
  Tn_last : α
  Tp_last : α
  user_scalar : String → Option α

namespace FVM_NodeData

variable {α : Type}

/-- Modelled from the spec: `FVM_NodeData::CreateUserScalarValue` is outside the
translated sources; the spec describes named-scalar checkpoint slots on each control
volume.  Creating a slot makes the name present (with value `0` when it was absent). -/
def CreateUserScalarValue [Zero α] (name : String) (d : FVM_NodeData α) : FVM_NodeData α :=
  { d with user_scalar := Function.update d.user_scalar name (some ((d.user_scalar name).getD 0)) }

/-- Modelled from the spec: reading `UserScalarValue(name)`, the content of the named
slot; `none` when no slot of that name exists. -/
def UserScalarValue (name : String) (d : FVM_NodeData α) : Option α :=
  d.user_scalar name

/-- Modelled from the spec: the assignment `UserScalarValue(name) = v` through the
returned reference; `none` when no slot of that name exists. -/
def setUserScalarValue (name : String) (v : α) (d : FVM_NodeData α) :
    Option (FVM_NodeData α) :=
  if (d.user_scalar name).isSome then
    some { d with user_scalar := Function.update d.user_scalar name (some v) }
  else none

end FVM_NodeData

/-- A `SimulationRegion` as the SPICE checkpoint uses it: its `type()`, its advanced
model, and its `FVM_Node`s in iteration order, each with the `FVM_NodeData` that
`fvm_node->node_data()` points to. -/
structure SpiceRegion (α : Type) where
  type : SimulationRegionType
  get_advanced_model : AdvancedModelSpecification
  nodes : List (FVM_Node α × FVM_NodeData α)

/-- The `SimulationSystem` as the SPICE checkpoint uses it. -/
structure SpiceSystem (α : Type) where
  regions : List (SpiceRegion α)
  processor_id : Nat

namespace Mix3Solver

open FVM_NodeData

variable {α : Type}

/-- The node body of `init_spice_data` in a semiconductor region (lines 288-323). -/
def init_spice_semiconductor_node [Zero α] (m : AdvancedModelSpecification)
    (node_data : FVM_NodeData α) : Option (FVM_NodeData α) := do
  let node_data := CreateUserScalarValue "SPICE_psi" node_data
  let node_data := CreateUserScalarValue "SPICE_n" node_data
  let node_data := CreateUserScalarValue "SPICE_p" node_data
  let node_data := CreateUserScalarValue "SPICE_psi_last" node_data
  let node_data := CreateUserScalarValue "SPICE_n_last" node_data
  let node_data := CreateUserScalarValue "SPICE_p_last" node_data
  let node_data ← setUserScalarValue "SPICE_psi" node_data.psi node_data
  let node_data ← setUserScalarValue "SPICE_n" node_data.n node_data
  let node_data ← setUserScalarValue "SPICE_p" node_data.p node_data
  let node_data ← setUserScalarValue "SPICE_psi_last" node_data.psi node_data
  let node_data ← setUserScalarValue "SPICE_n_last" node_data.n node_data
  let node_data ← setUserScalarValue "SPICE_p_last" node_data.p node_data
  let node_data ←
    if m.enable_Tl then do
      let node_data := CreateUserScalarValue "SPICE_T" node_data
      let node_data ← setUserScalarValue "SPICE_T" node_data.T node_data
      let node_data := CreateUserScalarValue "SPICE_T_last" node_data
      setUserScalarValue "SPICE_T_last" node_data.T node_data
    else some node_data
  let node_data ←
    if m.enable_Tn then do
      let node_data := CreateUserScalarValue "SPICE_Tn" node_data
      let node_data ← setUserScalarValue "SPICE_Tn" node_data.Tn node_data
      let node_data := CreateUserScalarValue "SPICE_Tn_last" node_data
      setUserScalarValue "SPICE_Tn_last" node_data.Tn node_data
    else some node_data
  let node_data ←
    if m.enable_Tp then do
      let node_data := CreateUserScalarValue "SPICE_Tp" node_data
      let node_data ← setUserScalarValue "SPICE_Tp" node_data.Tp node_data
      let node_data := CreateUserScalarValue "SPICE_Tp_last" node_data
      setUserScalarValue "SPICE_Tp_last" node_data.Tp node_data
    else some node_data
  some node_data

/-- The node body of `init_spice_data` in an insulator or conductor region
(lines 341-352). -/
def init_spice_other_node [Zero α] (m : AdvancedModelSpecification)
    (node_data : FVM_NodeData α) : Option (FVM_NodeData α) := do
  let node_data := CreateUserScalarValue "SPICE_psi" node_data
  let node_data ← setUserScalarValue "SPICE_psi" node_data.psi node_data
  let node_data := CreateUserScalarValue "SPICE_psi_last" node_data
  let node_data ← setUserScalarValue "SPICE_psi_last" node_data.psi node_data
  let node_data ←
    if m.enable_Tl then do
      let node_data := CreateUserScalarValue "SPICE_T" node_data
      let node_data ← setUserScalarValue "SPICE_T" node_data.T node_data
      let node_data := CreateUserScalarValue "SPICE_T_last" node_data
      setUserScalarValue "SPICE_T_last" node_data.T node_data
    else some node_data
  some node_data

/-- The node body of `load_spice_data` in a semiconductor region (lines 387-410). -/
def load_spice_semiconductor_node (m : AdvancedModelSpecification)
    (node_data : FVM_NodeData α) : Option (FVM_NodeData α) := do
  let v ← UserScalarValue "SPICE_psi" node_data
  let node_data := { node_data with psi := v }
  let v ← UserScalarValue "SPICE_n" node_data
  let node_data := { node_data with n := v }
  let v ← UserScalarValue "SPICE_p" node_data
  let node_data := { node_data with p := v }
  let v ← UserScalarValue "SPICE_psi_last" node_data
  let node_data := { node_data with psi_last := v }
  let v ← UserScalarValue "SPICE_n_last" node_data
  let node_data := { node_data with n_last := v }
  let v ← UserScalarValue "SPICE_p_last" node_data
  let node_data := { node_data with p_last := v }
  let node_data ←
    if m.enable_Tl then do
      let v ← UserScalarValue "SPICE_T" node_data
      let node_data := { node_data with T := v }
      let v ← UserScalarValue "SPICE_T_last" node_data
      some { node_data with T_last := v }
    else some node_data
  let node_data ←
    if m.enable_Tn then do
      let v ← UserScalarValue "SPICE_Tn" node_data
      let node_data := { node_data with Tn := v }
      let v ← UserScalarValue "SPICE_Tn_last" node_data
      some { node_data with Tn_last := v }
    else some node_data
  let node_data ←
    if m.enable_Tp then do
      let v ← UserScalarValue "SPICE_Tp" node_data
      let node_data := { node_data with Tp := v }
      let v ← UserScalarValue "SPICE_Tp_last" node_data
      some { node_data with Tp_last := v }
    else some node_data
  some node_data

/-- The node body of `load_spice_data` in an insulator or conductor region
(lines 428-435). -/
def load_spice_other_node (m : AdvancedModelSpecification)
    (node_data : FVM_NodeData α) : Option (FVM_NodeData α) := do
  let v ← UserScalarValue "SPICE_psi" node_data
  let node_data := { node_data with psi := v }
  let v ← UserScalarValue "SPICE_psi_last" node_data
  let node_data := { node_data with psi_last := v }
  let node_data ←
    if m.enable_Tl then do
      let v ← UserScalarValue "SPICE_T" node_data
      let node_data := { node_data with T := v }
      let v ← UserScalarValue "SPICE_T_last" node_data
      some { node_data with T_last := v }
    else some node_data
  some node_data

/-- The node body of `save_spice_data` in a semiconductor region (lines 472-495). -/
def save_spice_semiconductor_node (m : AdvancedModelSpecification)
    (node_data : FVM_NodeData α) : Option (FVM_NodeData α) := do
  let node_data ← setUserScalarValue "SPICE_psi" node_data.psi node_data
  let node_data ← setUserScalarValue "SPICE_n" node_data.n node_data
  let node_data ← setUserScalarValue "SPICE_p" node_data.p node_data
  let node_data ← setUserScalarValue "SPICE_psi_last" node_data.psi_last node_data
  let node_data ← setUserScalarValue "SPICE_n_last" node_data.n_last node_data
  let node_data ← setUserScalarValue "SPICE_p_last" node_data.p_last node_data
  let node_data ←
    if m.enable_Tl then do
      let node_data ← setUserScalarValue "SPICE_T" node_data.T node_data
      setUserScalarValue "SPICE_T_last" node_data.T_last node_data
    else some node_data
  let node_data ←
    if m.enable_Tn then do
      let node_data ← setUserScalarValue "SPICE_Tn" node_data.Tn node_data
      setUserScalarValue "SPICE_Tn_last" node_data.Tn_last node_data
    else some node_data
  let node_data ←
    if m.enable_Tp then do
      let node_data ← setUserScalarValue "SPICE_Tp" node_data.Tp node_data
      setUserScalarValue "SPICE_Tp_last" node_data.Tp_last node_data
    else some node_data
  some node_data

/-- The node body of `save_spice_data` in an insulator or conductor region
(lines 513-520). -/
def save_spice_other_node (m : AdvancedModelSpecification)
    (node_data : FVM_NodeData α) : Option (FVM_NodeData α) := do
  let node_data ← setUserScalarValue "SPICE_psi" node_data.psi node_data
  let node_data ← setUserScalarValue "SPICE_psi_last" node_data.psi_last node_data
  let node_data ←
    if m.enable_Tl then do
      let node_data ← setUserScalarValue "SPICE_T" node_data.T node_data
      setUserScalarValue "SPICE_T_last" node_data.T_last node_data
    else some node_data
  some node_data

/-- A loop that updates the elements of a list in place, one by one; it fails as soon as
one update fails. -/
def update_all {β : Type} (f : β → Option β) : List β → Option (List β)
  | [] => some []
  | a :: t =>
    match f a with
    | none => none
    | some b =>
      match update_all f t with
      | none => none
      | some t' => some (b :: t')

/-- The node loop of the three SPICE functions: nodes that are not on this processor
are skipped (`continue`), the others get their node data updated by `body`. -/
def spice_node_loop (self : Nat) (body : FVM_NodeData α → Option (FVM_NodeData α))
    (nodes : List (FVM_Node α × FVM_NodeData α)) : Option (List (FVM_Node α × FVM_NodeData α)) :=
  update_all
    (fun nd => if !nd.1.on_processor self then some nd else (body nd.2).map (fun d => (nd.1, d)))
    nodes

/-- The body of the region loop of the three SPICE functions, with its
`switch( region->type() )`: `semi` is the node body of the case `SemiconductorRegion`,
`other` the one of the cases `InsulatorRegion` and `ConductorRegion`; the `default` case
does nothing. -/
def spice_region_step (self : Nat)
    (semi other : AdvancedModelSpecification → FVM_NodeData α → Option (FVM_NodeData α))
    (region : SpiceRegion α) : Option (SpiceRegion α) :=
  match region.type with
  | SimulationRegionType.SemiconductorRegion =>
    (spice_node_loop self (semi region.get_advanced_model) region.nodes).map
      (fun ns => { region with nodes := ns })
  | SimulationRegionType.InsulatorRegion =>
    (spice_node_loop self (other region.get_advanced_model) region.nodes).map
      (fun ns => { region with nodes := ns })
  | SimulationRegionType.ConductorRegion =>
    (spice_node_loop self (other region.get_advanced_model) region.nodes).map
      (fun ns => { region with nodes := ns })
  | _ => some region

/-- The region loop of the three SPICE functions. -/
def spice_region_loop
    (semi other : AdvancedModelSpecification → FVM_NodeData α → Option (FVM_NodeData α))
    (sys : SpiceSystem α) : Option (SpiceSystem α) :=
  (update_all (spice_region_step sys.processor_id semi other) sys.regions).map
    (fun rs => { sys with regions := rs })

/-- The method `Mix3Solver::init_spice_data`. -/
def init_spice_data [Zero α] (sys : SpiceSystem α) : Option (SpiceSystem α) :=
  spice_region_loop init_spice_semiconductor_node init_spice_other_node sys

/-- The method `Mix3Solver::load_spice_data`. -/
def load_spice_data (sys : SpiceSystem α) : Option (SpiceSystem α) :=
  spice_region_loop load_spice_semiconductor_node load_spice_other_node sys

/-- The method `Mix3Solver::save_spice_data`. -/
def save_spice_data (sys : SpiceSystem α) : Option (SpiceSystem α) :=
  spice_region_loop save_spice_semiconductor_node save_spice_other_node sys

end Mix3Solver

end Genius

namespace Genius

namespace Mix3Solver

variable {α : Type}

/-! ### What the SPICE checkpoint is about -/

/-- The slot names that the SPICE functions use on a node of a region of the given type
and advanced model. -/
def spice_names (t : SimulationRegionType) (m : AdvancedModelSpecification) : List String :=
  match t with
  | SimulationRegionType.SemiconductorRegion =>
    ["SPICE_psi", "SPICE_n", "SPICE_p", "SPICE_psi_last", "SPICE_n_last", "SPICE_p_last"]
      ++ (if m.enable_Tl then ["SPICE_T", "SPICE_T_last"] else [])
      ++ (if m.enable_Tn then ["SPICE_Tn", "SPICE_Tn_last"] else [])
      ++ (if m.enable_Tp then ["SPICE_Tp", "SPICE_Tp_last"] else [])
  | SimulationRegionType.InsulatorRegion =>
    ["SPICE_psi", "SPICE_psi_last"] ++ (if m.enable_Tl then ["SPICE_T", "SPICE_T_last"] else [])
  | SimulationRegionType.ConductorRegion =>
    ["SPICE_psi", "SPICE_psi_last"] ++ (if m.enable_Tl then ["SPICE_T", "SPICE_T_last"] else [])
  | _ => []

/-- The slots have been created on every on-processor node of every region. -/
def HasSpiceSlots (sys : SpiceSystem α) : Prop :=
  ∀ region ∈ sys.regions, ∀ nd ∈ region.nodes, nd.1.on_processor sys.processor_id = true →
    ∀ name ∈ spice_names region.type region.get_advanced_model,
      (nd.2.user_scalar name).isSome = true

/-- The nodal values that the checkpoint covers agree between `d` and `d'`: in a
semiconductor region `psi, n, p` and their `_last` values, and `T`, `Tn`, `Tp` with their
`_last` values when the respective model is enabled; in an insulator or conductor region
`psi`, `psi_last` and `T`, `T_last` when Tl is enabled. -/
def Restored (t : SimulationRegionType) (m : AdvancedModelSpecification)
    (d d' : FVM_NodeData α) : Prop :=
  match t with
  | SimulationRegionType.SemiconductorRegion =>
    d'.psi = d.psi ∧ d'.n = d.n ∧ d'.p = d.p ∧
      d'.psi_last = d.psi_last ∧ d'.n_last = d.n_last ∧ d'.p_last = d.p_last ∧
      (m.enable_Tl = true → d'.T = d.T ∧ d'.T_last = d.T_last) ∧
      (m.enable_Tn = true → d'.Tn = d.Tn ∧ d'.Tn_last = d.Tn_last) ∧
      (m.enable_Tp = true → d'.Tp = d.Tp ∧ d'.Tp_last = d.Tp_last)
  | SimulationRegionType.InsulatorRegion =>
    d'.psi = d.psi ∧ d'.psi_last = d.psi_last ∧
      (m.enable_Tl = true → d'.T = d.T ∧ d'.T_last = d.T_last)
  | SimulationRegionType.ConductorRegion =>
    d'.psi = d.psi ∧ d'.psi_last = d.psi_last ∧
      (m.enable_Tl = true → d'.T = d.T ∧ d'.T_last = d.T_last)
  | _ => True

/-- The store `store` holds the checkpoint of the nodal values of `d`. -/
def Checkpoint (t : SimulationRegionType) (m : AdvancedModelSpecification)
    (d : FVM_NodeData α) (store : String → Option α) : Prop :=
  match t with
  | SimulationRegionType.SemiconductorRegion =>
    store "SPICE_psi" = some d.psi ∧ store "SPICE_n" = some d.n ∧ store "SPICE_p" = some d.p ∧
      store "SPICE_psi_last" = some d.psi_last ∧ store "SPICE_n_last" = some d.n_last ∧
      store "SPICE_p_last" = some d.p_last ∧
      (m.enable_Tl = true → store "SPICE_T" = some d.T ∧ store "SPICE_T_last" = some d.T_last) ∧
      (m.enable_Tn = true →
        store "SPICE_Tn" = some d.Tn ∧ store "SPICE_Tn_last" = some d.Tn_last) ∧
      (m.enable_Tp = true →
        store "SPICE_Tp" = some d.Tp ∧ store "SPICE_Tp_last" = some d.Tp_last)
  | SimulationRegionType.InsulatorRegion =>
    store "SPICE_psi" = some d.psi ∧ store "SPICE_psi_last" = some d.psi_last ∧
      (m.enable_Tl = true → store "SPICE_T" = some d.T ∧ store "SPICE_T_last" = some d.T_last)
  | SimulationRegionType.ConductorRegion =>
    store "SPICE_psi" = some d.psi ∧ store "SPICE_psi_last" = some d.psi_last ∧
      (m.enable_Tl = true → store "SPICE_T" = some d.T ∧ store "SPICE_T_last" = some d.T_last)
  | _ => True

/-- The system `changed` is `saved` with its nodal values changed arbitrarily: the same
regions and nodes, the same stores of named scalars, any nodal values. -/
def NodalChange (saved changed : SpiceSystem α) : Prop :=
  changed.processor_id = saved.processor_id ∧
    List.Forall₂
      (fun r r' : SpiceRegion α =>
        r'.type = r.type ∧ r'.get_advanced_model = r.get_advanced_model ∧
          List.Forall₂
            (fun nd nd' : FVM_Node α × FVM_NodeData α =>
              nd'.1 = nd.1 ∧ nd'.2.user_scalar = nd.2.user_scalar)
            r.nodes r'.nodes)
      saved.regions changed.regions

/-- Every on-processor node of `loaded` carries the checkpointed nodal values of the
node of `sys` at the same place. -/
def RestoredSystem (sys loaded : SpiceSystem α) : Prop :=
  List.Forall₂
    (fun r r' : SpiceRegion α =>
      r'.type = r.type ∧ r'.get_advanced_model = r.get_advanced_model ∧
        List.Forall₂
          (fun nd nd' : FVM_Node α × FVM_NodeData α =>
            nd'.1 = nd.1 ∧
              (nd.1.on_processor sys.processor_id = true →
                Restored r.type r.get_advanced_model nd.2 nd'.2))
          r.nodes r'.nodes)
    sys.regions loaded.regions

/-- Node data of the samples: `psi = 1`, `n = 2`, `p = 3`, the other values `0`, no
named scalar. -/
def sample_node_data : FVM_NodeData ℚ where
  psi := 1
  n := 2
  p := 3
  T := 0
  Tn := 0
  Tp := 0
  psi_last := 0
  n_last := 0
  p_last := 0
  T_last := 0
  Tn_last := 0
  Tp_last := 0
  user_scalar := fun _ => none

/-- A system for the checkpoint samples before `init_spice_data`: a semiconductor
region with all temperatures enabled and an insulator region, one node each. -/
def sample_spice_system : SpiceSystem ℚ where
  regions :=
    [ { type := SimulationRegionType.SemiconductorRegion
        get_advanced_model := ⟨true, true, true⟩
        nodes := [(sample_node 0, sample_node_data)] },
      { type := SimulationRegionType.InsulatorRegion
        get_advanced_model := ⟨true, false, false⟩
        nodes := [(sample_node 12, sample_node_data)] } ]
  processor_id := 0

/-- The sample system with every named scalar present (value `0`), as after
`init_spice_data` and more. -/
def sample_slotted_system : SpiceSystem ℚ where
  regions :=
    [ { type := SimulationRegionType.SemiconductorRegion
        get_advanced_model := ⟨true, true, true⟩
        nodes := [(sample_node 0, { sample_node_data with user_scalar := fun _ => some 0 })] },
      { type := SimulationRegionType.InsulatorRegion
        get_advanced_model := ⟨true, false, false⟩
        nodes := [(sample_node 12, { sample_node_data with user_scalar := fun _ => some 0 })] } ]
  processor_id := 0

end Mix3Solver

end Genius

namespace Genius

/-! ## Boundary operators: `HomoInterfaceBC` for the Poisson solver -/

/-- A boundary `Node*` of a boundary condition with what the operators read from it:
`processor_id()` and the range `region_node_begin(node) .. region_node_end(node)`, whose
entries are the pairs `(region, fvm_node)` of `(*rnode_it).second`. -/
structure BoundaryNode (α : Type) where
  processor_id : Nat
  region_nodes : List (SimulationRegion α × FVM_Node α)

/-- The calls on the PETSc matrix and vectors that a boundary operator issues, in the
order of issue; `DDMAC_Fill_Nodal_Matrix_Vector` is the call of the region method of
that name for the node with the given global offset. -/
inductive PetscCall (α : Type)
  | MatAssemblyFlush
  | MatAddRowToRow (src_row dst_row : List Nat)
  | MatZeroRows (rows : List Nat)
  | MatSetValue (row col : Nat) (v : α) (mode : InsertMode)
  | VecSetValue (row : Nat) (v : α) (mode : InsertMode)
  | DDMAC_Fill_Nodal_Matrix_Vector (global_offset : Nat) (var : SolutionVariable)

namespace PetscCall

variable {α : Type}

end PetscCall

/-- The ways in which a run of a method stops without returning: an index outside a
`std::vector`, a failed `assert` or `genius_assert`, the dereference of a null pointer or
of an `end()` iterator, and an integer division by zero. -/
inductive Fault
  | index_out_of_range
  | assertion_failed
  | invalid_pointer
  | division_by_zero
  deriving DecidableEq, Repr

/-- Modelled from the spec: the forward-mode AD scalar `AutoDScalar` of the `adtl`
library with `numdir = 2` is outside the translated sources (spec, 4.2: each local
computation sets a few independent directions and reads derivatives).  It carries a
value and the derivatives in the directions 0 and 1. -/
structure AutoDScalar (α : Type) where
  val : α
  d0 : α
  d1 : α

namespace AutoDScalar

variable {α : Type} [LinearOrderedField α]

/-- The conversion of a plain scalar: all derivatives zero. -/
def const (v : α) : AutoDScalar α := ⟨v, 0, 0⟩

/-- The method `setADValue(k, v)` for the directions `k = 0, 1`. -/
def setADValue (a : AutoDScalar α) (k : Nat) (v : α) : AutoDScalar α :=
  if k = 0 then { a with d0 := v } else if k = 1 then { a with d1 := v } else a

/-- The method `getADValue(k)` for the directions `k = 0, 1`. -/
def getADValue (a : AutoDScalar α) (k : Nat) : α :=
  if k = 0 then a.d0 else if k = 1 then a.d1 else 0

/-- The difference of two AD scalars. -/
def sub (a b : AutoDScalar α) : AutoDScalar α := ⟨a.val - b.val, a.d0 - b.d0, a.d1 - b.d1⟩

/-- The sum of two AD scalars. -/
def add (a b : AutoDScalar α) : AutoDScalar α := ⟨a.val + b.val, a.d0 + b.d0, a.d1 + b.d1⟩

/-- The product of a plain scalar and an AD scalar. -/
def smul (c : α) (a : AutoDScalar α) : AutoDScalar α := ⟨c * a.val, c * a.d0, c * a.d1⟩

/-- The quotient of an AD scalar by a plain scalar. -/
def sdiv (a : AutoDScalar α) (c : α) : AutoDScalar α := ⟨a.val / c, a.d0 / c, a.d1 / c⟩

end AutoDScalar

namespace HomoInterfaceBC

variable {α : Type} [LinearOrderedField α]

/-- The buffers `src_row`, `dst_row` and `y_new` of `Poissin_Function`. -/
structure FunctionBuffers (α : Type) where
  src_row : List Nat
  dst_row : List Nat
  y_new : List α

/-- The loop over the region-node range of one boundary node in `Poissin_Function`
(lines 68-117): `i` is the running position, `fvm_nodes` the vector of the valid nodes
pushed so far (the vector `regions` is pushed alongside and never read).  The run stops
with a fault when `fvm_nodes[i]` or `fvm_nodes[0]` is read outside the vector or the
assertion on the processor ids fails. -/
def Poissin_Function_region_nodes (x : Nat → α) :
    List (SimulationRegion α × FVM_Node α) → Nat → List (FVM_Node α) → FunctionBuffers α →
      Except Fault (FunctionBuffers α)
  | [], _, _, buf => Except.ok buf
  | rnode :: rest, i, fvm_nodes, buf =>
    let fvm_node := rnode.2
    if !fvm_node.is_valid then Poissin_Function_region_nodes x rest (i + 1) fvm_nodes buf
    else
      let fvm_nodes := fvm_nodes ++ [fvm_node]
      if i = 0 then Poissin_Function_region_nodes x rest (i + 1) fvm_nodes buf
      else
        match fvm_nodes[i]?, fvm_nodes[0]? with
        | some node_i, some ghost_fvm_node =>
          if node_i.processor_id = ghost_fvm_node.processor_id then
            let V := x node_i.local_offset
            let V_semi := x ghost_fvm_node.local_offset
            let ff := V - V_semi
            Poissin_Function_region_nodes x rest (i + 1) fvm_nodes
              { src_row := buf.src_row ++ [node_i._global_offset]
                dst_row := buf.dst_row ++ [ghost_fvm_node._global_offset]
                y_new := buf.y_new ++ [ff] }
          else Except.error Fault.assertion_failed
        | _, _ => Except.error Fault.index_out_of_range

/-- The loop over the boundary nodes in `Poissin_Function` (lines 54-119); `self` is
`Genius::processor_id()`. -/
def Poissin_Function_nodes (self : Nat) (x : Nat → α) :
    List (BoundaryNode α) → FunctionBuffers α → Except Fault (FunctionBuffers α)
  | [], buf => Except.ok buf
  | node :: rest, buf =>
    if node.processor_id ≠ self then Poissin_Function_nodes self x rest buf
    else
      match Poissin_Function_region_nodes x node.region_nodes 0 [] buf with
      | Except.error e => Except.error e
      | Except.ok buf => Poissin_Function_nodes self x rest buf

/-- Modelled from the spec: `PetscUtils::VecAddRowToRow` is outside the translated
sources; the spec (4.3) reads a pair `src -> dst` as "sum row `src` into row `dst`".  The
pairs are taken in order, `f[dst] += f[src]`. -/
def VecAddRowToRow (f : Nat → α) (src_row dst_row : List Nat) : Nat → α :=
  (src_row.zip dst_row).foldl (fun f sd => Function.update f sd.2 (f sd.2 + f sd.1)) f

/-- The PETSc call `VecSetValues(f, n, rows, values, INSERT_VALUES)`. -/
def VecSetValues_insert (f : Nat → α) (rows : List Nat) (values : List α) : Nat → α :=
  (rows.zip values).foldl (fun f rv => Function.update f rv.1 rv.2) f

/-- The method `HomoInterfaceBC::Poissin_Function`: the residual vector and the flag
when it returns. -/
def Poissin_Function (self : Nat) (nodes : List (BoundaryNode α)) (x : Nat → α)
    (f : Nat → α) (_add_value_flag : InsertMode) : Except Fault ((Nat → α) × InsertMode) :=
  match Poissin_Function_nodes self x nodes ⟨[], [], []⟩ with
  | Except.error e => Except.error e
  | Except.ok buf =>
    let f := VecAddRowToRow f buf.src_row buf.dst_row
    let f := if buf.src_row.length ≠ 0 then VecSetValues_insert f buf.src_row buf.y_new else f
    Except.ok (f, InsertMode.INSERT_VALUES)

/-- The loop over the region-node range of one boundary node in the first pass of
`Poissin_Jacobian` (lines 242-263), on the pair `(src_row, dst_row)`. -/
def Poissin_Jacobian_region_nodes :
    List (SimulationRegion α × FVM_Node α) → Nat → List (FVM_Node α) → List Nat × List Nat →
      Except Fault (List Nat × List Nat)
  | [], _, _, rows => Except.ok rows
  | rnode :: rest, i, fvm_nodes, rows =>
    let fvm_node := rnode.2
    if !fvm_node.is_valid then Poissin_Jacobian_region_nodes rest (i + 1) fvm_nodes rows
    else
      let fvm_nodes := fvm_nodes ++ [fvm_node]
      if i = 0 then Poissin_Jacobian_region_nodes rest (i + 1) fvm_nodes rows
      else
        match fvm_nodes[i]?, fvm_nodes[0]? with
        | some node_i, some ghost_fvm_node =>
          Poissin_Jacobian_region_nodes rest (i + 1) fvm_nodes
            (rows.1 ++ [node_i._global_offset], rows.2 ++ [ghost_fvm_node._global_offset])
        | _, _ => Except.error Fault.index_out_of_range

/-- The loop over the boundary nodes in the first pass of `Poissin_Jacobian`
(lines 229-264). -/
def Poissin_Jacobian_nodes (self : Nat) :
    List (BoundaryNode α) → List Nat × List Nat → Except Fault (List Nat × List Nat)
  | [], rows => Except.ok rows
  | node :: rest, rows =>
    if node.processor_id ≠ self then Poissin_Jacobian_nodes self rest rows
    else
      match Poissin_Jacobian_region_nodes node.region_nodes 0 [] rows with
      | Except.error e => Except.error e
      | Except.ok rows => Poissin_Jacobian_nodes self rest rows

/-- The loop over the region-node range of one boundary node in the second pass of
`Poissin_Jacobian` (lines 286-320): the calls `MatSetValue` it issues. -/
def Poissin_Jacobian_set_region_nodes (x : Nat → α) :
    List (SimulationRegion α × FVM_Node α) → Nat → List (FVM_Node α) → List (PetscCall α) →
      Except Fault (List (PetscCall α))
  | [], _, _, calls => Except.ok calls
  | rnode :: rest, i, fvm_nodes, calls =>
    let fvm_node := rnode.2
    if !fvm_node.is_valid then Poissin_Jacobian_set_region_nodes x rest (i + 1) fvm_nodes calls
    else
      let fvm_nodes := fvm_nodes ++ [fvm_node]
      if i = 0 then Poissin_Jacobian_set_region_nodes x rest (i + 1) fvm_nodes calls
      else
        match fvm_nodes[i]?, fvm_nodes[0]? with
        | some node_i, some node_0 =>
          let V := (AutoDScalar.const (x node_i.local_offset)).setADValue 0 1
          let V_semi := (AutoDScalar.const (x node_0.local_offset)).setADValue 1 1
          let ff := V.sub V_semi
          Poissin_Jacobian_set_region_nodes x rest (i + 1) fvm_nodes
            (calls ++
              [PetscCall.MatSetValue node_i._global_offset node_i._global_offset
                  (ff.getADValue 0) InsertMode.ADD_VALUES,
                PetscCall.MatSetValue node_i._global_offset node_0._global_offset
                  (ff.getADValue 1) InsertMode.ADD_VALUES])
        | _, _ => Except.error Fault.index_out_of_range

/-- The loop over the boundary nodes in the second pass of `Poissin_Jacobian`
(lines 273-322). -/
def Poissin_Jacobian_set_nodes (self : Nat) (x : Nat → α) :
    List (BoundaryNode α) → List (PetscCall α) → Except Fault (List (PetscCall α))
  | [], calls => Except.ok calls
  | node :: rest, calls =>
    if node.processor_id ≠ self then Poissin_Jacobian_set_nodes self x rest calls
    else
      match Poissin_Jacobian_set_region_nodes x node.region_nodes 0 [] calls with
      | Except.error e => Except.error e
      | Except.ok calls => Poissin_Jacobian_set_nodes self x rest calls

/-- Modelled from the spec: `PetscUtils::MatAddRowToRow` is outside the translated
sources; the spec (4.3) reads a pair `src -> dst` as "sum row `src` into row `dst`".  The
pairs are taken in order, row `dst` += row `src`. -/
def MatAddRowToRow (jac : Nat → Nat → α) (src_row dst_row : List Nat) : Nat → Nat → α :=
  (src_row.zip dst_row).foldl
    (fun jac sd => Function.update jac sd.2 (fun col => jac sd.2 col + jac sd.1 col)) jac

/-- The PETSc call `MatZeroRows(jac, n, rows, 0.0)`: the rows become zero, diagonal
included. -/
def MatZeroRows (jac : Nat → Nat → α) (rows : List Nat) : Nat → Nat → α :=
  fun row col => if row ∈ rows then 0 else jac row col

/-- The effect of a call on the entries of the matrix; only `MatSetValue` with
`ADD_VALUES` or `INSERT_VALUES` changes an entry here. -/
def apply_call (jac : Nat → Nat → α) (c : PetscCall α) : Nat → Nat → α :=
  match c with
  | PetscCall.MatSetValue row col v InsertMode.ADD_VALUES =>
    Function.update jac row (Function.update (jac row) col (jac row col + v))
  | PetscCall.MatSetValue row col v InsertMode.INSERT_VALUES =>
    Function.update jac row (Function.update (jac row) col v)
  | _ => jac

/-- What a boundary operator on a matrix returns: the entries of the matrix, the flag
`add_value_flag` and the calls it issued. -/
structure MatResult (α : Type) where
  jac : Nat → Nat → α
  add_value_flag : InsertMode
  calls : List (PetscCall α)

/-- The method `HomoInterfaceBC::Poissin_Jacobian`. -/
def Poissin_Jacobian (self : Nat) (nodes : List (BoundaryNode α)) (x : Nat → α)
    (jac : Nat → Nat → α) (_add_value_flag : InsertMode) : Except Fault (MatResult α) :=
  match Poissin_Jacobian_nodes self nodes ([], []) with
  | Except.error e => Except.error e
  | Except.ok rows =>
    let src_row := rows.1
    let dst_row := rows.2
    let jac := MatAddRowToRow jac src_row dst_row
    let jac := MatZeroRows jac src_row
    match Poissin_Jacobian_set_nodes self x nodes [] with
    | Except.error e => Except.error e
    | Except.ok sets =>
      Except.ok
        { jac := sets.foldl apply_call jac
          add_value_flag := InsertMode.ADD_VALUES
          calls := [PetscCall.MatAddRowToRow src_row dst_row, PetscCall.MatZeroRows src_row]
            ++ sets }

end HomoInterfaceBC

end Genius

namespace Genius

/-- What `Poissin_Jacobian_Reserve` reads through the address of a peer `FVM_Node`: its
global offset and the pointer `_node_neighbor` (`none` for the null pointer), whose
entries are given by the addresses of the neighbour `FVM_Node`s in iteration order. -/
structure PeerNode where
  global_offset : Nat
  _node_neighbor : Option (List Nat)

namespace HomoInterfaceBC

variable {α : Type} [LinearOrderedField α]

/-- The loop over the neighbours of a ghost node in `Poissin_Jacobian_Reserve`
(lines 184-186); `heap` gives the `FVM_Node` stored at an address, `none` for an address
that holds none (the null pointer included). -/
def Poissin_Jacobian_Reserve_neighbors (heap : Nat → Option PeerNode) (row : Nat) :
    List Nat → List (PetscCall α) → Except Fault (List (PetscCall α))
  | [], calls => Except.ok calls
  | gnb :: rest, calls =>
    match heap gnb with
    | none => Except.error Fault.invalid_pointer
    | some nb =>
      Poissin_Jacobian_Reserve_neighbors heap row rest
        (calls ++ [PetscCall.MatSetValue row nb.global_offset 0 InsertMode.ADD_VALUES])

/-- The loop over the ghost nodes of the first region node in `Poissin_Jacobian_Reserve`
(lines 178-187). -/
def Poissin_Jacobian_Reserve_ghosts (heap : Nat → Option PeerNode) (row : Nat) :
    List (Nat × (Nat × α)) → List (PetscCall α) → Except Fault (List (PetscCall α))
  | [], calls => Except.ok calls
  | gn :: rest, calls =>
    match heap gn.1 with
    | none => Except.error Fault.invalid_pointer
    | some ghost_fvm_node =>
      let calls := calls ++
        [PetscCall.MatSetValue row ghost_fvm_node.global_offset 0 InsertMode.ADD_VALUES]
      match ghost_fvm_node._node_neighbor with
      | none => Except.error Fault.assertion_failed
      | some neighbors =>
        match Poissin_Jacobian_Reserve_neighbors heap row neighbors calls with
        | Except.error e => Except.error e
        | Except.ok calls => Poissin_Jacobian_Reserve_ghosts heap row rest calls

/-- The loop over the region-node range of one boundary node in
`Poissin_Jacobian_Reserve` (lines 165-196). -/
def Poissin_Jacobian_Reserve_region_nodes (heap : Nat → Option PeerNode) :
    List (SimulationRegion α × FVM_Node α) → Nat → List (FVM_Node α) → List (PetscCall α) →
      Except Fault (List (PetscCall α))
  | [], _, _, calls => Except.ok calls
  | rnode :: rest, i, fvm_nodes, calls =>
    let fvm_node := rnode.2
    if !fvm_node.is_valid then
      Poissin_Jacobian_Reserve_region_nodes heap rest (i + 1) fvm_nodes calls
    else
      let fvm_nodes := fvm_nodes ++ [fvm_node]
      if i = 0 then
        match fvm_nodes[i]? with
        | none => Except.error Fault.index_out_of_range
        | some node_i =>
          match node_i._ghost_nodes with
          | none => Except.error Fault.assertion_failed
          | some ghosts =>
            match Poissin_Jacobian_Reserve_ghosts heap node_i._global_offset ghosts calls with
            | Except.error e => Except.error e
            | Except.ok calls =>
              Poissin_Jacobian_Reserve_region_nodes heap rest (i + 1) fvm_nodes calls
      else
        match fvm_nodes[i]?, fvm_nodes[0]? with
        | some node_i, some node_0 =>
          Poissin_Jacobian_Reserve_region_nodes heap rest (i + 1) fvm_nodes
            (calls ++ [PetscCall.MatSetValue node_i._global_offset node_0._global_offset 0
              InsertMode.ADD_VALUES])
        | _, _ => Except.error Fault.index_out_of_range

/-- The loop over the boundary nodes in `Poissin_Jacobian_Reserve` (lines 152-198). -/
def Poissin_Jacobian_Reserve_nodes (self : Nat) (heap : Nat → Option PeerNode) :
    List (BoundaryNode α) → List (PetscCall α) → Except Fault (List (PetscCall α))
  | [], calls => Except.ok calls
  | node :: rest, calls =>
    if node.processor_id ≠ self then Poissin_Jacobian_Reserve_nodes self heap rest calls
    else
      match Poissin_Jacobian_Reserve_region_nodes heap node.region_nodes 0 [] calls with
      | Except.error e => Except.error e
      | Except.ok calls => Poissin_Jacobian_Reserve_nodes self heap rest calls

/-- The method `HomoInterfaceBC::Poissin_Jacobian_Reserve`. -/
def Poissin_Jacobian_Reserve (self : Nat) (heap : Nat → Option PeerNode)
    (nodes : List (BoundaryNode α)) (jac : Nat → Nat → α) (add_value_flag : InsertMode) :
    Except Fault (MatResult α) :=
  let flush : List (PetscCall α) :=
    if add_value_flag ≠ InsertMode.ADD_VALUES ∧ add_value_flag ≠ InsertMode.NOT_SET_VALUES
    then [PetscCall.MatAssemblyFlush] else []
  match Poissin_Jacobian_Reserve_nodes self heap nodes [] with
  | Except.error e => Except.error e
  | Except.ok sets =>
    Except.ok
      { jac := sets.foldl apply_call jac
        add_value_flag := InsertMode.ADD_VALUES
        calls := flush ++ sets }

end HomoInterfaceBC

end Genius

namespace Genius

namespace FVM_Node

variable {α : Type} [LinearOrderedField α]

/-- The method `outside_boundary_surface_area`: the sum of the areas of all entries of
the ghost-node map (`none` when the assertion `genius_assert(_ghost_nodes)` fails). -/
def outside_boundary_surface_area (n : FVM_Node α) : Option α :=
  n._ghost_nodes.map fun m => m.foldl (fun area gn => area + gn.2.2) 0

end FVM_Node

namespace AutoDScalar

variable {α : Type} [LinearOrderedField α]

/-- The difference of an AD scalar and a plain scalar. -/
def sub_scalar (a : AutoDScalar α) (c : α) : AutoDScalar α := ⟨a.val - c, a.d0, a.d1⟩

/-- The difference of a plain scalar and an AD scalar. -/
def scalar_sub (c : α) (a : AutoDScalar α) : AutoDScalar α := ⟨c - a.val, -a.d0, -a.d1⟩

/-- The sum of an AD scalar and a plain scalar. -/
def add_scalar (a : AutoDScalar α) (c : α) : AutoDScalar α := ⟨a.val + c, a.d0, a.d1⟩

/-- The product of an AD scalar and a plain scalar. -/
def muls (a : AutoDScalar α) (c : α) : AutoDScalar α := ⟨a.val * c, a.d0 * c, a.d1 * c⟩

end AutoDScalar

/-- The type `std::complex<PetscScalar>`: real and imaginary part. -/
structure StdComplex (α : Type) where
  re : α
  im : α

namespace StdComplex

variable {α : Type} [LinearOrderedField α]

/-- The product of two complex numbers. -/
def mul (a b : StdComplex α) : StdComplex α :=
  ⟨a.re * b.re - a.im * b.im, a.re * b.im + a.im * b.re⟩

/-- The product of a complex number and a real one. -/
def scale (a : StdComplex α) (c : α) : StdComplex α := ⟨a.re * c, a.im * c⟩

/-- The sum of a complex number and a real one. -/
def add_real (a : StdComplex α) (c : α) : StdComplex α := ⟨a.re + c, a.im⟩

end StdComplex

/-! ## Boundary operators: `SimpleGateContactBC` for the AC solver -/

/-- What the displacement-current loop of `DDMAC_Fill_Matrix_Vector` reads through one
entry of `_node_neighbor`: the neighbour's global offset and `node_data()->psi()`, the
distance of the two root nodes and `fvm_node->cv_surface_area(nb_node->root_node())`. -/
structure NeighborNode (α : Type) where
  global_offset : Nat
  psi : α
  distance : α
  cv_surface_area : α

/-- A boundary `Node*` of the gate contact with what `DDMAC_Fill_Matrix_Vector` reads
from it: `processor_id()`, the region-node range (only its first entry is read), and
for that first entry `region->ebm_n_variables()`, the node data `psi()`, `T()`, `eps()`,
the test `node_on_boundary(node) || has_associated_region(node, VacuumRegion)` and the
pointer `_node_neighbor` (`none` for the null pointer). -/
structure GateNode (α : Type) where
  processor_id : Nat
  region_nodes : List (SimulationRegion α × FVM_Node α)
  ebm_n_variables : Nat
  psi : α
  T : α
  eps : α
  external_boundary : Bool
  _node_neighbor : Option (List (NeighborNode α))

/-- The members of `SimpleGateContactBC` that `DDMAC_Fill_Matrix_Vector` reads; `R`, `C`,
`L` and `Vac` are those of `ext_circuit()`. -/
structure SimpleGateContactBC (α : Type) where
  global_offset : Nat
  local_offset : Nat
  Qf : α
  Thickness : α
  eps : α
  Work_Function : α
  Heat_Transfer : α
  T_external : α
  z_width : α
  R : α
  C : α
  L : α
  Vac : α
  nodes : List (GateNode α)

/-- The matrix `A`, the right-hand side `b`, the flag `add_value_flag` and the calls
issued so far. -/
structure FillState (α : Type) where
  A : Nat → Nat → α
  b : Nat → α
  add_value_flag : InsertMode
  calls : List (PetscCall α)

namespace SimpleGateContactBC

variable {α : Type} [LinearOrderedField α]

/-- The call `MatSetValue(A, row, col, v, ADD_VALUES)`. -/
def MatSetValue_add (s : FillState α) (row col : Nat) (v : α) : FillState α :=
  { s with
    A := Function.update s.A row (Function.update (s.A row) col (s.A row col + v))
    calls := s.calls ++ [PetscCall.MatSetValue row col v InsertMode.ADD_VALUES] }

/-- The call `VecSetValue(b, row, v, ADD_VALUES)`. -/
def VecSetValue_add (s : FillState α) (row : Nat) (v : α) : FillState α :=
  { s with
    b := Function.update s.b row (s.b row + v)
    calls := s.calls ++ [PetscCall.VecSetValue row v InsertMode.ADD_VALUES] }

/-- The call `region->DDMAC_Fill_Nodal_Matrix_Vector(fvm_node, var, A, b, J, omega,
add_value_flag)`.  The method is outside the translated sources: `fill` is its effect on
`A`, `b` and the flag. -/
def DDMAC_Fill_Nodal_Matrix_Vector
    (fill : Nat → SolutionVariable → (Nat → Nat → α) × (Nat → α) × InsertMode →
      (Nat → Nat → α) × (Nat → α) × InsertMode)
    (fvm_node : FVM_Node α) (var : SolutionVariable) (s : FillState α) : FillState α :=
  let r := fill fvm_node._global_offset var (s.A, s.b, s.add_value_flag)
  { A := r.1
    b := r.2.1
    add_value_flag := r.2.2
    calls := s.calls ++ [PetscCall.DDMAC_Fill_Nodal_Matrix_Vector fvm_node._global_offset var] }

/-- One round of the displacement-current loop (lines 143-176). -/
def DDMAC_Fill_neighbor (bc : SimpleGateContactBC α) (omega : α) (node : GateNode α)
    (fvm_node : FVM_Node α) (s : FillState α) (nb_node : NeighborNode α) : FillState α :=
  let bc_global_offset_re := bc.global_offset
  let bc_global_offset_im := uadd bc.global_offset 1
  let Z1 : StdComplex α := ⟨bc.R, omega * bc.L⟩
  let j : StdComplex α := ⟨0, 1⟩
  let current_scale := bc.z_width
  let V := (AutoDScalar.const node.psi).setADValue 0 1
  let V_nb := (AutoDScalar.const nb_node.psi).setADValue 1 1
  let distance := nb_node.distance
  let cv_boundary := nb_node.cv_surface_area
  let D := (AutoDScalar.smul node.eps (V.sub V_nb)).sdiv distance
  let dJdisp_dV :=
    (((((Z1.scale cv_boundary).scale (D.getADValue 0)).mul j).scale omega).scale current_scale)
  let dJdisp_dVn :=
    (((((Z1.scale cv_boundary).scale (D.getADValue 1)).mul j).scale omega).scale current_scale)
  let s := MatSetValue_add s bc_global_offset_re fvm_node._global_offset dJdisp_dV.re
  let s := MatSetValue_add s bc_global_offset_re
    (uadd fvm_node._global_offset node.ebm_n_variables) (-dJdisp_dV.im)
  let s := MatSetValue_add s bc_global_offset_im fvm_node._global_offset dJdisp_dV.im
  let s := MatSetValue_add s bc_global_offset_im
    (uadd fvm_node._global_offset node.ebm_n_variables) dJdisp_dV.re
  let s := MatSetValue_add s bc_global_offset_re nb_node.global_offset dJdisp_dVn.re
  let s := MatSetValue_add s bc_global_offset_re
    (uadd nb_node.global_offset node.ebm_n_variables) (-dJdisp_dVn.im)
  let s := MatSetValue_add s bc_global_offset_im nb_node.global_offset dJdisp_dVn.im
  MatSetValue_add s bc_global_offset_im
    (uadd nb_node.global_offset node.ebm_n_variables) dJdisp_dVn.re

/-- The nodal fills at the head of the loop body (lines 83-91). -/
def DDMAC_Fill_fills
    (fill : Nat → SolutionVariable → (Nat → Nat → α) × (Nat → α) × InsertMode →
      (Nat → Nat → α) × (Nat → α) × InsertMode)
    (region : SimulationRegion α) (fvm_node : FVM_Node α) (s : FillState α) : FillState α :=
  let s := DDMAC_Fill_Nodal_Matrix_Vector fill fvm_node SolutionVariable.POTENTIAL s
  let s := DDMAC_Fill_Nodal_Matrix_Vector fill fvm_node SolutionVariable.ELECTRON s
  let s := DDMAC_Fill_Nodal_Matrix_Vector fill fvm_node SolutionVariable.HOLE s
  let s := if region.get_advanced_model.enable_Tn
    then DDMAC_Fill_Nodal_Matrix_Vector fill fvm_node SolutionVariable.E_TEMP s else s
  if region.get_advanced_model.enable_Tp
    then DDMAC_Fill_Nodal_Matrix_Vector fill fvm_node SolutionVariable.H_TEMP s else s

/-- The heat-flux block of one boundary node (lines 121-137). -/
def DDMAC_Fill_heat (bc : SimpleGateContactBC α)
    (fill : Nat → SolutionVariable → (Nat → Nat → α) × (Nat → α) × InsertMode →
      (Nat → Nat → α) × (Nat → α) × InsertMode)
    (node : GateNode α) (region : SimulationRegion α) (fvm_node : FVM_Node α) (S : α)
    (s : FillState α) : FillState α :=
  if region.get_advanced_model.enable_Tl && node.external_boundary then
    let s := DDMAC_Fill_Nodal_Matrix_Vector fill fvm_node SolutionVariable.TEMPERATURE s
    let T := (AutoDScalar.const node.T).setADValue 0 1
    let h := bc.Heat_Transfer
    let fT := (AutoDScalar.smul h (AutoDScalar.scalar_sub bc.T_external T)).muls S
    let index_re :=
      uadd fvm_node._global_offset (region.ebm_variable_offset SolutionVariable.TEMPERATURE)
    let s := MatSetValue_add s index_re index_re (fT.getADValue 0)
    let index_im := uadd (uadd fvm_node._global_offset node.ebm_n_variables)
      (region.ebm_variable_offset SolutionVariable.TEMPERATURE)
    MatSetValue_add s index_im index_im (fT.getADValue 0)
  else s

/-- The block of the potential equation of one boundary node (lines 104-117). -/
def DDMAC_Fill_potential (bc : SimpleGateContactBC α) (e eps0 : α) (node : GateNode α)
    (region : SimulationRegion α) (fvm_node : FVM_Node α) (S : α) (s : FillState α) :
    FillState α :=
  let q := e * bc.Qf
  let Thick := bc.Thickness
  let eps_ox := eps0 * bc.eps
  let V := (AutoDScalar.const node.psi).setADValue 0 1
  let Ve := (AutoDScalar.const bc.Vac).setADValue 1 1
  let dP := AutoDScalar.smul S
    (((AutoDScalar.smul eps_ox ((Ve.sub_scalar bc.Work_Function).sub V)).sdiv Thick).add_scalar q)
  let index_re :=
    uadd fvm_node._global_offset (region.ebm_variable_offset SolutionVariable.POTENTIAL)
  let index_im := uadd (uadd fvm_node._global_offset node.ebm_n_variables)
    (region.ebm_variable_offset SolutionVariable.POTENTIAL)
  let s := MatSetValue_add s index_re index_re (dP.getADValue 0)
  let s := MatSetValue_add s index_re bc.global_offset (dP.getADValue 1)
  let s := MatSetValue_add s index_im index_im (dP.getADValue 0)
  MatSetValue_add s index_im (uadd bc.global_offset 1) (dP.getADValue 1)

/-- The body of the loop over the boundary nodes (lines 78-176) for a node of this
processor. -/
def DDMAC_Fill_node (bc : SimpleGateContactBC α) (e eps0 omega : α)
    (fill : Nat → SolutionVariable → (Nat → Nat → α) × (Nat → α) × InsertMode →
      (Nat → Nat → α) × (Nat → α) × InsertMode)
    (node : GateNode α) (s : FillState α) : Except Fault (FillState α) :=
  match node.region_nodes with
  | [] => Except.error Fault.invalid_pointer
  | rnode :: _ =>
    let region := rnode.1
    let fvm_node := rnode.2
    let s := DDMAC_Fill_fills fill region fvm_node s
    if bc.local_offset = invalid_uint then Except.error Fault.assertion_failed
    else
      match fvm_node.outside_boundary_surface_area with
      | none => Except.error Fault.assertion_failed
      | some S =>
        let s := DDMAC_Fill_potential bc e eps0 node region fvm_node S s
        let s := DDMAC_Fill_heat bc fill node region fvm_node S s
        match node._node_neighbor with
        | none => Except.error Fault.assertion_failed
        | some neighbors =>
          Except.ok (neighbors.foldl (DDMAC_Fill_neighbor bc omega node fvm_node) s)

/-- The loop over the boundary nodes (lines 72-178); `self` is
`Genius::processor_id()`. -/
def DDMAC_Fill_nodes (bc : SimpleGateContactBC α) (self : Nat) (e eps0 omega : α)
    (fill : Nat → SolutionVariable → (Nat → Nat → α) × (Nat → α) × InsertMode →
      (Nat → Nat → α) × (Nat → α) × InsertMode) :
    List (GateNode α) → FillState α → Except Fault (FillState α)
  | [], s => Except.ok s
  | node :: rest, s =>
    if node.processor_id ≠ self then DDMAC_Fill_nodes bc self e eps0 omega fill rest s
    else
      match DDMAC_Fill_node bc e eps0 omega fill node s with
      | Except.error err => Except.error err
      | Except.ok s => DDMAC_Fill_nodes bc self e eps0 omega fill rest s

/-- The block of the extra equation of the gate electrode (lines 199-207). -/
def DDMAC_Fill_electrode (bc : SimpleGateContactBC α) (omega : α) (s : FillState α) :
    FillState α :=
  let bc_global_offset_re := bc.global_offset
  let bc_global_offset_im := uadd bc.global_offset 1
  let Z1 : StdComplex α := ⟨bc.R, omega * bc.L⟩
  let Y2 : StdComplex α := ⟨0, omega * bc.C⟩
  let K := (Z1.mul Y2).add_real 1
  let s := MatSetValue_add s bc_global_offset_re bc_global_offset_re K.re
  let s := MatSetValue_add s bc_global_offset_re bc_global_offset_im (-K.im)
  let s := MatSetValue_add s bc_global_offset_im bc_global_offset_re K.im
  let s := MatSetValue_add s bc_global_offset_im bc_global_offset_im K.re
  let s := VecSetValue_add s bc_global_offset_re bc.Vac
  VecSetValue_add s bc_global_offset_im 0

/-- The method `SimpleGateContactBC::DDMAC_Fill_Matrix_Vector`; `self` is
`Genius::processor_id()`, `n_processors` is `Genius::n_processors()` (an `unsigned int`,
so that `n_processors - 1` wraps), `e` and `eps0` are the constants of `PhysicalUnit`; the
matrix `J` is only handed on to the nodal fill. -/
def DDMAC_Fill_Matrix_Vector (bc : SimpleGateContactBC α) (self n_processors : Nat)
    (e eps0 omega : α)
    (fill : Nat → SolutionVariable → (Nat → Nat → α) × (Nat → α) × InsertMode →
      (Nat → Nat → α) × (Nat → α) × InsertMode)
    (A : Nat → Nat → α) (b : Nat → α) (add_value_flag : InsertMode) :
    Except Fault (FillState α) :=
  let flush : List (PetscCall α) :=
    if add_value_flag ≠ InsertMode.ADD_VALUES ∧ add_value_flag ≠ InsertMode.NOT_SET_VALUES
    then [PetscCall.MatAssemblyFlush] else []
  match DDMAC_Fill_nodes bc self e eps0 omega fill bc.nodes ⟨A, b, add_value_flag, flush⟩ with
  | Except.error err => Except.error err
  | Except.ok s =>
    let s := if self = (n_processors + 4294967295) % 4294967296
      then DDMAC_Fill_electrode bc omega s else s
    Except.ok { s with add_value_flag := InsertMode.ADD_VALUES }

end SimpleGateContactBC

end Genius

namespace Genius

namespace HomoInterfaceBC

variable {α : Type} [LinearOrderedField α]

/-- The scan of a region-node range that the loops of `Poissin_Function` and
`Poissin_Jacobian` have in common, with the work for a pair `(fvm_nodes[i],
fvm_nodes[0])` left open as `body`. -/
def scan_region_nodes {α σ : Type} (body : FVM_Node α → FVM_Node α → σ → Except Fault σ) :
    List (SimulationRegion α × FVM_Node α) → Nat → List (FVM_Node α) → σ → Except Fault σ
  | [], _, _, s => Except.ok s
  | rnode :: rest, i, fvm_nodes, s =>
    if !rnode.2.is_valid then scan_region_nodes body rest (i + 1) fvm_nodes s
    else
      if i = 0 then scan_region_nodes body rest (i + 1) (fvm_nodes ++ [rnode.2]) s
      else
        match (fvm_nodes ++ [rnode.2])[i]?, (fvm_nodes ++ [rnode.2])[0]? with
        | some node_i, some node_0 =>
          match body node_i node_0 s with
          | Except.error e => Except.error e
          | Except.ok s => scan_region_nodes body rest (i + 1) (fvm_nodes ++ [rnode.2]) s
        | _, _ => Except.error Fault.index_out_of_range

/-- The scan of the boundary nodes of this processor, with `scan_region_nodes` for each. -/
def scan_nodes {α σ : Type} (body : FVM_Node α → FVM_Node α → σ → Except Fault σ)
    (self : Nat) : List (BoundaryNode α) → σ → Except Fault σ
  | [], s => Except.ok s
  | node :: rest, s =>
    if node.processor_id ≠ self then scan_nodes body self rest s
    else
      match scan_region_nodes body node.region_nodes 0 [] s with
      | Except.error e => Except.error e
      | Except.ok s => scan_nodes body self rest s

/-- The work `body` done for a list of pairs, in order. -/
def fold_pairs {α σ : Type} (body : FVM_Node α → FVM_Node α → σ → Except Fault σ) :
    List (FVM_Node α × FVM_Node α) → σ → Except Fault σ
  | [], s => Except.ok s
  | p :: rest, s =>
    match body p.1 p.2 s with
    | Except.error e => Except.error e
    | Except.ok s => fold_pairs body rest s

/-- The pairs `(node i, node 0)` of a boundary node: node 0 is the first region node, the
nodes `i` are the valid region nodes that follow it without an invalid one in between;
there is no pair when the first region node is invalid. -/
def valid_pairs {α : Type} (node : BoundaryNode α) : List (FVM_Node α × FVM_Node α) :=
  match node.region_nodes with
  | [] => []
  | rnode :: rest =>
    if rnode.2.is_valid then
      (rest.takeWhile fun rn => rn.2.is_valid).map fun rn => (rn.2, rnode.2)
    else []

/-- The boundary nodes of this processor. -/
def on_processor_nodes {α : Type} (self : Nat) (nodes : List (BoundaryNode α)) :
    List (BoundaryNode α) :=
  nodes.filter fun node => decide (node.processor_id = self)

/-- The pairs of all boundary nodes of this processor, in the order of the scan. -/
def interface_pairs {α : Type} (self : Nat) (nodes : List (BoundaryNode α)) :
    List (FVM_Node α × FVM_Node α) :=
  (on_processor_nodes self nodes).flatMap valid_pairs

/-- The work of `Poissin_Function` for a pair. -/
def Poissin_Function_body (x : Nat → α) (node_i ghost_fvm_node : FVM_Node α)
    (buf : FunctionBuffers α) : Except Fault (FunctionBuffers α) :=
  if node_i.processor_id = ghost_fvm_node.processor_id then
    Except.ok
      { src_row := buf.src_row ++ [node_i._global_offset]
        dst_row := buf.dst_row ++ [ghost_fvm_node._global_offset]
        y_new := buf.y_new ++ [x node_i.local_offset - x ghost_fvm_node.local_offset] }
  else Except.error Fault.assertion_failed

/-- The global offsets of the valid region nodes of a boundary node. -/
def valid_rows {α : Type} (node : BoundaryNode α) : List Nat :=
  (node.region_nodes.filter fun rn => rn.2.is_valid).map fun rn => rn.2._global_offset

/-- All region nodes of a boundary node are valid. -/
def AllValid {α : Type} (node : BoundaryNode α) : Prop :=
  ∀ rn ∈ node.region_nodes, rn.2.is_valid = true

/-- The region nodes of a boundary node have it as root node: they carry its processor
id. -/
def SameRoot {α : Type} (node : BoundaryNode α) : Prop :=
  ∀ rn ∈ node.region_nodes, rn.2.processor_id = node.processor_id

end HomoInterfaceBC

end Genius

namespace Genius

namespace HomoInterfaceBC

/-- A boundary node of processor `0` between two regions: the region nodes at the rows
`0` and `1`, both valid. -/
def sample_interface_node : BoundaryNode ℚ where
  processor_id := 0
  region_nodes :=
    [(Mix3Solver.sample_region, ⟨0, some [], 0, 0⟩),
      (Mix3Solver.sample_oxide, ⟨0, some [], 1, 1⟩)]

end HomoInterfaceBC

end Genius

namespace Genius

namespace HomoInterfaceBC

/-- The FVM nodes stored at the addresses `100` and `200` of the samples. -/
def sample_heap (a : Nat) : Option PeerNode :=
  if a = 100 then some ⟨1, some [200]⟩
  else if a = 200 then some ⟨2, some []⟩
  else none

end HomoInterfaceBC

namespace SimpleGateContactBC

/-- A gate node of processor `0` with one neighbour. -/
def sample_gate_node : GateNode ℚ where
  processor_id := 0
  region_nodes := [(Mix3Solver.sample_region, ⟨0, some [(0, (0, 2))], 0, 0⟩)]
  ebm_n_variables := 3
  psi := 0
  T := 1
  eps := 1
  external_boundary := true
  _node_neighbor := some [⟨3, 0, 1, 1⟩]

/-- A gate contact with the node `sample_gate_node` and its extra unknown at the rows
`6` and `7`. -/
def sample_gate : SimpleGateContactBC ℚ where
  global_offset := 6
  local_offset := 6
  Qf := 0
  Thickness := 1
  eps := 1
  Work_Function := 0
  Heat_Transfer := 0
  T_external := 1
  z_width := 1
  R := 1
  C := 1
  L := 1
  Vac := 1
  nodes := [sample_gate_node]

/-- A nodal fill that leaves matrix, vector and flag as they are. -/
def sample_fill (_ : Nat) (_ : SolutionVariable)
    (s : (Nat → Nat → ℚ) × (Nat → ℚ) × InsertMode) : (Nat → Nat → ℚ) × (Nat → ℚ) × InsertMode :=
  s

end SimpleGateContactBC

end Genius

namespace Genius

/-! ## Mesh refinement: smoothing of the refinement flags -/

/-- The refinement states `Elem::RefinementState` that the sources name. -/
inductive RefinementState
  | COARSEN
  | DO_NOTHING
  | REFINE
  | JUST_REFINED
  | JUST_COARSENED
  | INACTIVE
  | COARSEN_INACTIVE
  deriving DecidableEq, Repr

/-- An `Elem` with what the smoothing and flagging methods read or write: `level()`,
`p_level()`, the two refinement flags, `active()`, the node numbers
`node(0) .. node(n_nodes()-1)`, `n_edges()`, the two node numbers `(node(0), node(1))` of
`build_edge(n)`, `parent()` as the address of the parent element (`none` for `NULL`),
`neighbor(0) .. neighbor(n_neighbors()-1)` and `child(0) .. child(n_children()-1)` as
addresses.  The address of an element in the mesh is its `id()`. -/
structure Elem where
  level : Nat
  p_level : Nat
  refinement_flag : RefinementState
  p_refinement_flag : RefinementState
  active : Bool
  nodes : List Nat
  n_edges : Nat
  build_edge : Nat → Nat × Nat
  parent : Option Nat
  neighbors : List (Option Nat) := []
  children : List Nat := []

namespace Elem

/-- The method `set_refinement_flag`. -/
def set_refinement_flag (e : Elem) (rflag : RefinementState) : Elem :=
  { e with refinement_flag := rflag }

/-- The method `set_p_refinement_flag`. -/
def set_p_refinement_flag (e : Elem) (pflag : RefinementState) : Elem :=
  { e with p_refinement_flag := pflag }

end Elem

/-- The mesh `_mesh`: `n_nodes()`, and the elements stored at the addresses
`0 .. n_elem-1` in the order of the element iterators. -/
structure MeshBase where
  n_nodes : Nat
  n_elem : Nat
  elem : Nat → Elem

namespace MeshBase

/-- The addresses visited by `active_elements_begin() .. active_elements_end()`. -/
def active_elements (mesh : MeshBase) : List Nat :=
  (List.range mesh.n_elem).filter fun i => (mesh.elem i).active

end MeshBase

namespace MeshRefinement

/-- The two vectors `max_level_at_node` and `max_p_level_at_node`. -/
structure NodeLevels where
  max_level_at_node : Nat → Nat
  max_p_level_at_node : Nat → Nat

/-- The loop over the nodes of an element in the first pass of
`limit_level_mismatch_at_node` (lines 60-70); `none` when the assertion
`node_number < max_level_at_node.size()` fails. -/
def limit_level_mismatch_at_node_fill_nodes (n_nodes elem_level elem_p_level : Nat) :
    List Nat → NodeLevels → Option NodeLevels
  | [], lv => some lv
  | node_number :: rest, lv =>
    if node_number < n_nodes then
      limit_level_mismatch_at_node_fill_nodes n_nodes elem_level elem_p_level rest
        { max_level_at_node := Function.update lv.max_level_at_node node_number
            (max (lv.max_level_at_node node_number) elem_level)
          max_p_level_at_node := Function.update lv.max_p_level_at_node node_number
            (max (lv.max_p_level_at_node node_number) elem_p_level) }
    else none

/-- The loop over the active elements in the first pass of `limit_level_mismatch_at_node`
(lines 51-71); the two levels are `unsigned char`. -/
def limit_level_mismatch_at_node_fill (mesh : MeshBase) :
    List Nat → NodeLevels → Option NodeLevels
  | [], lv => some lv
  | i :: rest, lv =>
    let elem := mesh.elem i
    let elem_level :=
      (elem.level + (if elem.refinement_flag = RefinementState.REFINE then 1 else 0)) % 256
    let elem_p_level :=
      (elem.p_level + (if elem.p_refinement_flag = RefinementState.REFINE then 1 else 0)) % 256
    match limit_level_mismatch_at_node_fill_nodes mesh.n_nodes elem_level elem_p_level
        elem.nodes lv with
    | none => none
    | some lv => limit_level_mismatch_at_node_fill mesh rest lv

/-- One round of the loop over the nodes of an element in the second pass of
`limit_level_mismatch_at_node` (lines 95-110), on the element and `flags_changed`; the
sums are `unsigned int`. -/
def limit_level_mismatch_at_node_flag_node (max_mismatch : Nat) (lv : NodeLevels)
    (elem_level elem_p_level : Nat) (s : Elem × Bool) (node_number : Nat) : Elem × Bool :=
  let s :=
    if (elem_level + max_mismatch) % 4294967296 < lv.max_level_at_node node_number
        ∧ s.1.refinement_flag ≠ RefinementState.REFINE
    then (s.1.set_refinement_flag RefinementState.REFINE, true) else s
  if (elem_p_level + max_mismatch) % 4294967296 < lv.max_p_level_at_node node_number
      ∧ s.1.p_refinement_flag ≠ RefinementState.REFINE
  then (s.1.set_p_refinement_flag RefinementState.REFINE, true) else s

/-- The body of the loop over the active elements in the second pass of
`limit_level_mismatch_at_node` (lines 83-111), on the mesh and `flags_changed`. -/
def limit_level_mismatch_at_node_flag (max_mismatch : Nat) (lv : NodeLevels)
    (s : MeshBase × Bool) (i : Nat) : MeshBase × Bool :=
  let elem := s.1.elem i
  let elem_level := elem.level
  let elem_p_level := elem.p_level
  if elem.refinement_flag = RefinementState.REFINE
      ∧ elem.p_refinement_flag = RefinementState.REFINE then s
  else
    let r := elem.nodes.foldl
      (limit_level_mismatch_at_node_flag_node max_mismatch lv elem_level elem_p_level)
      (elem, s.2)
    ({ s.1 with elem := Function.update s.1.elem i r.1 }, r.2)

/-- The method `MeshRefinement::limit_level_mismatch_at_node`: the returned
`flags_changed` and the mesh after the call; `none` when an assertion fails. -/
def limit_level_mismatch_at_node (mesh : MeshBase) (max_mismatch : Nat) :
    Option (Bool × MeshBase) :=
  match limit_level_mismatch_at_node_fill mesh mesh.active_elements
      ⟨fun _ => 0, fun _ => 0⟩ with
  | none => none
  | some lv =>
    let r := mesh.active_elements.foldl (limit_level_mismatch_at_node_flag max_mismatch lv)
      (mesh, false)
    some (r.2, r.1)

/-- The projected h-level of an element: its level, plus one when it is flagged
`REFINE`. -/
def projected_level (e : Elem) : Nat :=
  e.level + (if e.refinement_flag = RefinementState.REFINE then 1 else 0)

/-- The second pass on one element, as a closed form: the h-flag becomes `REFINE` when it
is not `REFINE` and some node triggers, likewise the p-flag; `flags_changed` records
whether one of them did.  An element with both flags `REFINE` is skipped. -/
def flag_elem (max_mismatch : Nat) (lv : NodeLevels) (e : Elem) : Elem × Bool :=
  let h := decide (e.refinement_flag ≠ RefinementState.REFINE) &&
    e.nodes.any fun v => decide ((e.level + max_mismatch) % 4294967296
      < lv.max_level_at_node v)
  let p := decide (e.p_refinement_flag ≠ RefinementState.REFINE) &&
    e.nodes.any fun v => decide ((e.p_level + max_mismatch) % 4294967296
      < lv.max_p_level_at_node v)
  ({ e with
      refinement_flag := if h then RefinementState.REFINE else e.refinement_flag
      p_refinement_flag := if p then RefinementState.REFINE else e.p_refinement_flag },
    h || p)

end MeshRefinement

end Genius

namespace Genius

namespace MeshRefinement

/-- The element `e'` is the element `e` up to refinement flags that were changed to
`REFINE`. -/
def FlagsOnlyRaised (e e' : Elem) : Prop :=
  e'.level = e.level ∧ e'.p_level = e.p_level ∧ e'.active = e.active ∧ e'.nodes = e.nodes ∧
  e'.n_edges = e.n_edges ∧ e'.build_edge = e.build_edge ∧ e'.parent = e.parent ∧
  e'.neighbors = e.neighbors ∧ e'.children = e.children ∧
  (e'.refinement_flag = e.refinement_flag ∨ e'.refinement_flag = RefinementState.REFINE) ∧
  (e'.p_refinement_flag = e.p_refinement_flag ∨
    e'.p_refinement_flag = RefinementState.REFINE)

/-- Two elements with the nodes `0, 1` and `1, 2`: the first on level 0, the second on
level 2 and flagged `REFINE`. -/
def sample_mesh : MeshBase where
  n_nodes := 3
  n_elem := 2
  elem := fun i =>
    if i = 0 then
      { level := 0, p_level := 0, refinement_flag := RefinementState.DO_NOTHING,
        p_refinement_flag := RefinementState.DO_NOTHING, active := true, nodes := [0, 1],
        n_edges := 1, build_edge := fun _ => (0, 1), parent := none }
    else
      { level := 2, p_level := 0, refinement_flag := RefinementState.REFINE,
        p_refinement_flag := RefinementState.DO_NOTHING, active := true, nodes := [1, 2],
        n_edges := 1, build_edge := fun _ => (1, 2), parent := none }

end MeshRefinement

end Genius

namespace Genius

namespace MeshRefinement

/-- The two maps `max_level_at_edge` and `max_p_level_at_edge`, keyed by the ordered pair
of the node numbers of an edge; `none` for a key that is not in the map. -/
structure EdgeLevels where
  max_level_at_edge : Nat × Nat → Option Nat
  max_p_level_at_edge : Nat × Nat → Option Nat

/-- The ancestor loop `for (const Elem *p = elem; p != NULL; p = elem->parent())` of
`limit_level_mismatch_at_edge` (lines 155-184) for the edge `n` of the element stored at
the address `elem`.  The second argument bounds the number of rounds that are run, the
third is the pointer `p`; the result is `none` when the bound is used up before the loop
ends. -/
def limit_level_mismatch_at_edge_walk (mesh : MeshBase) (elem n childnode0 childnode1
    elem_level elem_p_level : Nat) : Nat → Option Nat → EdgeLevels → Option EdgeLevels
  | _, none, lv => some lv
  | 0, some _, _ => none
  | fuel + 1, some p, lv =>
    let pedge := (mesh.elem p).build_edge n
    let node0 := pedge.1
    let node1 := pedge.2
    if node0 ≠ childnode0 ∧ node0 ≠ childnode1 ∧ node1 ≠ childnode0 ∧ node1 ≠ childnode1
    then some lv
    else
      let edge_key := if node1 < node0 then (node1, node0) else (node0, node1)
      let lv : EdgeLevels :=
        if lv.max_level_at_edge edge_key = none then
          { max_level_at_edge := Function.update lv.max_level_at_edge edge_key
              (some elem_level)
            max_p_level_at_edge := Function.update lv.max_p_level_at_edge edge_key
              (some elem_p_level) }
        else
          { max_level_at_edge := Function.update lv.max_level_at_edge edge_key
              (some (max ((lv.max_level_at_edge edge_key).getD 0) elem_level))
            max_p_level_at_edge := Function.update lv.max_p_level_at_edge edge_key
              (some (max ((lv.max_p_level_at_edge edge_key).getD 0) elem_p_level)) }
      limit_level_mismatch_at_edge_walk mesh elem n childnode0 childnode1 elem_level
        elem_p_level fuel (mesh.elem elem).parent lv

/-- The loop over the edges of an element in the first pass of
`limit_level_mismatch_at_edge` (lines 147-185), over the edge numbers that are left. -/
def limit_level_mismatch_at_edge_fill_edges (fuel : Nat) (mesh : MeshBase)
    (elem elem_level elem_p_level : Nat) : List Nat → EdgeLevels → Option EdgeLevels
  | [], lv => some lv
  | n :: rest, lv =>
    let edge := (mesh.elem elem).build_edge n
    let childnode0 := if edge.2 < edge.1 then edge.2 else edge.1
    let childnode1 := if edge.2 < edge.1 then edge.1 else edge.2
    match limit_level_mismatch_at_edge_walk mesh elem n childnode0 childnode1 elem_level
        elem_p_level fuel (some elem) lv with
    | none => none
    | some lv =>
      limit_level_mismatch_at_edge_fill_edges fuel mesh elem elem_level elem_p_level rest lv

/-- The loop over the active elements in the first pass of `limit_level_mismatch_at_edge`
(lines 138-186); the two levels are `unsigned char`. -/
def limit_level_mismatch_at_edge_fill (fuel : Nat) (mesh : MeshBase) :
    List Nat → EdgeLevels → Option EdgeLevels
  | [], lv => some lv
  | i :: rest, lv =>
    let elem := mesh.elem i
    let elem_level :=
      (elem.level + (if elem.refinement_flag = RefinementState.REFINE then 1 else 0)) % 256
    let elem_p_level :=
      (elem.p_level + (if elem.p_refinement_flag = RefinementState.REFINE then 1 else 0)) % 256
    match limit_level_mismatch_at_edge_fill_edges fuel mesh i elem_level elem_p_level
        (List.range elem.n_edges) lv with
    | none => none
    | some lv => limit_level_mismatch_at_edge_fill fuel mesh rest lv

/-- One round of the loop over the edges of an element in the second pass of
`limit_level_mismatch_at_edge` (lines 210-232), on the element and `flags_changed`; a
key that is not in a map reads as `0`. -/
def limit_level_mismatch_at_edge_flag_edge (max_mismatch : Nat) (lv : EdgeLevels)
    (elem_level elem_p_level : Nat) (s : Elem × Bool) (n : Nat) : Elem × Bool :=
  let edge := s.1.build_edge n
  let edge_key := if edge.2 < edge.1 then (edge.2, edge.1) else (edge.1, edge.2)
  let s :=
    if (elem_level + max_mismatch) % 4294967296 < (lv.max_level_at_edge edge_key).getD 0
        ∧ s.1.refinement_flag ≠ RefinementState.REFINE
    then (s.1.set_refinement_flag RefinementState.REFINE, true) else s
  if (elem_p_level + max_mismatch) % 4294967296 < (lv.max_p_level_at_edge edge_key).getD 0
      ∧ s.1.p_refinement_flag ≠ RefinementState.REFINE
  then (s.1.set_p_refinement_flag RefinementState.REFINE, true) else s

/-- The body of the loop over the active elements in the second pass of
`limit_level_mismatch_at_edge` (lines 198-233), on the mesh and `flags_changed`. -/
def limit_level_mismatch_at_edge_flag (max_mismatch : Nat) (lv : EdgeLevels)
    (s : MeshBase × Bool) (i : Nat) : MeshBase × Bool :=
  let elem := s.1.elem i
  let elem_level := elem.level
  let elem_p_level := elem.p_level
  if elem.refinement_flag = RefinementState.REFINE
      ∧ elem.p_refinement_flag = RefinementState.REFINE then s
  else
    let r := (List.range elem.n_edges).foldl
      (limit_level_mismatch_at_edge_flag_edge max_mismatch lv elem_level elem_p_level)
      (elem, s.2)
    ({ s.1 with elem := Function.update s.1.elem i r.1 }, r.2)

/-- The method `MeshRefinement::limit_level_mismatch_at_edge`, with every ancestor loop
run for at most `fuel` rounds: the returned `flags_changed` and the mesh after the call,
`none` when an ancestor loop has not ended within `fuel` rounds. -/
def limit_level_mismatch_at_edge (fuel : Nat) (mesh : MeshBase) (max_mismatch : Nat) :
    Option (Bool × MeshBase) :=
  match limit_level_mismatch_at_edge_fill fuel mesh mesh.active_elements
      ⟨fun _ => none, fun _ => none⟩ with
  | none => none
  | some lv =>
    let r := mesh.active_elements.foldl (limit_level_mismatch_at_edge_flag max_mismatch lv)
      (mesh, false)
    some (r.2, r.1)

/-- A refined mesh: the element at the address `0` with the edge `(0, 2)` is the parent
of the active element at the address `1` with the edge `(0, 1)`. -/
def sample_refined_mesh : MeshBase where
  n_nodes := 3
  n_elem := 2
  elem := fun i =>
    if i = 0 then
      { level := 0, p_level := 0, refinement_flag := RefinementState.INACTIVE,
        p_refinement_flag := RefinementState.INACTIVE, active := false, nodes := [0, 2],
        n_edges := 1, build_edge := fun _ => (0, 2), parent := none }
    else
      { level := 1, p_level := 0, refinement_flag := RefinementState.DO_NOTHING,
        p_refinement_flag := RefinementState.DO_NOTHING, active := true, nodes := [0, 1],
        n_edges := 1, build_edge := fun _ => (0, 1), parent := some 0 }

end MeshRefinement

end Genius

namespace Genius

namespace Mix3Solver

open SolutionVariable

/-! ### Samples over any scalar field -/

/-- Units for the samples over a field: `cm = K = kb = e = 1`. -/
def field_unit (α : Type) [LinearOrderedField α] : PhysicalUnit α where
  cm := 1
  K := 1
  kb := 1
  e := 1

/-- A node on processor `0` with both offsets `0`. -/
def field_node (α : Type) : FVM_Node α where
  processor_id := 0
  _ghost_nodes := none
  _global_offset := 0
  _local_offset := 0

/-- A semiconductor region without temperatures, with the node `field_node`. -/
def field_region (α : Type) : SimulationRegion α where
  type := SimulationRegionType.SemiconductorRegion
  ebm_variable_offset := sample_offsets
  get_advanced_model := ⟨false, false, false⟩
  nodes := [field_node α]

/-- The system of the region `field_region`, with `T_external = 1`, on processor `0`. -/
def field_system (α : Type) [LinearOrderedField α] : SimulationSystem α where
  regions := [field_region α]
  T_external := 1
  processor_id := 0

/-- A line-search state with `w = x - y`: previous iterate `2` and step `1` everywhere. -/
def field_step_state (α : Type) [LinearOrderedField α] : DampingState α where
  xx := fun _ => 2
  yy := fun _ => 1
  ww := fun _ => 1
  changed_y := false
  changed_w := false

end Mix3Solver

end Genius

namespace Genius

namespace SimpleGateContactBC

variable {α : Type} [LinearOrderedField α]

/-- The factor `K = (R + j*omega*L)*(j*omega*C) + 1` of the electrode equation as the
claim writes it: real part `1 - omega^2*L*C`, imaginary part `omega*R*C`. -/
def electrode_factor (bc : SimpleGateContactBC α) (omega : α) : StdComplex α :=
  ⟨1 - omega ^ 2 * bc.L * bc.C, omega * bc.R * bc.C⟩

end SimpleGateContactBC

end Genius

namespace Genius

namespace HomoInterfaceBC

/-- A boundary node of processor `0` whose first region node is invalid (its offsets are
unassigned) and whose second region node is valid. -/
def sample_skipping_node : BoundaryNode ℚ where
  processor_id := 0
  region_nodes :=
    [(Mix3Solver.sample_region, ⟨0, some [], invalid_uint, invalid_uint⟩),
      (Mix3Solver.sample_oxide, ⟨0, some [], 1, 1⟩)]

end HomoInterfaceBC

end Genius

namespace Genius

/-! ## Particle sources: the time envelope -/

/-- The members of `Particle_Source_DataFile` that `carrier_generation` reads. -/
structure Particle_Source_DataFile (α : Type) where
  _t0 : α
  _t_max : α
  _t_char : α

/-- The members of `Particle_Source_Analytic` that `carrier_generation` reads. -/
structure Particle_Source_Analytic (α : Type) where
  _t0 : α
  _t_max : α
  _t_char : α

namespace Particle_Source_DataFile

variable {α : Type} [LinearOrderedField α]

/-- The method `Particle_Source_DataFile::carrier_generation`; `exp` is the exponential
function of the C library. -/
def carrier_generation (exp : α → α) (self : Particle_Source_DataFile α) (t : α) : α :=
  if t ≥ self._t0 ∧
      (t - self._t_max) * (t - self._t_max) / (self._t_char * self._t_char) < 30 then
    exp (-(t - self._t_max) * (t - self._t_max) / (self._t_char * self._t_char))
  else 0

end Particle_Source_DataFile

namespace Particle_Source_Analytic

variable {α : Type} [LinearOrderedField α]

/-- The method `Particle_Source_Analytic::carrier_generation`; `exp` is the exponential
function of the C library. -/
def carrier_generation (exp : α → α) (self : Particle_Source_Analytic α) (t : α) : α :=
  if t ≥ self._t0 ∧
      (t - self._t_max) * (t - self._t_max) / (self._t_char * self._t_char) < 30 then
    exp (-(t - self._t_max) * (t - self._t_max) / (self._t_char * self._t_char))
  else 0

/-- The truncated Gaussian of the claim: `exp(-((t - t_max)/t_char)^2)` when `t >= t0` and
`((t - t_max)/t_char)^2 < 30`, and `0` otherwise. -/
def truncated_gaussian (exp : α → α) (t0 t_max t_char t : α) : α :=
  if t ≥ t0 ∧ ((t - t_max) / t_char) ^ 2 < 30 then exp (-((t - t_max) / t_char) ^ 2) else 0

end Particle_Source_Analytic

end Genius

namespace Genius

/-! ## Mesh refinement: flagging of the elements -/

/-- The members of `MeshRefinement` that the flagging methods read or write. -/
structure MeshRefinement (α : Type) where
  _use_member_parameters : Bool
  _coarsen_by_parents : Bool
  _refine_fraction : α
  _coarsen_fraction : α
  _max_h_level : Nat
  _coarsen_threshold : α
  _nelem_target : Nat
  _absolute_global_tolerance : α

namespace MeshRefinement

variable {α : Type} [LinearOrderedField α]

/-- The read `error_per_cell[id]` of an `ErrorVector`, a `std::vector` of values. -/
def read_error {α : Type} (error_per_cell : List α) (id : Nat) : Except Fault α :=
  match error_per_cell[id]? with
  | some e => Except.ok e
  | none => Except.error Fault.index_out_of_range

/-- The method `MeshRefinement::clean_refinement_flags`: the loop over all elements sets
both flags of an active element to `DO_NOTHING` and of any other element to `INACTIVE`. -/
def clean_refinement_flags (mesh : MeshBase) : MeshBase :=
  { mesh with
    elem := fun i =>
      if i < mesh.n_elem then
        if (mesh.elem i).active then
          ((mesh.elem i).set_refinement_flag RefinementState.DO_NOTHING).set_p_refinement_flag
            RefinementState.DO_NOTHING
        else
          ((mesh.elem i).set_refinement_flag RefinementState.INACTIVE).set_p_refinement_flag
            RefinementState.INACTIVE
      else mesh.elem i }

/-- The loop `for (; elem_it != elem_end; ++elem_it)` of a flagging method over the
active elements: `body id elem` is the element `elem` with the address `id` after the
body of the loop, which changes no other element. -/
def flag_active_elements (body : Nat → Elem → Except Fault Elem) :
    List Nat → MeshBase → Except Fault MeshBase
  | [], mesh => Except.ok mesh
  | id :: rest, mesh =>
    match body id (mesh.elem id) with
    | Except.error e => Except.error e
    | Except.ok elem =>
      flag_active_elements body rest { mesh with elem := Function.update mesh.elem id elem }

/-- The assignment of the arguments to the members at the head of the flagging methods
(`if (!_use_member_parameters) ...`). -/
def take_arguments (self : MeshRefinement α) (refine_frac coarsen_frac : α) (max_l : Nat) :
    MeshRefinement α :=
  if !self._use_member_parameters then
    { self with
      _refine_fraction := refine_frac
      _coarsen_fraction := coarsen_frac
      _max_h_level := max_l }
  else self

/-- The first loop of `flag_elements_by_error_fraction` (lines 88-95) on the pair
`(error_min, error_max)`. -/
def flag_elements_by_error_fraction_range (error_per_cell : List α) :
    List Nat → α × α → Except Fault (α × α)
  | [], r => Except.ok r
  | id :: rest, r =>
    if id < error_per_cell.length then
      match read_error error_per_cell id with
      | Except.error e => Except.error e
      | Except.ok err =>
        flag_elements_by_error_fraction_range error_per_cell rest (min r.1 err, max r.2 err)
    else Except.error Fault.assertion_failed

/-- The coarsening test of `flag_elements_by_error_fraction` for an element (lines
130-146). -/
def flag_elements_by_error_fraction_coarsen (self : MeshRefinement α)
    (error_per_parent : List α) (parent_cutoff coarsen_cutoff elem_error : α) (elem : Elem) :
    Except Fault Elem :=
  if self._coarsen_by_parents then
    match elem.parent with
    | some parentid =>
      match read_error error_per_parent parentid with
      | Except.error e => Except.error e
      | Except.ok parent_error =>
        if parent_error ≥ 0 ∧ parent_error ≤ parent_cutoff then
          Except.ok (elem.set_refinement_flag RefinementState.COARSEN)
        else Except.ok elem
    | none => Except.ok elem
  else if elem_error ≤ coarsen_cutoff then
    Except.ok (elem.set_refinement_flag RefinementState.COARSEN)
  else Except.ok elem

/-- The body of the second loop of `flag_elements_by_error_fraction` (lines 123-152). -/
def flag_elements_by_error_fraction_elem (self : MeshRefinement α)
    (error_per_cell error_per_parent : List α)
    (refine_cutoff coarsen_cutoff parent_cutoff : α) (id : Nat) (elem : Elem) :
    Except Fault Elem :=
  if id < error_per_cell.length then
    match read_error error_per_cell id with
    | Except.error e => Except.error e
    | Except.ok elem_error =>
      match flag_elements_by_error_fraction_coarsen self error_per_parent parent_cutoff
          coarsen_cutoff elem_error elem with
      | Except.error e => Except.error e
      | Except.ok elem =>
        if elem_error ≥ refine_cutoff then
          if elem.level < self._max_h_level then
            Except.ok (elem.set_refinement_flag RefinementState.REFINE)
          else Except.ok elem
        else Except.ok elem
  else Except.error Fault.assertion_failed

/-- The method `MeshRefinement::flag_elements_by_error_fraction`.  The helper
`create_parent_error_vector` is outside the translated sources: it is a parameter that
gives `error_per_parent`, `parent_error_min` and `parent_error_max`. -/
def flag_elements_by_error_fraction
    (create_parent_error_vector : MeshBase → List α → List α × α × α)
    (self : MeshRefinement α) (mesh : MeshBase) (error_per_cell : List α)
    (refine_frac coarsen_frac : α) (max_l : Nat) :
    Except Fault (MeshRefinement α × MeshBase) :=
  let self := take_arguments self refine_frac coarsen_frac max_l
  if ¬ (self._refine_fraction ≥ 0 ∧ self._refine_fraction ≤ 1) then
    Except.error Fault.assertion_failed
  else if ¬ (self._coarsen_fraction ≥ 0 ∧ self._coarsen_fraction ≤ 1) then
    Except.error Fault.assertion_failed
  else
    let mesh := clean_refinement_flags mesh
    let parents : List α × α × α :=
      if self._coarsen_by_parents then create_parent_error_vector mesh error_per_cell
      else ([], 10 ^ 30, 0)
    let error_per_parent := parents.1
    let parent_error_min := parents.2.1
    let parent_error_max := parents.2.2
    match flag_elements_by_error_fraction_range error_per_cell mesh.active_elements
        (10 ^ 30, 0) with
    | Except.error e => Except.error e
    | Except.ok range =>
      let error_min := range.1
      let error_max := range.2
      let error_delta := error_max - error_min
      let parent_error_delta := parent_error_max - parent_error_min
      let refine_cutoff := (1 - self._refine_fraction) * error_max
      let coarsen_cutoff := self._coarsen_fraction * error_delta + error_min
      let parent_cutoff := self._coarsen_fraction * parent_error_delta + error_min
      match flag_active_elements
          (flag_elements_by_error_fraction_elem self error_per_cell error_per_parent
            refine_cutoff coarsen_cutoff parent_cutoff)
          mesh.active_elements mesh with
      | Except.error e => Except.error e
      | Except.ok mesh => Except.ok (self, mesh)

/-- The coarsening by parents of `flag_elements_by_error_tolerance` and
`flag_elements_by_error_threshold` for an element (lines 202-214 and 258-267);
`tolerance` is the coarsening tolerance of a cell and `sqrt` is `std::sqrt`. -/
def coarsen_by_parent_error (sqrt : α → α) (self : MeshRefinement α) (mesh : MeshBase)
    (error_per_parent : List α) (tolerance : α) (elem : Elem) : Except Fault Elem :=
  match elem.parent with
  | some parent =>
    if self._coarsen_by_parents then
      match read_error error_per_parent parent with
      | Except.error e => Except.error e
      | Except.ok parent_error =>
        if parent_error ≥ 0 then
          let parent_coarsening_tolerance :=
            sqrt (((mesh.elem parent).children.length : α) * tolerance * tolerance)
          if parent_error < parent_coarsening_tolerance then
            Except.ok (elem.set_refinement_flag RefinementState.COARSEN)
          else Except.ok elem
        else Except.ok elem
    else Except.ok elem
  | none => Except.ok elem

/-- The body of the loops of `flag_elements_by_error_tolerance` (lines 189-214) and of
`flag_elements_by_error_threshold` (lines 247-267), which differ in the two thresholds
`refine` and `coarsen` only. -/
def flag_elements_by_error_threshold_elem (sqrt : α → α) (self : MeshRefinement α)
    (mesh : MeshBase) (error_per_cell_in error_per_parent : List α) (refine coarsen : α)
    (elem_number : Nat) (elem : Elem) : Except Fault Elem :=
  match read_error error_per_cell_in elem_number with
  | Except.error e => Except.error e
  | Except.ok elem_error =>
    let elem :=
      if elem_error > refine ∧ elem.level < self._max_h_level then
        elem.set_refinement_flag RefinementState.REFINE
      else elem
    let elem :=
      if !self._coarsen_by_parents ∧ elem_error < coarsen then
        elem.set_refinement_flag RefinementState.COARSEN
      else elem
    coarsen_by_parent_error sqrt self mesh error_per_parent coarsen elem

/-- The method `MeshRefinement::flag_elements_by_error_tolerance`; `n_active_elem` is
`_mesh.n_active_elem()`, the number of active elements. -/
def flag_elements_by_error_tolerance (sqrt : α → α)
    (create_parent_error_vector : MeshBase → List α → List α × α × α)
    (self : MeshRefinement α) (mesh : MeshBase) (error_per_cell_in : List α) :
    Except Fault (MeshRefinement α × MeshBase) :=
  if ¬ (self._coarsen_threshold ≥ 0 ∧ self._refine_fraction ≤ 1) then
    Except.error Fault.assertion_failed
  else if ¬ (self._refine_fraction ≥ 0 ∧ self._refine_fraction ≤ 1) then
    Except.error Fault.assertion_failed
  else if ¬ (self._coarsen_fraction ≥ 0 ∧ self._coarsen_fraction ≤ 1) then
    Except.error Fault.assertion_failed
  else
    let local_refinement_tolerance :=
      self._absolute_global_tolerance / sqrt (mesh.active_elements.length : α)
    let local_coarsening_tolerance := local_refinement_tolerance * self._coarsen_threshold
    let error_per_parent : List α :=
      if self._coarsen_by_parents then (create_parent_error_vector mesh error_per_cell_in).1
      else []
    match flag_active_elements
        (flag_elements_by_error_threshold_elem sqrt self mesh error_per_cell_in
          error_per_parent local_refinement_tolerance local_coarsening_tolerance)
        mesh.active_elements mesh with
    | Except.error e => Except.error e
    | Except.ok mesh => Except.ok (self, mesh)

/-- The method `MeshRefinement::flag_elements_by_error_threshold`. -/
def flag_elements_by_error_threshold (sqrt : α → α)
    (create_parent_error_vector : MeshBase → List α → List α × α × α)
    (self : MeshRefinement α) (mesh : MeshBase) (error_per_cell_in : List α)
    (refine_threshold coarsen_threshold : α) (max_level : Nat) :
    Except Fault (MeshRefinement α × MeshBase) :=
  let self := if !self._use_member_parameters then { self with _max_h_level := max_level }
    else self
  let error_per_parent : List α :=
    if self._coarsen_by_parents then (create_parent_error_vector mesh error_per_cell_in).1
    else []
  match flag_active_elements
      (flag_elements_by_error_threshold_elem sqrt self mesh error_per_cell_in
        error_per_parent refine_threshold coarsen_threshold)
      mesh.active_elements mesh with
  | Except.error e => Except.error e
  | Except.ok mesh => Except.ok (self, mesh)

/-- The body of the loop of `flag_elements_by_mean_stddev` (lines 602-615). -/
def flag_elements_by_mean_stddev_elem (self : MeshRefinement α) (error_per_cell : List α)
    (refine_cutoff coarsen_cutoff : α) (id : Nat) (elem : Elem) : Except Fault Elem :=
  if id < error_per_cell.length then
    match read_error error_per_cell id with
    | Except.error e => Except.error e
    | Except.ok elem_error =>
      let elem :=
        if elem_error ≤ coarsen_cutoff then elem.set_refinement_flag RefinementState.COARSEN
        else elem
      let elem :=
        if elem_error ≥ refine_cutoff ∧ elem.level < self._max_h_level then
          elem.set_refinement_flag RefinementState.REFINE
        else elem
      Except.ok elem
  else Except.error Fault.assertion_failed

/-- The method `MeshRefinement::flag_elements_by_mean_stddev`; `mean` and `variance` are
the methods of `ErrorVector` of these names and `sqrt` is `std::sqrt`, all outside the
translated sources. -/
def flag_elements_by_mean_stddev (sqrt : α → α) (mean variance : List α → α)
    (self : MeshRefinement α) (mesh : MeshBase) (error_per_cell : List α)
    (refine_frac coarsen_frac : α) (max_l : Nat) :
    Except Fault (MeshRefinement α × MeshBase) :=
  let self := take_arguments self refine_frac coarsen_frac max_l
  let mean_value := mean error_per_cell
  let stddev := sqrt (variance error_per_cell)
  if ¬ (self._refine_fraction ≥ 0 ∧ self._refine_fraction ≤ 1) then
    Except.error Fault.assertion_failed
  else if ¬ (self._coarsen_fraction ≥ 0 ∧ self._coarsen_fraction ≤ 1) then
    Except.error Fault.assertion_failed
  else
    let refine_cutoff := mean_value + self._refine_fraction * stddev
    let coarsen_cutoff := max (mean_value - self._coarsen_fraction * stddev) 0
    match flag_active_elements
        (flag_elements_by_mean_stddev_elem self error_per_cell refine_cutoff coarsen_cutoff)
        mesh.active_elements mesh with
    | Except.error e => Except.error e
    | Except.ok mesh => Except.ok (self, mesh)

end MeshRefinement

end Genius

namespace Genius

namespace MeshRefinement

variable {α : Type} [LinearOrderedField α]

/-- The loop `for (unsigned int i=0; i!=dim; ++i) twotodim *= 2;` on the 32-bit unsigned
`twotodim`, which starts at `1`. -/
def twotodim (dim : Nat) : Nat :=
  (List.range dim).foldl (fun t _ => (t * 2) % 4294967296) 1

/-- The loop that pushes `error_per_cell[(*elem_it)->id()]` of every active element onto
`sorted_error` in `flag_elements_by_elem_fraction` (lines 487-488). -/
def flag_elements_by_elem_fraction_errors {α : Type} (error_per_cell : List α) :
    List Nat → List α → Except Fault (List α)
  | [], sorted_error => Except.ok sorted_error
  | id :: rest, sorted_error =>
    match read_error error_per_cell id with
    | Except.error e => Except.error e
    | Except.ok err =>
      flag_elements_by_elem_fraction_errors error_per_cell rest (sorted_error ++ [err])

/-- The value of `bottom_error` in `flag_elements_by_elem_fraction` (lines 520-535). -/
def flag_elements_by_elem_fraction_bottom_error (self : MeshRefinement α)
    (mesh_dimension n_elem_coarsen : Nat) (sorted_error sorted_parent_error : List α) :
    Except Fault α :=
  if self._coarsen_by_parents ∧ n_elem_coarsen ≠ 0 then
    let twotodim := twotodim mesh_dimension
    if (twotodim + 4294967295) % 4294967296 = 0 then Except.error Fault.division_by_zero
    else
      let n_parent_coarsen := n_elem_coarsen / ((twotodim + 4294967295) % 4294967296)
      if n_parent_coarsen ≠ 0 then read_error sorted_parent_error (n_parent_coarsen - 1)
      else Except.ok 0
  else if n_elem_coarsen ≠ 0 then read_error sorted_error (n_elem_coarsen - 1)
  else Except.ok 0

/-- The value of `top_error` in `flag_elements_by_elem_fraction` (lines 537-538); the
index `sorted_error.size() - n_elem_refine + 1` is computed in `size_t`. -/
def flag_elements_by_elem_fraction_top_error (n_elem_refine : Nat) (sorted_error : List α) :
    Except Fault α :=
  if n_elem_refine ≠ 0 then
    read_error sorted_error
      ((sorted_error.length + 18446744073709551616 - n_elem_refine + 1)
        % 18446744073709551616)
  else Except.ok 0

/-- The first test of the flagging loop of `flag_elements_by_elem_fraction` (lines
548-550). -/
def flag_elements_by_elem_fraction_coarsen_parent (self : MeshRefinement α)
    (error_per_parent : List α) (n_elem_coarsen : Nat) (bottom_error : α) (elem : Elem) :
    Except Fault Elem :=
  if self._coarsen_by_parents then
    match elem.parent with
    | some parent =>
      if n_elem_coarsen ≠ 0 then
        match read_error error_per_parent parent with
        | Except.error e => Except.error e
        | Except.ok parent_error =>
          if parent_error ≤ bottom_error then
            Except.ok (elem.set_refinement_flag RefinementState.COARSEN)
          else Except.ok elem
      else Except.ok elem
    | none => Except.ok elem
  else Except.ok elem

/-- The second test of the flagging loop of `flag_elements_by_elem_fraction` (lines
552-554). -/
def flag_elements_by_elem_fraction_coarsen_cell (self : MeshRefinement α)
    (error_per_cell : List α) (n_elem_coarsen : Nat) (bottom_error : α) (id : Nat)
    (elem : Elem) : Except Fault Elem :=
  if !self._coarsen_by_parents ∧ n_elem_coarsen ≠ 0 then
    match read_error error_per_cell id with
    | Except.error e => Except.error e
    | Except.ok err =>
      if err ≤ bottom_error then Except.ok (elem.set_refinement_flag RefinementState.COARSEN)
      else Except.ok elem
  else Except.ok elem

/-- The third test of the flagging loop of `flag_elements_by_elem_fraction` (lines
556-559). -/
def flag_elements_by_elem_fraction_refine (self : MeshRefinement α)
    (error_per_cell : List α) (n_elem_refine : Nat) (top_error : α) (id : Nat)
    (elem : Elem) : Except Fault Elem :=
  if n_elem_refine ≠ 0 ∧ elem.level < self._max_h_level then
    match read_error error_per_cell id with
    | Except.error e => Except.error e
    | Except.ok err =>
      if err ≥ top_error then Except.ok (elem.set_refinement_flag RefinementState.REFINE)
      else Except.ok elem
  else Except.ok elem

/-- The body of the flagging loop of `flag_elements_by_elem_fraction` (lines 545-559). -/
def flag_elements_by_elem_fraction_elem (self : MeshRefinement α)
    (error_per_cell error_per_parent : List α) (n_elem_coarsen n_elem_refine : Nat)
    (bottom_error top_error : α) (id : Nat) (elem : Elem) : Except Fault Elem :=
  match flag_elements_by_elem_fraction_coarsen_parent self error_per_parent n_elem_coarsen
      bottom_error elem with
  | Except.error e => Except.error e
  | Except.ok elem =>
    match flag_elements_by_elem_fraction_coarsen_cell self error_per_cell n_elem_coarsen
        bottom_error id elem with
    | Except.error e => Except.error e
    | Except.ok elem =>
      flag_elements_by_elem_fraction_refine self error_per_cell n_elem_refine top_error id elem

/-- The method `MeshRefinement::flag_elements_by_elem_fraction`; `mesh_dimension` is
`_mesh.mesh_dimension()`, the casts `static_cast<unsigned int>` of the products are the
integer parts, and `std::sort` sorts in ascending order. -/
def flag_elements_by_elem_fraction [FloorSemiring α]
    (create_parent_error_vector : MeshBase → List α → List α × α × α)
    (self : MeshRefinement α) (mesh : MeshBase) (mesh_dimension : Nat)
    (error_per_cell : List α) (refine_frac coarsen_frac : α) (max_l : Nat) :
    Except Fault (MeshRefinement α × MeshBase) :=
  let self := take_arguments self refine_frac coarsen_frac max_l
  if ¬ (self._refine_fraction ≥ 0 ∧ self._refine_fraction ≤ 1) then
    Except.error Fault.assertion_failed
  else if ¬ (self._coarsen_fraction ≥ 0 ∧ self._coarsen_fraction ≤ 1) then
    Except.error Fault.assertion_failed
  else
    let n_active_elem := mesh.n_elem
    let n_elem_coarsen := Nat.floor (self._coarsen_fraction * (n_active_elem : α))
    let n_elem_refine := Nat.floor (self._refine_fraction * (n_active_elem : α))
    let mesh := clean_refinement_flags mesh
    match flag_elements_by_elem_fraction_errors error_per_cell mesh.active_elements [] with
    | Except.error e => Except.error e
    | Except.ok unsorted =>
      let sorted_error := unsorted.insertionSort (fun a b => a ≤ b)
      let error_per_parent : List α :=
        if self._coarsen_by_parents then (create_parent_error_vector mesh error_per_cell).1
        else []
      let sorted_parent_error : List α :=
        (error_per_parent.insertionSort (fun a b => a ≤ b)).filter fun e => decide (e ≠ 0)
      match flag_elements_by_elem_fraction_bottom_error self mesh_dimension n_elem_coarsen
          sorted_error sorted_parent_error with
      | Except.error e => Except.error e
      | Except.ok bottom_error =>
        match flag_elements_by_elem_fraction_top_error n_elem_refine sorted_error with
        | Except.error e => Except.error e
        | Except.ok top_error =>
          match flag_active_elements
              (flag_elements_by_elem_fraction_elem self error_per_cell error_per_parent
                n_elem_coarsen n_elem_refine bottom_error top_error)
              mesh.active_elements mesh with
          | Except.error e => Except.error e
          | Except.ok mesh => Except.ok (self, mesh)

/-- The loop that pushes the pairs `(error_per_cell[eid], eid)` of the active elements
onto `sorted_error` in `flag_elements_by_nelem_target` (lines 313-319). -/
def flag_elements_by_nelem_target_errors {α : Type} (error_per_cell : List α) :
    List Nat → List (α × Nat) → Except Fault (List (α × Nat))
  | [], sorted_error => Except.ok sorted_error
  | eid :: rest, sorted_error =>
    if eid < error_per_cell.length then
      match read_error error_per_cell eid with
      | Except.error e => Except.error e
      | Except.ok err =>
        flag_elements_by_nelem_target_errors error_per_cell rest (sorted_error ++ [(err, eid)])
    else Except.error Fault.assertion_failed

/-- The loop that pushes the pairs `(error_per_parent[i], i)` with an error other than
`-1` onto `sorted_parent_error` (lines 338-340). -/
def flag_elements_by_nelem_target_parents (error_per_parent : List α) : List (α × Nat) :=
  ((error_per_parent.zip (List.range error_per_parent.length)).filter
    fun p => decide (p.1 ≠ -1))

/-- The loop `while (...) { coarsen_count++; refine_count++; }` that trades refinement for
coarsening (lines 372-381), on the pair `(coarsen_count, refine_count)`.  Every round
raises `refine_count`, which stays below `max_elem_refine`: the first argument bounds the
number of rounds and is `max_elem_refine - refine_count` at the start. -/
def flag_elements_by_nelem_target_trade (max_elem_coarsen max_elem_refine : Nat)
    (sorted_error sorted_parent_error : List (α × Nat)) (coarsen_threshold : α) :
    Nat → Nat × Nat → Nat × Nat
  | 0, counts => counts
  | rounds + 1, counts =>
    if counts.1 < max_elem_coarsen ∧ counts.2 < max_elem_refine then
      match sorted_parent_error[counts.1]?, sorted_error[counts.2]? with
      | some parent_error, some error =>
        if error.1 > parent_error.1 * coarsen_threshold then
          flag_elements_by_nelem_target_trade max_elem_coarsen max_elem_refine sorted_error
            sorted_parent_error coarsen_threshold rounds (counts.1 + 1, counts.2 + 1)
        else counts
      | _, _ => counts
    else counts

/-- The refinement loop of `flag_elements_by_nelem_target` (lines 386-398), on the mesh
and `successful_refine_count`; `_mesh.elem(eid)` stops the run for an address outside the
mesh. -/
def flag_elements_by_nelem_target_refine {α : Type} (max_h_level refine_count : Nat) :
    List (α × Nat) → MeshBase × Nat → Except Fault (MeshBase × Nat)
  | [], s => Except.ok s
  | p :: rest, s =>
    if s.2 ≥ refine_count then Except.ok s
    else
      let eid := p.2
      if eid < s.1.n_elem then
        let elem := s.1.elem eid
        if elem.level < max_h_level then
          flag_elements_by_nelem_target_refine max_h_level refine_count rest
            ({ s.1 with
                elem := Function.update s.1.elem eid
                  (elem.set_refinement_flag RefinementState.REFINE) },
              s.2 + 1)
        else flag_elements_by_nelem_target_refine max_h_level refine_count rest s
      else Except.error Fault.assertion_failed

/-- The loop over the children of a parent in the coarsening loop of
`flag_elements_by_nelem_target` (lines 417-425), on the mesh and
`successful_coarsen_count`. -/
def flag_elements_by_nelem_target_children : List Nat → MeshBase × Nat → MeshBase × Nat
  | [], s => s
  | c :: rest, s =>
    if (s.1.elem c).active then
      flag_elements_by_nelem_target_children rest
        ({ s.1 with
            elem := Function.update s.1.elem c
              ((s.1.elem c).set_refinement_flag RefinementState.COARSEN) },
          s.2 + 1)
    else flag_elements_by_nelem_target_children rest s

/-- The coarsening loop of `flag_elements_by_nelem_target` (lines 410-426), on the mesh
and `successful_coarsen_count`. -/
def flag_elements_by_nelem_target_coarsen {α : Type} (twotodim coarsen_count : Nat) :
    List (α × Nat) → MeshBase × Nat → Except Fault (MeshBase × Nat)
  | [], s => Except.ok s
  | p :: rest, s =>
    if s.2 ≥ (coarsen_count * twotodim) % 4294967296 then Except.ok s
    else
      let parent_id := p.2
      if parent_id < s.1.n_elem then
        flag_elements_by_nelem_target_coarsen twotodim coarsen_count rest
          (flag_elements_by_nelem_target_children (s.1.elem parent_id).children s)
      else Except.error Fault.assertion_failed

/-- The pair `(coarsen_count, refine_count)` of `flag_elements_by_nelem_target` after the
first guess, the trade of refinement for coarsening and the clamp of `refine_count` (lines
344-384); `n_elem_new` holds the 32 bits of the `int`, which is negative when they are
`2^31` or more, and `divisor` is `twotodim-1`. -/
def flag_elements_by_nelem_target_counts (n_elem_new divisor max_elem_coarsen
    max_elem_refine : Nat) (sorted_error sorted_parent_error : List (α × Nat))
    (coarsen_threshold : α) : Nat × Nat :=
  let counts : Nat × Nat :=
    if n_elem_new < 2147483648 then (0, min (n_elem_new / divisor) max_elem_refine)
    else (min ((4294967296 - n_elem_new) / divisor) max_elem_coarsen, 0)
  let counts := flag_elements_by_nelem_target_trade max_elem_coarsen max_elem_refine
    sorted_error sorted_parent_error coarsen_threshold (max_elem_refine - counts.2) counts
  (counts.1, if counts.2 > max_elem_refine then max_elem_refine else counts.2)

/-- The two flagging loops of `flag_elements_by_nelem_target` and the returned flag (lines
385-433), from the counts of the first part. -/
def flag_elements_by_nelem_target_loops {α : Type} (max_h_level twotodim max_elem_coarsen
    coarsen_count refine_count : Nat) (sorted_error sorted_parent_error : List (α × Nat))
    (mesh : MeshBase) : Except Fault (Bool × MeshBase) :=
  match flag_elements_by_nelem_target_refine max_h_level refine_count sorted_error
      (mesh, 0) with
  | Except.error e => Except.error e
  | Except.ok refined =>
    let successful_refine_count := refined.2
    let coarsen_count :=
      if coarsen_count < refine_count - successful_refine_count then 0
      else coarsen_count - (refine_count - successful_refine_count)
    let coarsen_count :=
      if coarsen_count > max_elem_coarsen then max_elem_coarsen else coarsen_count
    match flag_elements_by_nelem_target_coarsen twotodim coarsen_count sorted_parent_error
        (refined.1, 0) with
    | Except.error e => Except.error e
    | Except.ok coarsened =>
      let successful_coarsen_count := coarsened.2
      Except.ok
        (decide (successful_coarsen_count = 0 ∧ successful_refine_count = 0), coarsened.1)

/-- The method `MeshRefinement::flag_elements_by_nelem_target`: the returned flag and the
mesh after the call.  `mesh_dimension` is `_mesh.mesh_dimension()`, the number of active
elements is `_mesh.n_active_elem()`, the integers are 32-bit, and the pairs are sorted
lexicographically. -/
def flag_elements_by_nelem_target [FloorSemiring α]
    (create_parent_error_vector : MeshBase → List α → List α × α × α)
    (self : MeshRefinement α) (mesh : MeshBase) (mesh_dimension : Nat)
    (error_per_cell : List α) : Except Fault (Bool × MeshBase) :=
  if ¬ (self._refine_fraction ≥ 0 ∧ self._refine_fraction ≤ 1) then
    Except.error Fault.assertion_failed
  else if ¬ (self._coarsen_fraction ≥ 0 ∧ self._coarsen_fraction ≤ 1) then
    Except.error Fault.assertion_failed
  else if !self._coarsen_by_parents then Except.error Fault.assertion_failed
  else
    let n_active_elem := mesh.active_elements.length
    let max_elem_coarsen := uadd (Nat.floor (self._coarsen_fraction * (n_active_elem : α))) 1
    let max_elem_refine := uadd (Nat.floor (self._refine_fraction * (n_active_elem : α))) 1
    let mesh := clean_refinement_flags mesh
    let n_elem_new :=
      (self._nelem_target + 4294967296 - n_active_elem % 4294967296) % 4294967296
    match flag_elements_by_nelem_target_errors error_per_cell mesh.active_elements [] with
    | Except.error e => Except.error e
    | Except.ok unsorted =>
      let sorted_error :=
        (unsorted.insertionSort
          (fun a b => a.1 < b.1 ∨ (a.1 = b.1 ∧ a.2 ≤ b.2))).reverse
      let error_per_parent := (create_parent_error_vector mesh error_per_cell).1
      let sorted_parent_error :=
        (flag_elements_by_nelem_target_parents error_per_parent).insertionSort
          (fun a b => a.1 < b.1 ∨ (a.1 = b.1 ∧ a.2 ≤ b.2))
      let twotodim := twotodim mesh_dimension
      if (twotodim + 4294967295) % 4294967296 = 0 then Except.error Fault.division_by_zero
      else
        let counts := flag_elements_by_nelem_target_counts n_elem_new
          ((twotodim + 4294967295) % 4294967296) max_elem_coarsen max_elem_refine
          sorted_error sorted_parent_error self._coarsen_threshold
        flag_elements_by_nelem_target_loops self._max_h_level twotodim max_elem_coarsen
          counts.1 counts.2 sorted_error sorted_parent_error mesh

end MeshRefinement

end Genius

namespace Genius

namespace MeshRefinement

/-- What a flagging method may do to an element for the cap `max_h_level`: the level
stays, and the flag is `REFINE` afterwards only when it was `REFINE` before or the level
is below the cap. -/
def RefineGuarded (max_h_level : Nat) (e e' : Elem) : Prop :=
  e'.level = e.level ∧
    (e'.refinement_flag = RefinementState.REFINE →
      e.refinement_flag = RefinementState.REFINE ∨ e.level < max_h_level)

/-- The number of elements of the mesh whose h-refinement flag is `flag`. -/
def n_flagged (mesh : MeshBase) (flag : RefinementState) : Nat :=
  (List.range mesh.n_elem).countP fun i => decide ((mesh.elem i).refinement_flag = flag)

end MeshRefinement

end Genius

namespace Genius

namespace MeshRefinement

/-- Some element of the mesh is flagged `REFINE` or `COARSEN`. -/
def Flagged (mesh : MeshBase) : Prop :=
  ∃ i, i < mesh.n_elem ∧
    ((mesh.elem i).refinement_flag = RefinementState.REFINE ∨
      (mesh.elem i).refinement_flag = RefinementState.COARSEN)

/-- Every element whose h-refinement flag a call changes to `REFINE` has a level below
`max_h_level`; `mesh` is the mesh before the call and `mesh'` the mesh after it, and no
level changes. -/
def RefineChangesBelow (max_h_level : Nat) (mesh mesh' : MeshBase) : Prop :=
  ∀ i, (mesh'.elem i).level = (mesh.elem i).level ∧
    ((mesh'.elem i).refinement_flag = RefinementState.REFINE →
      (mesh.elem i).refinement_flag ≠ RefinementState.REFINE →
      (mesh'.elem i).level < max_h_level)

/-- Every element of the mesh that is flagged `REFINE` has a level below `max_h_level`. -/
def RefineFlagsBelow (max_h_level : Nat) (mesh : MeshBase) : Prop :=
  ∀ i, i < mesh.n_elem → (mesh.elem i).refinement_flag = RefinementState.REFINE →
    (mesh.elem i).level < max_h_level

end MeshRefinement

end Genius
namespace Genius

namespace MeshRefinement

/-- A sample mesh for the flagging methods: the inactive element `0` of level `0` with the
two active children `1` and `2` of level `1`, and the active element `3` of level `0`. -/
def sample_flagging_mesh : MeshBase where
  n_nodes := 4
  n_elem := 4
  elem := fun i =>
    if i = 0 then
      { level := 0, p_level := 0, refinement_flag := RefinementState.INACTIVE,
        p_refinement_flag := RefinementState.INACTIVE, active := false, nodes := [0, 2],
        n_edges := 1, build_edge := fun _ => (0, 2), parent := none, children := [1, 2] }
    else if i = 3 then
      { level := 0, p_level := 0, refinement_flag := RefinementState.REFINE,
        p_refinement_flag := RefinementState.DO_NOTHING, active := true, nodes := [2, 3],
        n_edges := 1, build_edge := fun _ => (2, 3), parent := none }
    else
      { level := 1, p_level := 0, refinement_flag := RefinementState.DO_NOTHING,
        p_refinement_flag := RefinementState.DO_NOTHING, active := true, nodes := [i - 1, i],
        n_edges := 1, build_edge := fun _ => (i - 1, i), parent := some 0 }

/-- A sample `MeshRefinement` object that takes the arguments of a call and coarsens by
parents when `coarsen_by_parents` is set. -/
def sample_refinement (coarsen_by_parents : Bool) : MeshRefinement ℚ where
  _use_member_parameters := false
  _coarsen_by_parents := coarsen_by_parents
  _refine_fraction := 1 / 2
  _coarsen_fraction := 1 / 2
  _max_h_level := 1
  _coarsen_threshold := 1
  _nelem_target := 5
  _absolute_global_tolerance := 1

/-- A sample of `create_parent_error_vector`: the error `3` for the parent `0` and `-1`
for the other elements. -/
def sample_parent_error_vector (_ : MeshBase) (_ : List ℚ) : List ℚ × ℚ × ℚ :=
  ([3, -1, -1, -1], 3, 3)

end MeshRefinement

end Genius
namespace Genius

namespace MeshRefinement

/-- A sample mesh of four active elements of level `0`. -/
def sample_uniform_mesh : MeshBase where
  n_nodes := 5
  n_elem := 4
  elem := fun i =>
    { level := 0, p_level := 0, refinement_flag := RefinementState.DO_NOTHING,
      p_refinement_flag := RefinementState.DO_NOTHING, active := true, nodes := [i, i + 1],
      n_edges := 1, build_edge := fun _ => (i, i + 1), parent := none }

/-- The h-refinement flags of the elements `0 .. n_elem-1` of a mesh. -/
def refinement_flags (mesh : MeshBase) : List RefinementState :=
  (List.range mesh.n_elem).map fun i => (mesh.elem i).refinement_flag

end MeshRefinement

end Genius

namespace Genius

namespace MeshRefinement

/-- The p-level that an element will have, `p_level() + p_adjustment` in 32-bit unsigned
arithmetic (lines 281-290 for `elem`, lines 323-331 for a neighbor): the adjustment is `1`
for the p-flag `REFINE`, and `-1` for the p-flag `COARSEN`, where `p_level() > 0` is
asserted. -/
def new_p_level (elem : Elem) : Except Fault Nat :=
  if elem.p_refinement_flag = RefinementState.REFINE then
    Except.ok ((elem.p_level + 1) % 4294967296)
  else if elem.p_refinement_flag = RefinementState.COARSEN then
    if elem.p_level > 0 then Except.ok ((elem.p_level + 4294967295) % 4294967296)
    else Except.error Fault.assertion_failed
  else Except.ok (elem.p_level % 4294967296)

/-- The condition of the h-test on a neighbor (lines 305-310), with the precedence of
`&&` over `||`. -/
def eliminate_unrefined_patches_h_test (h_flag_me : Bool) (my_level : Nat)
    (neighbor : Elem) : Bool :=
  (h_flag_me && decide (neighbor.level < my_level)) ||
    (neighbor.active && decide (neighbor.refinement_flag ≠ RefinementState.REFINE)) ||
    decide (neighbor.refinement_flag = RefinementState.COARSEN_INACTIVE)

/-- The condition of the p-test on a neighbor (lines 321-349);
`min_new_p_level_by_neighbor mesh neighbor elem current_min` is
`neighbor->min_new_p_level_by_neighbor(elem, current_min)`, a method of `Elem` outside the
translated sources. -/
def eliminate_unrefined_patches_p_test
    (min_new_p_level_by_neighbor : MeshBase → Nat → Nat → Nat → Nat) (mesh : MeshBase)
    (elem my_new_p_level nb : Nat) : Except Fault Bool :=
  if (mesh.elem nb).active then
    match new_p_level (mesh.elem nb) with
    | Except.error e => Except.error e
    | Except.ok neighbor_new_p_level =>
      Except.ok (decide (my_new_p_level ≥ neighbor_new_p_level))
  else
    Except.ok
      (decide (min_new_p_level_by_neighbor mesh nb elem (uadd my_new_p_level 2)
        ≤ my_new_p_level))

/-- The loop over the neighbors of `elem` (lines 293-351) on the pair
`(h_flag_me, p_flag_me)`; the list holds `elem->neighbor(n)` for the remaining `n`, with
`none` for `NULL`. -/
def eliminate_unrefined_patches_neighbors
    (min_new_p_level_by_neighbor : MeshBase → Nat → Nat → Nat → Nat) (mesh : MeshBase)
    (elem my_level my_new_p_level : Nat) :
    List (Option Nat) → Bool × Bool → Except Fault (Bool × Bool)
  | [], flags => Except.ok flags
  | none :: _, _ => Except.ok (false, false)
  | some nb :: rest, flags =>
    let h_test := eliminate_unrefined_patches_h_test flags.1 my_level (mesh.elem nb)
    let h_flag_me := if h_test then false else flags.1
    if h_test ∧ flags.2 = false then Except.ok (h_flag_me, flags.2)
    else if flags.2 then
      match eliminate_unrefined_patches_p_test min_new_p_level_by_neighbor mesh elem
          my_new_p_level nb with
      | Except.error e => Except.error e
      | Except.ok p_test =>
        if p_test then
          if h_flag_me = false then Except.ok (h_flag_me, false)
          else eliminate_unrefined_patches_neighbors min_new_p_level_by_neighbor mesh elem
            my_level my_new_p_level rest (h_flag_me, false)
        else eliminate_unrefined_patches_neighbors min_new_p_level_by_neighbor mesh elem
          my_level my_new_p_level rest (h_flag_me, flags.2)
    else eliminate_unrefined_patches_neighbors min_new_p_level_by_neighbor mesh elem
      my_level my_new_p_level rest (h_flag_me, flags.2)

/-- The loop over the children of a parent that should no longer coarsen (lines 359-364);
`elem->child(c)` is asserted to be flagged `COARSEN`. -/
def eliminate_unrefined_patches_children : List Nat → MeshBase → Except Fault MeshBase
  | [], mesh => Except.ok mesh
  | c :: rest, mesh =>
    if (mesh.elem c).refinement_flag = RefinementState.COARSEN then
      eliminate_unrefined_patches_children rest
        { mesh with
          elem := Function.update mesh.elem c
            ((mesh.elem c).set_refinement_flag RefinementState.DO_NOTHING) }
    else Except.error Fault.assertion_failed

/-- The statement `if (h_flag_me) ...` (lines 353-370) for the element at the address
`elem` when `h_flag_me` holds. -/
def eliminate_unrefined_patches_flag_h (mesh : MeshBase) (elem : Nat) :
    Except Fault MeshBase :=
  if (mesh.elem elem).refinement_flag = RefinementState.COARSEN_INACTIVE then
    match eliminate_unrefined_patches_children (mesh.elem elem).children mesh with
    | Except.error e => Except.error e
    | Except.ok mesh =>
      Except.ok
        { mesh with
          elem := Function.update mesh.elem elem
            ((mesh.elem elem).set_refinement_flag RefinementState.INACTIVE) }
  else
    Except.ok
      { mesh with
        elem := Function.update mesh.elem elem
          ((mesh.elem elem).set_refinement_flag RefinementState.REFINE) }

/-- The statement `if (p_flag_me) ...` (lines 371-378) for the element at the address
`elem` when `p_flag_me` holds. -/
def eliminate_unrefined_patches_flag_p (mesh : MeshBase) (elem : Nat) : MeshBase :=
  if (mesh.elem elem).p_refinement_flag = RefinementState.COARSEN then
    { mesh with
      elem := Function.update mesh.elem elem
        ((mesh.elem elem).set_p_refinement_flag RefinementState.DO_NOTHING) }
  else
    { mesh with
      elem := Function.update mesh.elem elem
        ((mesh.elem elem).set_p_refinement_flag RefinementState.REFINE) }

/-- The body of the loop of `eliminate_unrefined_patches` from line 280 on, for the
element at the address `elem` and the first values of `h_flag_me` and `p_flag_me`: the
mesh afterwards and whether `flags_changed` was set. -/
def eliminate_unrefined_patches_test
    (min_new_p_level_by_neighbor : MeshBase → Nat → Nat → Nat → Nat) (mesh : MeshBase)
    (elem : Nat) (h_flag_me p_flag_me : Bool) : Except Fault (MeshBase × Bool) :=
  match new_p_level (mesh.elem elem) with
  | Except.error e => Except.error e
  | Except.ok my_new_p_level =>
    match eliminate_unrefined_patches_neighbors min_new_p_level_by_neighbor mesh elem
        (mesh.elem elem).level my_new_p_level (mesh.elem elem).neighbors
        (h_flag_me, p_flag_me) with
    | Except.error e => Except.error e
    | Except.ok flags =>
      match (if flags.1 then eliminate_unrefined_patches_flag_h mesh elem
          else Except.ok mesh) with
      | Except.error e => Except.error e
      | Except.ok mesh =>
        Except.ok
          (if flags.2 then eliminate_unrefined_patches_flag_p mesh elem else mesh,
            flags.1 || flags.2)

/-- The body of the loop of `eliminate_unrefined_patches` (lines 252-378) for the active
element at the address `id`: the mesh afterwards and whether `flags_changed` was set. -/
def eliminate_unrefined_patches_elem
    (min_new_p_level_by_neighbor : MeshBase → Nat → Nat → Nat → Nat) (mesh : MeshBase)
    (id : Nat) : Except Fault (MeshBase × Bool) :=
  let p_flag_me := decide ((mesh.elem id).p_refinement_flag ≠ RefinementState.REFINE)
  if (mesh.elem id).refinement_flag = RefinementState.REFINE then
    if p_flag_me = false then Except.ok (mesh, false)
    else eliminate_unrefined_patches_test min_new_p_level_by_neighbor mesh id false p_flag_me
  else if (mesh.elem id).refinement_flag = RefinementState.COARSEN then
    match (mesh.elem id).parent with
    | none => Except.error Fault.assertion_failed
    | some parent =>
      if (mesh.elem parent).refinement_flag ≠ RefinementState.COARSEN_INACTIVE then
        Except.ok (mesh, false)
      else eliminate_unrefined_patches_test min_new_p_level_by_neighbor mesh parent true false
  else eliminate_unrefined_patches_test min_new_p_level_by_neighbor mesh id true p_flag_me

/-- The loop of `eliminate_unrefined_patches` over the active elements, on the mesh and
`flags_changed`. -/
def eliminate_unrefined_patches_loop
    (min_new_p_level_by_neighbor : MeshBase → Nat → Nat → Nat → Nat) :
    List Nat → MeshBase × Bool → Except Fault (MeshBase × Bool)
  | [], s => Except.ok s
  | id :: rest, s =>
    match eliminate_unrefined_patches_elem min_new_p_level_by_neighbor s.1 id with
    | Except.error e => Except.error e
    | Except.ok r =>
      eliminate_unrefined_patches_loop min_new_p_level_by_neighbor rest (r.1, s.2 || r.2)

/-- The method `MeshRefinement::eliminate_unrefined_patches`: the returned `flags_changed`
and the mesh after the call. -/
def eliminate_unrefined_patches
    (min_new_p_level_by_neighbor : MeshBase → Nat → Nat → Nat → Nat) (mesh : MeshBase) :
    Except Fault (Bool × MeshBase) :=
  match eliminate_unrefined_patches_loop min_new_p_level_by_neighbor mesh.active_elements
      (mesh, false) with
  | Except.error e => Except.error e
  | Except.ok s => Except.ok (s.2, s.1)

/-- The neighbors of the element at the address `i` leave it an island of the mesh: each
`neighbor(n)` is an element (not `NULL`) at least as refined as the element, not flagged
`COARSEN_INACTIVE`, and either inactive or active and flagged `REFINE`. -/
def IslandNeighbors (mesh : MeshBase) (i : Nat) : Prop :=
  ∀ nb ∈ (mesh.elem i).neighbors, ∃ j, nb = some j ∧
    (mesh.elem j).level ≥ (mesh.elem i).level ∧
    (mesh.elem j).refinement_flag ≠ RefinementState.COARSEN_INACTIVE ∧
    ((mesh.elem j).active = false ∨
      ((mesh.elem j).active = true ∧
        (mesh.elem j).refinement_flag = RefinementState.REFINE))

/-- A sample mesh with an unrefined island: the element `0` is flagged `DO_NOTHING` and
lies between the elements `1` and `2`, which are flagged `REFINE` and lie on the boundary. -/
def sample_island_mesh : MeshBase where
  n_nodes := 4
  n_elem := 3
  elem := fun i =>
    if i = 0 then
      { level := 0, p_level := 0, refinement_flag := RefinementState.DO_NOTHING,
        p_refinement_flag := RefinementState.DO_NOTHING, active := true, nodes := [1, 2],
        n_edges := 1, build_edge := fun _ => (1, 2), parent := none,
        neighbors := [some 1, some 2] }
    else
      { level := 0, p_level := 0, refinement_flag := RefinementState.REFINE,
        p_refinement_flag := RefinementState.DO_NOTHING, active := true,
        nodes := [2 * i - 2, 2 * i - 1], n_edges := 1,
        build_edge := fun _ => (2 * i - 2, 2 * i - 1), parent := none,
        neighbors := [some 0, none] }

end MeshRefinement

end Genius

namespace Genius

namespace MeshRefinement

/-- What `eliminate_unrefined_patches` may do to an element: the level, `active()` and the
neighbors stay, a flag `REFINE` stays, and the flag is `COARSEN_INACTIVE` afterwards only
when it was before. -/
def KeepsRefine (e e' : Elem) : Prop :=
  e'.level = e.level ∧ e'.active = e.active ∧ e'.neighbors = e.neighbors ∧
    (e.refinement_flag = RefinementState.REFINE →
      e'.refinement_flag = RefinementState.REFINE) ∧
    (e'.refinement_flag = RefinementState.COARSEN_INACTIVE →
      e.refinement_flag = RefinementState.COARSEN_INACTIVE)

end MeshRefinement

end Genius

/-! # Theorems -/

namespace Genius

namespace FVM_Insulator_NodeData

/-- C1 (as the claim states it, refuted): on the sample node, whose lattice temperature
is 300, the kind `E_TEMP` is not valid and `get_variable` still returns 300, not 0. -/
theorem get_variable_invalid_kind_nonzero :
    is_variable_valid SolutionVariable.E_TEMP = false ∧
      get_variable sample_size sample SolutionVariable.E_TEMP = 300 ∧
      get_variable sample_size sample SolutionVariable.E_TEMP ≠ 0 := by
  refine ⟨rfl, rfl, ?_⟩
  show (300 : ℚ) ≠ 0
  norm_num

/-- C1 (amended): for every state and every kind that `is_variable_valid` rejects,
`get_variable` returns 0 for `ELECTRON`, `HOLE` and every kind outside the `switch`,
the lattice temperature for `E_TEMP` and `H_TEMP`, the potential for `QFN` and `QFP`,
and the size of the stored field vector for `E_FIELD`. -/
theorem get_variable_of_invalid_kind {α : Type} [Zero α] (size : VectorValue α → α)
    (s : FVM_Insulator_NodeData α) (k : SolutionVariable)
    (hk : is_variable_valid k = false) :
    get_variable size s k =
      (if k = SolutionVariable.E_FIELD then size (s._vecctor_value InsulatorAuxVecData._E_)
       else if k = SolutionVariable.E_TEMP ∨ k = SolutionVariable.H_TEMP then s.T
       else if k = SolutionVariable.QFN ∨ k = SolutionVariable.QFP then s.psi
       else 0) := by
  cases k <;> simp_all [get_variable, is_variable_valid]

/-- C1 (amended), at a concrete input: `ELECTRON` on the sample node reads 0. -/
theorem get_variable_of_invalid_kind_witness :
    is_variable_valid SolutionVariable.ELECTRON = false ∧
      get_variable sample_size sample SolutionVariable.ELECTRON = 0 :=
  ⟨rfl, by
    have h := get_variable_of_invalid_kind sample_size sample SolutionVariable.ELECTRON rfl
    simpa using h⟩

/-- C2 (the code at the failing input): `set_variable(POTENTIAL, 1)` on the sample node
(potential 0, lattice temperature 300) stores 1 as potential and also overwrites the
lattice temperature with 1, because the `POTENTIAL` case falls through into the
`TEMPERATURE` case. -/
theorem set_variable_potential_overwrites_temperature :
    sample.T = 300 ∧
      (set_variable sample SolutionVariable.POTENTIAL 1).psi = 1 ∧
      (set_variable sample SolutionVariable.POTENTIAL 1).T = 1 ∧
      (set_variable sample SolutionVariable.POTENTIAL 1).T ≠ sample.T := by
  refine ⟨rfl, ?_, ?_, ?_⟩ <;>
    simp [set_variable, set_psi, set_T, psi, T, sample, Function.update]

/-- C3: for every state, every kind that `is_variable_valid` rejects and every value,
`set_variable` returns the state it was given: no scalar, auxiliary, complex or
vector value changes. -/
theorem set_variable_invalid_kind_noop {α : Type} (s : FVM_Insulator_NodeData α)
    (k : SolutionVariable) (v : α) (hk : is_variable_valid k = false) :
    set_variable s k v = s := by
  cases k <;> simp_all [set_variable, is_variable_valid]

/-- C3, at a concrete input: writing 7 as `ELECTRON` leaves the sample node as it was. -/
theorem set_variable_invalid_kind_noop_witness :
    is_variable_valid SolutionVariable.ELECTRON = false ∧
      set_variable sample SolutionVariable.ELECTRON 7 = sample :=
  ⟨rfl, set_variable_invalid_kind_noop sample SolutionVariable.ELECTRON 7 rfl⟩

end FVM_Insulator_NodeData

namespace FVM_Node

/-- The loop of `ghost_fvm_node`, started with `1 <= i < 2 ^ 32`, stops only when `i`
has wrapped around to `0`: it advances the iterator `2 ^ 32 - i` times. -/
theorem ghost_fvm_node_loop_eq (k : Nat) :
    ∀ i it : Nat, 0 < i → i < 4294967296 → 4294967296 - i = k →
      ghost_fvm_node_loop i it = it + k := by
  induction k with
  | zero => intro i it h0 h1 hk; omega
  | succ k ih =>
    intro i it h0 h1 hk
    rw [ghost_fvm_node_loop]
    have hmod : i % 4294967296 = i := Nat.mod_eq_of_lt h1
    rw [if_pos (by omega)]
    by_cases hlast : i + 1 = 4294967296
    · have hk0 : k = 0 := by omega
      subst hk0
      rw [hlast, Nat.mod_self, ghost_fvm_node_loop]
      simp
    · have hlt : i + 1 < 4294967296 := by omega
      rw [Nat.mod_eq_of_lt hlt, ih (i + 1) (it + 1) (by omega) hlt (by omega)]
      omega

/-- With index `0` the loop of `ghost_fvm_node` does not run. -/
theorem ghost_fvm_node_loop_zero (it : Nat) : ghost_fvm_node_loop 0 it = it := by
  rw [ghost_fvm_node_loop]
  simp

/-- C4 (the code at the failing input): on the node with the two peers 100 and 200,
index 1 is below `n_ghost_node() = 2` and the entry of index 1 has key 200, but
`ghost_fvm_node(1)` advances the iterator `2 ^ 32 - 1` times, far beyond the end of
the map, and yields no entry; only index 0 gives the announced key. -/
theorem ghost_fvm_node_index_one_misses :
    n_ghost_node two_ghosts = some 2 ∧
      ith_ghost_key two_ghosts 1 = some 200 ∧
      ghost_fvm_node_loop 1 0 = 4294967295 ∧
      ghost_fvm_node two_ghosts 1 = none ∧
      ghost_fvm_node two_ghosts 0 = some 100 := by
  have h1 : ghost_fvm_node_loop 1 0 = 4294967295 := by
    rw [ghost_fvm_node_loop_eq 4294967295 1 0 (by omega) (by omega) (by omega)]
  refine ⟨rfl, rfl, h1, ?_, ?_⟩
  · simp [ghost_fvm_node, two_ghosts, h1]
  · simp [ghost_fvm_node, two_ghosts, ghost_fvm_node_loop_zero]

/-- C5: `is_valid()` holds exactly when both offsets differ from `invalid_uint`; after
assigning only the global offset of a node whose local offset is unassigned, or only
the local offset of a node whose global offset is unassigned, `is_valid()` is false. -/
theorem is_valid_iff_both_offsets_assigned {α : Type} (n : FVM_Node α) (pos : Nat) :
    (is_valid n = true ↔ n._global_offset ≠ invalid_uint ∧ n._local_offset ≠ invalid_uint) ∧
      (n._local_offset = invalid_uint → is_valid (n.set_global_offset pos) = false) ∧
      (n._global_offset = invalid_uint → is_valid (n.set_local_offset pos) = false) := by
  refine ⟨?_, ?_, ?_⟩
  · simp [is_valid]
  · intro h
    simp [is_valid, set_global_offset, h]
  · intro h
    simp [is_valid, set_local_offset, h]

/-- C5, at a concrete input: a fresh node is not valid, stays invalid after only one of
the two offsets has been assigned, and is valid after both have been. -/
theorem is_valid_iff_both_offsets_assigned_witness :
    is_valid (fresh.set_global_offset 0) = false ∧
      is_valid (fresh.set_local_offset 0) = false ∧
      is_valid ((fresh.set_global_offset 0).set_local_offset 3) = true :=
  ⟨(is_valid_iff_both_offsets_assigned fresh 0).2.1 rfl,
    (is_valid_iff_both_offsets_assigned fresh 0).2.2 rfl,
    ((is_valid_iff_both_offsets_assigned
      ((fresh.set_global_offset 0).set_local_offset 3) 0).1).2 ⟨by decide, by decide⟩⟩

end FVM_Node

end Genius

namespace Genius

namespace Mix3Solver

open SolutionVariable

/-! ## Loops over nodes and regions: what they leave alone, what they establish -/

/-- A loop whose body only writes slots of its own item leaves every other slot alone. -/
theorem foldl_get_frame {α σ ι : Type} (get : σ → Nat → α) (step : σ → ι → σ)
    (S : ι → List Nat)
    (hframe : ∀ s it j, j ∉ S it → get (step s it) j = get s j) :
    ∀ (l : List ι) (s : σ) (j : Nat), (∀ it ∈ l, j ∉ S it) →
      get (l.foldl step s) j = get s j := by
  intro l
  induction l with
  | nil => intro s j _; rfl
  | cons a t ih =>
    intro s j hj
    rw [List.foldl_cons, ih (step s a) j (fun it hit => hj it (List.mem_cons_of_mem a hit))]
    exact hframe s a j (hj a (List.mem_cons_self a t))

/-- A loop over items with pairwise disjoint slot lists: what the body establishes for
an item, in terms of the item's slots, still holds when the loop ends. -/
theorem foldl_get_post {α σ ι : Type} (get : σ → Nat → α) (step : σ → ι → σ)
    (S : ι → List Nat) (P : ι → (Nat → α) → Prop)
    (hframe : ∀ s it j, j ∉ S it → get (step s it) j = get s j)
    (hpost : ∀ s it, (S it).Nodup → P it (get (step s it)))
    (hdep : ∀ it w w', (∀ j ∈ S it, w j = w' j) → P it w → P it w') :
    ∀ (l : List ι) (s : σ), (l.flatMap S).Nodup →
      ∀ it ∈ l, P it (get (l.foldl step s)) := by
  intro l
  induction l with
  | nil => intro s _ it hit; cases hit
  | cons a t ih =>
    intro s hnd it hit
    rw [List.flatMap_cons, List.nodup_append] at hnd
    obtain ⟨hna, hnt, hdisj⟩ := hnd
    rw [List.foldl_cons]
    rcases List.mem_cons.1 hit with rfl | hmem
    · refine hdep it (get (step s it)) _ ?_ (hpost s it hna)
      intro j hj
      symm
      refine foldl_get_frame get step S hframe t (step s it) j ?_
      intro b hb hjb
      exact hdisj hj (List.mem_flatMap.2 ⟨b, hb, hjb⟩)
    · exact ih (step s a) hnt it hmem

/-- The region loop: a slot that belongs to no node of a semiconductor region keeps its
value. -/
theorem regions_foldl_frame {α σ : Type} (get : σ → Nat → α)
    (stepN : SimulationRegion α → σ → FVM_Node α → σ)
    (S : SimulationRegion α → FVM_Node α → List Nat)
    (hframe : ∀ r s n j, j ∉ S r n → get (stepN r s n) j = get s j)
    (regions : List (SimulationRegion α)) (s : σ) (j : Nat)
    (hj : ∀ r ∈ regions, r.type = SimulationRegionType.SemiconductorRegion →
      ∀ n ∈ r.nodes, j ∉ S r n) :
    get (regions.foldl
      (fun s r =>
        if r.type ≠ SimulationRegionType.SemiconductorRegion then s
        else r.nodes.foldl (stepN r) s) s) j = get s j := by
  refine foldl_get_frame get _
    (fun r => if r.type ≠ SimulationRegionType.SemiconductorRegion then []
      else r.nodes.flatMap (S r)) ?_ regions s j ?_
  · intro s r j hjr
    by_cases hr : r.type = SimulationRegionType.SemiconductorRegion
    · simp only [hr, ne_eq, not_true_eq_false, if_false] at hjr ⊢
      refine foldl_get_frame get (stepN r) (S r) (hframe r) r.nodes s j ?_
      intro n hn hjn
      exact hjr (List.mem_flatMap.2 ⟨n, hn, hjn⟩)
    · simp [hr]
  · intro r hr hjr
    by_cases hty : r.type = SimulationRegionType.SemiconductorRegion
    · simp only [hty, ne_eq, not_true_eq_false, if_false] at hjr
      obtain ⟨n, hn, hjn⟩ := List.mem_flatMap.1 hjr
      exact hj r hr hty n hn hjn
    · simp [hty] at hjr

/-- The region loop over a layout with pairwise distinct slots: what the body
establishes at a node still holds when all regions are done. -/
theorem regions_foldl_post {α σ : Type} (get : σ → Nat → α)
    (stepN : SimulationRegion α → σ → FVM_Node α → σ) (self : Nat)
    (P : SimulationRegion α → FVM_Node α → (Nat → α) → Prop)
    (hframe : ∀ r s n j, j ∉ node_slots self r n → get (stepN r s n) j = get s j)
    (hpost : ∀ r s n, (node_slots self r n).Nodup → P r n (get (stepN r s n)))
    (hdep : ∀ r n w w', (∀ j ∈ node_slots self r n, w j = w' j) → P r n w → P r n w')
    (regions : List (SimulationRegion α)) (s : σ)
    (hnd : (regions.flatMap (region_slots self)).Nodup) :
    ∀ r ∈ regions, r.type = SimulationRegionType.SemiconductorRegion →
      ∀ n ∈ r.nodes,
        P r n (get (regions.foldl
          (fun s r =>
            if r.type ≠ SimulationRegionType.SemiconductorRegion then s
            else r.nodes.foldl (stepN r) s) s)) := by
  intro r hr hty n hn
  have key := foldl_get_post get
    (fun s r =>
      if r.type ≠ SimulationRegionType.SemiconductorRegion then s
      else r.nodes.foldl (stepN r) s)
    (region_slots self)
    (fun r w => r.type = SimulationRegionType.SemiconductorRegion → ∀ n ∈ r.nodes, P r n w)
    ?_ ?_ ?_ regions s hnd r hr
  · exact key hty n hn
  · intro s r j hjr
    by_cases hr : r.type = SimulationRegionType.SemiconductorRegion
    · simp only [region_slots, hr, ne_eq, not_true_eq_false, if_false] at hjr ⊢
      refine foldl_get_frame get (stepN r) (node_slots self r) (hframe r) r.nodes s j ?_
      intro n hn hjn
      exact hjr (List.mem_flatMap.2 ⟨n, hn, hjn⟩)
    · simp [hr]
  · intro s r hndr hty n hn
    simp only [region_slots, hty, ne_eq, not_true_eq_false, if_false] at hndr ⊢
    exact foldl_get_post get (stepN r) (node_slots self r) (P r) (hframe r) (hpost r)
      (hdep r) r.nodes s hndr n hn
  · intro r w w' hww hP hty n hn
    refine hdep r n w w' ?_ (hP hty n hn)
    intro j hj
    refine hww j ?_
    simp only [region_slots, hty, ne_eq, not_true_eq_false, if_false]
    exact List.mem_flatMap.2 ⟨n, hn, hj⟩

variable {α : Type} [LinearOrderedField α]

/-! ## Elementary facts -/

theorem raise_to_ne (ww : Nat → α) (i : Nat) (v : α) {j : Nat} (h : j ≠ i) :
    raise_to ww i v j = ww j := by
  unfold raise_to
  split_ifs
  · exact Function.update_noteq h v ww
  · rfl

theorem raise_to_self (ww : Nat → α) (i : Nat) (v : α) : v ≤ raise_to ww i v i := by
  unfold raise_to
  split_ifs with h
  · simp
  · exact not_lt.1 h

theorem raise_to_mono (ww : Nat → α) (i : Nat) (v : α) (j : Nat) :
    ww j ≤ raise_to ww i v j := by
  unfold raise_to
  split_ifs with h
  · by_cases hj : j = i
    · subst hj
      simpa using h.le
    · rw [Function.update_noteq hj]
  · exact le_rfl

theorem raise_to_if_ne (b : Bool) (ww : Nat → α) (i : Nat) (v : α) {j : Nat}
    (h : b = true → j ≠ i) : (if b = true then raise_to ww i v else ww) j = ww j := by
  split_ifs with hb
  · exact raise_to_ne ww i v (h hb)
  · rfl

theorem raise_to_if_mono (b : Bool) (ww : Nat → α) (i : Nat) (v : α) (j : Nat) :
    ww j ≤ (if b = true then raise_to ww i v else ww) j := by
  split_ifs
  · exact raise_to_mono ww i v j
  · exact le_rfl

/-- In a duplicate-free concatenation of slot lists, a slot has one owner. -/
theorem flatMap_nodup_owner {ι : Type} (S : ι → List Nat) (l : List ι)
    (h : (l.flatMap S).Nodup) {a b : ι} (ha : a ∈ l) (hb : b ∈ l) {j : Nat}
    (hja : j ∈ S a) (hjb : j ∈ S b) : a = b := by
  by_contra hne
  have hpw := (List.nodup_flatMap.1 h).2
  have hsymm : Symmetric (Function.onFun List.Disjoint S) := fun _ _ hxy => List.Disjoint.symm hxy
  exact (hpw.forall hsymm ha hb hne) hja hjb

theorem clamp_slots_subset {α : Type} (self : Nat) (r : SimulationRegion α) (n : FVM_Node α) {j : Nat}
    (h : j ∈ clamp_slots self r n) : j ∈ node_slots self r n :=
  List.mem_append_right _ h

theorem psi_slots_subset {α : Type} (self : Nat) (r : SimulationRegion α) (n : FVM_Node α) {j : Nat}
    (h : j ∈ psi_slots self r n) : j ∈ node_slots self r n :=
  List.mem_append_left _ h

/-- In a layout with pairwise distinct slots the slots of one treated node are
pairwise distinct. -/
theorem node_slots_nodup {α : Type} (sys : SimulationSystem α) (hnd : (system_slots sys).Nodup)
    {r : SimulationRegion α} {n : FVM_Node α} (hT : Treated sys r n) :
    (node_slots sys.processor_id r n).Nodup := by
  obtain ⟨hr, hty, hn, _⟩ := hT
  have h1 := (List.nodup_flatMap.1 hnd).1 r hr
  simp only [region_slots, hty, ne_eq, not_true_eq_false, if_false] at h1
  exact (List.nodup_flatMap.1 h1).1 n hn

/-- In a layout with pairwise distinct slots a slot belongs to one treated node only. -/
theorem treated_slot_owner {α : Type} (sys : SimulationSystem α) (hnd : (system_slots sys).Nodup)
    {r r' : SimulationRegion α} {n n' : FVM_Node α}
    (hT : Treated sys r n) (hT' : Treated sys r' n') {j : Nat}
    (hj : j ∈ node_slots sys.processor_id r n) (hj' : j ∈ node_slots sys.processor_id r' n') :
    r = r' ∧ n = n' := by
  obtain ⟨hr, hty, hn, _⟩ := hT
  obtain ⟨hr', hty', hn', _⟩ := hT'
  have hjr : j ∈ region_slots sys.processor_id r := by
    simp only [region_slots, hty, ne_eq, not_true_eq_false, if_false]
    exact List.mem_flatMap.2 ⟨n, hn, hj⟩
  have hjr' : j ∈ region_slots sys.processor_id r' := by
    simp only [region_slots, hty', ne_eq, not_true_eq_false, if_false]
    exact List.mem_flatMap.2 ⟨n', hn', hj'⟩
  have hrr : r = r' := flatMap_nodup_owner _ sys.regions hnd hr hr' hjr hjr'
  subst hrr
  refine ⟨rfl, ?_⟩
  have h1 := (List.nodup_flatMap.1 hnd).1 r hr
  simp only [region_slots, hty, ne_eq, not_true_eq_false, if_false] at h1
  exact flatMap_nodup_owner _ r.nodes h1 hn hn' hj hj'

/-- In a layout with pairwise distinct slots, a clamped slot of a treated node is the
potential slot of no node of a semiconductor region. -/
theorem clamp_slot_not_psi_slot {α : Type} (sys : SimulationSystem α) (hnd : (system_slots sys).Nodup)
    {r : SimulationRegion α} {n : FVM_Node α} (hT : Treated sys r n) {j : Nat}
    (hj : j ∈ clamp_slots sys.processor_id r n) :
    ∀ r' ∈ sys.regions, r'.type = SimulationRegionType.SemiconductorRegion →
      ∀ n' ∈ r'.nodes, j ∉ psi_slots sys.processor_id r' n' := by
  intro r' hr' hty' n' hn' hj'
  have hsk : skipped sys.processor_id n' = false := by
    by_contra hs
    simp only [Bool.not_eq_false] at hs
    simp [psi_slots, hs] at hj'
  have hT' : Treated sys r' n' := ⟨hr', hty', hn', hsk⟩
  obtain ⟨hrr, hnn⟩ := treated_slot_owner sys hnd hT hT'
    (clamp_slots_subset _ r n hj) (psi_slots_subset _ r' n' hj')
  subst hrr
  subst hnn
  have hnode := node_slots_nodup sys hnd hT
  unfold node_slots at hnode
  exact (List.nodup_append.1 hnode).2.2 hj' hj

/-! ## The first pass of `potential_damping` -/

/-- The first pass writes nothing but clamped slots of the node it visits. -/
theorem potential_damping_node_frame (u : PhysicalUnit α) (T_external : α) (self : Nat)
    (r : SimulationRegion α) (yy : Nat → α) (st : α × (Nat → α)) (n : FVM_Node α) (j : Nat)
    (hj : j ∉ clamp_slots self r n) :
    (potential_damping_node u T_external self r yy st n).2 j = st.2 j := by
  unfold potential_damping_node
  cases hs : skipped self n
  · simp only [clamp_slots, hs, clamped_variables, Bool.false_eq_true, if_false, List.mem_map,
      List.mem_append, List.mem_cons, not_exists, not_and] at hj
    have hn : j ≠ slot r n ELECTRON := fun h => hj ELECTRON (by simp) h.symm
    have hp : j ≠ slot r n HOLE := fun h => hj HOLE (by simp) h.symm
    have hTl : r.get_advanced_model.enable_Tl = true → j ≠ slot r n TEMPERATURE :=
      fun hb h => hj TEMPERATURE (by simp [hb]) h.symm
    have hTn : r.get_advanced_model.enable_Tn = true → j ≠ slot r n E_TEMP :=
      fun hb h => hj E_TEMP (by simp [hb]) h.symm
    have hTp : r.get_advanced_model.enable_Tp = true → j ≠ slot r n H_TEMP :=
      fun hb h => hj H_TEMP (by simp [hb]) h.symm
    simp only [Bool.false_eq_true, if_false]
    unfold slot at hn hp hTl hTn hTp
    rw [raise_to_if_ne _ _ _ _ hTp, raise_to_if_ne _ _ _ _ hTn, raise_to_if_ne _ _ _ _ hTl,
      raise_to_ne _ _ _ hp, raise_to_ne _ _ _ hn]
  · simp

/-- The slots of the live variables of a treated node are the images of the kinds:
distinct kinds have distinct slots when the node's slots are duplicate-free. -/
theorem slot_ne_of_nodup {α : Type} (self : Nat) (r : SimulationRegion α) (n : FVM_Node α)
    (hs : skipped self n = false) (hnd : (node_slots self r n).Nodup)
    {a b : SolutionVariable} (ha : a ∈ POTENTIAL :: clamped_variables r)
    (hb : b ∈ POTENTIAL :: clamped_variables r) (hab : a ≠ b) :
    slot r n a ≠ slot r n b := by
  have hmap : node_slots self r n = (POTENTIAL :: clamped_variables r).map (slot r n) := by
    simp [node_slots, psi_slots, clamp_slots, hs]
  rw [hmap] at hnd
  intro h
  exact hab (List.inj_on_of_nodup_map hnd ha hb h)

/-- The chain of floor statements of the damping loops, on an abstract array: the
density floors, then the lattice floor, then the two carrier-temperature floors. -/
theorem clamp_chain_floors (one T fl : α) (w0 : Nat → α) (bl bn bp : Bool)
    (n p tl tn tp : Nat)
    (hn_tn : bn = true → n ≠ tn) (hn_tp : bp = true → n ≠ tp) (hp_tp : bp = true → p ≠ tp) :
    let w1 := raise_to w0 n one
    let w2 := raise_to w1 p one
    let w3 := if bl = true then raise_to w2 tl fl else w2
    let w4 := if bn = true then raise_to w3 tn (9 / 10 * w3 n * T) else w3
    let w5 := if bp = true then raise_to w4 tp (9 / 10 * w4 p * T) else w4
    one ≤ w5 n ∧ one ≤ w5 p ∧ (bl = true → fl ≤ w5 tl) ∧
      (bn = true → 9 / 10 * T * w5 n ≤ w5 tn) ∧ (bp = true → 9 / 10 * T * w5 p ≤ w5 tp) := by
  intro w1 w2 w3 w4 w5
  have h12 : ∀ j, w1 j ≤ w2 j := fun j => raise_to_mono w1 p one j
  have h23 : ∀ j, w2 j ≤ w3 j := fun j => raise_to_if_mono bl w2 tl fl j
  have h34 : ∀ j, w3 j ≤ w4 j := fun j => raise_to_if_mono bn w3 tn _ j
  have h45 : ∀ j, w4 j ≤ w5 j := fun j => raise_to_if_mono bp w4 tp _ j
  refine ⟨?_, ?_, ?_, ?_, ?_⟩
  · exact (raise_to_self w0 n one).trans ((h12 n).trans ((h23 n).trans ((h34 n).trans (h45 n))))
  · exact (raise_to_self w1 p one).trans ((h23 p).trans ((h34 p).trans (h45 p)))
  · intro hb
    have h3 : fl ≤ w3 tl := by
      show fl ≤ (if bl = true then raise_to w2 tl fl else w2) tl
      rw [if_pos hb]
      exact raise_to_self w2 tl fl
    exact h3.trans ((h34 tl).trans (h45 tl))
  · intro hb
    have h4 : 9 / 10 * w3 n * T ≤ w4 tn := by
      show _ ≤ (if bn = true then raise_to w3 tn (9 / 10 * w3 n * T) else w3) tn
      rw [if_pos hb]
      exact raise_to_self w3 tn _
    have e4 : w4 n = w3 n := raise_to_if_ne bn w3 tn _ (fun _ => hn_tn hb)
    have e5 : w5 n = w4 n := raise_to_if_ne bp w4 tp _ hn_tp
    rw [e5, e4]
    calc 9 / 10 * T * w3 n = 9 / 10 * w3 n * T := by ring
      _ ≤ w4 tn := h4
      _ ≤ w5 tn := h45 tn
  · intro hb
    have h5 : 9 / 10 * w4 p * T ≤ w5 tp := by
      show _ ≤ (if bp = true then raise_to w4 tp (9 / 10 * w4 p * T) else w4) tp
      rw [if_pos hb]
      exact raise_to_self w4 tp _
    have e5 : w5 p = w4 p := raise_to_if_ne bp w4 tp _ hp_tp
    rw [e5]
    calc 9 / 10 * T * w4 p = 9 / 10 * w4 p * T := by ring
      _ ≤ w5 tp := h5

/-- The floors of a node, guarded by the test of the node loops. -/
theorem floors_congr (u : PhysicalUnit α) (T_external : α) (self : Nat)
    (r : SimulationRegion α) (n : FVM_Node α) (w w' : Nat → α)
    (hww : ∀ j ∈ clamp_slots self r n, w j = w' j)
    (h : skipped self n = false →
      DensityFloors u r n w ∧ LatticeFloor u T_external r n w ∧
        CarrierTemperatureFloors T_external r n w) :
    skipped self n = false →
      DensityFloors u r n w' ∧ LatticeFloor u T_external r n w' ∧
        CarrierTemperatureFloors T_external r n w' := by
  intro hs
  have hmem : ∀ v ∈ clamped_variables r, w (slot r n v) = w' (slot r n v) := by
    intro v hv
    refine hww _ ?_
    simp only [clamp_slots, hs, Bool.false_eq_true, if_false]
    exact List.mem_map_of_mem _ hv
  have en := hmem ELECTRON (by simp [clamped_variables])
  have ep := hmem HOLE (by simp [clamped_variables])
  obtain ⟨⟨h1, h2⟩, h3, h4, h5⟩ := h hs
  refine ⟨⟨?_, ?_⟩, ?_, ?_, ?_⟩
  · rw [← en]; exact h1
  · rw [← ep]; exact h2
  · intro hb
    rw [← hmem TEMPERATURE (by simp [clamped_variables, hb])]
    exact h3 hb
  · intro hb
    rw [← hmem E_TEMP (by simp [clamped_variables, hb]), ← en]
    exact h4 hb
  · intro hb
    rw [← hmem H_TEMP (by simp [clamped_variables, hb]), ← ep]
    exact h5 hb

/-- The first pass establishes all floors at the node it visits. -/
theorem potential_damping_node_floors (u : PhysicalUnit α) (T_external : α) (self : Nat)
    (r : SimulationRegion α) (yy : Nat → α) (st : α × (Nat → α)) (n : FVM_Node α)
    (hnd : (node_slots self r n).Nodup) (hs : skipped self n = false) :
    DensityFloors u r n (potential_damping_node u T_external self r yy st n).2 ∧
      LatticeFloor u T_external r n (potential_damping_node u T_external self r yy st n).2 ∧
      CarrierTemperatureFloors T_external r n
        (potential_damping_node u T_external self r yy st n).2 := by
  have hne := fun {a b : SolutionVariable} => @slot_ne_of_nodup α self r n hs hnd a b
  have key := clamp_chain_floors (onePerCMC u) T_external (T_external - 50 * u.K) st.2
    r.get_advanced_model.enable_Tl r.get_advanced_model.enable_Tn
    r.get_advanced_model.enable_Tp
    (slot r n ELECTRON) (slot r n HOLE) (slot r n TEMPERATURE) (slot r n E_TEMP)
    (slot r n H_TEMP)
    (fun hb => hne (by simp [clamped_variables]) (by simp [clamped_variables, hb]) (by decide))
    (fun hb => hne (by simp [clamped_variables]) (by simp [clamped_variables, hb]) (by decide))
    (fun hb => hne (by simp [clamped_variables]) (by simp [clamped_variables, hb]) (by decide))
  unfold potential_damping_node
  simp only [hs, Bool.false_eq_true, if_false]
  obtain ⟨h1, h2, h3, h4, h5⟩ := key
  exact ⟨⟨h1, h2⟩, h3, h4, h5⟩

/-- The first pass leaves every slot alone that is no clamped slot of a treated node. -/
theorem potential_damping_pass1_frame (u : PhysicalUnit α) (sys : SimulationSystem α)
    (yy : Nat → α) (st : α × (Nat → α)) (j : Nat)
    (hj : ∀ r ∈ sys.regions, r.type = SimulationRegionType.SemiconductorRegion →
      ∀ n ∈ r.nodes, j ∉ clamp_slots sys.processor_id r n) :
    (potential_damping_pass1 u sys yy st).2 j = st.2 j :=
  regions_foldl_frame Prod.snd
    (fun r => potential_damping_node u sys.T_external sys.processor_id r yy)
    (clamp_slots sys.processor_id)
    (fun r s n j hj => potential_damping_node_frame u sys.T_external sys.processor_id r yy s n j hj)
    sys.regions st j hj

/-- After the first pass all floors hold at every treated node. -/
theorem potential_damping_pass1_floors (u : PhysicalUnit α) (sys : SimulationSystem α)
    (yy : Nat → α) (st : α × (Nat → α)) (hnd : (system_slots sys).Nodup)
    {r : SimulationRegion α} {n : FVM_Node α} (hT : Treated sys r n) :
    DensityFloors u r n (potential_damping_pass1 u sys yy st).2 ∧
      LatticeFloor u sys.T_external r n (potential_damping_pass1 u sys yy st).2 ∧
      CarrierTemperatureFloors sys.T_external r n (potential_damping_pass1 u sys yy st).2 := by
  obtain ⟨hr, hty, hn, hs⟩ := hT
  exact regions_foldl_post Prod.snd
    (fun r => potential_damping_node u sys.T_external sys.processor_id r yy)
    sys.processor_id
    (fun r n w => skipped sys.processor_id n = false →
      DensityFloors u r n w ∧ LatticeFloor u sys.T_external r n w ∧
        CarrierTemperatureFloors sys.T_external r n w)
    (fun r s n j hj => potential_damping_node_frame u sys.T_external sys.processor_id r yy s n j
      (fun h => hj (clamp_slots_subset _ r n h)))
    (fun r s n hnd hs => potential_damping_node_floors u sys.T_external sys.processor_id r yy s n
      hnd hs)
    (fun r n w w' hww h => floors_congr u sys.T_external sys.processor_id r n w w'
      (fun j hj => hww j (clamp_slots_subset _ r n hj)) h)
    sys.regions st hnd r hr hty n hn hs

/-- The value of `dV_max` after a loop whose body takes the larger of `dV_max` and the
absolute potential steps of its item. -/
theorem foldl_fst_flatMap {σ ι : Type} (proj : σ → α) (step : σ → ι → σ)
    (S : ι → List Nat) (yy : Nat → α)
    (h : ∀ s it, proj (step s it) = (S it).foldl (fun m j => max m |yy j|) (proj s)) :
    ∀ (l : List ι) (s : σ),
      proj (l.foldl step s) = (l.flatMap S).foldl (fun m j => max m |yy j|) (proj s) := by
  intro l
  induction l with
  | nil => intro s; rfl
  | cons a t ih =>
    intro s
    rw [List.foldl_cons, ih, h, List.flatMap_cons, List.foldl_append]

/-- The first pass computes the largest absolute potential step over the treated nodes. -/
theorem potential_damping_pass1_fst (u : PhysicalUnit α) (sys : SimulationSystem α)
    (yy : Nat → α) (st : α × (Nat → α)) :
    (potential_damping_pass1 u sys yy st).1 =
      (system_psi_slots sys).foldl (fun m j => max m |yy j|) st.1 := by
  refine foldl_fst_flatMap Prod.fst _ _ yy ?_ sys.regions st
  intro s r
  by_cases hty : r.type = SimulationRegionType.SemiconductorRegion
  · simp only [hty, ne_eq, not_true_eq_false, if_false]
    refine foldl_fst_flatMap Prod.fst _ (psi_slots sys.processor_id r) yy ?_ r.nodes s
    intro s n
    unfold potential_damping_node psi_slots
    cases hs : skipped sys.processor_id n
    · simp only [Bool.false_eq_true, if_false, List.foldl_cons, List.foldl_nil, slot]
      split_ifs with hgt
      · exact (max_eq_right hgt.le).symm
      · exact (max_eq_left (not_lt.1 hgt)).symm
    · simp
  · simp [hty]

/-- The largest absolute potential step bounds the step of every treated node from
above, and is either `0` or the absolute step of some treated node. -/
theorem max_abs_potential_step_spec (sys : SimulationSystem α) (yy : Nat → α) :
    (∀ j ∈ system_psi_slots sys, |yy j| ≤ max_abs_potential_step sys yy) ∧
      (max_abs_potential_step sys yy = 0 ∨
        ∃ j ∈ system_psi_slots sys, max_abs_potential_step sys yy = |yy j|) := by
  unfold max_abs_potential_step
  have key : ∀ (l : List Nat) (d : α),
      d ≤ l.foldl (fun m j => max m |yy j|) d ∧
      (∀ j ∈ l, |yy j| ≤ l.foldl (fun m j => max m |yy j|) d) ∧
      (l.foldl (fun m j => max m |yy j|) d = d ∨
        ∃ j ∈ l, l.foldl (fun m j => max m |yy j|) d = |yy j|) := by
    intro l
    induction l with
    | nil => intro d; simp
    | cons a t ih =>
      intro d
      obtain ⟨h1, h2, h3⟩ := ih (max d |yy a|)
      rw [List.foldl_cons]
      refine ⟨(le_max_left _ _).trans h1, ?_, ?_⟩
      · intro j hj
        rcases List.mem_cons.1 hj with rfl | hj
        · exact (le_max_right _ _).trans h1
        · exact h2 j hj
      · rcases h3 with h3 | ⟨j, hj, h3⟩
        · rcases max_cases d |yy a| with ⟨hm, _⟩ | ⟨hm, _⟩
          · left; rw [h3, hm]
          · right; exact ⟨a, List.mem_cons_self a t, by rw [h3, hm]⟩
        · right; exact ⟨j, List.mem_cons_of_mem a hj, h3⟩
  obtain ⟨_, h2, h3⟩ := key (system_psi_slots sys) 0
  exact ⟨h2, h3⟩

/-! ## The second pass of `potential_damping` -/

theorem potential_damping_update_frame (self : Nat) (r : SimulationRegion α) (f : α)
    (xx yy ww : Nat → α) (n : FVM_Node α) (j : Nat) (hj : j ∉ psi_slots self r n) :
    potential_damping_update self r f xx yy ww n j = ww j := by
  unfold potential_damping_update
  cases hs : skipped self n
  · simp only [psi_slots, hs, Bool.false_eq_true, if_false, List.mem_singleton] at hj
    simp only [Bool.false_eq_true, if_false]
    exact Function.update_noteq hj _ _
  · simp

/-- The second pass leaves every slot alone that is no potential slot of a treated node. -/
theorem potential_damping_pass2_frame (sys : SimulationSystem α) (f : α) (xx yy ww : Nat → α)
    (j : Nat)
    (hj : ∀ r ∈ sys.regions, r.type = SimulationRegionType.SemiconductorRegion →
      ∀ n ∈ r.nodes, j ∉ psi_slots sys.processor_id r n) :
    potential_damping_pass2 sys f xx yy ww j = ww j :=
  regions_foldl_frame (fun w => w)
    (fun r w n => potential_damping_update sys.processor_id r f xx yy w n)
    (psi_slots sys.processor_id)
    (fun r w n j hj => potential_damping_update_frame sys.processor_id r f xx yy w n j hj)
    sys.regions ww j hj

/-- After the second pass the potential slot of every treated node holds the damped
update. -/
theorem potential_damping_pass2_value (sys : SimulationSystem α) (f : α) (xx yy ww : Nat → α)
    (hnd : (system_slots sys).Nodup) {r : SimulationRegion α} {n : FVM_Node α}
    (hT : Treated sys r n) :
    potential_damping_pass2 sys f xx yy ww (slot r n POTENTIAL) =
      xx (slot r n POTENTIAL) - f * yy (slot r n POTENTIAL) := by
  obtain ⟨hr, hty, hn, hs⟩ := hT
  exact regions_foldl_post (fun w => w)
    (fun r w n => potential_damping_update sys.processor_id r f xx yy w n)
    sys.processor_id
    (fun r n w => skipped sys.processor_id n = false →
      w (slot r n POTENTIAL) = xx (slot r n POTENTIAL) - f * yy (slot r n POTENTIAL))
    (fun r w n j hj => potential_damping_update_frame sys.processor_id r f xx yy w n j
      (fun h => hj (psi_slots_subset _ r n h)))
    (fun r w n _ hs => by
      unfold potential_damping_update
      simp only [hs, Bool.false_eq_true, if_false, slot, Function.update_same])
    (fun r n w w' hww h hs => by
      rw [← hww _ (psi_slots_subset _ r n (by simp [psi_slots, hs]))]
      exact h hs)
    sys.regions ww hnd r hr hty n hn hs

/-! ## `positive_density_damping` -/

/-- A flagged write that ends with `changed_flag = 0` did not happen. -/
theorem write_flagged_quiet {α : Type} (c : Prop) [Decidable c] (st : (Nat → α) × Nat) (i : Nat) (v : α)
    (h : (if c then write_flagged st i v else st).2 = 0) :
    (if c then write_flagged st i v else st) = st := by
  split_ifs at h ⊢ with hc
  · simp [write_flagged] at h
  · rfl

/-- The same for a flagged write under a model switch. -/
theorem write_flagged_quiet_if {α : Type} (b : Bool) (c : Prop) [Decidable c] (st : (Nat → α) × Nat)
    (i : Nat) (v : α)
    (h : (if b = true then (if c then write_flagged st i v else st) else st).2 = 0) :
    (if b = true then (if c then write_flagged st i v else st) else st) = st := by
  split_ifs at h ⊢ with hb hc
  · simp [write_flagged] at h
  · rfl
  · rfl

/-- A node step of `positive_density_damping` that ends with `changed_flag = 0` has
written nothing, and the flag was `0` before. -/
theorem positive_density_damping_node_quiet (sign : α → α) (u : PhysicalUnit α)
    (T_external : α) (self : Nat) (r : SimulationRegion α) (xx yy : Nat → α)
    (st : (Nat → α) × Nat) (n : FVM_Node α)
    (h : (positive_density_damping_node sign u T_external self r xx yy st n).2 = 0) :
    positive_density_damping_node sign u T_external self r xx yy st n = st := by
  unfold positive_density_damping_node at h ⊢
  cases hs : skipped self n
  · simp only [hs, Bool.false_eq_true, if_false] at h ⊢
    have h6 := write_flagged_quiet_if _ _ _ _ _ h
    rw [h6] at h ⊢
    have h5 := write_flagged_quiet_if _ _ _ _ _ h
    rw [h5] at h ⊢
    have h4 := write_flagged_quiet_if _ _ _ _ _ h
    rw [h4] at h ⊢
    have h3 := write_flagged_quiet _ _ _ _ h
    rw [h3] at h ⊢
    have h2 := write_flagged_quiet _ _ _ _ h
    rw [h2] at h ⊢
    exact write_flagged_quiet _ _ _ _ h
  · simp

/-- A loop of quiet steps that ends with `changed_flag = 0` has written nothing. -/
theorem foldl_quiet {α : Type} {ι : Type} (step : (Nat → α) × Nat → ι → (Nat → α) × Nat)
    (hq : ∀ st it, (step st it).2 = 0 → step st it = st) :
    ∀ (l : List ι) (st : (Nat → α) × Nat), (l.foldl step st).2 = 0 → l.foldl step st = st := by
  intro l
  induction l with
  | nil => intro st _; rfl
  | cons a t ih =>
    intro st h
    rw [List.foldl_cons] at h ⊢
    have h1 := ih (step st a) h
    rw [h1] at h ⊢
    exact hq st a h

/-- The loops of `positive_density_damping`, ending with `changed_flag = 0`, have
written nothing. -/
theorem positive_density_damping_pass_quiet (sign : α → α) (u : PhysicalUnit α)
    (sys : SimulationSystem α) (xx yy : Nat → α) (st : (Nat → α) × Nat)
    (h : (positive_density_damping_pass sign u sys xx yy st).2 = 0) :
    positive_density_damping_pass sign u sys xx yy st = st := by
  refine foldl_quiet _ ?_ sys.regions st h
  intro st r hr
  by_cases hty : r.type = SimulationRegionType.SemiconductorRegion
  · simp only [hty, ne_eq, not_true_eq_false, if_false] at hr ⊢
    exact foldl_quiet _
      (positive_density_damping_node_quiet sign u sys.T_external sys.processor_id r xx yy)
      r.nodes st hr
  · simp [hty]

theorem write_flagged_frame {α : Type} (c : Prop) [Decidable c] (st : (Nat → α) × Nat) (i : Nat) (v : α)
    {j : Nat} (h : c → j ≠ i) : (if c then write_flagged st i v else st).1 j = st.1 j := by
  split_ifs with hc
  · exact Function.update_noteq (h hc) v st.1
  · rfl

theorem write_flagged_frame_if {α : Type} (b : Bool) (c : Prop) [Decidable c] (st : (Nat → α) × Nat)
    (i : Nat) (v : α) {j : Nat} (h : b = true → j ≠ i) :
    (if b = true then (if c then write_flagged st i v else st) else st).1 j = st.1 j := by
  split_ifs with hb hc
  · exact Function.update_noteq (h hb) v st.1
  · rfl
  · rfl

theorem write_flagged_floor (st : (Nat → α) × Nat) (i : Nat) (v : α) :
    v ≤ (if st.1 i < v then write_flagged st i v else st).1 i := by
  split_ifs with hc
  · simp [write_flagged]
  · exact not_lt.1 hc

/-- The chain of flagged writes of the node step of `positive_density_damping`, on an
abstract state: the clipped potential survives the later writes, and so do the hole
floor and the lattice floor.  The electron test reads the slot `k`. -/
theorem flagged_chain (one T fl : α) (c1 : Prop) [Decidable c1] (v1 : α)
    (st0 : (Nat → α) × Nat) (bl bn bp : Bool) (psi k n p tl tn tp : Nat)
    (hpsi_n : psi ≠ n) (hpsi_p : psi ≠ p) (hpsi_tl : bl = true → psi ≠ tl)
    (hpsi_tn : bn = true → psi ≠ tn) (hpsi_tp : bp = true → psi ≠ tp)
    (hp_tl : bl = true → p ≠ tl) (hp_tn : bn = true → p ≠ tn) (hp_tp : bp = true → p ≠ tp)
    (htl_tn : bl = true → bn = true → tl ≠ tn) (htl_tp : bl = true → bp = true → tl ≠ tp) :
    let s1 := if c1 then write_flagged st0 psi v1 else st0
    let s2 := if s1.1 k < one then write_flagged s1 n one else s1
    let s3 := if s2.1 p < one then write_flagged s2 p one else s2
    let s4 := if bl = true then (if s3.1 tl < fl then write_flagged s3 tl fl else s3) else s3
    let s5 :=
      if bn = true then
        (if s4.1 tn < 9 / 10 * s4.1 n * T then write_flagged s4 tn (9 / 10 * s4.1 n * T)
          else s4)
      else s4
    let s6 :=
      if bp = true then
        (if s5.1 tp < 9 / 10 * s5.1 p * T then write_flagged s5 tp (9 / 10 * s5.1 p * T)
          else s5)
      else s5
    (c1 → s6.1 psi = v1) ∧ one ≤ s6.1 p ∧ (bl = true → fl ≤ s6.1 tl) := by
  intro s1 s2 s3 s4 s5 s6
  have f2 : ∀ j, j ≠ n → s2.1 j = s1.1 j := fun j hj => write_flagged_frame _ s1 n one (fun _ => hj)
  have f3 : ∀ j, j ≠ p → s3.1 j = s2.1 j := fun j hj => write_flagged_frame _ s2 p one (fun _ => hj)
  have f4 : ∀ j, (bl = true → j ≠ tl) → s4.1 j = s3.1 j :=
    fun j hj => write_flagged_frame_if bl _ s3 tl fl hj
  have f5 : ∀ j, (bn = true → j ≠ tn) → s5.1 j = s4.1 j :=
    fun j hj => write_flagged_frame_if bn _ s4 tn _ hj
  have f6 : ∀ j, (bp = true → j ≠ tp) → s6.1 j = s5.1 j :=
    fun j hj => write_flagged_frame_if bp _ s5 tp _ hj
  refine ⟨?_, ?_, ?_⟩
  · intro hc
    rw [f6 psi hpsi_tp, f5 psi hpsi_tn, f4 psi hpsi_tl, f3 psi hpsi_p, f2 psi hpsi_n]
    show (if c1 then write_flagged st0 psi v1 else st0).1 psi = v1
    rw [if_pos hc]
    simp [write_flagged]
  · rw [f6 p hp_tp, f5 p hp_tn, f4 p hp_tl]
    exact write_flagged_floor s2 p one
  · intro hb
    rw [f6 tl (htl_tp hb), f5 tl (htl_tn hb)]
    show fl ≤ (if bl = true then (if s3.1 tl < fl then write_flagged s3 tl fl else s3) else s3).1 tl
    rw [if_pos hb]
    exact write_flagged_floor s3 tl fl

/-- The node step of `positive_density_damping` writes nothing but the slots listed by
`clipped_slots`. -/
theorem positive_density_damping_node_frame (sign : α → α) (u : PhysicalUnit α)
    (T_external : α) (self : Nat) (r : SimulationRegion α) (xx yy : Nat → α)
    (st : (Nat → α) × Nat) (n : FVM_Node α) (j : Nat)
    (hj : j ∉ clipped_slots self r yy n) :
    (positive_density_damping_node sign u T_external self r xx yy st n).1 j = st.1 j := by
  unfold positive_density_damping_node
  cases hs : skipped self n
  · have hclamp : j ∉ clamp_slots self r n := fun h => hj (List.mem_append_right _ h)
    have hpsi : |yy (slot r n POTENTIAL)| > 1 → j ≠ slot r n POTENTIAL := by
      intro hc h
      refine hj (List.mem_append_left _ ?_)
      rw [if_pos hc]
      simp [psi_slots, hs, h]
    simp only [clamp_slots, hs, clamped_variables, Bool.false_eq_true, if_false, List.mem_map,
      List.mem_append, List.mem_cons, not_exists, not_and] at hclamp
    have hn : j ≠ slot r n ELECTRON := fun h => hclamp ELECTRON (by simp) h.symm
    have hp : j ≠ slot r n HOLE := fun h => hclamp HOLE (by simp) h.symm
    have hTl : r.get_advanced_model.enable_Tl = true → j ≠ slot r n TEMPERATURE :=
      fun hb h => hclamp TEMPERATURE (by simp [hb]) h.symm
    have hTn : r.get_advanced_model.enable_Tn = true → j ≠ slot r n E_TEMP :=
      fun hb h => hclamp E_TEMP (by simp [hb]) h.symm
    have hTp : r.get_advanced_model.enable_Tp = true → j ≠ slot r n H_TEMP :=
      fun hb h => hclamp H_TEMP (by simp [hb]) h.symm
    simp only [Bool.false_eq_true, if_false]
    unfold slot at hn hp hTl hTn hTp hpsi
    rw [write_flagged_frame_if _ _ _ _ _ hTp, write_flagged_frame_if _ _ _ _ _ hTn,
      write_flagged_frame_if _ _ _ _ _ hTl, write_flagged_frame _ _ _ _ (fun _ => hp),
      write_flagged_frame _ _ _ _ (fun _ => hn), write_flagged_frame _ _ _ _ hpsi]
  · simp

theorem clipped_slots_subset (self : Nat) (r : SimulationRegion α) (yy : Nat → α)
    (n : FVM_Node α) {j : Nat} (h : j ∈ clipped_slots self r yy n) :
    j ∈ node_slots self r n := by
  rcases List.mem_append.1 h with h | h
  · split_ifs at h
    · exact List.mem_append_left _ h
    · cases h
  · exact List.mem_append_right _ h

/-- What the node step of `positive_density_damping` establishes at its node: the
clipped potential when `|y[psi]| > 1`, the hole floor and the lattice floor. -/
theorem positive_density_damping_node_post (sign : α → α) (u : PhysicalUnit α)
    (T_external : α) (self : Nat) (r : SimulationRegion α) (xx yy : Nat → α)
    (st : (Nat → α) × Nat) (n : FVM_Node α)
    (hnd : (node_slots self r n).Nodup) (hs : skipped self n = false) :
    (|yy (slot r n POTENTIAL)| > 1 →
        (positive_density_damping_node sign u T_external self r xx yy st n).1
            (slot r n POTENTIAL)
          = xx (slot r n POTENTIAL) - sign (yy (slot r n POTENTIAL)) * 1) ∧
      onePerCMC u ≤
        (positive_density_damping_node sign u T_external self r xx yy st n).1 (slot r n HOLE) ∧
      LatticeFloor u T_external r n
        (positive_density_damping_node sign u T_external self r xx yy st n).1 := by
  have hne := fun {a b : SolutionVariable} => @slot_ne_of_nodup α self r n hs hnd a b
  have key := flagged_chain (onePerCMC u) T_external (T_external - 50 * u.K)
    (|yy (slot r n POTENTIAL)| > 1)
    (xx (slot r n POTENTIAL) - sign (yy (slot r n POTENTIAL)) * 1) st
    r.get_advanced_model.enable_Tl r.get_advanced_model.enable_Tn
    r.get_advanced_model.enable_Tp
    (slot r n POTENTIAL) (uadd n.local_offset 1)
    (slot r n ELECTRON) (slot r n HOLE) (slot r n TEMPERATURE) (slot r n E_TEMP)
    (slot r n H_TEMP)
    (hne (by simp) (by simp [clamped_variables]) (by decide))
    (hne (by simp) (by simp [clamped_variables]) (by decide))
    (fun hb => hne (by simp) (by simp [clamped_variables, hb]) (by decide))
    (fun hb => hne (by simp) (by simp [clamped_variables, hb]) (by decide))
    (fun hb => hne (by simp) (by simp [clamped_variables, hb]) (by decide))
    (fun hb => hne (by simp [clamped_variables]) (by simp [clamped_variables, hb]) (by decide))
    (fun hb => hne (by simp [clamped_variables]) (by simp [clamped_variables, hb]) (by decide))
    (fun hb => hne (by simp [clamped_variables]) (by simp [clamped_variables, hb]) (by decide))
    (fun hb hb' => hne (by simp [clamped_variables, hb]) (by simp [clamped_variables, hb'])
      (by decide))
    (fun hb hb' => hne (by simp [clamped_variables, hb]) (by simp [clamped_variables, hb'])
      (by decide))
  unfold positive_density_damping_node
  simp only [hs, Bool.false_eq_true, if_false]
  exact key

/-- After the loops of `positive_density_damping`, at every treated node: the clipped
potential when `|y[psi]| > 1`, the hole floor and the lattice floor. -/
theorem positive_density_damping_pass_post (sign : α → α) (u : PhysicalUnit α)
    (sys : SimulationSystem α) (xx yy : Nat → α) (st : (Nat → α) × Nat)
    (hnd : (system_slots sys).Nodup) {r : SimulationRegion α} {n : FVM_Node α}
    (hT : Treated sys r n) :
    (|yy (slot r n POTENTIAL)| > 1 →
        (positive_density_damping_pass sign u sys xx yy st).1 (slot r n POTENTIAL)
          = xx (slot r n POTENTIAL) - sign (yy (slot r n POTENTIAL)) * 1) ∧
      onePerCMC u ≤ (positive_density_damping_pass sign u sys xx yy st).1 (slot r n HOLE) ∧
      LatticeFloor u sys.T_external r n (positive_density_damping_pass sign u sys xx yy st).1 := by
  obtain ⟨hr, hty, hn, hs⟩ := hT
  exact regions_foldl_post Prod.fst
    (fun r => positive_density_damping_node sign u sys.T_external sys.processor_id r xx yy)
    sys.processor_id
    (fun r n w => skipped sys.processor_id n = false →
      (|yy (slot r n POTENTIAL)| > 1 →
          w (slot r n POTENTIAL)
            = xx (slot r n POTENTIAL) - sign (yy (slot r n POTENTIAL)) * 1) ∧
        onePerCMC u ≤ w (slot r n HOLE) ∧ LatticeFloor u sys.T_external r n w)
    (fun r s n j hj =>
      positive_density_damping_node_frame sign u sys.T_external sys.processor_id r xx yy s n j
        (fun h => hj (clipped_slots_subset _ r yy n h)))
    (fun r s n hnd hs =>
      positive_density_damping_node_post sign u sys.T_external sys.processor_id r xx yy s n
        hnd hs)
    (fun r n w w' hww h hs => by
      have hpsi : w (slot r n POTENTIAL) = w' (slot r n POTENTIAL) :=
        hww _ (psi_slots_subset _ r n (by simp [psi_slots, hs]))
      have hmem : ∀ v ∈ clamped_variables r, w (slot r n v) = w' (slot r n v) := by
        intro v hv
        refine hww _ (clamp_slots_subset _ r n ?_)
        simp only [clamp_slots, hs, Bool.false_eq_true, if_false]
        exact List.mem_map_of_mem _ hv
      obtain ⟨h1, h2, h3⟩ := h hs
      refine ⟨fun hc => ?_, ?_, fun hb => ?_⟩
      · rw [← hpsi]; exact h1 hc
      · rw [← hmem HOLE (by simp [clamped_variables])]; exact h2
      · rw [← hmem TEMPERATURE (by simp [clamped_variables, hb])]; exact h3 hb)
    sys.regions st hnd r hr hty n hn hs

/-- The loops of `positive_density_damping` leave every slot alone that no treated node
lists in `clipped_slots`. -/
theorem positive_density_damping_pass_frame (sign : α → α) (u : PhysicalUnit α)
    (sys : SimulationSystem α) (xx yy : Nat → α) (st : (Nat → α) × Nat) (j : Nat)
    (hj : ∀ r ∈ sys.regions, r.type = SimulationRegionType.SemiconductorRegion →
      ∀ n ∈ r.nodes, j ∉ clipped_slots sys.processor_id r yy n) :
    (positive_density_damping_pass sign u sys xx yy st).1 j = st.1 j :=
  regions_foldl_frame Prod.fst
    (fun r => positive_density_damping_node sign u sys.T_external sys.processor_id r xx yy)
    (fun r => clipped_slots sys.processor_id r yy)
    (fun r s n j hj =>
      positive_density_damping_node_frame sign u sys.T_external sys.processor_id r xx yy s n j hj)
    sys.regions st j hj

/-! ## The damping steps as a whole -/

theorem mem_system_slots {α : Type} (sys : SimulationSystem α) {r : SimulationRegion α}
    {n : FVM_Node α} (hr : r ∈ sys.regions)
    (hty : r.type = SimulationRegionType.SemiconductorRegion) (hn : n ∈ r.nodes) {j : Nat}
    (h : j ∈ node_slots sys.processor_id r n) : j ∈ system_slots sys := by
  refine List.mem_flatMap.2 ⟨r, hr, ?_⟩
  simp only [region_slots, hty, ne_eq, not_true_eq_false, if_false]
  exact List.mem_flatMap.2 ⟨n, hn, h⟩

/-- In a layout with pairwise distinct slots, the potential slot of a treated node is a
clamped slot of no node of a semiconductor region. -/
theorem psi_slot_not_clamp_slot {α : Type} (sys : SimulationSystem α) (hnd : (system_slots sys).Nodup)
    {r : SimulationRegion α} {n : FVM_Node α} (hT : Treated sys r n) :
    ∀ r' ∈ sys.regions, r'.type = SimulationRegionType.SemiconductorRegion →
      ∀ n' ∈ r'.nodes, slot r n POTENTIAL ∉ clamp_slots sys.processor_id r' n' := by
  intro r' hr' hty' n' hn' hj'
  have hpsi : slot r n POTENTIAL ∈ psi_slots sys.processor_id r n := by
    simp [psi_slots, hT.2.2.2]
  exact clamp_slot_not_psi_slot sys hnd
    (show Treated sys r' n' from ⟨hr', hty', hn', by
      by_contra hs
      simp only [Bool.not_eq_false] at hs
      simp [clamp_slots, hs] at hj'⟩)
    hj' r hT.1 hT.2.1 n hT.2.2.1 hpsi

/-- All floors hold at every treated node after `potential_damping`. -/
theorem potential_damping_ww_floors (log : α → α) (u : PhysicalUnit α)
    (sys : SimulationSystem α) (remote : α) (s : DampingState α)
    (hnd : (system_slots sys).Nodup) {r : SimulationRegion α} {n : FVM_Node α}
    (hT : Treated sys r n) :
    DensityFloors u r n (potential_damping log u sys remote s).ww ∧
      LatticeFloor u sys.T_external r n (potential_damping log u sys remote s).ww ∧
      CarrierTemperatureFloors sys.T_external r n (potential_damping log u sys remote s).ww := by
  have h1 := potential_damping_pass1_floors u sys s.yy (0, s.ww) hnd hT
  unfold potential_damping
  simp only []
  split_ifs with hD
  · refine floors_congr u sys.T_external sys.processor_id r n _ _ ?_ (fun _ => h1) hT.2.2.2
    intro j hj
    symm
    exact potential_damping_pass2_frame sys _ s.xx s.yy _ j
      (clamp_slot_not_psi_slot sys hnd hT hj)
  · exact h1

/-- A slot of no treated node keeps its value through `potential_damping`. -/
theorem potential_damping_ww_frame (log : α → α) (u : PhysicalUnit α)
    (sys : SimulationSystem α) (remote : α) (s : DampingState α) (j : Nat)
    (hj : j ∉ system_slots sys) :
    (potential_damping log u sys remote s).ww j = s.ww j := by
  have h1 : (potential_damping_pass1 u sys s.yy (0, s.ww)).2 j = s.ww j :=
    potential_damping_pass1_frame u sys s.yy (0, s.ww) j
      (fun r hr hty n hn h => hj (mem_system_slots sys hr hty hn (clamp_slots_subset _ r n h)))
  unfold potential_damping
  simp only []
  split_ifs with hD
  · rw [potential_damping_pass2_frame sys _ s.xx s.yy _ j
      (fun r hr hty n hn h => hj (mem_system_slots sys hr hty hn (psi_slots_subset _ r n h)))]
    exact h1
  · exact h1

/-- The potential slot of a treated node after `potential_damping`. -/
theorem potential_damping_ww_psi (log : α → α) (u : PhysicalUnit α)
    (sys : SimulationSystem α) (remote : α) (s : DampingState α)
    (hnd : (system_slots sys).Nodup) {r : SimulationRegion α} {n : FVM_Node α}
    (hT : Treated sys r n) :
    (potential_damping log u sys remote s).ww (slot r n POTENTIAL) =
      if Parallel_max (max_abs_potential_step sys s.yy) remote > 1 / 1000000 then
        s.xx (slot r n POTENTIAL)
          - damping_factor log u sys.T_external
              (Parallel_max (max_abs_potential_step sys s.yy) remote)
            * s.yy (slot r n POTENTIAL)
      else s.ww (slot r n POTENTIAL) := by
  have hfst : (potential_damping_pass1 u sys s.yy (0, s.ww)).1 = max_abs_potential_step sys s.yy :=
    potential_damping_pass1_fst u sys s.yy (0, s.ww)
  unfold potential_damping
  simp only [hfst]
  split_ifs with hD
  · exact potential_damping_pass2_value sys _ s.xx s.yy _ hnd hT
  · exact potential_damping_pass1_frame u sys s.yy (0, s.ww) _
      (psi_slot_not_clamp_slot sys hnd hT)

/-- The potential slots of the system are the potential slots of its treated nodes. -/
theorem mem_system_psi_slots {α : Type} (sys : SimulationSystem α) (j : Nat) :
    j ∈ system_psi_slots sys ↔ ∃ r n, Treated sys r n ∧ j = slot r n POTENTIAL := by
  constructor
  · intro h
    obtain ⟨r, hr, hjr⟩ := List.mem_flatMap.1 h
    by_cases hty : r.type = SimulationRegionType.SemiconductorRegion
    · simp only [hty, ne_eq, not_true_eq_false, if_false] at hjr
      obtain ⟨n, hn, hjn⟩ := List.mem_flatMap.1 hjr
      cases hs : skipped sys.processor_id n
      · simp only [psi_slots, hs, Bool.false_eq_true, if_false, List.mem_singleton] at hjn
        exact ⟨r, n, ⟨hr, hty, hn, hs⟩, hjn⟩
      · simp [psi_slots, hs] at hjn
    · simp [hty] at hjr
  · rintro ⟨r, n, ⟨hr, hty, hn, hs⟩, rfl⟩
    refine List.mem_flatMap.2 ⟨r, hr, ?_⟩
    simp only [hty, ne_eq, not_true_eq_false, if_false]
    refine List.mem_flatMap.2 ⟨n, hn, ?_⟩
    simp [psi_slots, hs]

theorem max_abs_potential_step_nonneg (sys : SimulationSystem α) (yy : Nat → α) :
    0 ≤ max_abs_potential_step sys yy := by
  rcases (max_abs_potential_step_spec sys yy).2 with h | ⟨j, _, h⟩
  · exact h.ge
  · rw [h]; exact abs_nonneg _

/-- The array `ww` after `positive_density_damping` is the one the loops produce. -/
theorem positive_density_damping_ww (sign : α → α) (u : PhysicalUnit α)
    (sys : SimulationSystem α) (remote : Nat) (s : DampingState α) :
    (positive_density_damping sign u sys remote s).ww =
      (positive_density_damping_pass sign u sys s.xx s.yy (s.ww, 0)).1 := by
  unfold positive_density_damping
  simp only []
  split_ifs <;> rfl

theorem sample_treated : Treated sample_system sample_region (sample_node 0) :=
  ⟨List.mem_cons_self _ _, rfl, List.mem_cons_self _ _, by decide⟩

theorem sample_layout : (system_slots sample_system).Nodup := by decide

theorem swapped_treated : Treated swapped_system swapped_region (sample_node 0) :=
  ⟨List.mem_cons_self _ _, rfl, List.mem_cons_self _ _, by decide⟩

theorem swapped_layout : (system_slots swapped_system).Nodup := by decide

theorem sample_sign_abs (v : ℚ) (_ : v ≠ 0) : |sample_sign v| = 1 := by
  unfold sample_sign
  split_ifs <;> simp

theorem sample_onePerCMC : onePerCMC sample_unit = 1 := by
  simp [onePerCMC, sample_unit]

/-! ## The claims about the damping steps -/

/-- C6 (as the claim states it, refuted): `bank_rose_damping` is one of the three
damping steps, the first sample node is a treated node, and after the step on the all-zero
candidate iterate its electron density is still `0`, below the floor `1 cm^-3`. -/
theorem bank_rose_damping_enforces_no_floor :
    Treated sample_system sample_region (sample_node 0) ∧
      ¬ DensityFloors sample_unit sample_region (sample_node 0)
        (bank_rose_damping sample_state).ww := by
  refine ⟨sample_treated, ?_⟩
  intro h
  have h1 := h.1
  rw [sample_onePerCMC] at h1
  simp [bank_rose_damping, sample_state] at h1
  exact absurd h1 (by norm_num)

/-- C6 (amended): on a layout whose variable slots are pairwise distinct, at every
treated node (semiconductor region, on processor, valid): after `potential_damping`
`n >= 1 cm^-3`, `p >= 1 cm^-3` and, with the lattice temperature enabled,
`T_l >= T_ext - 50 K`; `bank_rose_damping` leaves `w` as it is; after
`positive_density_damping` `p >= 1 cm^-3` and, with the lattice temperature enabled,
`T_l >= T_ext - 50 K`. -/
theorem damping_steps_floors (u : PhysicalUnit α) (sys : SimulationSystem α)
    (s : DampingState α) (r : SimulationRegion α) (n : FVM_Node α)
    (hnd : (system_slots sys).Nodup) (hT : Treated sys r n) :
    (∀ (log : α → α) (remote : α),
        DensityFloors u r n (potential_damping log u sys remote s).ww ∧
          LatticeFloor u sys.T_external r n (potential_damping log u sys remote s).ww) ∧
      (bank_rose_damping s).ww = s.ww ∧
      (∀ (sign : α → α) (remote : Nat),
        onePerCMC u ≤ (positive_density_damping sign u sys remote s).ww (slot r n HOLE) ∧
          LatticeFloor u sys.T_external r n (positive_density_damping sign u sys remote s).ww) := by
  refine ⟨fun log remote => ?_, rfl, fun sign remote => ?_⟩
  · have h := potential_damping_ww_floors log u sys remote s hnd hT
    exact ⟨h.1, h.2.1⟩
  · rw [positive_density_damping_ww]
    exact (positive_density_damping_pass_post sign u sys s.xx s.yy (s.ww, 0) hnd hT).2

/-- C6 (amended), at the sample system and its first node. -/
theorem damping_steps_floors_witness :
    (system_slots sample_system).Nodup ∧
      Treated sample_system sample_region (sample_node 0) ∧
      DensityFloors sample_unit sample_region (sample_node 0)
        (potential_damping sample_log sample_unit sample_system 0 sample_state).ww ∧
      onePerCMC sample_unit ≤
        (positive_density_damping sample_sign sample_unit sample_system 0 sample_state).ww
          (slot sample_region (sample_node 0) HOLE) :=
  ⟨sample_layout, sample_treated,
    ((damping_steps_floors sample_unit sample_system sample_state sample_region (sample_node 0)
      sample_layout sample_treated).1 sample_log 0).1,
    ((damping_steps_floors sample_unit sample_system sample_state sample_region (sample_node 0)
      sample_layout sample_treated).2.2 sample_sign 0).1⟩

/-- C7: on a layout whose variable slots are pairwise distinct, after
`potential_damping` every treated node has `w[n] >= 1 cm^-3`, `w[p] >= 1 cm^-3`,
`w[T_l] >= T_ext - 50 K` when Tl is enabled, `w[Tn] >= 0.9 * T_ext * w[n]` when Tn is
enabled and `w[Tp] >= 0.9 * T_ext * w[p]` when Tp is enabled, with the final values of
`w[n]` and `w[p]`; every slot that is not a slot of a treated node, hence every
component of the other nodes, keeps its value. -/
theorem potential_damping_floors_and_frame (log : α → α) (u : PhysicalUnit α)
    (sys : SimulationSystem α) (remote : α) (s : DampingState α)
    (hnd : (system_slots sys).Nodup) :
    (∀ r n, Treated sys r n →
        DensityFloors u r n (potential_damping log u sys remote s).ww ∧
          LatticeFloor u sys.T_external r n (potential_damping log u sys remote s).ww ∧
          CarrierTemperatureFloors sys.T_external r n
            (potential_damping log u sys remote s).ww) ∧
      (∀ j, j ∉ system_slots sys → (potential_damping log u sys remote s).ww j = s.ww j) :=
  ⟨fun _ _ hT => potential_damping_ww_floors log u sys remote s hnd hT,
    fun j hj => potential_damping_ww_frame log u sys remote s j hj⟩

/-- C7, at the sample system: the floors at its second node, and slot 12 (the node of
the insulator region) keeps its value. -/
theorem potential_damping_floors_and_frame_witness :
    (system_slots sample_system).Nodup ∧
      CarrierTemperatureFloors sample_system.T_external sample_region (sample_node 6)
        (potential_damping sample_log sample_unit sample_system 0 sample_state).ww ∧
      (potential_damping sample_log sample_unit sample_system 0 sample_state).ww 12
        = sample_state.ww 12 :=
  ⟨sample_layout,
    ((potential_damping_floors_and_frame sample_log sample_unit sample_system 0 sample_state
      sample_layout).1 sample_region (sample_node 6)
      ⟨List.mem_cons_self _ _, rfl, List.mem_cons_of_mem _ (List.mem_cons_self _ _),
        by decide⟩).2.2,
    (potential_damping_floors_and_frame sample_log sample_unit sample_system 0 sample_state
      sample_layout).2 12 (by decide)⟩

/-- C8 (the code at the failing input): in `swapped_system` the electron density sits at
offset 2 and the hole density at offset 1, the slots are pairwise distinct and the node
is treated.  The candidate iterate has electron density `0`, but the electron test of
`positive_density_damping` reads `ww[local_offset+1] = 5`, so nothing is written: the
electron density is still `0 < 1 cm^-3` after the call and `changed_w` stays false. -/
theorem positive_density_damping_misses_electron_floor :
    (system_slots swapped_system).Nodup ∧
      Treated swapped_system swapped_region (sample_node 0) ∧
      slot swapped_region (sample_node 0) ELECTRON = 2 ∧
      onePerCMC sample_unit = 1 ∧
      (positive_density_damping sample_sign sample_unit swapped_system 0 swapped_state).ww
        (slot swapped_region (sample_node 0) ELECTRON) = 0 ∧
      (positive_density_damping sample_sign sample_unit swapped_system 0 swapped_state).changed_w
        = false := by
  have hone := sample_onePerCMC
  have hpass : positive_density_damping_pass sample_sign sample_unit swapped_system
      swapped_state.xx swapped_state.yy (swapped_state.ww, 0) = (swapped_state.ww, 0) := by
    have hsk : skipped 0 (sample_node 0) = false := by decide
    have hlo : (sample_node 0).local_offset = 0 := rfl
    have hfold : positive_density_damping_pass sample_sign sample_unit swapped_system
        swapped_state.xx swapped_state.yy (swapped_state.ww, 0) =
        positive_density_damping_node sample_sign sample_unit 300 0 swapped_region
          swapped_state.xx swapped_state.yy (swapped_state.ww, 0) (sample_node 0) := rfl
    rw [hfold]
    unfold positive_density_damping_node
    norm_num [hsk, hlo, hone, swapped_state, swapped_region, uadd]
  refine ⟨swapped_layout, swapped_treated, by decide, hone, ?_, ?_⟩
  · rw [positive_density_damping_ww, hpass]
    have hslot : slot swapped_region (sample_node 0) ELECTRON = 2 := by decide
    rw [hslot]
    simp [swapped_state]
  · unfold positive_density_damping
    simp only [hpass, Parallel_sum]
    simp [swapped_state]

/-- C9: on a layout whose variable slots are pairwise distinct, let `dV_max` be the
largest `|y[psi]|` over the treated nodes (an upper bound of all of them that is `0` or
attained at one of them), combined by `Parallel::max` with the value `remote` of the
other processes (`remote = 0` on a single process, where the result is the local
maximum).  If `dV_max > 1e-6`, the potential component of every treated node
becomes `x[psi] - f*y[psi]` with the one factor
`f = log(1 + dV_max/V_T)/(dV_max/V_T)`, `V_T = kb*T_ext/e`; otherwise it keeps its
value.  In both cases `x` and `y` are not modified, `changed_y` is false and `changed_w`
is true. -/
theorem potential_damping_potential_update (log : α → α) (u : PhysicalUnit α)
    (sys : SimulationSystem α) (remote : α) (s : DampingState α)
    (r : SimulationRegion α) (n : FVM_Node α)
    (hnd : (system_slots sys).Nodup) (hT : Treated sys r n) :
    (Parallel_max (max_abs_potential_step sys s.yy) remote > 1 / 1000000 →
        (potential_damping log u sys remote s).ww (slot r n POTENTIAL) =
          s.xx (slot r n POTENTIAL)
            - log (1 + Parallel_max (max_abs_potential_step sys s.yy) remote
                  / (u.kb * sys.T_external / u.e))
                / (Parallel_max (max_abs_potential_step sys s.yy) remote
                  / (u.kb * sys.T_external / u.e))
              * s.yy (slot r n POTENTIAL)) ∧
      (Parallel_max (max_abs_potential_step sys s.yy) remote ≤ 1 / 1000000 →
        (potential_damping log u sys remote s).ww (slot r n POTENTIAL) =
          s.ww (slot r n POTENTIAL)) ∧
      (∀ r' n', Treated sys r' n' →
        |s.yy (slot r' n' POTENTIAL)| ≤ max_abs_potential_step sys s.yy) ∧
      (max_abs_potential_step sys s.yy = 0 ∨
        ∃ r' n', Treated sys r' n' ∧
          max_abs_potential_step sys s.yy = |s.yy (slot r' n' POTENTIAL)|) ∧
      Parallel_max (max_abs_potential_step sys s.yy) 0 = max_abs_potential_step sys s.yy ∧
      (potential_damping log u sys remote s).yy = s.yy ∧
      (potential_damping log u sys remote s).xx = s.xx ∧
      (potential_damping log u sys remote s).changed_y = false ∧
      (potential_damping log u sys remote s).changed_w = true := by
  have h := potential_damping_ww_psi log u sys remote s hnd hT
  have hspec := max_abs_potential_step_spec sys s.yy
  refine ⟨fun hD => ?_, fun hD => ?_, ?_, ?_, ?_, rfl, rfl, rfl, rfl⟩
  · rw [h, if_pos hD]
    rfl
  · rw [h, if_neg (not_lt.2 hD)]
  · intro r' n' hT'
    exact hspec.1 _ ((mem_system_psi_slots sys _).2 ⟨r', n', hT', rfl⟩)
  · rcases hspec.2 with h0 | ⟨j, hj, hmax⟩
    · exact Or.inl h0
    · obtain ⟨r', n', hT', rfl⟩ := (mem_system_psi_slots sys j).1 hj
      exact Or.inr ⟨r', n', hT', hmax⟩
  · exact max_eq_left (max_abs_potential_step_nonneg sys s.yy)

/-- C9, at the sample system with the step of `2` at the potential slot of its first
node: the largest step is `2 > 1e-6` and the potential is damped. -/
theorem potential_damping_potential_update_witness :
    (system_slots sample_system).Nodup ∧
      Treated sample_system sample_region (sample_node 0) ∧
      (potential_damping sample_log sample_unit sample_system 0 sample_step_state).changed_w
        = true ∧
      (potential_damping sample_log sample_unit sample_system 0 sample_step_state).yy
        = sample_step_state.yy :=
  ⟨sample_layout, sample_treated,
    (potential_damping_potential_update sample_log sample_unit sample_system 0
      sample_step_state sample_region (sample_node 0) sample_layout
      sample_treated).2.2.2.2.2.2.2.2,
    (potential_damping_potential_update sample_log sample_unit sample_system 0
      sample_step_state sample_region (sample_node 0) sample_layout sample_treated).2.2.2.2.2.1⟩

/-- C10: on a layout whose variable slots are pairwise distinct, with `w = x - y` on
entry and `std::sign` of absolute value 1 away from zero, after
`positive_density_damping` every treated node satisfies `|w[psi] - x[psi]| <= 1`: if
`|y[psi]| > 1` then `w[psi] = x[psi] - sign(y[psi])*1`, otherwise `w[psi]` keeps its
value; and `changed_w` is true whenever some component of `w` was modified. -/
theorem positive_density_damping_clips_potential (sign : α → α) (u : PhysicalUnit α)
    (sys : SimulationSystem α) (remote : Nat) (s : DampingState α)
    (r : SimulationRegion α) (n : FVM_Node α)
    (hsign : ∀ v, v ≠ 0 → |sign v| = 1)
    (hnd : (system_slots sys).Nodup)
    (hentry : ∀ j, s.ww j = s.xx j - s.yy j)
    (hT : Treated sys r n) :
    |(positive_density_damping sign u sys remote s).ww (slot r n POTENTIAL)
        - s.xx (slot r n POTENTIAL)| ≤ 1 ∧
      (|s.yy (slot r n POTENTIAL)| > 1 →
        (positive_density_damping sign u sys remote s).ww (slot r n POTENTIAL) =
          s.xx (slot r n POTENTIAL) - sign (s.yy (slot r n POTENTIAL)) * 1) ∧
      (¬ |s.yy (slot r n POTENTIAL)| > 1 →
        (positive_density_damping sign u sys remote s).ww (slot r n POTENTIAL) =
          s.ww (slot r n POTENTIAL)) ∧
      ((∃ j, (positive_density_damping sign u sys remote s).ww j ≠ s.ww j) →
        (positive_density_damping sign u sys remote s).changed_w = true) := by
  have hbig : |s.yy (slot r n POTENTIAL)| > 1 →
      (positive_density_damping sign u sys remote s).ww (slot r n POTENTIAL) =
        s.xx (slot r n POTENTIAL) - sign (s.yy (slot r n POTENTIAL)) * 1 := by
    intro hc
    rw [positive_density_damping_ww]
    exact (positive_density_damping_pass_post sign u sys s.xx s.yy (s.ww, 0) hnd hT).1 hc
  have hsmall : ¬ |s.yy (slot r n POTENTIAL)| > 1 →
      (positive_density_damping sign u sys remote s).ww (slot r n POTENTIAL) =
        s.ww (slot r n POTENTIAL) := by
    intro hc
    rw [positive_density_damping_ww]
    refine positive_density_damping_pass_frame sign u sys s.xx s.yy (s.ww, 0) _ ?_
    intro r' hr' hty' n' hn' hmem
    rcases List.mem_append.1 hmem with h | h
    · split_ifs at h with hc'
      · have hsk : skipped sys.processor_id n' = false := by
          by_contra hs
          simp only [Bool.not_eq_false] at hs
          simp [psi_slots, hs] at h
        have hpsi : slot r n POTENTIAL ∈ psi_slots sys.processor_id r n := by
          simp [psi_slots, hT.2.2.2]
        obtain ⟨hrr, hnn⟩ := treated_slot_owner sys hnd hT ⟨hr', hty', hn', hsk⟩
          (psi_slots_subset _ r n hpsi) (psi_slots_subset _ r' n' h)
        subst hrr
        subst hnn
        exact hc hc'
      · cases h
    · exact psi_slot_not_clamp_slot sys hnd hT r' hr' hty' n' hn' h
  refine ⟨?_, hbig, hsmall, ?_⟩
  · by_cases hc : |s.yy (slot r n POTENTIAL)| > 1
    · rw [hbig hc]
      have hne : s.yy (slot r n POTENTIAL) ≠ 0 := by
        intro h0
        rw [h0, abs_zero] at hc
        exact absurd hc (by norm_num)
      have habs := hsign _ hne
      have : s.xx (slot r n POTENTIAL) - sign (s.yy (slot r n POTENTIAL)) * 1
          - s.xx (slot r n POTENTIAL) = -sign (s.yy (slot r n POTENTIAL)) := by ring
      rw [this, abs_neg, habs]
    · rw [hsmall hc, hentry]
      have : s.xx (slot r n POTENTIAL) - s.yy (slot r n POTENTIAL)
          - s.xx (slot r n POTENTIAL) = -s.yy (slot r n POTENTIAL) := by ring
      rw [this, abs_neg]
      exact not_lt.1 hc
  · rintro ⟨j, hj⟩
    by_contra hcw
    apply hj
    have hflag : (positive_density_damping_pass sign u sys s.xx s.yy (s.ww, 0)).2 = 0 := by
      by_contra hne
      apply hcw
      unfold positive_density_damping
      simp only [Parallel_sum]
      rw [if_pos (by omega)]
    rw [positive_density_damping_ww,
      positive_density_damping_pass_quiet sign u sys s.xx s.yy (s.ww, 0) hflag]

/-- C10, at the sample system with `w = x - y` and a potential step of `2` at its first
node: the potential update is clipped to `1`. -/
theorem positive_density_damping_clips_potential_witness :
    (∀ v : ℚ, v ≠ 0 → |sample_sign v| = 1) ∧
      (system_slots sample_system).Nodup ∧
      (∀ j, sample_step_state.ww j = sample_step_state.xx j - sample_step_state.yy j) ∧
      Treated sample_system sample_region (sample_node 0) ∧
      |(positive_density_damping sample_sign sample_unit sample_system 0
            sample_step_state).ww (slot sample_region (sample_node 0) POTENTIAL)
          - sample_step_state.xx (slot sample_region (sample_node 0) POTENTIAL)| ≤ 1 :=
  ⟨sample_sign_abs, sample_layout, fun _ => rfl, sample_treated,
    (positive_density_damping_clips_potential sample_sign sample_unit sample_system 0
      sample_step_state sample_region (sample_node 0) sample_sign_abs sample_layout
      (fun _ => rfl) sample_treated).1⟩

end Mix3Solver

end Genius

namespace Genius

namespace Mix3Solver

open SolutionVariable

/-! ## `projection_positive_density_check` -/

/-- A loop over items with pairwise disjoint slot lists: a relation between the array
before and after the body, stated on the item's slots, holds between the array before
and after the whole loop. -/
theorem foldl_get_rel {α σ ι : Type} (get : σ → Nat → α) (step : σ → ι → σ)
    (S : ι → List Nat) (Q : ι → (Nat → α) → (Nat → α) → Prop)
    (hframe : ∀ s it j, j ∉ S it → get (step s it) j = get s j)
    (hpost : ∀ s it, (S it).Nodup → Q it (get s) (get (step s it)))
    (hdep : ∀ it w0 w0' w w', (∀ j ∈ S it, w0 j = w0' j) → (∀ j ∈ S it, w j = w' j) →
      Q it w0 w → Q it w0' w') :
    ∀ (l : List ι) (s : σ), (l.flatMap S).Nodup →
      ∀ it ∈ l, Q it (get s) (get (l.foldl step s)) := by
  intro l
  induction l with
  | nil => intro s _ it hit; cases hit
  | cons a t ih =>
    intro s hnd it hit
    have hnd' := hnd
    rw [List.flatMap_cons, List.nodup_append] at hnd'
    obtain ⟨hna, hnt, hdisj⟩ := hnd'
    rw [List.foldl_cons]
    by_cases hmem : it ∈ t
    · refine hdep it (get (step s a)) (get s) _ _ ?_ (fun _ _ => rfl) (ih (step s a) hnt it hmem)
      intro j hj
      refine hframe s a j ?_
      intro hja
      exact hdisj hja (List.mem_flatMap.2 ⟨it, hmem, hj⟩)
    · rcases List.mem_cons.1 hit with rfl | h
      · refine hdep it (get s) (get s) (get (step s it)) _ (fun _ _ => rfl) ?_ (hpost s it hna)
        intro j hj
        symm
        refine foldl_get_frame get step S hframe t (step s it) j ?_
        intro b hb hjb
        exact hdisj hj (List.mem_flatMap.2 ⟨b, hb, hjb⟩)
      · exact absurd h hmem

/-- The region loop over a layout with pairwise distinct slots: a relation that the body
establishes at a node between the array before and after holds between the array before
and after all regions. -/
theorem regions_foldl_rel {α σ : Type} (get : σ → Nat → α)
    (stepN : SimulationRegion α → σ → FVM_Node α → σ) (self : Nat)
    (Q : SimulationRegion α → FVM_Node α → (Nat → α) → (Nat → α) → Prop)
    (hframe : ∀ r s n j, j ∉ node_slots self r n → get (stepN r s n) j = get s j)
    (hpost : ∀ r s n, (node_slots self r n).Nodup → Q r n (get s) (get (stepN r s n)))
    (hdep : ∀ r n w0 w0' w w', (∀ j ∈ node_slots self r n, w0 j = w0' j) →
      (∀ j ∈ node_slots self r n, w j = w' j) → Q r n w0 w → Q r n w0' w')
    (regions : List (SimulationRegion α)) (s : σ)
    (hnd : (regions.flatMap (region_slots self)).Nodup) :
    ∀ r ∈ regions, r.type = SimulationRegionType.SemiconductorRegion →
      ∀ n ∈ r.nodes,
        Q r n (get s) (get (regions.foldl
          (fun s r =>
            if r.type ≠ SimulationRegionType.SemiconductorRegion then s
            else r.nodes.foldl (stepN r) s) s)) := by
  intro r hr hty n hn
  have key := foldl_get_rel get
    (fun s r =>
      if r.type ≠ SimulationRegionType.SemiconductorRegion then s
      else r.nodes.foldl (stepN r) s)
    (region_slots self)
    (fun r w0 w => r.type = SimulationRegionType.SemiconductorRegion →
      ∀ n ∈ r.nodes, Q r n w0 w)
    ?_ ?_ ?_ regions s hnd r hr
  · exact key hty n hn
  · intro s r j hjr
    by_cases hr : r.type = SimulationRegionType.SemiconductorRegion
    · simp only [region_slots, hr, ne_eq, not_true_eq_false, if_false] at hjr ⊢
      refine foldl_get_frame get (stepN r) (node_slots self r) (hframe r) r.nodes s j ?_
      intro n hn hjn
      exact hjr (List.mem_flatMap.2 ⟨n, hn, hjn⟩)
    · simp [hr]
  · intro s r hndr hty n hn
    simp only [region_slots, hty, ne_eq, not_true_eq_false, if_false] at hndr ⊢
    exact foldl_get_rel get (stepN r) (node_slots self r) (Q r) (hframe r) (hpost r)
      (hdep r) r.nodes s hndr n hn
  · intro r w0 w0' w w' h0 hww hQ hty n hn
    have hsub : ∀ j ∈ node_slots self r n, j ∈ region_slots self r := by
      intro j hj
      simp only [region_slots, hty, ne_eq, not_true_eq_false, if_false]
      exact List.mem_flatMap.2 ⟨n, hn, hj⟩
    exact hdep r n w0 w0' w w' (fun j hj => h0 j (hsub j hj)) (fun j hj => hww j (hsub j hj))
      (hQ hty n hn)

variable {α : Type} [LinearOrderedField α]

theorem raise_to_apply_self (ww : Nat → α) (i : Nat) (v : α) :
    raise_to ww i v i = max (ww i) v := by
  unfold raise_to
  split_ifs with h
  · rw [Function.update_same, max_eq_right h.le]
  · rw [max_eq_left (not_lt.1 h)]

/-- The values after the chain of floor statements of the projection, on an abstract
array with pairwise distinct slots: each slot holds the larger of its old value and its
floor, the carrier-temperature floors being taken with the final densities. -/
theorem clamp_chain_values (one T fl : α) (w0 : Nat → α) (bl bn bp : Bool)
    (n p tl tn tp : Nat) (hn_p : n ≠ p)
    (hn_tl : bl = true → n ≠ tl) (hn_tn : bn = true → n ≠ tn) (hn_tp : bp = true → n ≠ tp)
    (hp_tl : bl = true → p ≠ tl) (hp_tn : bn = true → p ≠ tn) (hp_tp : bp = true → p ≠ tp)
    (htl_tn : bl = true → bn = true → tl ≠ tn) (htl_tp : bl = true → bp = true → tl ≠ tp)
    (htn_tp : bn = true → bp = true → tn ≠ tp) :
    let w1 := raise_to w0 n one
    let w2 := raise_to w1 p one
    let w3 := if bl = true then raise_to w2 tl fl else w2
    let w4 := if bn = true then raise_to w3 tn (9 / 10 * w3 n * T) else w3
    let w5 := if bp = true then raise_to w4 tp (9 / 10 * w4 p * T) else w4
    w5 n = max (w0 n) one ∧ w5 p = max (w0 p) one ∧
      (bl = true → w5 tl = max (w0 tl) fl) ∧
      (bn = true → w5 tn = max (w0 tn) (9 / 10 * T * w5 n)) ∧
      (bp = true → w5 tp = max (w0 tp) (9 / 10 * T * w5 p)) := by
  intro w1 w2 w3 w4 w5
  have f1 : ∀ j, j ≠ n → w1 j = w0 j := fun j hj => raise_to_ne w0 n one hj
  have f2 : ∀ j, j ≠ p → w2 j = w1 j := fun j hj => raise_to_ne w1 p one hj
  have f3 : ∀ j, (bl = true → j ≠ tl) → w3 j = w2 j := fun j hj => raise_to_if_ne bl w2 tl fl hj
  have f4 : ∀ j, (bn = true → j ≠ tn) → w4 j = w3 j := fun j hj => raise_to_if_ne bn w3 tn _ hj
  have f5 : ∀ j, (bp = true → j ≠ tp) → w5 j = w4 j := fun j hj => raise_to_if_ne bp w4 tp _ hj
  have en : w5 n = w3 n := by rw [f5 n hn_tp, f4 n hn_tn]
  have ep : w5 p = w4 p := f5 p hp_tp
  refine ⟨?_, ?_, ?_, ?_, ?_⟩
  · rw [en, f3 n hn_tl, f2 n hn_p]
    exact raise_to_apply_self w0 n one
  · rw [ep, f4 p hp_tn, f3 p hp_tl]
    show raise_to w1 p one p = _
    rw [raise_to_apply_self, f1 p (Ne.symm hn_p)]
  · intro hb
    rw [f5 tl (htl_tp hb), f4 tl (htl_tn hb)]
    show (if bl = true then raise_to w2 tl fl else w2) tl = _
    rw [if_pos hb, raise_to_apply_self, f2 tl (fun h => hp_tl hb h.symm),
      f1 tl (fun h => hn_tl hb h.symm)]
  · intro hb
    rw [f5 tn (htn_tp hb), en]
    show (if bn = true then raise_to w3 tn (9 / 10 * w3 n * T) else w3) tn = _
    rw [if_pos hb, raise_to_apply_self, f3 tn (fun hl h => htl_tn hl hb h.symm),
      f2 tn (fun h => hp_tn hb h.symm), f1 tn (fun h => hn_tn hb h.symm)]
    congr 1
    ring
  · intro hb
    rw [ep]
    show (if bp = true then raise_to w4 tp (9 / 10 * w4 p * T) else w4) tp = _
    rw [if_pos hb, raise_to_apply_self, f4 tp (fun hn h => htn_tp hn hb h.symm),
      f3 tp (fun hl h => htl_tp hl hb h.symm), f2 tp (fun h => hp_tp hb h.symm),
      f1 tp (fun h => hn_tp hb h.symm)]
    congr 1
    ring

end Mix3Solver

end Genius

namespace Genius

namespace Mix3Solver

open SolutionVariable

variable {α : Type} [LinearOrderedField α]

/-- The projection writes nothing but clamped slots of the node it visits. -/
theorem projection_node_frame (u : PhysicalUnit α) (T_external : α) (self : Nat)
    (r : SimulationRegion α) (xx : Nat → α) (n : FVM_Node α) (j : Nat)
    (hj : j ∉ clamp_slots self r n) :
    projection_positive_density_check_node u T_external self r xx n j = xx j := by
  unfold projection_positive_density_check_node
  cases hs : skipped self n
  · simp only [clamp_slots, hs, clamped_variables, Bool.false_eq_true, if_false, List.mem_map,
      List.mem_append, List.mem_cons, not_exists, not_and] at hj
    have hn : j ≠ slot r n ELECTRON := fun h => hj ELECTRON (by simp) h.symm
    have hp : j ≠ slot r n HOLE := fun h => hj HOLE (by simp) h.symm
    have hTl : r.get_advanced_model.enable_Tl = true → j ≠ slot r n TEMPERATURE :=
      fun hb h => hj TEMPERATURE (by simp [hb]) h.symm
    have hTn : r.get_advanced_model.enable_Tn = true → j ≠ slot r n E_TEMP :=
      fun hb h => hj E_TEMP (by simp [hb]) h.symm
    have hTp : r.get_advanced_model.enable_Tp = true → j ≠ slot r n H_TEMP :=
      fun hb h => hj H_TEMP (by simp [hb]) h.symm
    simp only [Bool.false_eq_true, if_false]
    unfold slot at hn hp hTl hTn hTp
    rw [raise_to_if_ne _ _ _ _ hTp, raise_to_if_ne _ _ _ _ hTn, raise_to_if_ne _ _ _ _ hTl,
      raise_to_ne _ _ _ hp, raise_to_ne _ _ _ hn]
  · simp

theorem mem_clamped_variables {α : Type} (r : SimulationRegion α) (v : SolutionVariable) :
    v ∈ clamped_variables r ↔
      v = ELECTRON ∨ v = HOLE ∨
        (r.get_advanced_model.enable_Tl = true ∧ v = TEMPERATURE) ∨
        (r.get_advanced_model.enable_Tn = true ∧ v = E_TEMP) ∨
        (r.get_advanced_model.enable_Tp = true ∧ v = H_TEMP) := by
  unfold clamped_variables
  cases r.get_advanced_model.enable_Tl <;> cases r.get_advanced_model.enable_Tn <;>
    cases r.get_advanced_model.enable_Tp <;> simp

/-- At the node it visits, the projection leaves in every clamped slot the larger of its
old value and its floor. -/
theorem projection_node_values (u : PhysicalUnit α) (T_external : α) (self : Nat)
    (r : SimulationRegion α) (xx : Nat → α) (n : FVM_Node α)
    (hnd : (node_slots self r n).Nodup) (hs : skipped self n = false) :
    ∀ v ∈ clamped_variables r,
      projection_positive_density_check_node u T_external self r xx n (slot r n v) =
        max (xx (slot r n v))
          (projection_floor u T_external r n
            (projection_positive_density_check_node u T_external self r xx n) v) := by
  have hne := fun {a b : SolutionVariable} => @slot_ne_of_nodup α self r n hs hnd a b
  have key := clamp_chain_values (onePerCMC u) T_external (T_external - 50 * u.K) xx
    r.get_advanced_model.enable_Tl r.get_advanced_model.enable_Tn
    r.get_advanced_model.enable_Tp
    (slot r n ELECTRON) (slot r n HOLE) (slot r n TEMPERATURE) (slot r n E_TEMP)
    (slot r n H_TEMP)
    (hne (by simp [clamped_variables]) (by simp [clamped_variables]) (by decide))
    (fun hb => hne (by simp [clamped_variables]) (by simp [clamped_variables, hb]) (by decide))
    (fun hb => hne (by simp [clamped_variables]) (by simp [clamped_variables, hb]) (by decide))
    (fun hb => hne (by simp [clamped_variables]) (by simp [clamped_variables, hb]) (by decide))
    (fun hb => hne (by simp [clamped_variables]) (by simp [clamped_variables, hb]) (by decide))
    (fun hb => hne (by simp [clamped_variables]) (by simp [clamped_variables, hb]) (by decide))
    (fun hb => hne (by simp [clamped_variables]) (by simp [clamped_variables, hb]) (by decide))
    (fun hb hb' => hne (by simp [clamped_variables, hb]) (by simp [clamped_variables, hb'])
      (by decide))
    (fun hb hb' => hne (by simp [clamped_variables, hb]) (by simp [clamped_variables, hb'])
      (by decide))
    (fun hb hb' => hne (by simp [clamped_variables, hb]) (by simp [clamped_variables, hb'])
      (by decide))
  have hstep : projection_positive_density_check_node u T_external self r xx n =
      (let w1 := raise_to xx (slot r n ELECTRON) (onePerCMC u)
       let w2 := raise_to w1 (slot r n HOLE) (onePerCMC u)
       let w3 := if r.get_advanced_model.enable_Tl = true then
         raise_to w2 (slot r n TEMPERATURE) (T_external - 50 * u.K) else w2
       let w4 := if r.get_advanced_model.enable_Tn = true then
         raise_to w3 (slot r n E_TEMP) (9 / 10 * w3 (slot r n ELECTRON) * T_external) else w3
       let w5 := if r.get_advanced_model.enable_Tp = true then
         raise_to w4 (slot r n H_TEMP) (9 / 10 * w4 (slot r n HOLE) * T_external) else w4
       w5) := by
    unfold projection_positive_density_check_node
    simp only [hs, Bool.false_eq_true, if_false]
    rfl
  rw [hstep]
  obtain ⟨h1, h2, h3, h4, h5⟩ := key
  intro v hv
  rcases (mem_clamped_variables r v).1 hv with rfl | rfl | ⟨hb, rfl⟩ | ⟨hb, rfl⟩ | ⟨hb, rfl⟩
  · exact h1
  · exact h2
  · exact h3 hb
  · exact h4 hb
  · exact h5 hb

/-- The array after `projection_positive_density_check`, at a treated node of a layout
with pairwise distinct slots: every clamped slot holds the larger of its old value and
its floor. -/
theorem projection_values (u : PhysicalUnit α) (sys : SimulationSystem α)
    (s : ProjectionState α) (hnd : (system_slots sys).Nodup)
    {r : SimulationRegion α} {n : FVM_Node α} (hT : Treated sys r n) :
    ∀ v ∈ clamped_variables r,
      (projection_positive_density_check u sys s).xx (slot r n v) =
        max (s.xx (slot r n v))
          (projection_floor u sys.T_external r n
            (projection_positive_density_check u sys s).xx v) := by
  obtain ⟨hr, hty, hn, hs⟩ := hT
  have hslot : ∀ v ∈ clamped_variables r, slot r n v ∈ node_slots sys.processor_id r n := by
    intro v hv
    refine clamp_slots_subset _ r n ?_
    simp only [clamp_slots, hs, Bool.false_eq_true, if_false]
    exact List.mem_map_of_mem _ hv
  exact regions_foldl_rel (fun w => w)
    (fun r w n => projection_positive_density_check_node u sys.T_external sys.processor_id r w n)
    sys.processor_id
    (fun r n w0 w => skipped sys.processor_id n = false →
      ∀ v ∈ clamped_variables r,
        w (slot r n v) = max (w0 (slot r n v)) (projection_floor u sys.T_external r n w v))
    (fun r w n j hj => projection_node_frame u sys.T_external sys.processor_id r w n j
      (fun h => hj (clamp_slots_subset _ r n h)))
    (fun r w n hnd hs =>
      projection_node_values u sys.T_external sys.processor_id r w n hnd hs)
    (fun r n w0 w0' w w' h0 hww hQ hs v hv => by
      have hm : ∀ v ∈ clamped_variables r, slot r n v ∈ node_slots sys.processor_id r n := by
        intro v hv
        refine clamp_slots_subset _ r n ?_
        simp only [clamp_slots, hs, Bool.false_eq_true, if_false]
        exact List.mem_map_of_mem _ hv
      have hfl : projection_floor u sys.T_external r n w' v =
          projection_floor u sys.T_external r n w v := by
        cases v <;> simp only [projection_floor]
        · rw [hww _ (hm ELECTRON (by simp [clamped_variables]))]
        · rw [hww _ (hm HOLE (by simp [clamped_variables]))]
      rw [hfl, ← hww _ (hm v hv), ← h0 _ (hm v hv)]
      exact hQ hs v hv)
    sys.regions s.xx hnd r hr hty n hn hs

/-- A slot that is a clamped slot of no treated node keeps its value through the
projection. -/
theorem projection_frame (u : PhysicalUnit α) (sys : SimulationSystem α)
    (s : ProjectionState α) (j : Nat)
    (hj : ∀ r ∈ sys.regions, r.type = SimulationRegionType.SemiconductorRegion →
      ∀ n ∈ r.nodes, j ∉ clamp_slots sys.processor_id r n) :
    (projection_positive_density_check u sys s).xx j = s.xx j :=
  regions_foldl_frame (fun w => w)
    (fun r w n => projection_positive_density_check_node u sys.T_external sys.processor_id r w n)
    (clamp_slots sys.processor_id)
    (fun r w n j hj => projection_node_frame u sys.T_external sys.processor_id r w n j hj)
    sys.regions s.xx j hj

/-- C11: on a layout whose variable slots are pairwise distinct, after
`projection_positive_density_check(x, xo)` every treated node satisfies
`x[n] >= 1 cm^-3`, `x[p] >= 1 cm^-3`, `x[T_l] >= T_ext - 50 K` when Tl is enabled,
`x[Tn] >= 0.9*T_ext*x[n]` when Tn is enabled and `x[Tp] >= 0.9*T_ext*x[p]` when Tp is
enabled; every clamped component holds the larger of its old value and its floor (the
floors of Tn and Tp being the ones just listed, with the final densities), so a
component that already satisfies its floor keeps its value; `xo` is not modified. -/
theorem projection_positive_density_check_floors (u : PhysicalUnit α)
    (sys : SimulationSystem α) (s : ProjectionState α) (r : SimulationRegion α)
    (n : FVM_Node α) (hnd : (system_slots sys).Nodup) (hT : Treated sys r n) :
    DensityFloors u r n (projection_positive_density_check u sys s).xx ∧
      LatticeFloor u sys.T_external r n (projection_positive_density_check u sys s).xx ∧
      CarrierTemperatureFloors sys.T_external r n
        (projection_positive_density_check u sys s).xx ∧
      (∀ v ∈ clamped_variables r,
        (projection_positive_density_check u sys s).xx (slot r n v) =
          max (s.xx (slot r n v))
            (projection_floor u sys.T_external r n
              (projection_positive_density_check u sys s).xx v)) ∧
      (∀ v ∈ clamped_variables r,
        projection_floor u sys.T_external r n
            (projection_positive_density_check u sys s).xx v ≤ s.xx (slot r n v) →
          (projection_positive_density_check u sys s).xx (slot r n v) = s.xx (slot r n v)) ∧
      (projection_positive_density_check u sys s).oo = s.oo := by
  have hv := projection_values u sys s hnd hT
  have hfloor : ∀ v ∈ clamped_variables r,
      projection_floor u sys.T_external r n (projection_positive_density_check u sys s).xx v
        ≤ (projection_positive_density_check u sys s).xx (slot r n v) := by
    intro v hmem
    rw [hv v hmem]
    exact le_max_right _ _
  refine ⟨⟨?_, ?_⟩, ?_, ⟨?_, ?_⟩, hv, ?_, rfl⟩
  · exact hfloor ELECTRON (by simp [clamped_variables])
  · exact hfloor HOLE (by simp [clamped_variables])
  · intro hb
    exact hfloor TEMPERATURE (by simp [clamped_variables, hb])
  · intro hb
    exact hfloor E_TEMP (by simp [clamped_variables, hb])
  · intro hb
    exact hfloor H_TEMP (by simp [clamped_variables, hb])
  · intro v hmem hle
    rw [hv v hmem]
    exact max_eq_left hle

/-- C11, at the sample system and its first node, whose electron density `0` is raised to
the floor while `xo` stays as it was. -/
theorem projection_positive_density_check_floors_witness :
    (system_slots sample_system).Nodup ∧
      Treated sample_system sample_region (sample_node 0) ∧
      DensityFloors sample_unit sample_region (sample_node 0)
        (projection_positive_density_check sample_unit sample_system
          sample_projection_state).xx ∧
      (projection_positive_density_check sample_unit sample_system
          sample_projection_state).oo = sample_projection_state.oo :=
  ⟨sample_layout, sample_treated,
    (projection_positive_density_check_floors sample_unit sample_system
      sample_projection_state sample_region (sample_node 0) sample_layout sample_treated).1,
    (projection_positive_density_check_floors sample_unit sample_system
      sample_projection_state sample_region (sample_node 0) sample_layout
      sample_treated).2.2.2.2.2⟩

end Mix3Solver

end Genius

namespace Genius

namespace Mix3Solver

/-! ## The residual and Jacobian drivers -/

section Scaling

variable {α : Type} [LinearOrderedField α]

/-- The scaling loop multiplies the rows below `n_local_dofs` by their scale and leaves
the other rows alone. -/
theorem scale_rows_apply (n_local_dofs : Nat) (scale ff : Nat → α) (i : Nat) :
    scale_rows n_local_dofs scale ff i = if i < n_local_dofs then ff i * scale i else ff i := by
  unfold scale_rows
  induction n_local_dofs with
  | zero => simp
  | succ m ih =>
    rw [List.range_succ, List.foldl_append, List.foldl_cons, List.foldl_nil]
    by_cases him : i = m
    · subst him
      rw [Function.update_same, ih]
      simp
    · rw [Function.update_noteq him, ih]
      by_cases hlt : i < m
      · rw [if_pos hlt, if_pos (by omega)]
      · rw [if_neg hlt, if_neg (by omega)]

/-- Collaborators that add their terms one after the other add the sum of the terms. -/
theorem foldl_adding (G : Nat → Nat → α) :
    ∀ (l : List Nat) (st : (Nat → α) × InsertMode) (i : Nat),
      (l.foldl (fun (st : (Nat → α) × InsertMode) n =>
          ((fun j => st.1 j + G n j), InsertMode.ADD_VALUES)) st).1 i
        = st.1 i + (l.map fun n => G n i).sum
  | [], st, i => by simp
  | n :: rest, st, i => by
    rw [List.foldl_cons, foldl_adding G rest _ i, List.map_cons, List.sum_cons]
    ring

/-- C12: for every local index `i < n_local_dofs` the residual that
`build_petsc_sens_residual` returns is, at `i`, the product of `L[i]` and the assembled
residual: the zero vector after the region terms, the time-dependent terms (when
`TimeDependent` holds), the hanging-node terms and the boundary terms, in this order, and
the vector assembly.  The rows from `n_local_dofs` on are the assembled ones, and `L` is
returned as it was.  For collaborators that add their terms, the assembled residual at
`i` is the sum of the region, time-dependent, hanging-node and boundary terms at `i`. -/
theorem build_petsc_sens_residual_scaled (k : ResidualKernels α) (n_regions n_bcs : Nat)
    (TimeDependent : Bool) (n_local_dofs : Nat) (L x : Nat → α) (i : Nat)
    (hi : i < n_local_dofs) :
    (build_petsc_sens_residual k n_regions n_bcs TimeDependent n_local_dofs L x).1 i =
        k.VecAssembly
          ((List.range n_bcs).foldl (fun st b => k.Mix_EBM3_Function b (k.VecScatter x) st)
            ((List.range n_regions).foldl
              (fun st n => k.EBM3_Function_Hanging_Node n (k.VecScatter x) st)
              (if TimeDependent = true then
                (List.range n_regions).foldl
                  (fun st n => k.EBM3_Time_Dependent_Function n (k.VecScatter x) st)
                  ((List.range n_regions).foldl
                    (fun st n => k.EBM3_Function n (k.VecScatter x) st)
                    (fun _ => 0, InsertMode.NOT_SET_VALUES))
              else
                (List.range n_regions).foldl
                  (fun st n => k.EBM3_Function n (k.VecScatter x) st)
                  (fun _ => 0, InsertMode.NOT_SET_VALUES)))).1 i * L i ∧
      (∀ j, n_local_dofs ≤ j →
        (build_petsc_sens_residual k n_regions n_bcs TimeDependent n_local_dofs L x).1 j =
          k.VecAssembly
            ((List.range n_bcs).foldl
              (fun st b => k.Mix_EBM3_Function b (k.VecScatter x) st)
              ((List.range n_regions).foldl
                (fun st n => k.EBM3_Function_Hanging_Node n (k.VecScatter x) st)
                (if TimeDependent = true then
                  (List.range n_regions).foldl
                    (fun st n => k.EBM3_Time_Dependent_Function n (k.VecScatter x) st)
                    ((List.range n_regions).foldl
                      (fun st n => k.EBM3_Function n (k.VecScatter x) st)
                      (fun _ => 0, InsertMode.NOT_SET_VALUES))
                else
                  (List.range n_regions).foldl
                    (fun st n => k.EBM3_Function n (k.VecScatter x) st)
                    (fun _ => 0, InsertMode.NOT_SET_VALUES)))).1 j) ∧
      (build_petsc_sens_residual k n_regions n_bcs TimeDependent n_local_dofs L x).2 = L ∧
      (∀ (scatter : (Nat → α) → (Nat → α)) (F T H B : Nat → (Nat → α) → Nat → α),
        (build_petsc_sens_residual (adding_kernels scatter F T H B) n_regions n_bcs
            TimeDependent n_local_dofs L x).1 i
          = assembled_residual_sum F T H B n_regions n_bcs TimeDependent (scatter x) i
            * L i) := by
  refine ⟨?_, ?_, rfl, ?_⟩
  · show scale_rows n_local_dofs L _ i = _
    rw [scale_rows_apply, if_pos hi]
    rfl
  · intro j hj
    show scale_rows n_local_dofs L _ j = _
    rw [scale_rows_apply, if_neg (by omega)]
    rfl
  · intro scatter F T H B
    show scale_rows n_local_dofs L _ i = _
    rw [scale_rows_apply, if_pos hi]
    congr 1
    unfold assemble_residual adding_kernels assembled_residual_sum
    simp only
    rw [foldl_adding (fun b j => B b (scatter x) j),
      foldl_adding (fun n j => H n (scatter x) j)]
    cases TimeDependent
    · simp only [Bool.false_eq_true, if_false]
      rw [foldl_adding (fun n j => F n (scatter x) j)]
      ring
    · simp only [if_true]
      rw [foldl_adding (fun n j => T n (scatter x) j),
        foldl_adding (fun n j => F n (scatter x) j)]
      ring

/-- C12, at the sample collaborators with two regions and three local rows: region `1`
adds `2` to row `1` and `L[1] = 5`, so row `1` of the returned residual is `10`; the same
with the collaborators written as adding ones. -/
theorem build_petsc_sens_residual_scaled_witness :
    (1 : Nat) < 3 ∧
      (build_petsc_sens_residual sample_kernels 2 0 false 3 (fun _ => 5) (fun _ => 0)).1 1
        = 10 ∧
      (build_petsc_sens_residual
          (adding_kernels (fun x => x) (fun n _ j => if j = n then (n : ℚ) + 1 else 0)
            (fun _ _ _ => 0) (fun _ _ _ => 0) (fun _ _ _ => 0))
          2 0 false 3 (fun _ => 5) (fun _ => 0)).1 1 = 10 := by
  refine ⟨by decide, ?_, ?_⟩
  · rw [(build_petsc_sens_residual_scaled sample_kernels 2 0 false 3 (fun _ => 5)
      (fun _ => 0) 1 (by decide)).1]
    norm_num [sample_kernels, List.range, List.range.loop, Function.update]
  · rw [(build_petsc_sens_residual_scaled sample_kernels 2 0 false 3 (fun _ => 5)
      (fun _ => 0) 1 (by decide)).2.2.2]
    norm_num [assembled_residual_sum, List.range, List.range.loop]

/-- C13 (as the claim states it, refuted): with one local row, `r[0] = 1` and
`L[0] = 2`, the scaling loop applied once gives `2` and applied twice gives `4`. -/
theorem scale_rows_twice_differs :
    scale_rows 1 (fun _ => (2 : ℚ)) (fun _ => 1) 0 = 2 ∧
      scale_rows 1 (fun _ => (2 : ℚ)) (scale_rows 1 (fun _ => 2) (fun _ => 1)) 0 = 4 ∧
      scale_rows 1 (fun _ => (2 : ℚ)) (scale_rows 1 (fun _ => 2) (fun _ => 1)) ≠
        scale_rows 1 (fun _ => (2 : ℚ)) (fun _ => 1) := by
  have h1 : scale_rows 1 (fun _ => (2 : ℚ)) (fun _ => 1) 0 = 2 := by
    rw [scale_rows_apply]; norm_num
  have h2 : scale_rows 1 (fun _ => (2 : ℚ)) (scale_rows 1 (fun _ => 2) (fun _ => 1)) 0 = 4 := by
    rw [scale_rows_apply, h1]; norm_num
  refine ⟨h1, h2, ?_⟩
  intro h
  have h3 := congrFun h 0
  rw [h1, h2] at h3
  norm_num at h3

/-- C13 (amended): applying the scaling loop twice multiplies every row below
`n_local_dofs` by the square of its scale and leaves the other rows alone; the result
equals the once-scaled vector exactly when every row `n < n_local_dofs` has
`r[n]*L[n] = 0` or `L[n] = 1`. -/
theorem scale_rows_twice (n_local_dofs : Nat) (L r : Nat → α) :
    (∀ n, scale_rows n_local_dofs L (scale_rows n_local_dofs L r) n =
        if n < n_local_dofs then r n * L n * L n else r n) ∧
      (scale_rows n_local_dofs L (scale_rows n_local_dofs L r) = scale_rows n_local_dofs L r ↔
        ∀ n, n < n_local_dofs → r n * L n = 0 ∨ L n = 1) := by
  have h2 : ∀ n, scale_rows n_local_dofs L (scale_rows n_local_dofs L r) n =
      if n < n_local_dofs then r n * L n * L n else r n := by
    intro n
    rw [scale_rows_apply, scale_rows_apply]
    split_ifs <;> rfl
  refine ⟨h2, ?_⟩
  constructor
  · intro h n hn
    have hn2 := congrFun h n
    rw [h2, scale_rows_apply, if_pos hn, if_pos hn] at hn2
    by_cases h0 : r n * L n = 0
    · exact Or.inl h0
    · right
      have : r n * L n * L n = r n * L n * 1 := by rw [hn2, mul_one]
      exact mul_left_cancel₀ h0 this
  · intro h
    funext n
    rw [h2, scale_rows_apply]
    split_ifs with hn
    · rcases h n hn with h0 | h1
      · rw [h0, zero_mul]
      · rw [h1, mul_one, mul_one]
    · rfl

end Scaling

end Mix3Solver

end Genius

namespace Genius

namespace Mix3Solver

/-! ## Reserving the pattern at the first assembly only -/

theorem filter_map_of_not (p : DriverCall → Bool) (f : Nat → DriverCall)
    (hf : ∀ i, p (f i) = false) (l : List Nat) : (l.map f).filter p = [] := by
  rw [List.filter_eq_nil_iff]
  intro c hc
  obtain ⟨i, _, rfl⟩ := List.mem_map.1 hc
  simp [hf i]

theorem reserve_calls_map_reserve (l : List Nat) :
    (l.map DriverCall.Mix_EBM3_Jacobian_Reserve).filter is_reserve =
      l.map DriverCall.Mix_EBM3_Jacobian_Reserve := by
  rw [List.filter_eq_self]
  intro c hc
  obtain ⟨i, _, rfl⟩ := List.mem_map.1 hc
  rfl

/-- Dropping the calls before the first `Mix_EBM3_Jacobian` from `a ++ b`, where `a`
holds no such call and `b` no reserve call, leaves no reserve call. -/
theorem reserve_calls_from_first_bc_jacobian (a b : List DriverCall)
    (ha : a.filter is_bc_jacobian = []) (hb : b.filter is_reserve = []) :
    reserve_calls (from_first_bc_jacobian (a ++ b)) = [] := by
  unfold from_first_bc_jacobian
  rw [List.filter_eq_nil_iff] at ha
  have hdrop : (a ++ b).dropWhile (fun c => !is_bc_jacobian c) =
      b.dropWhile (fun c => !is_bc_jacobian c) := by
    induction a with
    | nil => rfl
    | cons c t ih =>
      have hc := ha c (List.mem_cons_self c t)
      rw [List.cons_append, List.dropWhile_cons, if_pos (by simpa using hc)]
      exact ih (fun d hd => ha d (List.mem_cons_of_mem c hd))
  rw [hdrop]
  unfold reserve_calls
  rw [List.filter_eq_nil_iff] at hb ⊢
  intro c hc
  exact hb c ((List.dropWhile_suffix _).subset hc)

/-- The first call of `build_petsc_sens_jacobian` reserves once per boundary condition,
before any `Mix_EBM3_Jacobian`, and sets the flag. -/
theorem build_petsc_sens_jacobian_first (n_regions n_bcs : Nat) (td : Bool) (s : FirstAssemble)
    (hs : s.jacobian_matrix_first_assemble = false) :
    (build_petsc_sens_jacobian n_regions n_bcs td s).1.jacobian_matrix_first_assemble = true ∧
      reserve_calls (build_petsc_sens_jacobian n_regions n_bcs td s).2 =
        (List.range n_bcs).map DriverCall.Mix_EBM3_Jacobian_Reserve ∧
      reserve_calls (from_first_bc_jacobian (build_petsc_sens_jacobian n_regions n_bcs td s).2)
        = [] := by
  have e1 := filter_map_of_not is_reserve DriverCall.EBM3_Jacobian (fun _ => rfl)
  have e2 := filter_map_of_not is_reserve DriverCall.EBM3_Time_Dependent_Jacobian (fun _ => rfl)
  have e3 := filter_map_of_not is_reserve DriverCall.EBM3_Jacobian_Hanging_Node (fun _ => rfl)
  have e4 := filter_map_of_not is_reserve DriverCall.Mix_EBM3_Jacobian (fun _ => rfl)
  have b1 := filter_map_of_not is_bc_jacobian DriverCall.EBM3_Jacobian (fun _ => rfl)
  have b2 :=
    filter_map_of_not is_bc_jacobian DriverCall.EBM3_Time_Dependent_Jacobian (fun _ => rfl)
  have b3 :=
    filter_map_of_not is_bc_jacobian DriverCall.EBM3_Jacobian_Hanging_Node (fun _ => rfl)
  have b4 := filter_map_of_not is_bc_jacobian DriverCall.Mix_EBM3_Jacobian_Reserve (fun _ => rfl)
  have e5 : [DriverCall.MatAssembly_FINAL, DriverCall.MatDiagonalScale].filter is_reserve = [] :=
    rfl
  have e6 : [DriverCall.VecScatter, DriverCall.MatZeroEntries].filter is_reserve = [] := rfl
  have e7 : [DriverCall.MatSetOption_IGNORE_ZERO_ENTRIES].filter is_reserve = [] := rfl
  have b6 : [DriverCall.VecScatter, DriverCall.MatZeroEntries].filter is_bc_jacobian = [] := rfl
  have b7 : [DriverCall.MatSetOption_IGNORE_ZERO_ENTRIES].filter is_bc_jacobian = [] := rfl
  have hflag :
      (build_petsc_sens_jacobian n_regions n_bcs td s).1.jacobian_matrix_first_assemble
        = true := by
    unfold build_petsc_sens_jacobian
    simp [hs]
  have htrace : (build_petsc_sens_jacobian n_regions n_bcs td s).2 =
      ([DriverCall.VecScatter, DriverCall.MatZeroEntries]
          ++ (List.range n_regions).map DriverCall.EBM3_Jacobian
          ++ (if td = true then
                (List.range n_regions).map DriverCall.EBM3_Time_Dependent_Jacobian else [])
          ++ (List.range n_bcs).map DriverCall.Mix_EBM3_Jacobian_Reserve
          ++ [DriverCall.MatSetOption_IGNORE_ZERO_ENTRIES]
          ++ (List.range n_regions).map DriverCall.EBM3_Jacobian_Hanging_Node)
        ++ ((List.range n_bcs).map DriverCall.Mix_EBM3_Jacobian
          ++ [DriverCall.MatAssembly_FINAL, DriverCall.MatDiagonalScale]) := by
    unfold build_petsc_sens_jacobian
    cases td <;> simp [hs]
  refine ⟨hflag, ?_, ?_⟩
  · rw [htrace]
    unfold reserve_calls
    cases td <;>
      simp only [Bool.false_eq_true, if_false, if_true, List.filter_append, e1, e2, e3, e4,
        e5, e6, e7, reserve_calls_map_reserve, List.nil_append, List.append_nil, List.filter_nil]
  · rw [htrace]
    refine reserve_calls_from_first_bc_jacobian _ _ ?_ ?_
    · cases td <;>
        simp only [Bool.false_eq_true, if_false, if_true, List.filter_append, b1, b2, b3, b4,
          b6, b7, List.nil_append, List.append_nil, List.filter_nil]
    · simp only [List.filter_append, e4, e5, List.append_nil]

/-- A later call of `build_petsc_sens_jacobian` reserves nothing and keeps the flag. -/
theorem build_petsc_sens_jacobian_later (n_regions n_bcs : Nat) (td : Bool) (s : FirstAssemble)
    (hs : s.jacobian_matrix_first_assemble = true) :
    (build_petsc_sens_jacobian n_regions n_bcs td s).1.jacobian_matrix_first_assemble = true ∧
      reserve_calls (build_petsc_sens_jacobian n_regions n_bcs td s).2 = [] := by
  have e1 := filter_map_of_not is_reserve DriverCall.EBM3_Jacobian (fun _ => rfl)
  have e2 := filter_map_of_not is_reserve DriverCall.EBM3_Time_Dependent_Jacobian (fun _ => rfl)
  have e3 := filter_map_of_not is_reserve DriverCall.EBM3_Jacobian_Hanging_Node (fun _ => rfl)
  have e4 := filter_map_of_not is_reserve DriverCall.Mix_EBM3_Jacobian (fun _ => rfl)
  have e5 : [DriverCall.MatAssembly_FINAL, DriverCall.MatDiagonalScale].filter is_reserve = [] :=
    rfl
  have e6 : [DriverCall.VecScatter, DriverCall.MatZeroEntries].filter is_reserve = [] := rfl
  unfold build_petsc_sens_jacobian reserve_calls
  refine ⟨by simp [hs], ?_⟩
  cases td <;>
    simp only [hs, Bool.not_true, Bool.false_eq_true, if_false, if_true, List.filter_append,
      e1, e2, e3, e4, e5, e6, List.nil_append, List.append_nil]

/-- The first call of `get_electrode_load` reserves once per boundary condition, before
any `Mix_EBM3_Jacobian`, and sets the flag. -/
theorem get_electrode_load_first (n_regions n_bcs : Nat) (is_electrode : Nat → Bool)
    (td : Bool) (s : FirstAssemble) (hs : s.g_matrix_first_assemble = false) :
    (get_electrode_load n_regions n_bcs is_electrode td s).1.g_matrix_first_assemble = true ∧
      reserve_calls (get_electrode_load n_regions n_bcs is_electrode td s).2 =
        (List.range n_bcs).map DriverCall.Mix_EBM3_Jacobian_Reserve ∧
      reserve_calls (from_first_bc_jacobian
        (get_electrode_load n_regions n_bcs is_electrode td s).2) = [] := by
  have e1 := filter_map_of_not is_reserve DriverCall.EBM3_Jacobian (fun _ => rfl)
  have e2 := filter_map_of_not is_reserve DriverCall.EBM3_Time_Dependent_Jacobian (fun _ => rfl)
  have e3 := filter_map_of_not is_reserve DriverCall.Mix_EBM3_Electrode_Load (fun _ => rfl)
  have e4 := filter_map_of_not is_reserve DriverCall.Mix_EBM3_Jacobian (fun _ => rfl)
  have b1 := filter_map_of_not is_bc_jacobian DriverCall.EBM3_Jacobian (fun _ => rfl)
  have b2 :=
    filter_map_of_not is_bc_jacobian DriverCall.EBM3_Time_Dependent_Jacobian (fun _ => rfl)
  have b3 := filter_map_of_not is_bc_jacobian DriverCall.Mix_EBM3_Electrode_Load (fun _ => rfl)
  have b4 := filter_map_of_not is_bc_jacobian DriverCall.Mix_EBM3_Jacobian_Reserve (fun _ => rfl)
  have e5 : [DriverCall.MatAssembly_FINAL, DriverCall.MatDiagonalScale].filter is_reserve = [] :=
    rfl
  have e6 : [DriverCall.VecScatter, DriverCall.MatZeroEntries].filter is_reserve = [] := rfl
  have e7 : [DriverCall.MatAssembly_FINAL].filter is_reserve = [] := rfl
  have b6 : [DriverCall.VecScatter, DriverCall.MatZeroEntries].filter is_bc_jacobian = [] := rfl
  have b7 : [DriverCall.MatAssembly_FINAL].filter is_bc_jacobian = [] := rfl
  have htrace : (get_electrode_load n_regions n_bcs is_electrode td s).2 =
      ([DriverCall.VecScatter, DriverCall.MatZeroEntries]
          ++ (List.range n_regions).map DriverCall.EBM3_Jacobian
          ++ (List.range n_bcs).map DriverCall.Mix_EBM3_Jacobian_Reserve
          ++ [DriverCall.MatAssembly_FINAL]
          ++ ((List.range n_bcs).filter is_electrode).map DriverCall.Mix_EBM3_Electrode_Load
          ++ (if td = true then
                (List.range n_regions).map DriverCall.EBM3_Time_Dependent_Jacobian else []))
        ++ ((List.range n_bcs).map DriverCall.Mix_EBM3_Jacobian
          ++ [DriverCall.MatAssembly_FINAL, DriverCall.MatDiagonalScale]) := by
    unfold get_electrode_load
    cases td <;> simp [hs]
  refine ⟨rfl, ?_, ?_⟩
  · rw [htrace]
    unfold reserve_calls
    cases td <;>
      simp only [Bool.false_eq_true, if_false, if_true, List.filter_append, e1, e2, e3, e4,
        e5, e6, e7, reserve_calls_map_reserve, List.nil_append, List.append_nil, List.filter_nil]
  · rw [htrace]
    refine reserve_calls_from_first_bc_jacobian _ _ ?_ ?_
    · cases td <;>
        simp only [Bool.false_eq_true, if_false, if_true, List.filter_append, b1, b2, b3, b4,
          b6, b7, List.nil_append, List.append_nil, List.filter_nil]
    · simp only [List.filter_append, e4, e5, List.append_nil]

/-- A later call of `get_electrode_load` reserves nothing and keeps the flag. -/
theorem get_electrode_load_later (n_regions n_bcs : Nat) (is_electrode : Nat → Bool)
    (td : Bool) (s : FirstAssemble) (hs : s.g_matrix_first_assemble = true) :
    (get_electrode_load n_regions n_bcs is_electrode td s).1.g_matrix_first_assemble = true ∧
      reserve_calls (get_electrode_load n_regions n_bcs is_electrode td s).2 = [] := by
  have e1 := filter_map_of_not is_reserve DriverCall.EBM3_Jacobian (fun _ => rfl)
  have e2 := filter_map_of_not is_reserve DriverCall.EBM3_Time_Dependent_Jacobian (fun _ => rfl)
  have e3 := filter_map_of_not is_reserve DriverCall.Mix_EBM3_Electrode_Load (fun _ => rfl)
  have e4 := filter_map_of_not is_reserve DriverCall.Mix_EBM3_Jacobian (fun _ => rfl)
  have e5 : [DriverCall.MatAssembly_FINAL, DriverCall.MatDiagonalScale].filter is_reserve = [] :=
    rfl
  have e6 : [DriverCall.VecScatter, DriverCall.MatZeroEntries].filter is_reserve = [] := rfl
  have e7 : [DriverCall.MatAssembly_FINAL].filter is_reserve = [] := rfl
  unfold get_electrode_load reserve_calls
  refine ⟨rfl, ?_⟩
  cases td <;>
    simp only [hs, Bool.not_true, Bool.false_eq_true, if_false, if_true, List.filter_append,
      e1, e2, e3, e4, e5, e6, e7, List.nil_append, List.append_nil]

end Mix3Solver

end Genius

namespace Genius

namespace Mix3Solver

theorem run_driver_acc (driver : Bool → FirstAssemble → FirstAssemble × List DriverCall)
    (calls : List Bool) :
    ∀ (s : FirstAssemble) (acc : List (List DriverCall)),
      calls.foldl (fun acc td => ((driver td acc.1).1, acc.2 ++ [(driver td acc.1).2])) (s, acc) =
        ((run_driver driver calls s).1, acc ++ (run_driver driver calls s).2) := by
  unfold run_driver
  induction calls with
  | nil => intro s acc; simp
  | cons td tds ih =>
    intro s acc
    rw [List.foldl_cons, List.foldl_cons, ih, ih (driver td s).1 ([] ++ [(driver td s).2])]
    simp

/-- A sequence of calls is the first call followed by the remaining calls from the flags
that the first call leaves. -/
theorem run_driver_cons (driver : Bool → FirstAssemble → FirstAssemble × List DriverCall)
    (td : Bool) (tds : List Bool) (s : FirstAssemble) :
    run_driver driver (td :: tds) s =
      ((run_driver driver tds (driver td s).1).1,
        (driver td s).2 :: (run_driver driver tds (driver td s).1).2) := by
  have h := run_driver_acc driver tds (driver td s).1 [(driver td s).2]
  unfold run_driver at h ⊢
  rw [List.foldl_cons]
  simpa using h

/-- Once the flags satisfy an invariant under which the driver reserves nothing, no call
of a sequence reserves anything. -/
theorem run_driver_later (driver : Bool → FirstAssemble → FirstAssemble × List DriverCall)
    (inv : FirstAssemble → Prop)
    (h : ∀ td s, inv s → inv (driver td s).1 ∧ reserve_calls (driver td s).2 = []) :
    ∀ (calls : List Bool) (s : FirstAssemble), inv s →
      ∀ t ∈ (run_driver driver calls s).2, reserve_calls t = [] := by
  intro calls
  induction calls with
  | nil => intro s _ t ht; simp [run_driver] at ht
  | cons td tds ih =>
    intro s hs t ht
    rw [run_driver_cons] at ht
    rcases List.mem_cons.1 ht with rfl | ht
    · exact (h td s hs).2
    · exact ih (driver td s).1 (h td s hs).1 t ht

/-- C15: starting with `jacobian_matrix_first_assemble = false`, in every sequence of
calls of `build_petsc_sens_jacobian` the first call issues `Mix_EBM3_Jacobian_Reserve`
once for each boundary condition `0 .. n_bcs-1`, none of them after a call of
`Mix_EBM3_Jacobian`, and no later call issues it; the same holds for
`get_electrode_load` starting with `g_matrix_first_assemble = false`. -/
theorem reserve_at_first_assembly_only (n_regions n_bcs : Nat) (is_electrode : Nat → Bool)
    (td : Bool) (tds : List Bool) (s : FirstAssemble)
    (hJ : s.jacobian_matrix_first_assemble = false) (hG : s.g_matrix_first_assemble = false) :
    (∃ first rest,
        (run_driver (build_petsc_sens_jacobian n_regions n_bcs) (td :: tds) s).2 = first :: rest ∧
        reserve_calls first = (List.range n_bcs).map DriverCall.Mix_EBM3_Jacobian_Reserve ∧
        reserve_calls (from_first_bc_jacobian first) = [] ∧
        ∀ t ∈ rest, reserve_calls t = []) ∧
      (∃ first rest,
        (run_driver (get_electrode_load n_regions n_bcs is_electrode) (td :: tds) s).2
          = first :: rest ∧
        reserve_calls first = (List.range n_bcs).map DriverCall.Mix_EBM3_Jacobian_Reserve ∧
        reserve_calls (from_first_bc_jacobian first) = [] ∧
        ∀ t ∈ rest, reserve_calls t = []) := by
  constructor
  · obtain ⟨h1, h2, h3⟩ := build_petsc_sens_jacobian_first n_regions n_bcs td s hJ
    refine ⟨_, _, by rw [run_driver_cons], h2, h3, ?_⟩
    exact run_driver_later _ (fun s => s.jacobian_matrix_first_assemble = true)
      (fun td s hs => build_petsc_sens_jacobian_later n_regions n_bcs td s hs) tds _ h1
  · obtain ⟨h1, h2, h3⟩ := get_electrode_load_first n_regions n_bcs is_electrode td s hG
    refine ⟨_, _, by rw [run_driver_cons], h2, h3, ?_⟩
    exact run_driver_later _ (fun s => s.g_matrix_first_assemble = true)
      (fun td s hs => get_electrode_load_later n_regions n_bcs is_electrode td s hs) tds _ h1

/-- C15, for three calls with two regions and two boundary conditions: the call
sequences of the second and third call of `build_petsc_sens_jacobian` hold no reserve
call. -/
theorem reserve_at_first_assembly_only_witness :
    ∃ first rest,
      (run_driver (build_petsc_sens_jacobian 2 2) [false, true, false] ⟨false, false⟩).2
        = first :: rest ∧
      reserve_calls first = (List.range 2).map DriverCall.Mix_EBM3_Jacobian_Reserve ∧
      reserve_calls (from_first_bc_jacobian first) = [] ∧
      ∀ t ∈ rest, reserve_calls t = [] :=
  (reserve_at_first_assembly_only 2 2 (fun _ => true) false [true, false] ⟨false, false⟩
    rfl rfl).1

end Mix3Solver

end Genius

namespace Genius

namespace Mix3Solver

open FVM_NodeData

/-! ## The SPICE checkpoint -/

section Checkpoint

variable {α : Type}

/-- Writing a named scalar whose slot exists succeeds. -/
theorem setUserScalarValue_of_isSome (name : String) (v : α) (d : FVM_NodeData α)
    (h : (d.user_scalar name).isSome = true) :
    setUserScalarValue name v d =
      some { d with user_scalar := Function.update d.user_scalar name (some v) } := by
  unfold setUserScalarValue
  rw [if_pos h]

/-- The node body of `save_spice_data` for semiconductor regions succeeds when the slots
exist, leaves the nodal values alone and stores their checkpoint. -/
theorem save_spice_semiconductor_node_spec (m : AdvancedModelSpecification)
    (d : FVM_NodeData α)
    (hslots : ∀ name ∈ spice_names SimulationRegionType.SemiconductorRegion m,
      (d.user_scalar name).isSome = true) :
    ∃ d1, save_spice_semiconductor_node m d = some d1 ∧
      Checkpoint SimulationRegionType.SemiconductorRegion m d d1.user_scalar := by
  have h1 := hslots "SPICE_psi" (by simp [spice_names])
  have h2 := hslots "SPICE_n" (by simp [spice_names])
  have h3 := hslots "SPICE_p" (by simp [spice_names])
  have h4 := hslots "SPICE_psi_last" (by simp [spice_names])
  have h5 := hslots "SPICE_n_last" (by simp [spice_names])
  have h6 := hslots "SPICE_p_last" (by simp [spice_names])
  have h7 : m.enable_Tl = true → (d.user_scalar "SPICE_T").isSome = true ∧
      (d.user_scalar "SPICE_T_last").isSome = true :=
    fun hb => ⟨hslots _ (by simp [spice_names, hb]), hslots _ (by simp [spice_names, hb])⟩
  have h8 : m.enable_Tn = true → (d.user_scalar "SPICE_Tn").isSome = true ∧
      (d.user_scalar "SPICE_Tn_last").isSome = true :=
    fun hb => ⟨hslots _ (by simp [spice_names, hb]), hslots _ (by simp [spice_names, hb])⟩
  have h9 : m.enable_Tp = true → (d.user_scalar "SPICE_Tp").isSome = true ∧
      (d.user_scalar "SPICE_Tp_last").isSome = true :=
    fun hb => ⟨hslots _ (by simp [spice_names, hb]), hslots _ (by simp [spice_names, hb])⟩
  unfold save_spice_semiconductor_node Checkpoint
  cases hl : m.enable_Tl <;> cases hn : m.enable_Tn <;> cases hp : m.enable_Tp <;>
    simp [hl, hn, hp, setUserScalarValue, Function.update_apply, h1, h2, h3, h4, h5, h6] at h7 h8 h9 ⊢ <;>
    simp [h7, h8, h9]

/-- The node body of `load_spice_data` for semiconductor regions succeeds on a store
that holds the checkpoint of `d` and restores the nodal values of `d`. -/
theorem load_spice_semiconductor_node_spec (m : AdvancedModelSpecification)
    (d d2 : FVM_NodeData α)
    (h : Checkpoint SimulationRegionType.SemiconductorRegion m d d2.user_scalar) :
    ∃ d3, load_spice_semiconductor_node m d2 = some d3 ∧
      Restored SimulationRegionType.SemiconductorRegion m d d3 := by
  obtain ⟨h1, h2, h3, h4, h5, h6, h7, h8, h9⟩ := h
  unfold load_spice_semiconductor_node Restored
  cases hl : m.enable_Tl <;> cases hn : m.enable_Tn <;> cases hp : m.enable_Tp <;>
    simp [hl, hn, hp, UserScalarValue, h1, h2, h3, h4, h5, h6] at h7 h8 h9 ⊢ <;>
    simp [h7, h8, h9]

/-- The node body of `save_spice_data` for insulator and conductor regions succeeds when
the slots exist and stores the checkpoint. -/
theorem save_spice_other_node_spec (t : SimulationRegionType)
    (ht : t = SimulationRegionType.InsulatorRegion ∨ t = SimulationRegionType.ConductorRegion)
    (m : AdvancedModelSpecification) (d : FVM_NodeData α)
    (hslots : ∀ name ∈ spice_names t m, (d.user_scalar name).isSome = true) :
    ∃ d1, save_spice_other_node m d = some d1 ∧ Checkpoint t m d d1.user_scalar := by
  have h1 := hslots "SPICE_psi" (by rcases ht with rfl | rfl <;> simp [spice_names])
  have h2 := hslots "SPICE_psi_last" (by rcases ht with rfl | rfl <;> simp [spice_names])
  have h7 : m.enable_Tl = true → (d.user_scalar "SPICE_T").isSome = true ∧
      (d.user_scalar "SPICE_T_last").isSome = true :=
    fun hb => ⟨hslots _ (by rcases ht with rfl | rfl <;> simp [spice_names, hb]),
      hslots _ (by rcases ht with rfl | rfl <;> simp [spice_names, hb])⟩
  unfold save_spice_other_node
  rcases ht with rfl | rfl <;> unfold Checkpoint <;> cases hl : m.enable_Tl <;>
    simp [hl, setUserScalarValue, Function.update_apply, h1, h2] at h7 ⊢ <;>
    simp [h7]

/-- The node body of `load_spice_data` for insulator and conductor regions succeeds on a
store that holds the checkpoint of `d` and restores the nodal values of `d`. -/
theorem load_spice_other_node_spec (t : SimulationRegionType)
    (ht : t = SimulationRegionType.InsulatorRegion ∨ t = SimulationRegionType.ConductorRegion)
    (m : AdvancedModelSpecification) (d d2 : FVM_NodeData α)
    (h : Checkpoint t m d d2.user_scalar) :
    ∃ d3, load_spice_other_node m d2 = some d3 ∧ Restored t m d d3 := by
  unfold load_spice_other_node
  rcases ht with rfl | rfl <;> unfold Checkpoint at h <;> unfold Restored <;>
    obtain ⟨h1, h2, h7⟩ := h <;> cases hl : m.enable_Tl <;>
    simp [hl, UserScalarValue, h1, h2] at h7 ⊢ <;>
    simp [h7]

/-- A list is related to itself by a relation that holds on the diagonal at its
elements. -/
theorem forall₂_diag {β : Type} (R : β → β → Prop) :
    ∀ l : List β, (∀ a ∈ l, R a a) → List.Forall₂ R l l := by
  intro l
  induction l with
  | nil => intro _; exact List.Forall₂.nil
  | cons a t ih =>
    intro h
    exact List.Forall₂.cons (h a (List.mem_cons_self a t))
      (ih (fun b hb => h b (List.mem_cons_of_mem a hb)))

/-- Two element-wise relations between lists compose. -/
theorem forall₂_comp {β γ δ : Type} (R : β → γ → Prop) (S : γ → δ → Prop)
    (G : β → δ → Prop) (hG : ∀ a b c, R a b → S b c → G a c) :
    ∀ (l1 : List β) (l2 : List γ) (l3 : List δ),
      List.Forall₂ R l1 l2 → List.Forall₂ S l2 l3 → List.Forall₂ G l1 l3 := by
  intro l1 l2 l3 h12
  induction h12 generalizing l3 with
  | nil => intro h; cases h; exact List.Forall₂.nil
  | cons hab _ ih =>
    intro h
    cases h with
    | cons hbc htail => exact List.Forall₂.cons (hG _ _ _ hab hbc) (ih _ htail)

/-- An in-place update loop over a list whose elements are related to those of a
reference list: when every update succeeds with a result related to the reference
element, the loop succeeds with a list related to the reference list. -/
theorem update_all_forall₂ {β γ : Type} (f : γ → Option γ) (R G : β → γ → Prop)
    (h : ∀ a c, R a c → ∃ d, f c = some d ∧ G a d) :
    ∀ (l : List β) (l3 : List γ), List.Forall₂ R l l3 →
      ∃ l4, update_all f l3 = some l4 ∧ List.Forall₂ G l l4 := by
  intro l l3 hR
  induction hR with
  | nil => exact ⟨[], rfl, List.Forall₂.nil⟩
  | cons hac _ ih =>
    obtain ⟨d, hd, hG⟩ := h _ _ hac
    obtain ⟨t4, ht4, hG4⟩ := ih
    exact ⟨d :: t4, by simp [update_all, hd, ht4], List.Forall₂.cons hG hG4⟩

/-- The node loop of the SPICE functions over nodes related to reference nodes. -/
theorem spice_node_loop_spec (self : Nat) (body : FVM_NodeData α → Option (FVM_NodeData α))
    (Rd Gd : FVM_NodeData α → FVM_NodeData α → Prop)
    (hbody : ∀ d c, Rd d c → ∃ d', body c = some d' ∧ Gd d d')
    (l l3 : List (FVM_Node α × FVM_NodeData α))
    (hR : List.Forall₂
      (fun nd c => c.1 = nd.1 ∧ (nd.1.on_processor self = true → Rd nd.2 c.2)) l l3) :
    ∃ l4, spice_node_loop self body l3 = some l4 ∧
      List.Forall₂
        (fun nd c => c.1 = nd.1 ∧ (nd.1.on_processor self = true → Gd nd.2 c.2)) l l4 := by
  refine update_all_forall₂ _ _ _ ?_ l l3 hR
  rintro nd c ⟨h1, h2⟩
  cases hon : nd.1.on_processor self
  · refine ⟨c, by simp [h1, hon], h1, ?_⟩
    intro h
    cases h
  · obtain ⟨d', hd', hG⟩ := hbody _ _ (h2 hon)
    exact ⟨(c.1, d'), by simp [h1, hon, hd'], h1, fun _ => hG⟩

/-- The region loop of the SPICE functions over regions related to reference regions. -/
theorem spice_region_loop_spec
    (semi other : AdvancedModelSpecification → FVM_NodeData α → Option (FVM_NodeData α))
    (Rd Gd : SimulationRegionType → AdvancedModelSpecification →
      FVM_NodeData α → FVM_NodeData α → Prop)
    (hsemi : ∀ m d c, Rd SimulationRegionType.SemiconductorRegion m d c →
      ∃ d', semi m c = some d' ∧ Gd SimulationRegionType.SemiconductorRegion m d d')
    (hins : ∀ m d c, Rd SimulationRegionType.InsulatorRegion m d c →
      ∃ d', other m c = some d' ∧ Gd SimulationRegionType.InsulatorRegion m d d')
    (hcond : ∀ m d c, Rd SimulationRegionType.ConductorRegion m d c →
      ∃ d', other m c = some d' ∧ Gd SimulationRegionType.ConductorRegion m d d')
    (hvac : ∀ m d c, Gd SimulationRegionType.VacuumRegion m d c)
    (hoth : ∀ tag m d c, Gd (SimulationRegionType.OtherRegion tag) m d c)
    (rs : List (SpiceRegion α)) (sys3 : SpiceSystem α)
    (hR : List.Forall₂
      (fun r c : SpiceRegion α =>
        c.type = r.type ∧ c.get_advanced_model = r.get_advanced_model ∧
          List.Forall₂
            (fun nd c => c.1 = nd.1 ∧
              (nd.1.on_processor sys3.processor_id = true →
                Rd r.type r.get_advanced_model nd.2 c.2))
            r.nodes c.nodes)
      rs sys3.regions) :
    ∃ sys4, spice_region_loop semi other sys3 = some sys4 ∧
      sys4.processor_id = sys3.processor_id ∧
      List.Forall₂
        (fun r c : SpiceRegion α =>
          c.type = r.type ∧ c.get_advanced_model = r.get_advanced_model ∧
            List.Forall₂
              (fun nd c => c.1 = nd.1 ∧
                (nd.1.on_processor sys3.processor_id = true →
                  Gd r.type r.get_advanced_model nd.2 c.2))
              r.nodes c.nodes)
        rs sys4.regions := by
  have hstep : ∀ r c : SpiceRegion α,
      (c.type = r.type ∧ c.get_advanced_model = r.get_advanced_model ∧
        List.Forall₂
          (fun nd c => c.1 = nd.1 ∧
            (nd.1.on_processor sys3.processor_id = true →
              Rd r.type r.get_advanced_model nd.2 c.2))
          r.nodes c.nodes) →
      ∃ d, spice_region_step sys3.processor_id semi other c = some d ∧
        (d.type = r.type ∧ d.get_advanced_model = r.get_advanced_model ∧
          List.Forall₂
            (fun nd c => c.1 = nd.1 ∧
              (nd.1.on_processor sys3.processor_id = true →
                Gd r.type r.get_advanced_model nd.2 c.2))
            r.nodes d.nodes) := by
    rintro r c ⟨hty, hm, hnodes⟩
    cases hrt : r.type with
    | SemiconductorRegion =>
      rw [hrt] at hty hnodes
      obtain ⟨l4, hl4, hG4⟩ := spice_node_loop_spec sys3.processor_id (semi c.get_advanced_model)
        (Rd _ r.get_advanced_model) (Gd _ r.get_advanced_model)
        (fun d c' h => by rw [hm]; exact hsemi _ d c' h) r.nodes c.nodes hnodes
      exact ⟨{ c with nodes := l4 }, by simp [spice_region_step, hty, hl4], hty, hm, hG4⟩
    | InsulatorRegion =>
      rw [hrt] at hty hnodes
      obtain ⟨l4, hl4, hG4⟩ := spice_node_loop_spec sys3.processor_id (other c.get_advanced_model)
        (Rd _ r.get_advanced_model) (Gd _ r.get_advanced_model)
        (fun d c' h => by rw [hm]; exact hins _ d c' h) r.nodes c.nodes hnodes
      exact ⟨{ c with nodes := l4 }, by simp [spice_region_step, hty, hl4], hty, hm, hG4⟩
    | ConductorRegion =>
      rw [hrt] at hty hnodes
      obtain ⟨l4, hl4, hG4⟩ := spice_node_loop_spec sys3.processor_id (other c.get_advanced_model)
        (Rd _ r.get_advanced_model) (Gd _ r.get_advanced_model)
        (fun d c' h => by rw [hm]; exact hcond _ d c' h) r.nodes c.nodes hnodes
      exact ⟨{ c with nodes := l4 }, by simp [spice_region_step, hty, hl4], hty, hm, hG4⟩
    | VacuumRegion =>
      rw [hrt] at hty
      refine ⟨c, by simp [spice_region_step, hty], hty, hm, ?_⟩
      exact hnodes.imp (fun nd c' h => ⟨h.1, fun _ => hvac _ _ _⟩)
    | OtherRegion tag =>
      rw [hrt] at hty
      refine ⟨c, by simp [spice_region_step, hty], hty, hm, ?_⟩
      exact hnodes.imp (fun nd c' h => ⟨h.1, fun _ => hoth _ _ _ _⟩)
  obtain ⟨rs4, h4, hG⟩ := update_all_forall₂ (spice_region_step sys3.processor_id semi other) _
    _ hstep rs sys3.regions hR
  exact ⟨{ sys3 with regions := rs4 }, by simp [spice_region_loop, h4], rfl, hG⟩

/-- From an element-wise relation to a statement about the elements of the second
list. -/
theorem forall₂_mem_right {β γ : Type} (R : β → γ → Prop) :
    ∀ (l : List β) (l' : List γ), List.Forall₂ R l l' → ∀ c ∈ l', ∃ a ∈ l, R a c := by
  intro l l' h
  induction h with
  | nil => intro c hc; cases hc
  | cons hab _ ih =>
    intro c hc
    rcases List.mem_cons.1 hc with rfl | hc
    · exact ⟨_, List.mem_cons_self _ _, hab⟩
    · obtain ⟨a, ha, hR⟩ := ih c hc
      exact ⟨a, List.mem_cons_of_mem _ ha, hR⟩

/-- The node body of `init_spice_data` for semiconductor regions succeeds and creates the
slots. -/
theorem init_spice_semiconductor_node_spec [Zero α] (m : AdvancedModelSpecification)
    (d : FVM_NodeData α) :
    ∃ d1, init_spice_semiconductor_node m d = some d1 ∧
      ∀ name ∈ spice_names SimulationRegionType.SemiconductorRegion m,
        (d1.user_scalar name).isSome = true := by
  unfold init_spice_semiconductor_node spice_names
  cases hl : m.enable_Tl <;> cases hn : m.enable_Tn <;> cases hp : m.enable_Tp <;>
    simp [setUserScalarValue, CreateUserScalarValue, Function.update_apply]

/-- The node body of `init_spice_data` for insulator and conductor regions succeeds and
creates the slots. -/
theorem init_spice_other_node_spec [Zero α] (t : SimulationRegionType)
    (ht : t = SimulationRegionType.InsulatorRegion ∨ t = SimulationRegionType.ConductorRegion)
    (m : AdvancedModelSpecification) (d : FVM_NodeData α) :
    ∃ d1, init_spice_other_node m d = some d1 ∧
      ∀ name ∈ spice_names t m, (d1.user_scalar name).isSome = true := by
  unfold init_spice_other_node
  rcases ht with rfl | rfl <;> unfold spice_names <;> cases hl : m.enable_Tl <;>
    simp [setUserScalarValue, CreateUserScalarValue, Function.update_apply]

/-- The method `init_spice_data` returns, and in the state it leaves the slots exist. -/
theorem init_spice_data_creates_slots [Zero α] (sys : SpiceSystem α) :
    ∃ sys1, init_spice_data sys = some sys1 ∧ HasSpiceSlots sys1 := by
  obtain ⟨sys1, h1, hpid, hG⟩ := spice_region_loop_spec
    init_spice_semiconductor_node init_spice_other_node
    (fun _ _ d c => c = d)
    (fun t m _ d1 => ∀ name ∈ spice_names t m, (d1.user_scalar name).isSome = true)
    (fun m d c _ => init_spice_semiconductor_node_spec m c)
    (fun m d c _ => init_spice_other_node_spec _ (Or.inl rfl) m c)
    (fun m d c _ => init_spice_other_node_spec _ (Or.inr rfl) m c)
    (fun m d c name hname => by simp [spice_names] at hname)
    (fun tag m d c name hname => by simp [spice_names] at hname)
    sys.regions sys
    (forall₂_diag _ _ (fun r _ => ⟨rfl, rfl, forall₂_diag _ _ (fun nd _ => ⟨rfl, fun _ => rfl⟩)⟩))
  refine ⟨sys1, h1, ?_⟩
  intro region hregion nd hnd hon name hname
  obtain ⟨r, _, hty, hm, hnodes⟩ := forall₂_mem_right _ _ _ hG region hregion
  obtain ⟨nd0, _, hfst, hslots⟩ := forall₂_mem_right _ _ _ hnodes nd hnd
  rw [hpid, hfst] at hon
  rw [hty, hm] at hname
  exact hslots hon name hname

/-- C16: in every system state in which the slots exist on the on-processor nodes (as
`init_spice_data` leaves them), `save_spice_data` returns; and after any change of the
nodal values that keeps the regions, the nodes and their stores of named scalars,
`load_spice_data` returns and every on-processor node of a semiconductor region has
`psi, n, p, psi_last, n_last, p_last` (and `T/T_last`, `Tn/Tn_last`, `Tp/Tp_last` when
the respective model is enabled), every on-processor node of an insulator or conductor
region has `psi, psi_last` (and `T/T_last` when Tl is enabled), exactly as at the save. -/
theorem spice_checkpoint_round_trip (sys : SpiceSystem α) (hslots : HasSpiceSlots sys) :
    ∃ saved, save_spice_data sys = some saved ∧
      ∀ changed, NodalChange saved changed →
        ∃ loaded, load_spice_data changed = some loaded ∧ RestoredSystem sys loaded := by
  obtain ⟨saved, hsave, hpid, hG⟩ := spice_region_loop_spec
    save_spice_semiconductor_node save_spice_other_node
    (fun t m d c => c = d ∧ ∀ name ∈ spice_names t m, (d.user_scalar name).isSome = true)
    (fun t m d d1 => Checkpoint t m d d1.user_scalar)
    (fun m d c h => by
      obtain ⟨rfl, hs⟩ := h
      exact save_spice_semiconductor_node_spec m c hs)
    (fun m d c h => by
      obtain ⟨rfl, hs⟩ := h
      exact save_spice_other_node_spec _ (Or.inl rfl) m c hs)
    (fun m d c h => by
      obtain ⟨rfl, hs⟩ := h
      exact save_spice_other_node_spec _ (Or.inr rfl) m c hs)
    (fun m d c => trivial)
    (fun tag m d c => trivial)
    sys.regions sys
    (forall₂_diag _ _ (fun r hr => ⟨rfl, rfl,
      forall₂_diag _ _ (fun nd hnd => ⟨rfl, fun hon => ⟨rfl, hslots r hr nd hnd hon⟩⟩)⟩))
  refine ⟨saved, hsave, ?_⟩
  rintro changed ⟨hpid2, hchange⟩
  have hpid3 : changed.processor_id = sys.processor_id := by rw [hpid2, hpid]
  have hR : List.Forall₂
      (fun r c : SpiceRegion α =>
        c.type = r.type ∧ c.get_advanced_model = r.get_advanced_model ∧
          List.Forall₂
            (fun nd c => c.1 = nd.1 ∧
              (nd.1.on_processor changed.processor_id = true →
                Checkpoint r.type r.get_advanced_model nd.2 c.2.user_scalar))
            r.nodes c.nodes)
      sys.regions changed.regions := by
    refine forall₂_comp _ _ _ ?_ _ _ _ hG hchange
    rintro r r1 r2 ⟨hty, hm, hnodes⟩ ⟨hty2, hm2, hnodes2⟩
    refine ⟨by rw [hty2, hty], by rw [hm2, hm], ?_⟩
    refine forall₂_comp _ _ _ ?_ _ _ _ hnodes hnodes2
    rintro nd nd1 nd2 ⟨h1, hc⟩ ⟨h2, hu⟩
    refine ⟨by rw [h2, h1], fun hon => ?_⟩
    rw [hu]
    rw [hpid3] at hon
    exact hc hon
  obtain ⟨loaded, hload, _, hG3⟩ := spice_region_loop_spec
    load_spice_semiconductor_node load_spice_other_node
    (fun t m d c => Checkpoint t m d c.user_scalar)
    (fun t m d d3 => Restored t m d d3)
    (fun m d c h => load_spice_semiconductor_node_spec m d c h)
    (fun m d c h => load_spice_other_node_spec _ (Or.inl rfl) m d c h)
    (fun m d c h => load_spice_other_node_spec _ (Or.inr rfl) m d c h)
    (fun m d c => trivial)
    (fun tag m d c => trivial)
    sys.regions changed hR
  refine ⟨loaded, hload, ?_⟩
  unfold RestoredSystem
  rw [hpid3] at hG3
  exact hG3

/-- C16, at the sample system with all slots present. -/
theorem spice_checkpoint_round_trip_witness :
    HasSpiceSlots sample_slotted_system ∧
      ∃ saved, save_spice_data sample_slotted_system = some saved ∧
        ∀ changed, NodalChange saved changed →
          ∃ loaded, load_spice_data changed = some loaded ∧
            RestoredSystem sample_slotted_system loaded :=
  ⟨fun _ hr nd hnd _ _ _ => by
      simp only [sample_slotted_system, List.mem_cons, List.mem_singleton,
        List.not_mem_nil, or_false] at hr
      rcases hr with rfl | rfl <;>
        · simp only [List.mem_singleton] at hnd
          subst hnd
          rfl,
    spice_checkpoint_round_trip sample_slotted_system (fun _ hr nd hnd _ _ _ => by
      simp only [sample_slotted_system, List.mem_cons, List.mem_singleton,
        List.not_mem_nil, or_false] at hr
      rcases hr with rfl | rfl <;>
        · simp only [List.mem_singleton] at hnd
          subst hnd
          rfl)⟩

end Checkpoint

end Mix3Solver

end Genius

namespace Genius

namespace HomoInterfaceBC

variable {α : Type} [LinearOrderedField α]

/-- After a position without a stored node the scan only returns when it does no work
any more. -/
theorem scan_region_nodes_broken {α σ : Type}
    (body : FVM_Node α → FVM_Node α → σ → Except Fault σ) :
    ∀ (l : List (SimulationRegion α × FVM_Node α)) (i : Nat) (fv : List (FVM_Node α))
      (s r : σ), fv.length < i → scan_region_nodes body l i fv s = Except.ok r → r = s := by
  intro l
  induction l with
  | nil =>
    intro i fv s r _ h
    simp only [scan_region_nodes, Except.ok.injEq] at h
    exact h.symm
  | cons rn rest ih =>
    intro i fv s r hi h
    rw [scan_region_nodes] at h
    by_cases hv : rn.2.is_valid = true
    · have hi0 : i ≠ 0 := by omega
      have hnone : (fv ++ [rn.2])[i]? = none := by
        apply List.getElem?_eq_none
        simp only [List.length_append, List.length_singleton]
        omega
      simp only [hv, Bool.not_true, Bool.false_eq_true, if_false, hi0, hnone] at h
      cases h
    · have hv' : rn.2.is_valid = false := by simpa using hv
      simp only [hv', Bool.not_false, if_true] at h
      exact ih (i + 1) fv s r (by omega) h

end HomoInterfaceBC

end Genius

namespace Genius

namespace HomoInterfaceBC

variable {α : Type} [LinearOrderedField α]

/-- The work for an appended list of pairs continues from the result of the first part. -/
theorem fold_pairs_append {α σ : Type} (body : FVM_Node α → FVM_Node α → σ → Except Fault σ) :
    ∀ (a b : List (FVM_Node α × FVM_Node α)) (s s1 : σ),
      fold_pairs body a s = Except.ok s1 →
        fold_pairs body (a ++ b) s = fold_pairs body b s1 := by
  intro a
  induction a with
  | nil =>
    intro b s s1 h
    simp only [fold_pairs, Except.ok.injEq] at h
    subst h
    rfl
  | cons p rest ih =>
    intro b s s1 h
    rw [List.cons_append, fold_pairs]
    rw [fold_pairs] at h
    cases hb : body p.1 p.2 s with
    | error e => rw [hb] at h; cases h
    | ok s2 =>
      rw [hb] at h
      exact ih b s2 s1 h

/-- A fault in the work for the first part of a list of pairs is the fault of the whole. -/
theorem fold_pairs_append_error {α σ : Type}
    (body : FVM_Node α → FVM_Node α → σ → Except Fault σ) :
    ∀ (a b : List (FVM_Node α × FVM_Node α)) (s : σ) (e : Fault),
      fold_pairs body a s = Except.error e →
        fold_pairs body (a ++ b) s = Except.error e := by
  intro a
  induction a with
  | nil =>
    intro b s e h
    simp [fold_pairs] at h
  | cons p rest ih =>
    intro b s e h
    rw [List.cons_append, fold_pairs]
    rw [fold_pairs] at h
    cases hb : body p.1 p.2 s with
    | error e2 =>
      rw [hb] at h
      exact h
    | ok s2 =>
      rw [hb] at h
      exact ih b s2 e h

/-- While the stored nodes are the positions passed so far, a scan that returns has done
the work for the valid nodes up to the first invalid one, each paired with node 0. -/
theorem scan_region_nodes_good {α σ : Type}
    (body : FVM_Node α → FVM_Node α → σ → Except Fault σ) (n0 : FVM_Node α) :
    ∀ (l : List (SimulationRegion α × FVM_Node α)) (tl : List (FVM_Node α)) (s r : σ),
      scan_region_nodes body l (n0 :: tl).length (n0 :: tl) s = Except.ok r →
        fold_pairs body ((l.takeWhile fun rn => rn.2.is_valid).map fun rn => (rn.2, n0)) s
          = Except.ok r := by
  intro l
  induction l with
  | nil =>
    intro tl s r h
    simpa [scan_region_nodes, fold_pairs] using h
  | cons rn rest ih =>
    intro tl s r h
    rw [scan_region_nodes] at h
    by_cases hv : rn.2.is_valid = true
    · have hi : ((n0 :: tl) ++ [rn.2])[(n0 :: tl).length]? = some rn.2 := by
        rw [List.getElem?_append_right (le_refl _)]
        simp
      have h0 : ((n0 :: tl) ++ [rn.2])[0]? = some n0 := by simp
      have hne : (n0 :: tl).length ≠ 0 := by simp
      simp only [hv, Bool.not_true, Bool.false_eq_true, if_false, hne, hi, h0] at h
      rw [List.takeWhile_cons_of_pos (by simpa using hv), List.map_cons, fold_pairs]
      cases hb : body rn.2 n0 s with
      | error e => rw [hb] at h; cases h
      | ok s2 =>
        rw [hb] at h
        have h2 := ih (tl ++ [rn.2]) s2 r (by simpa using h)
        simpa using h2
    · have hv' : rn.2.is_valid = false := by simpa using hv
      simp only [hv', Bool.not_false, if_true] at h
      have hr := scan_region_nodes_broken body rest _ (n0 :: tl) s r (by omega) h
      subst hr
      rw [List.takeWhile_cons_of_neg (by simpa using hv)]
      rfl

/-- While the stored nodes are the positions passed so far and all remaining region nodes
are valid, the scan does the work for each of them paired with node 0. -/
theorem scan_region_nodes_total {α σ : Type}
    (body : FVM_Node α → FVM_Node α → σ → Except Fault σ) (n0 : FVM_Node α) :
    ∀ (l : List (SimulationRegion α × FVM_Node α)) (tl : List (FVM_Node α)) (s : σ),
      (∀ rn ∈ l, rn.2.is_valid = true) →
        scan_region_nodes body l (n0 :: tl).length (n0 :: tl) s
          = fold_pairs body (l.map fun rn => (rn.2, n0)) s := by
  intro l
  induction l with
  | nil =>
    intro tl s _
    simp [scan_region_nodes, fold_pairs]
  | cons rn rest ih =>
    intro tl s hall
    have hv : rn.2.is_valid = true := hall rn (List.mem_cons_self _ _)
    have hi : ((n0 :: tl) ++ [rn.2])[(n0 :: tl).length]? = some rn.2 := by
      rw [List.getElem?_append_right (le_refl _)]
      simp
    have h0 : ((n0 :: tl) ++ [rn.2])[0]? = some n0 := by simp
    have hne : (n0 :: tl).length ≠ 0 := by simp
    rw [scan_region_nodes]
    simp only [hv, Bool.not_true, Bool.false_eq_true, if_false, hne, hi, h0]
    rw [List.map_cons, fold_pairs]
    cases hb : body rn.2 n0 s with
    | error e => rfl
    | ok s2 =>
      have h2 := ih (tl ++ [rn.2]) s2 (fun rn hrn => hall rn (List.mem_cons_of_mem _ hrn))
      simpa using h2

/-- A scan of the region nodes of a boundary node that returns has done the work for
the pairs of the node. -/
theorem scan_region_nodes_pairs {α σ : Type}
    (body : FVM_Node α → FVM_Node α → σ → Except Fault σ) (node : BoundaryNode α) (s r : σ)
    (h : scan_region_nodes body node.region_nodes 0 [] s = Except.ok r) :
    fold_pairs body (valid_pairs node) s = Except.ok r := by
  unfold valid_pairs
  cases hl : node.region_nodes with
  | nil =>
    rw [hl] at h
    simpa [scan_region_nodes, fold_pairs] using h
  | cons rn rest =>
    rw [hl, scan_region_nodes] at h
    by_cases hv : rn.2.is_valid = true
    · simp only [hv, Bool.not_true, Bool.false_eq_true, if_false, if_true, List.nil_append] at h
      simp only [hv, if_true]
      exact scan_region_nodes_good body rn.2 rest [] s r (by simpa using h)
    · have hv' : rn.2.is_valid = false := by simpa using hv
      simp only [hv', Bool.not_false, if_true] at h
      have hr := scan_region_nodes_broken body rest _ [] s r (by simp) h
      subst hr
      simp [hv', fold_pairs]

/-- When all region nodes of a boundary node are valid, the scan of its region nodes does
the work for the pairs of the node. -/
theorem scan_region_nodes_all_valid {α σ : Type}
    (body : FVM_Node α → FVM_Node α → σ → Except Fault σ) (node : BoundaryNode α) (s : σ)
    (hall : ∀ rn ∈ node.region_nodes, rn.2.is_valid = true) :
    scan_region_nodes body node.region_nodes 0 [] s = fold_pairs body (valid_pairs node) s := by
  unfold valid_pairs
  cases hl : node.region_nodes with
  | nil => simp [scan_region_nodes, fold_pairs]
  | cons rn rest =>
    rw [hl] at hall
    have hv : rn.2.is_valid = true := hall rn (List.mem_cons_self _ _)
    have hrest : ∀ rn ∈ rest, rn.2.is_valid = true :=
      fun rn hrn => hall rn (List.mem_cons_of_mem _ hrn)
    have htw : (rest.takeWhile fun rn => rn.2.is_valid) = rest :=
      List.takeWhile_eq_self_iff.2 (fun rn hrn => hrest rn hrn)
    rw [scan_region_nodes]
    simp only [hv, Bool.not_true, Bool.false_eq_true, if_false, if_true, List.nil_append, htw]
    have h := scan_region_nodes_total body rn.2 rest [] s hrest
    simpa using h

/-- A scan of the boundary nodes that returns has done the work for the pairs of the
boundary nodes of this processor. -/
theorem scan_nodes_pairs {α σ : Type}
    (body : FVM_Node α → FVM_Node α → σ → Except Fault σ) (self : Nat) :
    ∀ (nodes : List (BoundaryNode α)) (s r : σ),
      scan_nodes body self nodes s = Except.ok r →
        fold_pairs body (interface_pairs self nodes) s = Except.ok r := by
  intro nodes
  induction nodes with
  | nil =>
    intro s r h
    simpa [scan_nodes, interface_pairs, on_processor_nodes, fold_pairs] using h
  | cons node rest ih =>
    intro s r h
    rw [scan_nodes] at h
    by_cases hp : node.processor_id = self
    · simp only [hp, ne_eq, not_true_eq_false, if_false] at h
      cases hs : scan_region_nodes body node.region_nodes 0 [] s with
      | error e => rw [hs] at h; cases h
      | ok s1 =>
        rw [hs] at h
        have h1 := scan_region_nodes_pairs body node s s1 hs
        have h2 := ih s1 r h
        have hpairs : interface_pairs self (node :: rest)
            = valid_pairs node ++ interface_pairs self rest := by
          simp [interface_pairs, on_processor_nodes, hp]
        rw [hpairs, fold_pairs_append body _ _ s s1 h1]
        exact h2
    · simp only [hp, ne_eq, not_false_eq_true, if_true] at h
      have hpairs : interface_pairs self (node :: rest) = interface_pairs self rest := by
        simp [interface_pairs, on_processor_nodes, hp]
      rw [hpairs]
      exact ih s r h

/-- When all region nodes of the boundary nodes of this processor are valid, the scan of
the boundary nodes does the work for their pairs. -/
theorem scan_nodes_all_valid {α σ : Type}
    (body : FVM_Node α → FVM_Node α → σ → Except Fault σ) (self : Nat) :
    ∀ (nodes : List (BoundaryNode α)) (s : σ),
      (∀ node ∈ nodes, node.processor_id = self →
        ∀ rn ∈ node.region_nodes, rn.2.is_valid = true) →
        scan_nodes body self nodes s = fold_pairs body (interface_pairs self nodes) s := by
  intro nodes
  induction nodes with
  | nil =>
    intro s _
    simp [scan_nodes, interface_pairs, on_processor_nodes, fold_pairs]
  | cons node rest ih =>
    intro s hall
    have hrest : ∀ node ∈ rest, node.processor_id = self →
        ∀ rn ∈ node.region_nodes, rn.2.is_valid = true :=
      fun n hn => hall n (List.mem_cons_of_mem _ hn)
    rw [scan_nodes]
    by_cases hp : node.processor_id = self
    · have hpairs : interface_pairs self (node :: rest)
          = valid_pairs node ++ interface_pairs self rest := by
        simp [interface_pairs, on_processor_nodes, hp]
      simp only [hp, ne_eq, not_true_eq_false, if_false]
      rw [scan_region_nodes_all_valid body node s (hall node (List.mem_cons_self _ _) hp)]
      cases hs : fold_pairs body (valid_pairs node) s with
      | error e =>
        rw [hpairs, fold_pairs_append_error body _ _ s e hs]
      | ok s1 =>
        rw [hpairs, fold_pairs_append body _ _ s s1 hs]
        exact ih s1 hrest
    · have hpairs : interface_pairs self (node :: rest) = interface_pairs self rest := by
        simp [interface_pairs, on_processor_nodes, hp]
      simp only [hp, ne_eq, not_false_eq_true, if_true]
      rw [hpairs]
      exact ih s hrest

end HomoInterfaceBC

end Genius

namespace Genius

namespace HomoInterfaceBC

variable {α : Type} [LinearOrderedField α]

/-- The region-node loop of `Poissin_Function` is the shared scan with its own work for
a pair. -/
theorem Poissin_Function_region_nodes_eq_scan (x : Nat → α) :
    ∀ (l : List (SimulationRegion α × FVM_Node α)) (i : Nat) (fv : List (FVM_Node α))
      (buf : FunctionBuffers α),
      Poissin_Function_region_nodes x l i fv buf
        = scan_region_nodes (Poissin_Function_body x) l i fv buf := by
  intro l
  induction l with
  | nil => intro i fv buf; rfl
  | cons rn rest ih =>
    intro i fv buf
    rw [Poissin_Function_region_nodes, scan_region_nodes]
    simp only [ih, Poissin_Function_body]
    split_ifs with hv h0
    · rfl
    · rfl
    · cases h1 : (fv ++ [rn.2])[i]? with
      | none => rfl
      | some a =>
        cases h2 : (fv ++ [rn.2])[0]? with
        | none => rfl
        | some b =>
          simp only []
          split_ifs <;> rfl

/-- The boundary-node loop of `Poissin_Function` is the shared scan. -/
theorem Poissin_Function_nodes_eq_scan (self : Nat) (x : Nat → α) :
    ∀ (nodes : List (BoundaryNode α)) (buf : FunctionBuffers α),
      Poissin_Function_nodes self x nodes buf
        = scan_nodes (Poissin_Function_body x) self nodes buf := by
  intro nodes
  induction nodes with
  | nil => intro buf; rfl
  | cons node rest ih =>
    intro buf
    rw [Poissin_Function_nodes, scan_nodes, Poissin_Function_region_nodes_eq_scan]
    simp only [ih]
    split_ifs
    · rfl
    · cases scan_region_nodes (Poissin_Function_body x) node.region_nodes 0 [] buf <;> rfl

end HomoInterfaceBC

end Genius

namespace Genius

namespace HomoInterfaceBC

variable {α : Type} [LinearOrderedField α]

/-- A fold over a concatenation of lists is the fold of the folds. -/
theorem foldl_flatMap_eq {σ ι κ : Type} (op : σ → κ → σ) (S : ι → List κ) :
    ∀ (l : List ι) (s : σ),
      (l.flatMap S).foldl op s = l.foldl (fun s it => (S it).foldl op s) s := by
  intro l
  induction l with
  | nil => intro s; rfl
  | cons a t ih =>
    intro s
    rw [List.flatMap_cons, List.foldl_append, ih, List.foldl_cons]

/-- The buffers of `Poissin_Function` after the work for a list of pairs that returns. -/
theorem fold_pairs_function (x : Nat → α) :
    ∀ (P : List (FVM_Node α × FVM_Node α)) (buf r : FunctionBuffers α),
      fold_pairs (Poissin_Function_body x) P buf = Except.ok r →
        r.src_row = buf.src_row ++ P.map (fun p => p.1._global_offset) ∧
        r.dst_row = buf.dst_row ++ P.map (fun p => p.2._global_offset) ∧
        r.y_new = buf.y_new ++ P.map (fun p => x p.1.local_offset - x p.2.local_offset) := by
  intro P
  induction P with
  | nil =>
    intro buf r h
    simp only [fold_pairs, Except.ok.injEq] at h
    subst h
    simp
  | cons p rest ih =>
    intro buf r h
    rw [fold_pairs, Poissin_Function_body] at h
    by_cases hp : p.1.processor_id = p.2.processor_id
    · simp only [hp, if_true] at h
      obtain ⟨h1, h2, h3⟩ := ih _ r h
      simp [h1, h2, h3]
    · simp only [hp, if_false] at h
      cases h

/-- The work of `Poissin_Function` for a list of pairs returns when the two nodes of
every pair have the same processor id. -/
theorem fold_pairs_function_ok (x : Nat → α) :
    ∀ (P : List (FVM_Node α × FVM_Node α)) (buf : FunctionBuffers α),
      (∀ p ∈ P, p.1.processor_id = p.2.processor_id) →
        ∃ r, fold_pairs (Poissin_Function_body x) P buf = Except.ok r := by
  intro P
  induction P with
  | nil => intro buf _; exact ⟨buf, rfl⟩
  | cons p rest ih =>
    intro buf hall
    rw [fold_pairs, Poissin_Function_body]
    simp only [hall p (List.mem_cons_self _ _), if_true]
    exact ih _ (fun q hq => hall q (List.mem_cons_of_mem _ hq))

/-- The nodes of a pair of a boundary node are region nodes of it. -/
theorem valid_pairs_mem {α : Type} (node : BoundaryNode α) (p : FVM_Node α × FVM_Node α)
    (hp : p ∈ valid_pairs node) :
    (∃ rn ∈ node.region_nodes, rn.2 = p.1 ∧ rn.2.is_valid = true) ∧
    (∃ rn ∈ node.region_nodes, rn.2 = p.2 ∧ rn.2.is_valid = true) := by
  unfold valid_pairs at hp
  cases hl : node.region_nodes with
  | nil => rw [hl] at hp; cases hp
  | cons rn0 rest =>
    rw [hl] at hp
    by_cases hv : rn0.2.is_valid = true
    · simp only [hv, if_true, List.mem_map] at hp
      obtain ⟨rn, hrn, rfl⟩ := hp
      refine ⟨⟨rn, List.mem_cons_of_mem _ (List.takeWhile_subset _ hrn), rfl, ?_⟩,
        ⟨rn0, List.mem_cons_self _ _, rfl, hv⟩⟩
      have := List.mem_takeWhile_imp hrn
      simpa using this
    · simp only [hv, if_false] at hp
      cases hp

/-- The pairs of a boundary node whose region nodes are all valid. -/
theorem valid_pairs_all_valid {α : Type} (node : BoundaryNode α) (hall : AllValid node)
    (rn0 : SimulationRegion α × FVM_Node α) (rest : List (SimulationRegion α × FVM_Node α))
    (hl : node.region_nodes = rn0 :: rest) :
    valid_pairs node = rest.map fun rn => (rn.2, rn0.2) := by
  unfold valid_pairs
  rw [hl]
  have hv : rn0.2.is_valid = true := hall rn0 (by rw [hl]; exact List.mem_cons_self _ _)
  have htw : (rest.takeWhile fun rn => rn.2.is_valid) = rest :=
    List.takeWhile_eq_self_iff.2
      (fun rn hrn => hall rn (by rw [hl]; exact List.mem_cons_of_mem _ hrn))
  simp only [hv, if_true, htw]

end HomoInterfaceBC

end Genius

namespace Genius

namespace HomoInterfaceBC

variable {α : Type} [LinearOrderedField α]

end HomoInterfaceBC

end Genius

namespace Genius

namespace HomoInterfaceBC

variable {α : Type} [LinearOrderedField α]

/-- A pair of the boundary nodes of this processor is a pair of one of them. -/
theorem mem_interface_pairs {α : Type} (self : Nat) (nodes : List (BoundaryNode α))
    (p : FVM_Node α × FVM_Node α) (hp : p ∈ interface_pairs self nodes) :
    ∃ node ∈ nodes, node.processor_id = self ∧ p ∈ valid_pairs node := by
  unfold interface_pairs on_processor_nodes at hp
  obtain ⟨node, hnode, hpn⟩ := List.mem_flatMap.1 hp
  obtain ⟨hmem, hproc⟩ := List.mem_filter.1 hnode
  exact ⟨node, hmem, by simpa using hproc, hpn⟩

/-- The two nodes of a pair of a boundary node with `SameRoot` carry the same processor
id. -/
theorem valid_pairs_same_root {α : Type} (node : BoundaryNode α) (hroot : SameRoot node)
    (p : FVM_Node α × FVM_Node α) (hp : p ∈ valid_pairs node) :
    p.1.processor_id = p.2.processor_id := by
  obtain ⟨⟨rn1, h1, e1, _⟩, ⟨rn2, h2, e2, _⟩⟩ := valid_pairs_mem node p hp
  rw [← e1, ← e2, hroot rn1 h1, hroot rn2 h2]

/-- When all region nodes of the boundary nodes of this processor are valid and have
their boundary node as root, the first loop of `Poissin_Function` returns the buffers
built from the pairs. -/
theorem Poissin_Function_nodes_all_valid (self : Nat) (nodes : List (BoundaryNode α))
    (x : Nat → α)
    (hvalid : ∀ node ∈ nodes, node.processor_id = self → AllValid node ∧ SameRoot node) :
    Poissin_Function_nodes self x nodes ⟨[], [], []⟩
      = Except.ok
          { src_row := (interface_pairs self nodes).map fun p => p.1._global_offset
            dst_row := (interface_pairs self nodes).map fun p => p.2._global_offset
            y_new := (interface_pairs self nodes).map
              fun p => x p.1.local_offset - x p.2.local_offset } := by
  rw [Poissin_Function_nodes_eq_scan,
    scan_nodes_all_valid _ self nodes _ (fun node hn hp => (hvalid node hn hp).1)]
  have hpid : ∀ p ∈ interface_pairs self nodes, p.1.processor_id = p.2.processor_id := by
    intro p hp
    obtain ⟨node, hn, hproc, hpn⟩ := mem_interface_pairs self nodes p hp
    exact valid_pairs_same_root node (hvalid node hn hproc).2 p hpn
  obtain ⟨r, hr⟩ := fold_pairs_function_ok x (interface_pairs self nodes) ⟨[], [], []⟩ hpid
  obtain ⟨h1, h2, h3⟩ := fold_pairs_function x _ _ r hr
  rw [hr]
  cases r
  simp only [List.nil_append] at h1 h2 h3
  simp only [h1, h2, h3]

end HomoInterfaceBC

end Genius

namespace Genius

namespace HomoInterfaceBC

variable {α : Type} [LinearOrderedField α]

end HomoInterfaceBC

end Genius

namespace Genius

namespace SimpleGateContactBC

open HomoInterfaceBC

variable {α : Type} [LinearOrderedField α]

end SimpleGateContactBC

end Genius

namespace Genius

namespace HomoInterfaceBC

open SimpleGateContactBC

variable {α : Type} [LinearOrderedField α]

end HomoInterfaceBC

end Genius

namespace Genius

namespace HomoInterfaceBC

variable {α : Type} [LinearOrderedField α]

/-- The rows of a boundary node whose region nodes are all valid are the global offsets
of its region nodes. -/
theorem valid_rows_all_valid {α : Type} (node : BoundaryNode α) (hall : AllValid node) :
    valid_rows node = node.region_nodes.map fun rn => rn.2._global_offset := by
  unfold valid_rows
  rw [List.filter_eq_self.2 (fun rn hrn => hall rn hrn)]

/-- Adding rows into the row `g0`, one after the other, when `g0` is none of them: the
row `g0` gains the sum of their values, every other row stays. -/
theorem add_rows_rest (g0 : Nat) :
    ∀ (rest : List (SimulationRegion α × FVM_Node α)) (f : Nat → α),
      g0 ∉ rest.map (fun rn => rn.2._global_offset) →
        (rest.foldl (fun f rn =>
            Function.update f g0 (f g0 + f rn.2._global_offset)) f) g0
          = f g0 + (rest.map fun rn => f rn.2._global_offset).sum ∧
        ∀ j, j ≠ g0 → (rest.foldl (fun f rn =>
            Function.update f g0 (f g0 + f rn.2._global_offset)) f) j = f j := by
  intro rest
  induction rest with
  | nil => intro f _; simp
  | cons rn t ih =>
    intro f hg
    have hne : rn.2._global_offset ≠ g0 := by
      intro h
      exact hg (by simp [h])
    have hg' : g0 ∉ t.map (fun rn => rn.2._global_offset) := by
      intro h
      exact hg (by simp only [List.map_cons]; exact List.mem_cons_of_mem _ h)
    obtain ⟨h1, h2⟩ := ih (Function.update f g0 (f g0 + f rn.2._global_offset)) hg'
    rw [List.foldl_cons]
    refine ⟨?_, ?_⟩
    · rw [h1, Function.update_same, List.map_cons, List.sum_cons]
      have hmap : (t.map fun r =>
          Function.update f g0 (f g0 + f rn.2._global_offset) r.2._global_offset)
          = t.map fun r => f r.2._global_offset := by
        apply List.map_congr_left
        intro r hr
        have : r.2._global_offset ≠ g0 := by
          intro h
          exact hg' (List.mem_map.2 ⟨r, hr, h⟩)
        rw [Function.update_noteq this]
      rw [hmap, add_assoc]
    · intro j hj
      rw [h2 j hj, Function.update_noteq hj]

/-- Writing values into pairwise distinct rows, one after the other: each row holds its
value, every other row stays. -/
theorem set_rows_rest {α : Type} (y : FVM_Node α → α) :
    ∀ (rest : List (SimulationRegion α × FVM_Node α)) (f : Nat → α),
      (rest.map fun rn => rn.2._global_offset).Nodup →
        (∀ rn ∈ rest, (rest.foldl (fun f rn =>
            Function.update f rn.2._global_offset (y rn.2)) f) rn.2._global_offset = y rn.2) ∧
        ∀ j, j ∉ rest.map (fun rn => rn.2._global_offset) → (rest.foldl (fun f rn =>
            Function.update f rn.2._global_offset (y rn.2)) f) j = f j := by
  intro rest
  induction rest with
  | nil =>
    intro f _
    exact ⟨fun rn hrn => absurd hrn (List.not_mem_nil rn), fun j _ => rfl⟩
  | cons rn t ih =>
    intro f hnd
    rw [List.map_cons, List.nodup_cons] at hnd
    obtain ⟨h1, h2⟩ := ih (Function.update f rn.2._global_offset (y rn.2)) hnd.2
    rw [List.foldl_cons]
    refine ⟨?_, ?_⟩
    · intro r hr
      rcases List.mem_cons.1 hr with rfl | hrt
      · rw [h2 _ hnd.1, Function.update_same]
      · exact h1 r hrt
    · intro j hj
      rw [List.map_cons, List.mem_cons, not_or] at hj
      rw [h2 j hj.2, Function.update_noteq hj.1]

end HomoInterfaceBC

end Genius

namespace Genius

namespace HomoInterfaceBC

variable {α : Type} [LinearOrderedField α]

/-- The helper `VecAddRowToRow` on the rows of a list of pairs is a fold over the pairs. -/
theorem VecAddRowToRow_pairs (f : Nat → α) (P : List (FVM_Node α × FVM_Node α)) :
    VecAddRowToRow f (P.map fun p => p.1._global_offset) (P.map fun p => p.2._global_offset)
      = P.foldl (fun f p => Function.update f p.2._global_offset
          (f p.2._global_offset + f p.1._global_offset)) f := by
  unfold VecAddRowToRow
  rw [List.zip_map', List.foldl_map]

/-- The call `VecSetValues` on the rows and values of a list of pairs is a fold over the
pairs. -/
theorem VecSetValues_insert_pairs {α : Type} (f : Nat → α) (y : FVM_Node α × FVM_Node α → α)
    (P : List (FVM_Node α × FVM_Node α)) :
    VecSetValues_insert f (P.map fun p => p.1._global_offset) (P.map y)
      = P.foldl (fun f p => Function.update f p.1._global_offset (y p)) f := by
  unfold VecSetValues_insert
  rw [List.zip_map', List.foldl_map]

/-- A fold over the pairs of a boundary node that writes only rows of the pairs leaves
the rows outside `valid_rows` alone. -/
theorem valid_pairs_fold_frame {α : Type} (row : FVM_Node α × FVM_Node α → Nat)
    (hrow : ∀ p, row p = p.1._global_offset ∨ row p = p.2._global_offset)
    (v : (Nat → α) → FVM_Node α × FVM_Node α → α) (node : BoundaryNode α) (f : Nat → α)
    (j : Nat) (hj : j ∉ valid_rows node) :
    ((valid_pairs node).foldl (fun f p => Function.update f (row p) (v f p)) f) j = f j := by
  refine Mix3Solver.foldl_get_frame (fun (f : Nat → α) j => f j)
    (fun f p => Function.update f (row p) (v f p)) (fun p => [row p]) ?_
    (valid_pairs node) f j ?_
  · intro s p i hi
    have : i ≠ row p := by simpa using hi
    simp only []
    rw [Function.update_noteq this]
  · intro p hp hjp
    rw [List.mem_singleton] at hjp
    obtain ⟨⟨rn1, h1, e1, v1⟩, ⟨rn2, h2, e2, v2⟩⟩ := valid_pairs_mem node p hp
    apply hj
    unfold valid_rows
    rcases hrow p with h | h
    · exact List.mem_map.2 ⟨rn1, List.mem_filter.2 ⟨h1, v1⟩, by rw [hjp, h, e1]⟩
    · exact List.mem_map.2 ⟨rn2, List.mem_filter.2 ⟨h2, v2⟩, by rw [hjp, h, e2]⟩

/-- The residual after `VecAddRowToRow` over the pairs of boundary nodes with pairwise
distinct rows: at a boundary node whose region nodes are all valid, the row of node 0
has gained the sum of the rows of the other region nodes. -/
theorem add_rows_interface (L : List (BoundaryNode α))
    (hnd : (L.flatMap valid_rows).Nodup) (f : Nat → α) :
    ∀ node ∈ L, AllValid node → ∀ rn0 rest, node.region_nodes = rn0 :: rest →
      (L.foldl (fun f node => (valid_pairs node).foldl
          (fun f p => Function.update f p.2._global_offset
            (f p.2._global_offset + f p.1._global_offset)) f) f) rn0.2._global_offset
        = f rn0.2._global_offset + (rest.map fun rn => f rn.2._global_offset).sum := by
  refine Mix3Solver.foldl_get_rel (fun (f : Nat → α) j => f j)
    (fun f node => (valid_pairs node).foldl
      (fun f p => Function.update f p.2._global_offset
        (f p.2._global_offset + f p.1._global_offset)) f) valid_rows
    (fun node w0 w => AllValid node → ∀ rn0 rest, node.region_nodes = rn0 :: rest →
      w rn0.2._global_offset
        = w0 rn0.2._global_offset + (rest.map fun rn => w0 rn.2._global_offset).sum)
    ?_ ?_ ?_ L f hnd
  · intro s node j hj
    exact valid_pairs_fold_frame (fun p => p.2._global_offset) (fun p => Or.inr rfl)
      (fun f p => f p.2._global_offset + f p.1._global_offset) node s j hj
  · intro s node hS hall rn0 rest hl
    simp only []
    rw [valid_pairs_all_valid node hall rn0 rest hl, List.foldl_map]
    rw [valid_rows_all_valid node hall, hl, List.map_cons, List.nodup_cons] at hS
    exact (add_rows_rest rn0.2._global_offset rest s hS.1).1
  · intro node w0 w0' w w' h0 h1 hQ hall rn0 rest hl
    have hmem0 : rn0.2._global_offset ∈ valid_rows node := by
      rw [valid_rows_all_valid node hall, hl]
      simp
    have hmem : ∀ rn ∈ rest, rn.2._global_offset ∈ valid_rows node := by
      intro rn hrn
      rw [valid_rows_all_valid node hall, hl]
      exact List.mem_map.2 ⟨rn, List.mem_cons_of_mem _ hrn, rfl⟩
    rw [← h1 _ hmem0, ← h0 _ hmem0, hQ hall rn0 rest hl]
    congr 2
    apply List.map_congr_left
    intro rn hrn
    exact h0 _ (hmem rn hrn)

/-- The residual after `VecSetValues` over the pairs of boundary nodes with pairwise
distinct rows: at a boundary node whose region nodes are all valid, the row of node 0
stays and the rows of the other region nodes hold their values. -/
theorem set_rows_interface {α : Type} (y : FVM_Node α → FVM_Node α → α)
    (L : List (BoundaryNode α)) (hnd : (L.flatMap valid_rows).Nodup) (f : Nat → α) :
    ∀ node ∈ L, AllValid node → ∀ rn0 rest, node.region_nodes = rn0 :: rest →
      (L.foldl (fun f node => (valid_pairs node).foldl
          (fun f p => Function.update f p.1._global_offset (y p.1 p.2)) f) f)
          rn0.2._global_offset = f rn0.2._global_offset ∧
      ∀ rn ∈ rest, (L.foldl (fun f node => (valid_pairs node).foldl
          (fun f p => Function.update f p.1._global_offset (y p.1 p.2)) f) f)
          rn.2._global_offset = y rn.2 rn0.2 := by
  refine Mix3Solver.foldl_get_rel (fun (f : Nat → α) j => f j)
    (fun f node => (valid_pairs node).foldl
      (fun f p => Function.update f p.1._global_offset (y p.1 p.2)) f) valid_rows
    (fun node w0 w => AllValid node → ∀ rn0 rest, node.region_nodes = rn0 :: rest →
      w rn0.2._global_offset = w0 rn0.2._global_offset ∧
      ∀ rn ∈ rest, w rn.2._global_offset = y rn.2 rn0.2)
    ?_ ?_ ?_ L f hnd
  · intro s node j hj
    exact valid_pairs_fold_frame (fun p => p.1._global_offset) (fun p => Or.inl rfl)
      (fun _ p => y p.1 p.2) node s j hj
  · intro s node hS hall rn0 rest hl
    simp only []
    rw [valid_pairs_all_valid node hall rn0 rest hl, List.foldl_map]
    rw [valid_rows_all_valid node hall, hl, List.map_cons, List.nodup_cons] at hS
    obtain ⟨h1, h2⟩ := set_rows_rest (fun n => y n rn0.2) rest s hS.2
    exact ⟨h2 _ hS.1, h1⟩
  · intro node w0 w0' w w' h0 h1 hQ hall rn0 rest hl
    have hmem0 : rn0.2._global_offset ∈ valid_rows node := by
      rw [valid_rows_all_valid node hall, hl]
      simp
    have hmem : ∀ rn ∈ rest, rn.2._global_offset ∈ valid_rows node := by
      intro rn hrn
      rw [valid_rows_all_valid node hall, hl]
      exact List.mem_map.2 ⟨rn, List.mem_cons_of_mem _ hrn, rfl⟩
    obtain ⟨q1, q2⟩ := hQ hall rn0 rest hl
    refine ⟨?_, ?_⟩
    · rw [← h1 _ hmem0, ← h0 _ hmem0, q1]
    · intro rn hrn
      rw [← h1 _ (hmem rn hrn), q2 rn hrn]

end HomoInterfaceBC

end Genius

namespace Genius

namespace HomoInterfaceBC

variable {α : Type} [LinearOrderedField α]

/-- C17: with pairwise distinct global offsets of the valid region nodes of the boundary
nodes of this processor, `Poissin_Function` returns when all those region nodes are
valid, and whenever it returns the flag is `INSERT_VALUES` and, at every boundary node of
this processor whose region nodes are all valid, the row of every region node `i` after
the first holds `x[local_offset(i)] - x[local_offset(0)]` and the row of node 0 holds its
previous value plus the sum of the previous values of those rows. -/
theorem Poissin_Function_potential_continuity (self : Nat) (nodes : List (BoundaryNode α))
    (x f : Nat → α) (flag : InsertMode)
    (hrows : ((on_processor_nodes self nodes).flatMap valid_rows).Nodup) :
    ((∀ node ∈ nodes, node.processor_id = self → AllValid node ∧ SameRoot node) →
        ∃ r, Poissin_Function self nodes x f flag = Except.ok r) ∧
    ∀ r, Poissin_Function self nodes x f flag = Except.ok r →
      r.2 = InsertMode.INSERT_VALUES ∧
      ∀ node ∈ nodes, node.processor_id = self → AllValid node →
        ∀ rn0 rest, node.region_nodes = rn0 :: rest →
          (∀ rn ∈ rest,
            r.1 rn.2._global_offset = x rn.2.local_offset - x rn0.2.local_offset) ∧
          r.1 rn0.2._global_offset
            = f rn0.2._global_offset + (rest.map fun rn => f rn.2._global_offset).sum := by
  refine ⟨?_, ?_⟩
  · intro hvalid
    unfold Poissin_Function
    rw [Poissin_Function_nodes_all_valid self nodes x hvalid]
    exact ⟨_, rfl⟩
  · intro r h
    unfold Poissin_Function at h
    cases hscan : Poissin_Function_nodes self x nodes ⟨[], [], []⟩ with
    | error e => rw [hscan] at h; cases h
    | ok buf =>
      rw [hscan] at h
      simp only [Except.ok.injEq] at h
      have hfold := hscan
      rw [Poissin_Function_nodes_eq_scan] at hfold
      obtain ⟨h1, h2, h3⟩ := fold_pairs_function x _ _ buf
        (scan_nodes_pairs _ self nodes _ buf hfold)
      simp only [List.nil_append] at h1 h2 h3
      have hf : r.1 = VecSetValues_insert (VecAddRowToRow f buf.src_row buf.dst_row)
          buf.src_row buf.y_new := by
        rw [← h]
        simp only []
        split_ifs with hlen
        · rfl
        · have hnil : buf.src_row = [] := by
            cases hs : buf.src_row with
            | nil => rfl
            | cons a t => rw [hs] at hlen; simp at hlen
          rw [hnil]
          rfl
      have hflag : r.2 = InsertMode.INSERT_VALUES := by rw [← h]
      refine ⟨hflag, ?_⟩
      intro node hnode hproc hall rn0 rest hl
      have hL : node ∈ on_processor_nodes self nodes :=
        List.mem_filter.2 ⟨hnode, by simpa using hproc⟩
      rw [hf, h1, h2, h3, VecAddRowToRow_pairs,
        VecSetValues_insert_pairs _ (fun p => x p.1.local_offset - x p.2.local_offset)]
      unfold interface_pairs
      rw [foldl_flatMap_eq, foldl_flatMap_eq]
      obtain ⟨q1, q2⟩ := set_rows_interface (fun a b => x a.local_offset - x b.local_offset)
        (on_processor_nodes self nodes) hrows
        ((on_processor_nodes self nodes).foldl (fun f node => (valid_pairs node).foldl
          (fun f p => Function.update f p.2._global_offset
            (f p.2._global_offset + f p.1._global_offset)) f) f)
        node hL hall rn0 rest hl
      refine ⟨q2, ?_⟩
      rw [q1]
      exact add_rows_interface (on_processor_nodes self nodes) hrows f node hL hall rn0 rest hl

/-- The statement C17 at one boundary node between two regions. -/
theorem Poissin_Function_potential_continuity_witness :
    ((on_processor_nodes 0 [sample_interface_node]).flatMap valid_rows).Nodup ∧
    ((∀ node ∈ [sample_interface_node], node.processor_id = 0 →
        AllValid node ∧ SameRoot node) →
      ∃ r, Poissin_Function 0 [sample_interface_node] (fun j => (j : ℚ)) (fun _ => 1)
        InsertMode.ADD_VALUES = Except.ok r) ∧
    ∀ r, Poissin_Function 0 [sample_interface_node] (fun j => (j : ℚ)) (fun _ => 1)
        InsertMode.ADD_VALUES = Except.ok r →
      r.2 = InsertMode.INSERT_VALUES ∧
      ∀ node ∈ [sample_interface_node], node.processor_id = 0 → AllValid node →
        ∀ rn0 rest, node.region_nodes = rn0 :: rest →
          (∀ rn ∈ rest, r.1 rn.2._global_offset
            = (fun j => (j : ℚ)) rn.2.local_offset - (fun j => (j : ℚ)) rn0.2.local_offset) ∧
          r.1 rn0.2._global_offset
            = (fun _ => (1 : ℚ)) rn0.2._global_offset
              + (rest.map fun rn => (fun _ => (1 : ℚ)) rn.2._global_offset).sum :=
  ⟨by decide, Poissin_Function_potential_continuity 0 [sample_interface_node]
    (fun j => (j : ℚ)) (fun _ => 1) InsertMode.ADD_VALUES (by decide)⟩

end HomoInterfaceBC

end Genius

namespace Genius

namespace MeshRefinement

/-- One round of the loop over the nodes of an element in the second pass, in closed
form. -/
theorem flag_node_closed (k : Nat) (lv : NodeLevels) (L P : Nat) (e : Elem) (c : Bool)
    (v : Nat) :
    limit_level_mismatch_at_node_flag_node k lv L P (e, c) v
      = ({ e with
            refinement_flag :=
              if (decide (e.refinement_flag ≠ RefinementState.REFINE) &&
                decide ((L + k) % 4294967296 < lv.max_level_at_node v))
              then RefinementState.REFINE else e.refinement_flag
            p_refinement_flag :=
              if (decide (e.p_refinement_flag ≠ RefinementState.REFINE) &&
                decide ((P + k) % 4294967296 < lv.max_p_level_at_node v))
              then RefinementState.REFINE else e.p_refinement_flag },
          c || ((decide (e.refinement_flag ≠ RefinementState.REFINE) &&
                decide ((L + k) % 4294967296 < lv.max_level_at_node v))
            || (decide (e.p_refinement_flag ≠ RefinementState.REFINE) &&
                decide ((P + k) % 4294967296 < lv.max_p_level_at_node v)))) := by
  unfold limit_level_mismatch_at_node_flag_node
  simp only [Elem.set_refinement_flag, Elem.set_p_refinement_flag]
  rcases e with ⟨l, pl, rf, prf, a, ns, ne, be, par⟩
  by_cases hh : (L + k) % 4294967296 < lv.max_level_at_node v <;>
  by_cases hp : (P + k) % 4294967296 < lv.max_p_level_at_node v <;>
  by_cases eh : rf = RefinementState.REFINE <;>
  by_cases ep : prf = RefinementState.REFINE <;>
  simp [hh, hp, eh, ep]

/-- The loop over the nodes of an element in the second pass, in closed form: for levels
`L` and `P` fixed before the loop. -/
theorem flag_nodes_closed (k : Nat) (lv : NodeLevels) (L P : Nat) :
    ∀ (nodes : List Nat) (e : Elem) (c : Bool),
      nodes.foldl (limit_level_mismatch_at_node_flag_node k lv L P) (e, c)
        = ({ e with
              refinement_flag :=
                if (decide (e.refinement_flag ≠ RefinementState.REFINE) &&
                  nodes.any fun v => decide ((L + k) % 4294967296 < lv.max_level_at_node v))
                then RefinementState.REFINE else e.refinement_flag
              p_refinement_flag :=
                if (decide (e.p_refinement_flag ≠ RefinementState.REFINE) &&
                  nodes.any fun v => decide ((P + k) % 4294967296 < lv.max_p_level_at_node v))
                then RefinementState.REFINE else e.p_refinement_flag },
            c || ((decide (e.refinement_flag ≠ RefinementState.REFINE) &&
                  nodes.any fun v => decide ((L + k) % 4294967296 < lv.max_level_at_node v))
              || (decide (e.p_refinement_flag ≠ RefinementState.REFINE) &&
                  nodes.any fun v =>
                    decide ((P + k) % 4294967296 < lv.max_p_level_at_node v)))) := by
  intro nodes
  induction nodes with
  | nil => intro e c; simp
  | cons v rest ih =>
    intro e c
    rw [List.foldl_cons, flag_node_closed, ih]
    rcases e with ⟨l, pl, rf, prf, a, ns, ne, be, par⟩
    by_cases hh : (L + k) % 4294967296 < lv.max_level_at_node v <;>
    by_cases hp : (P + k) % 4294967296 < lv.max_p_level_at_node v <;>
    by_cases eh : rf = RefinementState.REFINE <;>
    by_cases ep : prf = RefinementState.REFINE <;>
    simp [hh, hp, eh, ep]

end MeshRefinement

end Genius

namespace Genius

namespace MeshRefinement

/-- The body of the loop over the active elements in the second pass, through the closed
form `flag_elem`. -/
theorem limit_level_mismatch_at_node_flag_eq (k : Nat) (lv : NodeLevels) (m : MeshBase)
    (c : Bool) (i : Nat) :
    limit_level_mismatch_at_node_flag k lv (m, c) i
      = ({ m with elem := Function.update m.elem i (flag_elem k lv (m.elem i)).1 },
          c || (flag_elem k lv (m.elem i)).2) := by
  unfold limit_level_mismatch_at_node_flag
  simp only []
  by_cases hfull : (m.elem i).refinement_flag = RefinementState.REFINE
      ∧ (m.elem i).p_refinement_flag = RefinementState.REFINE
  · have hfe : flag_elem k lv (m.elem i) = (m.elem i, false) := by
      revert hfull
      generalize m.elem i = e
      intro hfull
      rcases e with ⟨l, pl, rf, prf, a, ns, ne, be, par⟩
      obtain ⟨h1, h2⟩ := hfull
      simp only [] at h1 h2
      subst h1
      subst h2
      simp [flag_elem]
    simp only [hfull, and_self, if_true, hfe, Function.update_eq_self, Bool.or_false]
  · simp only [hfull, if_false, flag_nodes_closed]
    rfl

/-- Two predicates that agree on a list have the same `any`. -/
theorem any_congr_mem {ι : Type} (f g : ι → Bool) :
    ∀ (l : List ι), (∀ a ∈ l, f a = g a) → l.any f = l.any g := by
  intro l
  induction l with
  | nil => intro _; rfl
  | cons a t ih =>
    intro h
    rw [List.any_cons, List.any_cons, h a (List.mem_cons_self _ _),
      ih (fun b hb => h b (List.mem_cons_of_mem _ hb))]

/-- The second pass over a list of distinct addresses, through the closed form
`flag_elem`. -/
theorem limit_level_mismatch_at_node_flag_fold (k : Nat) (lv : NodeLevels) :
    ∀ (l : List Nat) (m : MeshBase) (c : Bool), l.Nodup →
      (l.foldl (limit_level_mismatch_at_node_flag k lv) (m, c)).1.n_nodes = m.n_nodes ∧
      (l.foldl (limit_level_mismatch_at_node_flag k lv) (m, c)).1.n_elem = m.n_elem ∧
      (∀ j, (l.foldl (limit_level_mismatch_at_node_flag k lv) (m, c)).1.elem j
        = if j ∈ l then (flag_elem k lv (m.elem j)).1 else m.elem j) ∧
      (l.foldl (limit_level_mismatch_at_node_flag k lv) (m, c)).2
        = (c || l.any fun j => (flag_elem k lv (m.elem j)).2) := by
  intro l
  induction l with
  | nil =>
    intro m c _
    simp
  | cons i t ih =>
    intro m c hnd
    rw [List.nodup_cons] at hnd
    rw [List.foldl_cons, limit_level_mismatch_at_node_flag_eq]
    obtain ⟨h1, h2, h3, h4⟩ := ih
      { m with elem := Function.update m.elem i (flag_elem k lv (m.elem i)).1 }
      (c || (flag_elem k lv (m.elem i)).2) hnd.2
    refine ⟨h1, h2, ?_, ?_⟩
    · intro j
      rw [h3 j]
      by_cases hjt : j ∈ t
      · have hji : j ≠ i := fun h => hnd.1 (h ▸ hjt)
        simp only [hjt, if_true, List.mem_cons, or_true, Function.update_noteq hji]
      · by_cases hji : j = i
        · subst hji
          simp only [hjt, if_false, List.mem_cons, true_or, if_true, Function.update_same]
        · simp only [hjt, if_false, List.mem_cons, hji, or_self, Function.update_noteq hji]
    · rw [h4, List.any_cons, Bool.or_assoc]
      congr 2
      apply any_congr_mem
      intro j hj
      have hji : j ≠ i := fun h => hnd.1 (h ▸ hj)
      simp only [Function.update_noteq hji]

/-- The addresses of the active elements are pairwise distinct. -/
theorem active_elements_nodup (mesh : MeshBase) : mesh.active_elements.Nodup :=
  (List.nodup_range _).filter _

/-- An address is visited by the active-element iterators when it is below `n_elem` and
holds an active element. -/
theorem mem_active_elements (mesh : MeshBase) (i : Nat) :
    i ∈ mesh.active_elements ↔ i < mesh.n_elem ∧ (mesh.elem i).active = true := by
  unfold MeshBase.active_elements
  rw [List.mem_filter, List.mem_range]

/-- The closed form `flag_elem` only raises flags to `REFINE`. -/
theorem flag_elem_raises (k : Nat) (lv : NodeLevels) (e : Elem) :
    FlagsOnlyRaised e (flag_elem k lv e).1 := by
  unfold flag_elem FlagsOnlyRaised
  refine ⟨rfl, rfl, rfl, rfl, rfl, rfl, rfl, rfl, rfl, ?_, ?_⟩
  · simp only []
    split_ifs
    · exact Or.inr rfl
    · exact Or.inl rfl
  · simp only []
    split_ifs
    · exact Or.inr rfl
    · exact Or.inl rfl

/-- The closed form `flag_elem` reports a change exactly when one of the two flags of the
element differs afterwards. -/
theorem flag_elem_changed (k : Nat) (lv : NodeLevels) (e : Elem) :
    (flag_elem k lv e).2 = true ↔
      (flag_elem k lv e).1.refinement_flag ≠ e.refinement_flag ∨
      (flag_elem k lv e).1.p_refinement_flag ≠ e.p_refinement_flag := by
  rcases e with ⟨l, pl, rf, prf, a, ns, ne, be, par⟩
  unfold flag_elem
  simp only []
  cases h1 : (ns.any fun v => decide ((l + k) % 4294967296 < lv.max_level_at_node v)) <;>
  cases h2 : (ns.any fun v => decide ((pl + k) % 4294967296 < lv.max_p_level_at_node v)) <;>
  by_cases eh : rf = RefinementState.REFINE <;>
  by_cases ep : prf = RefinementState.REFINE <;>
  simp [eh, ep] <;>
  first
    | exact fun h => eh h.symm
    | exact fun h => ep h.symm
    | exact Or.inl (fun h => eh h.symm)

end MeshRefinement

end Genius

namespace Genius

namespace MeshRefinement

/-- The loop over the nodes of an element in the first pass never lowers an entry of
`max_level_at_node` and raises the entries of the nodes of the element to the level of
the element. -/
theorem limit_level_mismatch_at_node_fill_nodes_spec (n_nodes L P : Nat) :
    ∀ (nodes : List Nat) (lv lv' : NodeLevels),
      limit_level_mismatch_at_node_fill_nodes n_nodes L P nodes lv = some lv' →
        (∀ v, lv.max_level_at_node v ≤ lv'.max_level_at_node v) ∧
        (∀ v ∈ nodes, L ≤ lv'.max_level_at_node v) := by
  intro nodes
  induction nodes with
  | nil =>
    intro lv lv' h
    simp only [limit_level_mismatch_at_node_fill_nodes, Option.some.injEq] at h
    subst h
    exact ⟨fun v => le_refl _, fun v hv => absurd hv (List.not_mem_nil v)⟩
  | cons w rest ih =>
    intro lv lv' h
    rw [limit_level_mismatch_at_node_fill_nodes] at h
    by_cases hw : w < n_nodes
    · simp only [hw, if_true] at h
      obtain ⟨h1, h2⟩ := ih _ lv' h
      have hstep : ∀ v, lv.max_level_at_node v
          ≤ Function.update lv.max_level_at_node w (max (lv.max_level_at_node w) L) v := by
        intro v
        by_cases hv : v = w
        · subst hv
          rw [Function.update_same]
          exact le_max_left _ _
        · rw [Function.update_noteq hv]
      refine ⟨fun v => le_trans (hstep v) (h1 v), ?_⟩
      intro v hv
      rcases List.mem_cons.1 hv with rfl | hvr
      · refine le_trans ?_ (h1 v)
        simp only [Function.update_same]
        exact le_max_right _ _
      · exact h2 v hvr
    · simp only [hw, if_false] at h
      cases h

/-- The loop over the nodes of an element in the first pass returns when all node numbers
are below `n_nodes`. -/
theorem limit_level_mismatch_at_node_fill_nodes_total (n_nodes L P : Nat) :
    ∀ (nodes : List Nat) (lv : NodeLevels), (∀ v ∈ nodes, v < n_nodes) →
      ∃ lv', limit_level_mismatch_at_node_fill_nodes n_nodes L P nodes lv = some lv' := by
  intro nodes
  induction nodes with
  | nil => intro lv _; exact ⟨lv, rfl⟩
  | cons w rest ih =>
    intro lv h
    rw [limit_level_mismatch_at_node_fill_nodes]
    simp only [h w (List.mem_cons_self _ _), if_true]
    exact ih _ (fun v hv => h v (List.mem_cons_of_mem _ hv))

/-- The first pass never lowers an entry of `max_level_at_node` and raises the entries of
the nodes of every element it visits to the projected level of the element, taken as an
`unsigned char`. -/
theorem limit_level_mismatch_at_node_fill_spec (mesh : MeshBase) :
    ∀ (l : List Nat) (lv lv' : NodeLevels),
      limit_level_mismatch_at_node_fill mesh l lv = some lv' →
        (∀ v, lv.max_level_at_node v ≤ lv'.max_level_at_node v) ∧
        (∀ i ∈ l, ∀ v ∈ (mesh.elem i).nodes,
          projected_level (mesh.elem i) % 256 ≤ lv'.max_level_at_node v) := by
  intro l
  induction l with
  | nil =>
    intro lv lv' h
    simp only [limit_level_mismatch_at_node_fill, Option.some.injEq] at h
    subst h
    exact ⟨fun v => le_refl _, fun i hi => absurd hi (List.not_mem_nil i)⟩
  | cons i rest ih =>
    intro lv lv' h
    rw [limit_level_mismatch_at_node_fill] at h
    cases hn : limit_level_mismatch_at_node_fill_nodes mesh.n_nodes
        (((mesh.elem i).level
          + (if (mesh.elem i).refinement_flag = RefinementState.REFINE then 1 else 0)) % 256)
        (((mesh.elem i).p_level
          + (if (mesh.elem i).p_refinement_flag = RefinementState.REFINE then 1 else 0)) % 256)
        (mesh.elem i).nodes lv with
    | none => rw [hn] at h; cases h
    | some lv1 =>
      rw [hn] at h
      obtain ⟨a1, a2⟩ := limit_level_mismatch_at_node_fill_nodes_spec _ _ _ _ lv lv1 hn
      obtain ⟨b1, b2⟩ := ih lv1 lv' h
      refine ⟨fun v => le_trans (a1 v) (b1 v), ?_⟩
      intro j hj v hv
      rcases List.mem_cons.1 hj with rfl | hjr
      · exact le_trans (a2 v hv) (b1 v)
      · exact b2 j hjr v hv

/-- The first pass returns when all node numbers of the elements it visits are below
`n_nodes`. -/
theorem limit_level_mismatch_at_node_fill_total (mesh : MeshBase) :
    ∀ (l : List Nat) (lv : NodeLevels),
      (∀ i ∈ l, ∀ v ∈ (mesh.elem i).nodes, v < mesh.n_nodes) →
        ∃ lv', limit_level_mismatch_at_node_fill mesh l lv = some lv' := by
  intro l
  induction l with
  | nil => intro lv _; exact ⟨lv, rfl⟩
  | cons i rest ih =>
    intro lv h
    rw [limit_level_mismatch_at_node_fill]
    obtain ⟨lv1, h1⟩ := limit_level_mismatch_at_node_fill_nodes_total mesh.n_nodes
      (((mesh.elem i).level
        + (if (mesh.elem i).refinement_flag = RefinementState.REFINE then 1 else 0)) % 256)
      (((mesh.elem i).p_level
        + (if (mesh.elem i).p_refinement_flag = RefinementState.REFINE then 1 else 0)) % 256)
      (mesh.elem i).nodes lv (h i (List.mem_cons_self _ _))
    rw [h1]
    exact ih lv1 (fun j hj => h j (List.mem_cons_of_mem _ hj))

end MeshRefinement

end Genius

namespace Genius

namespace MeshRefinement

/-- Two meshes with the same number of elements and the same elements have the same
active elements. -/
theorem active_elements_congr (m' m : MeshBase) (h1 : m'.n_elem = m.n_elem)
    (h2 : ∀ i, m'.elem i = m.elem i) : m'.active_elements = m.active_elements := by
  unfold MeshBase.active_elements
  rw [h1]
  simp only [h2]

/-- C19: `limit_level_mismatch_at_node` returns when all node numbers of the active
elements are below `n_nodes`; whenever it returns, every element is as before up to
flags changed to `REFINE`, it returns `true` exactly when the h- or p-flag of some
element differs afterwards, and if it returns `false` on a mesh whose active elements
have levels below 255 and differ by at most `k` in level at every node, then the
projected h-levels of the active elements at every node differ by at most `k`. -/
theorem limit_level_mismatch_at_node_enforces (mesh : MeshBase) (k : Nat) :
    ((∀ i ∈ mesh.active_elements, ∀ v ∈ (mesh.elem i).nodes, v < mesh.n_nodes) →
      ∃ r, limit_level_mismatch_at_node mesh k = some r) ∧
    ∀ r, limit_level_mismatch_at_node mesh k = some r →
      r.2.n_nodes = mesh.n_nodes ∧ r.2.n_elem = mesh.n_elem ∧
      (∀ i, FlagsOnlyRaised (mesh.elem i) (r.2.elem i)) ∧
      (r.1 = true ↔ ∃ i, i < mesh.n_elem ∧
        ((r.2.elem i).refinement_flag ≠ (mesh.elem i).refinement_flag ∨
          (r.2.elem i).p_refinement_flag ≠ (mesh.elem i).p_refinement_flag)) ∧
      (r.1 = false →
        (∀ i ∈ mesh.active_elements, (mesh.elem i).level < 255) →
        (∀ i ∈ mesh.active_elements, ∀ j ∈ mesh.active_elements,
          ∀ v ∈ (mesh.elem i).nodes, v ∈ (mesh.elem j).nodes →
            (mesh.elem j).level ≤ (mesh.elem i).level + k) →
        ∀ i ∈ r.2.active_elements, ∀ j ∈ r.2.active_elements,
          ∀ v ∈ (r.2.elem i).nodes, v ∈ (r.2.elem j).nodes →
            projected_level (r.2.elem j) ≤ projected_level (r.2.elem i) + k) := by
  refine ⟨?_, ?_⟩
  · intro hnodes
    unfold limit_level_mismatch_at_node
    obtain ⟨lv, hlv⟩ := limit_level_mismatch_at_node_fill_total mesh mesh.active_elements
      ⟨fun _ => 0, fun _ => 0⟩ hnodes
    rw [hlv]
    exact ⟨_, rfl⟩
  · intro r h
    unfold limit_level_mismatch_at_node at h
    cases hlv : limit_level_mismatch_at_node_fill mesh mesh.active_elements
        ⟨fun _ => 0, fun _ => 0⟩ with
    | none => rw [hlv] at h; cases h
    | some lv =>
      rw [hlv] at h
      simp only [Option.some.injEq] at h
      obtain ⟨f1, f2, f3, f4⟩ := limit_level_mismatch_at_node_flag_fold k lv
        mesh.active_elements mesh false (active_elements_nodup mesh)
      obtain ⟨_, hmax⟩ := limit_level_mismatch_at_node_fill_spec mesh _ _ lv hlv
      subst h
      simp only []
      have helem : ∀ i, FlagsOnlyRaised (mesh.elem i)
          ((mesh.active_elements.foldl (limit_level_mismatch_at_node_flag k lv)
            (mesh, false)).1.elem i) := by
        intro i
        rw [f3 i]
        split_ifs
        · exact flag_elem_raises k lv (mesh.elem i)
        · exact ⟨rfl, rfl, rfl, rfl, rfl, rfl, rfl, rfl, rfl, Or.inl rfl, Or.inl rfl⟩
      refine ⟨f1, f2, helem, ?_, ?_⟩
      · rw [f4, Bool.false_or, List.any_eq_true]
        constructor
        · rintro ⟨i, hi, hc⟩
          refine ⟨i, ((mem_active_elements mesh i).1 hi).1, ?_⟩
          rw [f3 i]
          simp only [hi, if_true]
          exact (flag_elem_changed k lv (mesh.elem i)).1 hc
        · rintro ⟨i, _, hd⟩
          rw [f3 i] at hd
          by_cases hi : i ∈ mesh.active_elements
          · simp only [hi, if_true] at hd
            exact ⟨i, hi, (flag_elem_changed k lv (mesh.elem i)).2 hd⟩
          · simp only [hi, if_false, ne_eq, not_true_eq_false, or_self] at hd
      · intro hfalse hlevels hcurrent
        rw [f4, Bool.false_or] at hfalse
        have hquiet : ∀ i ∈ mesh.active_elements, (flag_elem k lv (mesh.elem i)).2 = false := by
          intro i hi
          by_contra hne
          have htrue : (flag_elem k lv (mesh.elem i)).2 = true := by
            simpa using hne
          have : (mesh.active_elements.any fun j => (flag_elem k lv (mesh.elem j)).2) = true :=
            List.any_eq_true.2 ⟨i, hi, htrue⟩
          rw [this] at hfalse
          cases hfalse
        have hsame : ∀ i, (mesh.active_elements.foldl (limit_level_mismatch_at_node_flag k lv)
            (mesh, false)).1.elem i = mesh.elem i := by
          intro i
          rw [f3 i]
          by_cases hi : i ∈ mesh.active_elements
          · simp only [hi, if_true]
            have hq := hquiet i hi
            revert hq
            generalize mesh.elem i = e
            intro hq
            rcases e with ⟨l, pl, rf, prf, a, ns, ne, be, par⟩
            unfold flag_elem at hq ⊢
            simp only [Bool.or_eq_false_iff] at hq
            simp only [hq.1, hq.2, Bool.false_eq_true, if_false]
          · simp only [hi, if_false]
        have hact : (mesh.active_elements.foldl (limit_level_mismatch_at_node_flag k lv)
            (mesh, false)).1.active_elements = mesh.active_elements := by
          exact active_elements_congr _ mesh f2 hsame
        intro i hi j hj v hvi hvj
        rw [hact] at hi hj
        rw [hsame i] at hvi ⊢
        rw [hsame j] at hvj ⊢
        have hj255 := hlevels j hj
        have hpj : projected_level (mesh.elem j) % 256 = projected_level (mesh.elem j) := by
          apply Nat.mod_eq_of_lt
          unfold projected_level
          split_ifs <;> omega
        have hmaxj := hmax j hj v hvj
        rw [hpj] at hmaxj
        by_cases hflag : (mesh.elem i).refinement_flag = RefinementState.REFINE
        · have hcur := hcurrent i hi j hj v hvi hvj
          have hpi : projected_level (mesh.elem i) = (mesh.elem i).level + 1 := by
            unfold projected_level
            simp only [hflag, if_true]
          have hpj' : projected_level (mesh.elem j) ≤ (mesh.elem j).level + 1 := by
            unfold projected_level
            split_ifs <;> omega
          omega
        · have hq := hquiet i hi
          unfold flag_elem at hq
          simp only [Bool.or_eq_false_iff, Bool.and_eq_false_iff, decide_eq_false_iff_not,
            ne_eq, not_not] at hq
          have hany : ((mesh.elem i).nodes.any fun v =>
              decide (((mesh.elem i).level + k) % 4294967296 < lv.max_level_at_node v))
              = false := by
            rcases hq.1 with h | h
            · exact absurd h hflag
            · exact h
          have hv : ¬ (((mesh.elem i).level + k) % 4294967296 < lv.max_level_at_node v) := by
            intro hlt
            have : ((mesh.elem i).nodes.any fun v =>
                decide (((mesh.elem i).level + k) % 4294967296 < lv.max_level_at_node v))
                = true := List.any_eq_true.2 ⟨v, hvi, by simpa using hlt⟩
            rw [this] at hany
            cases hany
          have hmod : ((mesh.elem i).level + k) % 4294967296 ≤ (mesh.elem i).level + k :=
            Nat.mod_le _ _
          have hpi : (mesh.elem i).level ≤ projected_level (mesh.elem i) := by
            unfold projected_level
            omega
          omega

/-- The statement C19 at a mesh of two elements that share a node: the call returns
`false` and the projected levels at the shared node differ by at most 3. -/
theorem limit_level_mismatch_at_node_enforces_witness :
    ∃ m', limit_level_mismatch_at_node sample_mesh 3 = some (false, m') ∧
      (∀ i ∈ sample_mesh.active_elements, (sample_mesh.elem i).level < 255) ∧
      (∀ i ∈ sample_mesh.active_elements, ∀ j ∈ sample_mesh.active_elements,
        ∀ v ∈ (sample_mesh.elem i).nodes, v ∈ (sample_mesh.elem j).nodes →
          (sample_mesh.elem j).level ≤ (sample_mesh.elem i).level + 3) ∧
      ∀ i ∈ m'.active_elements, ∀ j ∈ m'.active_elements,
        ∀ v ∈ (m'.elem i).nodes, v ∈ (m'.elem j).nodes →
          projected_level (m'.elem j) ≤ projected_level (m'.elem i) + 3 :=
  ⟨_, rfl, by decide, by decide,
    ((limit_level_mismatch_at_node_enforces sample_mesh 3).2 _ rfl).2.2.2.2 rfl
      (by decide) (by decide)⟩

end MeshRefinement

end Genius

namespace Genius

namespace MeshRefinement

/-- Once the pointer of the ancestor loop is the parent of the element and the edge `n`
of the parent shares a node with the edge of the element, no bound on the number of
rounds is enough: the update `p = elem->parent()` gives the same parent again. -/
theorem limit_level_mismatch_at_edge_walk_stuck (mesh : MeshBase)
    (elem n c0 c1 L P a : Nat) (hparent : (mesh.elem elem).parent = some a)
    (hshare : ¬ (((mesh.elem a).build_edge n).1 ≠ c0 ∧ ((mesh.elem a).build_edge n).1 ≠ c1
      ∧ ((mesh.elem a).build_edge n).2 ≠ c0 ∧ ((mesh.elem a).build_edge n).2 ≠ c1)) :
    ∀ (fuel : Nat) (lv : EdgeLevels),
      limit_level_mismatch_at_edge_walk mesh elem n c0 c1 L P fuel (some a) lv = none := by
  intro fuel
  induction fuel with
  | zero => intro lv; rfl
  | succ fuel ih =>
    intro lv
    rw [limit_level_mismatch_at_edge_walk]
    simp only [hshare, if_false, hparent]
    exact ih _

/-- The ancestor loop of the edge `n` of an element whose parent's edge `n` shares a node
with it does not end within any number of rounds. -/
theorem limit_level_mismatch_at_edge_walk_never_ends (mesh : MeshBase) (elem n a : Nat)
    (L P : Nat) (hparent : (mesh.elem elem).parent = some a)
    (hshare : ((mesh.elem a).build_edge n).1 = ((mesh.elem elem).build_edge n).1
      ∨ ((mesh.elem a).build_edge n).1 = ((mesh.elem elem).build_edge n).2
      ∨ ((mesh.elem a).build_edge n).2 = ((mesh.elem elem).build_edge n).1
      ∨ ((mesh.elem a).build_edge n).2 = ((mesh.elem elem).build_edge n).2) :
    ∀ (fuel : Nat) (lv : EdgeLevels),
      limit_level_mismatch_at_edge_walk mesh elem n
        (if ((mesh.elem elem).build_edge n).2 < ((mesh.elem elem).build_edge n).1
          then ((mesh.elem elem).build_edge n).2 else ((mesh.elem elem).build_edge n).1)
        (if ((mesh.elem elem).build_edge n).2 < ((mesh.elem elem).build_edge n).1
          then ((mesh.elem elem).build_edge n).1 else ((mesh.elem elem).build_edge n).2)
        L P fuel (some elem) lv = none := by
  intro fuel lv
  cases fuel with
  | zero => rfl
  | succ fuel =>
    rw [limit_level_mismatch_at_edge_walk]
    have hself : ¬ (((mesh.elem elem).build_edge n).1 ≠
          (if ((mesh.elem elem).build_edge n).2 < ((mesh.elem elem).build_edge n).1
            then ((mesh.elem elem).build_edge n).2 else ((mesh.elem elem).build_edge n).1)
        ∧ ((mesh.elem elem).build_edge n).1 ≠
          (if ((mesh.elem elem).build_edge n).2 < ((mesh.elem elem).build_edge n).1
            then ((mesh.elem elem).build_edge n).1 else ((mesh.elem elem).build_edge n).2)
        ∧ ((mesh.elem elem).build_edge n).2 ≠
          (if ((mesh.elem elem).build_edge n).2 < ((mesh.elem elem).build_edge n).1
            then ((mesh.elem elem).build_edge n).2 else ((mesh.elem elem).build_edge n).1)
        ∧ ((mesh.elem elem).build_edge n).2 ≠
          (if ((mesh.elem elem).build_edge n).2 < ((mesh.elem elem).build_edge n).1
            then ((mesh.elem elem).build_edge n).1 else ((mesh.elem elem).build_edge n).2)) := by
      split_ifs <;> simp
    simp only [hself, if_false, hparent]
    refine limit_level_mismatch_at_edge_walk_stuck mesh elem n _ _ L P a hparent ?_ fuel _
    split_ifs <;> rcases hshare with h | h | h | h <;> simp [h]

/-- The loop over the edges of an element does not return within any bound when the
ancestor loop of one of the edges does not. -/
theorem limit_level_mismatch_at_edge_fill_edges_none (fuel : Nat) (mesh : MeshBase)
    (elem L P n : Nat)
    (hwalk : ∀ lv, limit_level_mismatch_at_edge_walk mesh elem n
        (if ((mesh.elem elem).build_edge n).2 < ((mesh.elem elem).build_edge n).1
          then ((mesh.elem elem).build_edge n).2 else ((mesh.elem elem).build_edge n).1)
        (if ((mesh.elem elem).build_edge n).2 < ((mesh.elem elem).build_edge n).1
          then ((mesh.elem elem).build_edge n).1 else ((mesh.elem elem).build_edge n).2)
        L P fuel (some elem) lv = none) :
    ∀ (l : List Nat) (lv : EdgeLevels), n ∈ l →
      limit_level_mismatch_at_edge_fill_edges fuel mesh elem L P l lv = none := by
  intro l
  induction l with
  | nil => intro lv h; cases h
  | cons m rest ih =>
    intro lv h
    rw [limit_level_mismatch_at_edge_fill_edges]
    by_cases hm : n = m
    · subst hm
      simp only [hwalk lv]
    · have hrest : n ∈ rest := by
        rcases List.mem_cons.1 h with h1 | h1
        · exact absurd h1 hm
        · exact h1
      cases limit_level_mismatch_at_edge_walk mesh elem m _ _ L P fuel (some elem) lv with
      | none => rfl
      | some lv1 => exact ih lv1 hrest

/-- The first pass does not return within any bound when the loop over the edges of one
of the elements it visits does not. -/
theorem limit_level_mismatch_at_edge_fill_none (fuel : Nat) (mesh : MeshBase) (i : Nat)
    (hedges : ∀ lv, limit_level_mismatch_at_edge_fill_edges fuel mesh i
        (((mesh.elem i).level
          + (if (mesh.elem i).refinement_flag = RefinementState.REFINE then 1 else 0)) % 256)
        (((mesh.elem i).p_level
          + (if (mesh.elem i).p_refinement_flag = RefinementState.REFINE then 1 else 0)) % 256)
        (List.range (mesh.elem i).n_edges) lv = none) :
    ∀ (l : List Nat) (lv : EdgeLevels), i ∈ l →
      limit_level_mismatch_at_edge_fill fuel mesh l lv = none := by
  intro l
  induction l with
  | nil => intro lv h; cases h
  | cons m rest ih =>
    intro lv h
    rw [limit_level_mismatch_at_edge_fill]
    by_cases hm : i = m
    · subst hm
      simp only [hedges lv]
    · have hrest : i ∈ rest := by
        rcases List.mem_cons.1 h with h1 | h1
        · exact absurd h1 hm
        · exact h1
      cases limit_level_mismatch_at_edge_fill_edges fuel mesh m _ _
          (List.range (mesh.elem m).n_edges) lv with
      | none => rfl
      | some lv1 => exact ih lv1 hrest

/-- C20: `limit_level_mismatch_at_edge` does not terminate on a mesh with an active
element that has a parent whose edge `n` shares a node with the edge `n` of the element:
whatever the bound on the rounds of the ancestor loops, the call has not returned. -/
theorem limit_level_mismatch_at_edge_never_returns (mesh : MeshBase) (k i a n : Nat)
    (hactive : i ∈ mesh.active_elements) (hparent : (mesh.elem i).parent = some a)
    (hn : n < (mesh.elem i).n_edges)
    (hshare : ((mesh.elem a).build_edge n).1 = ((mesh.elem i).build_edge n).1
      ∨ ((mesh.elem a).build_edge n).1 = ((mesh.elem i).build_edge n).2
      ∨ ((mesh.elem a).build_edge n).2 = ((mesh.elem i).build_edge n).1
      ∨ ((mesh.elem a).build_edge n).2 = ((mesh.elem i).build_edge n).2) :
    ∀ fuel, limit_level_mismatch_at_edge fuel mesh k = none := by
  intro fuel
  unfold limit_level_mismatch_at_edge
  rw [limit_level_mismatch_at_edge_fill_none fuel mesh i ?_ mesh.active_elements _ hactive]
  intro lv
  refine limit_level_mismatch_at_edge_fill_edges_none fuel mesh i _ _ n ?_ _ lv
    (List.mem_range.2 hn)
  intro lv1
  exact limit_level_mismatch_at_edge_walk_never_ends mesh i n a _ _ hparent hshare fuel lv1

/-- The statement C20 at a refined mesh: a parent with one active child on its edge. -/
theorem limit_level_mismatch_at_edge_never_returns_witness :
    1 ∈ sample_refined_mesh.active_elements ∧
    (sample_refined_mesh.elem 1).parent = some 0 ∧
    0 < (sample_refined_mesh.elem 1).n_edges ∧
    ∀ fuel, limit_level_mismatch_at_edge fuel sample_refined_mesh 1 = none :=
  ⟨by decide, rfl, by decide,
    limit_level_mismatch_at_edge_never_returns sample_refined_mesh 1 1 0 0 (by decide) rfl
      (by decide) (Or.inl rfl)⟩

/-- The ancestor loop ends when its pointer is `NULL`. -/
theorem limit_level_mismatch_at_edge_walk_null (mesh : MeshBase)
    (elem n c0 c1 L P fuel : Nat) (lv : EdgeLevels) :
    limit_level_mismatch_at_edge_walk mesh elem n c0 c1 L P fuel none lv = some lv := by
  cases fuel <;> rfl

/-- On a mesh whose active elements have no parent the ancestor loops end after one
round: `limit_level_mismatch_at_edge` returns. -/
theorem limit_level_mismatch_at_edge_returns_without_parents (mesh : MeshBase) (k : Nat)
    (hroot : ∀ i ∈ mesh.active_elements, (mesh.elem i).parent = none) :
    ∃ r, limit_level_mismatch_at_edge 1 mesh k = some r := by
  have hwalk : ∀ i, (mesh.elem i).parent = none → ∀ n c0 c1 L P lv,
      ∃ lv', limit_level_mismatch_at_edge_walk mesh i n c0 c1 L P 1 (some i) lv = some lv' := by
    intro i hi n c0 c1 L P lv
    rw [limit_level_mismatch_at_edge_walk]
    simp only [hi, limit_level_mismatch_at_edge_walk_null]
    split_ifs <;> exact ⟨_, rfl⟩
  have hedges : ∀ i, (mesh.elem i).parent = none → ∀ L P (l : List Nat) lv,
      ∃ lv', limit_level_mismatch_at_edge_fill_edges 1 mesh i L P l lv = some lv' := by
    intro i hi L P l
    induction l with
    | nil => intro lv; exact ⟨lv, rfl⟩
    | cons n rest ih =>
      intro lv
      rw [limit_level_mismatch_at_edge_fill_edges]
      obtain ⟨lv1, h1⟩ := hwalk i hi n
        (if ((mesh.elem i).build_edge n).2 < ((mesh.elem i).build_edge n).1
          then ((mesh.elem i).build_edge n).2 else ((mesh.elem i).build_edge n).1)
        (if ((mesh.elem i).build_edge n).2 < ((mesh.elem i).build_edge n).1
          then ((mesh.elem i).build_edge n).1 else ((mesh.elem i).build_edge n).2) L P lv
      simp only [h1]
      exact ih lv1
  have hfill : ∀ (l : List Nat), (∀ i ∈ l, (mesh.elem i).parent = none) → ∀ lv,
      ∃ lv', limit_level_mismatch_at_edge_fill 1 mesh l lv = some lv' := by
    intro l
    induction l with
    | nil => intro _ lv; exact ⟨lv, rfl⟩
    | cons i rest ih =>
      intro hl lv
      rw [limit_level_mismatch_at_edge_fill]
      obtain ⟨lv1, h1⟩ := hedges i (hl i (List.mem_cons_self _ _))
        (((mesh.elem i).level
          + (if (mesh.elem i).refinement_flag = RefinementState.REFINE then 1 else 0)) % 256)
        (((mesh.elem i).p_level
          + (if (mesh.elem i).p_refinement_flag = RefinementState.REFINE then 1 else 0)) % 256)
        (List.range (mesh.elem i).n_edges) lv
      simp only [h1]
      exact ih (fun j hj => hl j (List.mem_cons_of_mem _ hj)) lv1
  obtain ⟨lv, hlv⟩ := hfill mesh.active_elements hroot ⟨fun _ => none, fun _ => none⟩
  unfold limit_level_mismatch_at_edge
  rw [hlv]
  exact ⟨_, rfl⟩

end MeshRefinement

end Genius

namespace Genius

namespace Mix3Solver

variable {α : Type} [LinearOrderedField α]

/-- C29: on a layout whose variable slots are pairwise distinct,
`projection_positive_density_check` applied twice gives the same arrays `x` and `xo` as
applied once. -/
theorem projection_positive_density_check_idempotent (u : PhysicalUnit α)
    (sys : SimulationSystem α) (s : ProjectionState α) (hnd : (system_slots sys).Nodup) :
    projection_positive_density_check u sys (projection_positive_density_check u sys s)
      = projection_positive_density_check u sys s := by
  have hoo : ∀ t : ProjectionState α, (projection_positive_density_check u sys t).oo = t.oo :=
    fun _ => rfl
  have hxx : ∀ j,
      (projection_positive_density_check u sys (projection_positive_density_check u sys s)).xx j
        = (projection_positive_density_check u sys s).xx j := by
    intro j
    by_cases hj : ∀ r ∈ sys.regions, r.type = SimulationRegionType.SemiconductorRegion →
        ∀ n ∈ r.nodes, j ∉ clamp_slots sys.processor_id r n
    · exact projection_frame u sys _ j hj
    · push_neg at hj
      obtain ⟨r, hr, hty, n, hn, hjn⟩ := hj
      have hs : skipped sys.processor_id n = false := by
        by_contra hsk
        have hsk' : skipped sys.processor_id n = true := by simpa using hsk
        simp [clamp_slots, hsk'] at hjn
      have hT : Treated sys r n := ⟨hr, hty, hn, hs⟩
      simp only [clamp_slots, hs, Bool.false_eq_true, if_false, List.mem_map] at hjn
      obtain ⟨v, hv, rfl⟩ := hjn
      have h1 := projection_values u sys s hnd hT
      have h2 := projection_values u sys (projection_positive_density_check u sys s) hnd hT
      have hE : SolutionVariable.ELECTRON ∈ clamped_variables r := (mem_clamped_variables r _).2 (Or.inl rfl)
      have hH : SolutionVariable.HOLE ∈ clamped_variables r := (mem_clamped_variables r _).2 (Or.inr (Or.inl rfl))
      have hkeepE : (projection_positive_density_check u sys
          (projection_positive_density_check u sys s)).xx (slot r n SolutionVariable.ELECTRON)
          = (projection_positive_density_check u sys s).xx (slot r n SolutionVariable.ELECTRON) := by
        rw [h2 SolutionVariable.ELECTRON hE]
        apply max_eq_left
        rw [h1 SolutionVariable.ELECTRON hE]
        exact le_max_right _ _
      have hkeepH : (projection_positive_density_check u sys
          (projection_positive_density_check u sys s)).xx (slot r n SolutionVariable.HOLE)
          = (projection_positive_density_check u sys s).xx (slot r n SolutionVariable.HOLE) := by
        rw [h2 SolutionVariable.HOLE hH]
        apply max_eq_left
        rw [h1 SolutionVariable.HOLE hH]
        exact le_max_right _ _
      have hfloor : projection_floor u sys.T_external r n
          (projection_positive_density_check u sys
            (projection_positive_density_check u sys s)).xx v
          = projection_floor u sys.T_external r n
            (projection_positive_density_check u sys s).xx v := by
        cases v <;> simp only [projection_floor, hkeepE, hkeepH]
      rw [h2 v hv, hfloor]
      apply max_eq_left
      rw [h1 v hv]
      exact le_max_right _ _
  have hfun := funext hxx
  cases hP : projection_positive_density_check u sys s with
  | mk xx oo =>
    rw [hP] at hfun
    have h3 := hoo ⟨xx, oo⟩
    cases hQ : projection_positive_density_check u sys ⟨xx, oo⟩ with
    | mk xx2 oo2 =>
      rw [hQ] at hfun h3
      simp only [] at hfun h3
      rw [hfun, h3]

/-- C29, at the sample system and state. -/
theorem projection_positive_density_check_idempotent_witness :
    (system_slots sample_system).Nodup ∧
      projection_positive_density_check sample_unit sample_system
          (projection_positive_density_check sample_unit sample_system
            sample_projection_state)
        = projection_positive_density_check sample_unit sample_system
            sample_projection_state :=
  ⟨sample_layout,
    projection_positive_density_check_idempotent sample_unit sample_system
      sample_projection_state sample_layout⟩

end Mix3Solver

end Genius

namespace Genius

namespace Mix3Solver

open SolutionVariable

/-- The logarithmic damping factor over the reals lies strictly between 0 and 1 when the
thermal voltage and the largest step are positive, and the factor times the largest step
is `V_T * ln(1 + dV_max/V_T)`. -/
theorem damping_factor_real (u : PhysicalUnit ℝ) (T_external dV_max : ℝ)
    (hVt : 0 < u.kb * T_external / u.e) (hD : 0 < dV_max) :
    0 < damping_factor Real.log u T_external dV_max ∧
      damping_factor Real.log u T_external dV_max < 1 ∧
      damping_factor Real.log u T_external dV_max * dV_max
        = u.kb * T_external / u.e * Real.log (1 + dV_max / (u.kb * T_external / u.e)) := by
  unfold damping_factor
  simp only []
  have hv : 0 < dV_max / (u.kb * T_external / u.e) := div_pos hD hVt
  have hlog : 0 < Real.log (1 + dV_max / (u.kb * T_external / u.e)) :=
    Real.log_pos (by linarith)
  have hlt : Real.log (1 + dV_max / (u.kb * T_external / u.e))
      < dV_max / (u.kb * T_external / u.e) := by
    have h := Real.log_lt_sub_one_of_pos
      (show 0 < 1 + dV_max / (u.kb * T_external / u.e) by linarith)
      (by intro h; linarith)
    linarith
  refine ⟨div_pos hlog hv, (div_lt_one hv).2 hlt, ?_⟩
  generalize u.kb * T_external / u.e = V at hVt hv hlog hlt ⊢
  generalize Real.log (1 + dV_max / V) = L
  have hV0 : V ≠ 0 := ne_of_gt hVt
  have hD0 : dV_max ≠ 0 := ne_of_gt hD
  field_simp
  ring

/-- C27: over the reals, with `V_T = kb*T_ext/e > 0` and `dV_max > 1e-6` (the largest
`|y[psi]|` of the treated nodes, combined with the value of the other processes), the
factor `f = ln(1 + dV_max/V_T)/(dV_max/V_T)` satisfies `0 < f < 1`, and after
`potential_damping` on a layout with pairwise distinct slots every treated node has
`|w[psi] - x[psi]| = f*|y[psi]| <= |y[psi]|` and
`|w[psi] - x[psi]| <= V_T * ln(1 + dV_max/V_T)`. -/
theorem potential_damping_never_enlarges (u : PhysicalUnit ℝ) (sys : SimulationSystem ℝ)
    (remote : ℝ) (s : DampingState ℝ) (r : SimulationRegion ℝ) (n : FVM_Node ℝ)
    (hnd : (system_slots sys).Nodup) (hT : Treated sys r n)
    (hVt : 0 < u.kb * sys.T_external / u.e)
    (hD : Parallel_max (max_abs_potential_step sys s.yy) remote > 1 / 1000000) :
    0 < damping_factor Real.log u sys.T_external
        (Parallel_max (max_abs_potential_step sys s.yy) remote) ∧
      damping_factor Real.log u sys.T_external
        (Parallel_max (max_abs_potential_step sys s.yy) remote) < 1 ∧
      |(potential_damping Real.log u sys remote s).ww (slot r n POTENTIAL)
          - s.xx (slot r n POTENTIAL)|
        = damping_factor Real.log u sys.T_external
            (Parallel_max (max_abs_potential_step sys s.yy) remote)
          * |s.yy (slot r n POTENTIAL)| ∧
      |(potential_damping Real.log u sys remote s).ww (slot r n POTENTIAL)
          - s.xx (slot r n POTENTIAL)| ≤ |s.yy (slot r n POTENTIAL)| ∧
      |(potential_damping Real.log u sys remote s).ww (slot r n POTENTIAL)
          - s.xx (slot r n POTENTIAL)|
        ≤ u.kb * sys.T_external / u.e
          * Real.log (1 + Parallel_max (max_abs_potential_step sys s.yy) remote
            / (u.kb * sys.T_external / u.e)) := by
  have hDpos : 0 < Parallel_max (max_abs_potential_step sys s.yy) remote :=
    lt_trans (by norm_num) hD
  obtain ⟨hf0, hf1, hfD⟩ := damping_factor_real u sys.T_external _ hVt hDpos
  have hw := potential_damping_ww_psi Real.log u sys remote s hnd hT
  rw [if_pos hD] at hw
  have hy : |s.yy (slot r n POTENTIAL)|
      ≤ Parallel_max (max_abs_potential_step sys s.yy) remote :=
    le_trans ((max_abs_potential_step_spec sys s.yy).1 _
      ((mem_system_psi_slots sys _).2 ⟨r, n, hT, rfl⟩)) (le_max_left _ _)
  have habs : |(potential_damping Real.log u sys remote s).ww (slot r n POTENTIAL)
      - s.xx (slot r n POTENTIAL)|
      = damping_factor Real.log u sys.T_external
          (Parallel_max (max_abs_potential_step sys s.yy) remote)
        * |s.yy (slot r n POTENTIAL)| := by
    rw [hw, sub_sub_cancel_left, abs_neg, abs_mul, abs_of_pos hf0]
  refine ⟨hf0, hf1, habs, ?_, ?_⟩
  · rw [habs]
    calc damping_factor Real.log u sys.T_external
            (Parallel_max (max_abs_potential_step sys s.yy) remote)
          * |s.yy (slot r n POTENTIAL)|
        ≤ 1 * |s.yy (slot r n POTENTIAL)| :=
          mul_le_mul_of_nonneg_right hf1.le (abs_nonneg _)
      _ = |s.yy (slot r n POTENTIAL)| := one_mul _
  · rw [habs, ← hfD]
    exact mul_le_mul_of_nonneg_left hy hf0.le

end Mix3Solver

end Genius

namespace Genius

namespace Mix3Solver

open SolutionVariable

/-- The largest absolute potential step of the sample over the reals is `1`. -/
theorem field_max_abs_potential_step :
    max_abs_potential_step (field_system ℝ) (field_step_state ℝ).yy = 1 := by
  have hslots : system_psi_slots (field_system ℝ) = [0] := by decide
  unfold max_abs_potential_step
  rw [hslots]
  simp [field_step_state]

/-- C27, at the sample over the reals: `V_T = 1`, one treated node with the step `1`. -/
theorem potential_damping_never_enlarges_witness :
    (system_slots (field_system ℝ)).Nodup ∧
      Treated (field_system ℝ) (field_region ℝ) (field_node ℝ) ∧
      0 < (field_unit ℝ).kb * (field_system ℝ).T_external / (field_unit ℝ).e ∧
      Parallel_max (max_abs_potential_step (field_system ℝ) (field_step_state ℝ).yy) 0
        > 1 / 1000000 ∧
      |(potential_damping Real.log (field_unit ℝ) (field_system ℝ) 0
            (field_step_state ℝ)).ww (slot (field_region ℝ) (field_node ℝ) POTENTIAL)
          - (field_step_state ℝ).xx (slot (field_region ℝ) (field_node ℝ) POTENTIAL)|
        ≤ |(field_step_state ℝ).yy (slot (field_region ℝ) (field_node ℝ) POTENTIAL)| :=
  have hnd : (system_slots (field_system ℝ)).Nodup := by decide
  have hT : Treated (field_system ℝ) (field_region ℝ) (field_node ℝ) :=
    ⟨List.mem_cons_self _ _, rfl, List.mem_cons_self _ _, by decide⟩
  have hVt : 0 < (field_unit ℝ).kb * (field_system ℝ).T_external / (field_unit ℝ).e := by
    simp [field_unit, field_system]
  have hD : Parallel_max (max_abs_potential_step (field_system ℝ) (field_step_state ℝ).yy) 0
      > 1 / 1000000 := by
    rw [field_max_abs_potential_step]
    norm_num [Parallel_max]
  ⟨hnd, hT, hVt, hD,
    (potential_damping_never_enlarges (field_unit ℝ) (field_system ℝ) 0 (field_step_state ℝ)
      (field_region ℝ) (field_node ℝ) hnd hT hVt hD).2.2.2.1⟩

end Mix3Solver

end Genius

namespace Genius

namespace SimpleGateContactBC

variable {α : Type} [LinearOrderedField α]

/-- The factor `K = Z1*Y2 + 1` that the electrode block computes from `Z1 = (R, omega*L)`
and `Y2 = (0, omega*C)` is `(1 - omega^2*L*C, omega*R*C)`. -/
theorem electrode_factor_eq (bc : SimpleGateContactBC α) (omega : α) :
    ((StdComplex.mk bc.R (omega * bc.L)).mul (StdComplex.mk 0 (omega * bc.C))).add_real 1
      = electrode_factor bc omega := by
  simp only [StdComplex.mul, StdComplex.add_real, electrode_factor, StdComplex.mk.injEq]
  constructor <;> ring

/-- C23: the electrode block of `DDMAC_Fill_Matrix_Vector` adds, in `ADD_VALUES` mode,
`1 - omega^2*L*C` at `(re, re)`, `-omega*R*C` at `(re, im)`, `omega*R*C` at `(im, re)`
and `1 - omega^2*L*C` at `(im, im)` of the electrode rows `re = global_offset`,
`im = global_offset + 1`, and `Vac` resp. `0` at the rows `re` and `im` of the right-hand
side; the four values are the real 2x2 form of the multiplication by
`K = (R + j*omega*L)*(j*omega*C) + 1`, and the identity at `omega = 0`; the method runs
the block exactly on the last processor. -/
theorem DDMAC_Fill_electrode_block (bc : SimpleGateContactBC α) (omega : α)
    (s : FillState α) :
    (DDMAC_Fill_electrode bc omega s).calls = s.calls ++
        [PetscCall.MatSetValue bc.global_offset bc.global_offset
            (1 - omega ^ 2 * bc.L * bc.C) InsertMode.ADD_VALUES,
          PetscCall.MatSetValue bc.global_offset (uadd bc.global_offset 1)
            (-(omega * bc.R * bc.C)) InsertMode.ADD_VALUES,
          PetscCall.MatSetValue (uadd bc.global_offset 1) bc.global_offset
            (omega * bc.R * bc.C) InsertMode.ADD_VALUES,
          PetscCall.MatSetValue (uadd bc.global_offset 1) (uadd bc.global_offset 1)
            (1 - omega ^ 2 * bc.L * bc.C) InsertMode.ADD_VALUES,
          PetscCall.VecSetValue bc.global_offset bc.Vac InsertMode.ADD_VALUES,
          PetscCall.VecSetValue (uadd bc.global_offset 1) 0 InsertMode.ADD_VALUES] ∧
      (DDMAC_Fill_electrode bc omega s).A bc.global_offset bc.global_offset
        = s.A bc.global_offset bc.global_offset + (1 - omega ^ 2 * bc.L * bc.C) ∧
      (DDMAC_Fill_electrode bc omega s).A bc.global_offset (uadd bc.global_offset 1)
        = s.A bc.global_offset (uadd bc.global_offset 1) + -(omega * bc.R * bc.C) ∧
      (DDMAC_Fill_electrode bc omega s).A (uadd bc.global_offset 1) bc.global_offset
        = s.A (uadd bc.global_offset 1) bc.global_offset + omega * bc.R * bc.C ∧
      (DDMAC_Fill_electrode bc omega s).A (uadd bc.global_offset 1) (uadd bc.global_offset 1)
        = s.A (uadd bc.global_offset 1) (uadd bc.global_offset 1)
          + (1 - omega ^ 2 * bc.L * bc.C) ∧
      (DDMAC_Fill_electrode bc omega s).b bc.global_offset
        = s.b bc.global_offset + bc.Vac ∧
      (DDMAC_Fill_electrode bc omega s).b (uadd bc.global_offset 1)
        = s.b (uadd bc.global_offset 1) + 0 ∧
      (∀ Ve : StdComplex α,
        (1 - omega ^ 2 * bc.L * bc.C) * Ve.re + -(omega * bc.R * bc.C) * Ve.im
          = ((((StdComplex.mk bc.R (omega * bc.L)).mul
              (StdComplex.mk 0 (omega * bc.C))).add_real 1).mul Ve).re ∧
        omega * bc.R * bc.C * Ve.re + (1 - omega ^ 2 * bc.L * bc.C) * Ve.im
          = ((((StdComplex.mk bc.R (omega * bc.L)).mul
              (StdComplex.mk 0 (omega * bc.C))).add_real 1).mul Ve).im) ∧
      (omega = 0 → 1 - omega ^ 2 * bc.L * bc.C = 1 ∧ -(omega * bc.R * bc.C) = 0 ∧
        omega * bc.R * bc.C = 0) ∧
      (∀ (self n_processors : Nat) (e eps0 : α)
        (fill : Nat → SolutionVariable → (Nat → Nat → α) × (Nat → α) × InsertMode →
          (Nat → Nat → α) × (Nat → α) × InsertMode)
        (A : Nat → Nat → α) (b : Nat → α) (flag : InsertMode) (s' : FillState α),
        DDMAC_Fill_Matrix_Vector bc self n_processors e eps0 omega fill A b flag
            = Except.ok s' →
          ∃ s1, s' = { (if self = (n_processors + 4294967295) % 4294967296
              then DDMAC_Fill_electrode bc omega s1 else s1) with
              add_value_flag := InsertMode.ADD_VALUES }) := by
  have hK := electrode_factor_eq bc omega
  have hne : uadd bc.global_offset 1 ≠ bc.global_offset := by
    unfold uadd
    omega
  have hne' : bc.global_offset ≠ uadd bc.global_offset 1 := fun h => hne h.symm
  refine ⟨?_, ?_, ?_, ?_, ?_, ?_, ?_, ?_, ?_, ?_⟩
  · simp only [DDMAC_Fill_electrode, hK, MatSetValue_add, VecSetValue_add, electrode_factor,
      List.append_assoc, List.singleton_append, List.cons_append, List.nil_append]
  · simp only [DDMAC_Fill_electrode, hK, MatSetValue_add, VecSetValue_add, electrode_factor]
    simp [Function.update, hne, hne']
  · simp only [DDMAC_Fill_electrode, hK, MatSetValue_add, VecSetValue_add, electrode_factor]
    simp [Function.update, hne, hne']
  · simp only [DDMAC_Fill_electrode, hK, MatSetValue_add, VecSetValue_add, electrode_factor]
    simp [Function.update, hne, hne']
  · simp only [DDMAC_Fill_electrode, hK, MatSetValue_add, VecSetValue_add, electrode_factor]
    simp [Function.update, hne, hne']
  · simp only [DDMAC_Fill_electrode, hK, MatSetValue_add, VecSetValue_add, electrode_factor]
    simp [Function.update, hne, hne']
  · simp only [DDMAC_Fill_electrode, hK, MatSetValue_add, VecSetValue_add, electrode_factor]
    simp [Function.update, hne, hne']
  · intro Ve
    rw [hK]
    simp only [StdComplex.mul, electrode_factor]
    constructor <;> ring
  · intro h0
    subst h0
    simp
  · intro self n_processors e eps0 fill A b flag s' h
    unfold DDMAC_Fill_Matrix_Vector at h
    simp only [] at h
    cases hl : DDMAC_Fill_nodes bc self e eps0 omega fill bc.nodes
        ⟨A, b, flag,
          if flag ≠ InsertMode.ADD_VALUES ∧ flag ≠ InsertMode.NOT_SET_VALUES
          then [PetscCall.MatAssemblyFlush] else []⟩ with
    | error err => rw [hl] at h; cases h
    | ok s1 =>
      rw [hl] at h
      simp only [Except.ok.injEq] at h
      exact ⟨s1, h.symm⟩

/-- C23, at the sample gate contact with `R = L = C = 1` and `omega = 2` on one processor:
the block has the values `-3, -2, 2, -3`. -/
theorem DDMAC_Fill_electrode_block_witness :
    ∃ s1, DDMAC_Fill_Matrix_Vector sample_gate 0 1 (1 : ℚ) 1 2 sample_fill (fun _ _ => 0)
        (fun _ => 0) InsertMode.NOT_SET_VALUES
        = Except.ok { (DDMAC_Fill_electrode sample_gate 2 s1) with
            add_value_flag := InsertMode.ADD_VALUES } ∧
      (DDMAC_Fill_electrode sample_gate 2 s1).A 6 6 = s1.A 6 6 + (1 - 2 ^ 2 * 1 * 1) := by
  obtain ⟨s1, h1⟩ := (DDMAC_Fill_electrode_block sample_gate (2 : ℚ)
    ⟨fun _ _ => 0, fun _ => 0, InsertMode.NOT_SET_VALUES, []⟩).2.2.2.2.2.2.2.2.2
      0 1 1 1 sample_fill (fun _ _ => 0) (fun _ => 0) InsertMode.NOT_SET_VALUES _ rfl
  refine ⟨s1, ?_, (DDMAC_Fill_electrode_block sample_gate (2 : ℚ) s1).2.1⟩
  have h2 : DDMAC_Fill_Matrix_Vector sample_gate 0 1 (1 : ℚ) 1 2 sample_fill (fun _ _ => 0)
      (fun _ => 0) InsertMode.NOT_SET_VALUES = Except.ok _ := rfl
  rw [h2, h1]
  rfl

end SimpleGateContactBC

end Genius

namespace Genius

namespace HomoInterfaceBC

variable {α : Type} [LinearOrderedField α]

/-- C26: at a boundary node of this processor whose first region node is invalid and
whose second region node is valid, the running position is `i = 1` while `fvm_nodes`
holds one node: `Poissin_Function`, `Poissin_Jacobian_Reserve` and `Poissin_Jacobian`
all read `fvm_nodes[1]` outside the vector. -/
theorem homo_interface_index_out_of_range (self : Nat) (heap : Nat → Option PeerNode)
    (node : BoundaryNode α) (nodes : List (BoundaryNode α))
    (rn0 rn1 : SimulationRegion α × FVM_Node α)
    (more : List (SimulationRegion α × FVM_Node α)) (x f : Nat → α) (jac : Nat → Nat → α)
    (flag : InsertMode) (hself : node.processor_id = self)
    (hnodes : node.region_nodes = rn0 :: rn1 :: more)
    (h0 : rn0.2.is_valid = false) (h1 : rn1.2.is_valid = true) :
    Poissin_Function self (node :: nodes) x f flag
        = Except.error Fault.index_out_of_range ∧
      Poissin_Jacobian_Reserve self heap (node :: nodes) jac flag
        = Except.error Fault.index_out_of_range ∧
      Poissin_Jacobian self (node :: nodes) x jac flag
        = Except.error Fault.index_out_of_range := by
  refine ⟨?_, ?_, ?_⟩
  · simp [Poissin_Function, Poissin_Function_nodes, Poissin_Function_region_nodes, hself,
      hnodes, h0, h1]
  · simp [Poissin_Jacobian_Reserve, Poissin_Jacobian_Reserve_nodes,
      Poissin_Jacobian_Reserve_region_nodes, hself, hnodes, h0, h1]
  · simp [Poissin_Jacobian, Poissin_Jacobian_nodes, Poissin_Jacobian_region_nodes, hself,
      hnodes, h0, h1]

/-- C26, at the sample boundary node with an invalid region node before a valid one. -/
theorem homo_interface_index_out_of_range_witness :
    sample_skipping_node.processor_id = 0 ∧
      Poissin_Function 0 [sample_skipping_node] (fun _ => (0 : ℚ)) (fun _ => 0)
          InsertMode.NOT_SET_VALUES
        = Except.error Fault.index_out_of_range ∧
      Poissin_Jacobian_Reserve 0 sample_heap [sample_skipping_node] (fun _ _ => (0 : ℚ))
          InsertMode.NOT_SET_VALUES
        = Except.error Fault.index_out_of_range ∧
      Poissin_Jacobian 0 [sample_skipping_node] (fun _ => (0 : ℚ)) (fun _ _ => 0)
          InsertMode.NOT_SET_VALUES
        = Except.error Fault.index_out_of_range :=
  ⟨rfl, homo_interface_index_out_of_range 0 sample_heap sample_skipping_node []
    (Mix3Solver.sample_region, ⟨0, some [], invalid_uint, invalid_uint⟩)
    (Mix3Solver.sample_oxide, ⟨0, some [], 1, 1⟩) [] (fun _ => 0) (fun _ => 0) (fun _ _ => 0)
    InsertMode.NOT_SET_VALUES rfl rfl (by decide) (by decide)⟩

end HomoInterfaceBC

end Genius

namespace Genius

namespace Particle_Source_Analytic

/-- C30: over the reals, for `t_char != 0` the two methods `carrier_generation` return the
same value, the truncated Gaussian `exp(-((t - t_max)/t_char)^2)` for `t >= t0` and
`((t - t_max)/t_char)^2 < 30` and `0` otherwise; the value lies in `[0, 1]`, is `0` for
`t < t0`, and is `1` at `t = t_max` when `t_max >= t0`. -/
theorem carrier_generation_truncated_gaussian (t0 t_max t_char t : ℝ) (hc : t_char ≠ 0) :
    Particle_Source_DataFile.carrier_generation Real.exp ⟨t0, t_max, t_char⟩ t
        = Particle_Source_Analytic.carrier_generation Real.exp ⟨t0, t_max, t_char⟩ t ∧
      Particle_Source_Analytic.carrier_generation Real.exp ⟨t0, t_max, t_char⟩ t
        = truncated_gaussian Real.exp t0 t_max t_char t ∧
      0 ≤ Particle_Source_Analytic.carrier_generation Real.exp ⟨t0, t_max, t_char⟩ t ∧
      Particle_Source_Analytic.carrier_generation Real.exp ⟨t0, t_max, t_char⟩ t ≤ 1 ∧
      (t < t0 →
        Particle_Source_Analytic.carrier_generation Real.exp ⟨t0, t_max, t_char⟩ t = 0) ∧
      (t_max ≥ t0 →
        Particle_Source_Analytic.carrier_generation Real.exp ⟨t0, t_max, t_char⟩ t_max = 1) := by
  have hsq : (t - t_max) * (t - t_max) / (t_char * t_char) = ((t - t_max) / t_char) ^ 2 := by
    field_simp
    ring
  have hneg : -(t - t_max) * (t - t_max) / (t_char * t_char) = -((t - t_max) / t_char) ^ 2 := by
    field_simp
    ring
  have hval : Particle_Source_Analytic.carrier_generation Real.exp ⟨t0, t_max, t_char⟩ t
      = truncated_gaussian Real.exp t0 t_max t_char t := by
    simp only [Particle_Source_Analytic.carrier_generation, truncated_gaussian, hsq, hneg]
  refine ⟨rfl, hval, ?_, ?_, ?_, ?_⟩
  · rw [hval]
    unfold truncated_gaussian
    split_ifs
    · exact (Real.exp_pos _).le
    · exact le_refl _
  · rw [hval]
    unfold truncated_gaussian
    split_ifs
    · apply Real.exp_le_one_iff.2
      have := sq_nonneg ((t - t_max) / t_char)
      linarith
    · exact zero_le_one
  · intro hlt
    rw [hval]
    unfold truncated_gaussian
    rw [if_neg]
    intro h
    exact absurd h.1 (not_le.2 hlt)
  · intro hge
    simp only [Particle_Source_Analytic.carrier_generation, sub_self, mul_zero, zero_div,
      neg_zero, Real.exp_zero]
    rw [if_pos]
    exact ⟨hge, by norm_num⟩

/-- C30, at `t0 = 0`, `t_max = 1`, `t_char = 1` and `t = 2`. -/
theorem carrier_generation_truncated_gaussian_witness :
    (1 : ℝ) ≠ 0 ∧
      Particle_Source_DataFile.carrier_generation Real.exp ⟨0, 1, 1⟩ 2
        = Particle_Source_Analytic.carrier_generation Real.exp ⟨0, 1, 1⟩ 2 ∧
      Particle_Source_Analytic.carrier_generation Real.exp ⟨0, 1, 1⟩ 2 ≤ 1 :=
  ⟨one_ne_zero, (carrier_generation_truncated_gaussian 0 1 1 2 one_ne_zero).1,
    (carrier_generation_truncated_gaussian 0 1 1 2 one_ne_zero).2.2.2.1⟩

end Particle_Source_Analytic

end Genius

namespace Genius

namespace MeshRefinement

variable {α : Type} [LinearOrderedField α]

theorem refineGuarded_refl (m : Nat) (e : Elem) : RefineGuarded m e e :=
  ⟨rfl, fun h => Or.inl h⟩

theorem refineGuarded_trans {m : Nat} {a b c : Elem} (h1 : RefineGuarded m a b)
    (h2 : RefineGuarded m b c) : RefineGuarded m a c := by
  refine ⟨h2.1.trans h1.1, fun h => ?_⟩
  rcases h2.2 h with h' | h'
  · exact h1.2 h'
  · exact Or.inr (h1.1 ▸ h')

theorem refineGuarded_coarsen (m : Nat) (e : Elem) :
    RefineGuarded m e (e.set_refinement_flag RefinementState.COARSEN) :=
  ⟨rfl, fun h => by simp [Elem.set_refinement_flag] at h⟩

theorem refineGuarded_refine {m : Nat} {e : Elem} (h : e.level < m) :
    RefineGuarded m e (e.set_refinement_flag RefinementState.REFINE) :=
  ⟨rfl, fun _ => Or.inr h⟩

theorem flag_active_elements_guarded (m : Nat) (body : Nat → Elem → Except Fault Elem)
    (hbody : ∀ id e e', body id e = Except.ok e' → RefineGuarded m e e') :
    ∀ (ids : List Nat) (mesh mesh' : MeshBase),
      flag_active_elements body ids mesh = Except.ok mesh' →
      mesh'.n_elem = mesh.n_elem ∧ ∀ i, RefineGuarded m (mesh.elem i) (mesh'.elem i)
  | [], mesh, mesh', h => by
    simp only [flag_active_elements, Except.ok.injEq] at h
    subst h
    exact ⟨rfl, fun i => refineGuarded_refl _ _⟩
  | id :: rest, mesh, mesh', h => by
    rw [flag_active_elements] at h
    cases hb : body id (mesh.elem id) with
    | error e => rw [hb] at h; exact absurd h (by simp)
    | ok elem =>
      rw [hb] at h
      have ih := flag_active_elements_guarded m body hbody rest _ mesh' h
      refine ⟨ih.1, fun i => ?_⟩
      have hi := ih.2 i
      by_cases hid : i = id
      · subst hid
        simp only [Function.update_same] at hi
        exact refineGuarded_trans (hbody _ _ _ hb) hi
      · simp only [Function.update_noteq hid] at hi
        exact hi

theorem flag_elements_by_error_fraction_coarsen_guarded (m : Nat) (self : MeshRefinement α)
    (error_per_parent : List α) (parent_cutoff coarsen_cutoff elem_error : α)
    (elem elem' : Elem)
    (h : flag_elements_by_error_fraction_coarsen self error_per_parent parent_cutoff
      coarsen_cutoff elem_error elem = Except.ok elem') : RefineGuarded m elem elem' := by
  unfold flag_elements_by_error_fraction_coarsen at h
  repeat' split at h
  all_goals cases h <;> first
    | exact refineGuarded_refl _ _
    | exact refineGuarded_coarsen _ _

theorem flag_elements_by_error_fraction_elem_guarded (self : MeshRefinement α)
    (error_per_cell error_per_parent : List α)
    (refine_cutoff coarsen_cutoff parent_cutoff : α) (id : Nat) (elem elem' : Elem)
    (h : flag_elements_by_error_fraction_elem self error_per_cell error_per_parent
      refine_cutoff coarsen_cutoff parent_cutoff id elem = Except.ok elem') :
    RefineGuarded self._max_h_level elem elem' := by
  unfold flag_elements_by_error_fraction_elem at h
  split at h
  · split at h
    · cases h
    · rename_i elem_error _
      cases hc : flag_elements_by_error_fraction_coarsen self error_per_parent parent_cutoff
          coarsen_cutoff elem_error elem with
      | error e => rw [hc] at h; cases h
      | ok e1 =>
        rw [hc] at h
        have h1 := flag_elements_by_error_fraction_coarsen_guarded self._max_h_level self _ _ _
          _ _ _ hc
        simp only at h
        split_ifs at h with h2 h3
        · cases h
          exact refineGuarded_trans h1 (refineGuarded_refine h3)
        · cases h; exact h1
        · cases h; exact h1
  · cases h

theorem coarsen_by_parent_error_guarded (m : Nat) (sqrt : α → α) (self : MeshRefinement α)
    (mesh : MeshBase) (error_per_parent : List α) (tolerance : α) (elem elem' : Elem)
    (h : coarsen_by_parent_error sqrt self mesh error_per_parent tolerance elem
      = Except.ok elem') : RefineGuarded m elem elem' := by
  unfold coarsen_by_parent_error at h
  split at h
  · split at h
    · split at h
      · cases h
      · split at h
        · simp only at h
          split at h <;> cases h <;> first
            | exact refineGuarded_refl _ _
            | exact refineGuarded_coarsen _ _
        · cases h; exact refineGuarded_refl _ _
    · cases h; exact refineGuarded_refl _ _
  · cases h; exact refineGuarded_refl _ _

theorem flag_elements_by_error_threshold_elem_guarded (sqrt : α → α)
    (self : MeshRefinement α) (mesh : MeshBase) (error_per_cell_in error_per_parent : List α)
    (refine coarsen : α) (elem_number : Nat) (elem elem' : Elem)
    (h : flag_elements_by_error_threshold_elem sqrt self mesh error_per_cell_in
      error_per_parent refine coarsen elem_number elem = Except.ok elem') :
    RefineGuarded self._max_h_level elem elem' := by
  unfold flag_elements_by_error_threshold_elem at h
  split at h
  · cases h
  · simp only at h
    refine refineGuarded_trans ?_
      (coarsen_by_parent_error_guarded self._max_h_level sqrt self mesh _ _ _ _ h)
    split_ifs with h1 h2 h2
    · exact refineGuarded_trans (refineGuarded_refine h2.2) (refineGuarded_coarsen _ _)
    · exact refineGuarded_coarsen _ _
    · exact refineGuarded_refine h2.2
    · exact refineGuarded_refl _ _

theorem flag_elements_by_mean_stddev_elem_guarded (self : MeshRefinement α)
    (error_per_cell : List α) (refine_cutoff coarsen_cutoff : α) (id : Nat)
    (elem elem' : Elem)
    (h : flag_elements_by_mean_stddev_elem self error_per_cell refine_cutoff coarsen_cutoff
      id elem = Except.ok elem') : RefineGuarded self._max_h_level elem elem' := by
  unfold flag_elements_by_mean_stddev_elem at h
  split at h
  · split at h
    · cases h
    · simp only at h
      cases h
      split_ifs with h1 h2 h2
      · exact refineGuarded_trans (refineGuarded_coarsen _ _) (refineGuarded_refine h2.2)
      · exact refineGuarded_coarsen _ _
      · exact refineGuarded_refine h2.2
      · exact refineGuarded_refl _ _
  · cases h

theorem flag_elements_by_elem_fraction_elem_guarded (self : MeshRefinement α)
    (error_per_cell error_per_parent : List α) (n_elem_coarsen n_elem_refine : Nat)
    (bottom_error top_error : α) (id : Nat) (elem elem' : Elem)
    (h : flag_elements_by_elem_fraction_elem self error_per_cell error_per_parent
      n_elem_coarsen n_elem_refine bottom_error top_error id elem = Except.ok elem') :
    RefineGuarded self._max_h_level elem elem' := by
  unfold flag_elements_by_elem_fraction_elem at h
  cases h1 : flag_elements_by_elem_fraction_coarsen_parent self error_per_parent
      n_elem_coarsen bottom_error elem with
  | error e => rw [h1] at h; cases h
  | ok e1 =>
    rw [h1] at h
    simp only at h
    cases h2 : flag_elements_by_elem_fraction_coarsen_cell self error_per_cell n_elem_coarsen
        bottom_error id e1 with
    | error e => rw [h2] at h; cases h
    | ok e2 =>
      rw [h2] at h
      simp only at h
      have g1 : RefineGuarded self._max_h_level elem e1 := by
        unfold flag_elements_by_elem_fraction_coarsen_parent at h1
        repeat' split at h1
        all_goals cases h1 <;> first
          | exact refineGuarded_refl _ _
          | exact refineGuarded_coarsen _ _
      have g2 : RefineGuarded self._max_h_level e1 e2 := by
        unfold flag_elements_by_elem_fraction_coarsen_cell at h2
        repeat' split at h2
        all_goals cases h2 <;> first
          | exact refineGuarded_refl _ _
          | exact refineGuarded_coarsen _ _
      have g3 : RefineGuarded self._max_h_level e2 elem' := by
        unfold flag_elements_by_elem_fraction_refine at h
        split at h
        · rename_i hg
          repeat' split at h
          all_goals cases h <;> first
            | exact refineGuarded_refl _ _
            | exact refineGuarded_refine hg.2
        · cases h; exact refineGuarded_refl _ _
      exact refineGuarded_trans (refineGuarded_trans g1 g2) g3

end MeshRefinement

end Genius
namespace Genius

namespace MeshRefinement

variable {α : Type} [LinearOrderedField α]

theorem countP_update_le (p q : Nat → Bool) (j : Nat) (hpq : ∀ i, i ≠ j → q i = p i) :
    ∀ l : List Nat, l.Nodup → l.countP q ≤ l.countP p + 1
  | [], _ => by simp
  | a :: t, hnd => by
    have hat : a ∉ t := (List.nodup_cons.mp hnd).1
    have ht : t.Nodup := (List.nodup_cons.mp hnd).2
    by_cases haj : a = j
    · have hcongr : t.countP q = t.countP p := by
        apply List.countP_congr
        intro x hx
        have hxj : x ≠ j := fun hxj => hat (haj ▸ hxj ▸ hx)
        rw [hpq x hxj]
      rw [List.countP_cons, List.countP_cons, hcongr]
      split_ifs <;> omega
    · have ih := countP_update_le p q j hpq t ht
      rw [List.countP_cons, List.countP_cons, hpq a haj]
      split_ifs <;> omega

theorem n_flagged_update_le (mesh : MeshBase) (j : Nat) (e : Elem) (flag : RefinementState) :
    n_flagged { mesh with elem := Function.update mesh.elem j e } flag
      ≤ n_flagged mesh flag + 1 := by
  unfold n_flagged
  apply countP_update_le _ _ j _ _ (List.nodup_range _)
  intro i hi
  simp only [Function.update_noteq hi]

theorem n_flagged_update_other (mesh : MeshBase) (j : Nat) (e : Elem)
    (flag : RefinementState) (he : e.refinement_flag ≠ flag) :
    n_flagged { mesh with elem := Function.update mesh.elem j e } flag
      ≤ n_flagged mesh flag := by
  unfold n_flagged
  apply List.countP_mono_left
  intro i _ hi
  by_cases hij : i = j
  · subst hij
    simp only [Function.update_same, decide_eq_true_eq] at hi
    exact absurd hi he
  · simpa only [Function.update_noteq hij] using hi

theorem flagged_update (mesh : MeshBase) (j : Nat) (e : Elem)
    (he : e.refinement_flag = RefinementState.REFINE ∨
      e.refinement_flag = RefinementState.COARSEN)
    (h : Flagged mesh ∨ j < mesh.n_elem) :
    Flagged { mesh with elem := Function.update mesh.elem j e } := by
  rcases h with ⟨i, hi, hf⟩ | hj
  · by_cases hij : i = j
    · subst hij
      exact ⟨i, hi, by simpa only [Function.update_same] using he⟩
    · exact ⟨i, hi, by simpa only [Function.update_noteq hij] using hf⟩
  · exact ⟨j, hj, by simpa only [Function.update_same] using he⟩

theorem refineGuarded_update {m : Nat} (mesh : MeshBase) (j : Nat) (e : Elem)
    (he : RefineGuarded m (mesh.elem j) e) (i : Nat) :
    RefineGuarded m (mesh.elem i) (Function.update mesh.elem j e i) := by
  by_cases hij : i = j
  · subst hij
    simpa only [Function.update_same] using he
  · simpa only [Function.update_noteq hij] using refineGuarded_refl m _

theorem children_update (mesh : MeshBase) (j : Nat) (flag : RefinementState) (i : Nat) :
    (Function.update mesh.elem j ((mesh.elem j).set_refinement_flag flag) i).children
      = (mesh.elem i).children := by
  by_cases hij : i = j
  · subst hij
    simp only [Function.update_same, Elem.set_refinement_flag]
  · simp only [Function.update_noteq hij]

theorem flag_elements_by_nelem_target_refine_spec {α : Type} (m rc : Nat) :
    ∀ (l : List (α × Nat)) (s s' : MeshBase × Nat),
      flag_elements_by_nelem_target_refine m rc l s = Except.ok s' →
      s'.1.n_elem = s.1.n_elem ∧
      (∀ i, RefineGuarded m (s.1.elem i) (s'.1.elem i)) ∧
      (∀ i, (s'.1.elem i).children = (s.1.elem i).children) ∧
      s.2 ≤ s'.2 ∧ s'.2 ≤ max s.2 rc ∧
      n_flagged s'.1 RefinementState.REFINE + s.2
        ≤ n_flagged s.1 RefinementState.REFINE + s'.2 ∧
      (s' = s ∨ (s.2 < s'.2 ∧ Flagged s'.1))
  | [], s, s', h => by
    simp only [flag_elements_by_nelem_target_refine, Except.ok.injEq] at h
    subst h
    exact ⟨rfl, fun i => refineGuarded_refl _ _, fun _ => rfl, le_refl _, le_max_left _ _,
      le_refl _, Or.inl rfl⟩
  | p :: rest, s, s', h => by
    rw [flag_elements_by_nelem_target_refine] at h
    by_cases hbreak : s.2 ≥ rc
    · rw [if_pos hbreak] at h
      cases h
      exact ⟨rfl, fun i => refineGuarded_refl _ _, fun _ => rfl, le_refl _, le_max_left _ _,
        le_refl _, Or.inl rfl⟩
    · rw [if_neg hbreak] at h
      simp only at h
      by_cases heid : p.2 < s.1.n_elem
      · rw [if_pos heid] at h
        by_cases hlev : (s.1.elem p.2).level < m
        · rw [if_pos hlev] at h
          obtain ⟨h1, h2, h3, h4, h5, h6, h7⟩ :=
            flag_elements_by_nelem_target_refine_spec m rc rest _ s' h
          simp only at h1 h2 h3 h4 h5 h6 h7
          have hmax : max (s.2 + 1) rc ≤ max s.2 rc := by
            have : s.2 + 1 ≤ rc := by omega
            rw [max_eq_right this]
            exact le_max_right _ _
          have hcount := n_flagged_update_le s.1 p.2
            ((s.1.elem p.2).set_refinement_flag RefinementState.REFINE) RefinementState.REFINE
          have hfl := flagged_update s.1 p.2
            ((s.1.elem p.2).set_refinement_flag RefinementState.REFINE) (Or.inl rfl)
            (Or.inr heid)
          refine ⟨h1, fun i => ?_, fun i => ?_, by omega, le_trans h5 hmax, by omega, ?_⟩
          · exact refineGuarded_trans
              (refineGuarded_update s.1 p.2 _ (refineGuarded_refine hlev) i) (h2 i)
          · rw [h3 i]
            exact children_update s.1 p.2 _ i
          · right
            rcases h7 with h7 | h7
            · subst h7
              exact ⟨Nat.lt_succ_self _, hfl⟩
            · exact ⟨by omega, h7.2⟩
        · rw [if_neg hlev] at h
          exact flag_elements_by_nelem_target_refine_spec m rc rest s s' h
      · rw [if_neg heid] at h
        cases h

theorem flag_elements_by_nelem_target_children_spec (m : Nat) :
    ∀ (cs : List Nat) (s : MeshBase × Nat),
      (flag_elements_by_nelem_target_children cs s).1.n_elem = s.1.n_elem ∧
      (∀ i, RefineGuarded m (s.1.elem i)
        ((flag_elements_by_nelem_target_children cs s).1.elem i)) ∧
      (∀ i, ((flag_elements_by_nelem_target_children cs s).1.elem i).children
        = (s.1.elem i).children) ∧
      s.2 ≤ (flag_elements_by_nelem_target_children cs s).2 ∧
      n_flagged (flag_elements_by_nelem_target_children cs s).1 RefinementState.REFINE
        ≤ n_flagged s.1 RefinementState.REFINE ∧
      (Flagged s.1 → Flagged (flag_elements_by_nelem_target_children cs s).1) ∧
      ((∀ c ∈ cs, c < s.1.n_elem) →
        flag_elements_by_nelem_target_children cs s = s ∨
          (s.2 < (flag_elements_by_nelem_target_children cs s).2 ∧
            Flagged (flag_elements_by_nelem_target_children cs s).1))
  | [], s => by
    exact ⟨rfl, fun i => refineGuarded_refl _ _, fun _ => rfl, le_refl _, le_refl _,
      fun h => h, fun _ => Or.inl rfl⟩
  | c :: rest, s => by
    rw [flag_elements_by_nelem_target_children]
    by_cases hact : (s.1.elem c).active = true
    · rw [if_pos hact]
      dsimp only
      obtain ⟨h1, h2, h3, h4, h5, h6, h7⟩ :=
        flag_elements_by_nelem_target_children_spec m rest
          (⟨s.1.n_nodes, s.1.n_elem, Function.update s.1.elem c
              ((s.1.elem c).set_refinement_flag RefinementState.COARSEN)⟩, s.2 + 1)
      simp only at h1 h2 h3 h4 h5 h6 h7
      have hcount := n_flagged_update_other s.1 c
        ((s.1.elem c).set_refinement_flag RefinementState.COARSEN) RefinementState.REFINE
        (by simp [Elem.set_refinement_flag])
      refine ⟨h1, fun i => ?_, fun i => ?_, by omega, le_trans h5 hcount, fun hf => ?_,
        fun hcs => ?_⟩
      · exact refineGuarded_trans
          (refineGuarded_update s.1 c _ (refineGuarded_coarsen _ _) i) (h2 i)
      · rw [h3 i]
        exact children_update s.1 c _ i
      · exact h6 (flagged_update s.1 c _ (Or.inr rfl) (Or.inl hf))
      · right
        have hfl := flagged_update s.1 c
          ((s.1.elem c).set_refinement_flag RefinementState.COARSEN) (Or.inr rfl)
          (Or.inr (hcs c (List.mem_cons_self _ _)))
        exact ⟨by omega, h6 hfl⟩
    · rw [if_neg hact]
      obtain ⟨h1, h2, h3, h4, h5, h6, h7⟩ :=
        flag_elements_by_nelem_target_children_spec m rest s
      exact ⟨h1, h2, h3, h4, h5, h6,
        fun hcs => h7 fun c hc => hcs c (List.mem_cons_of_mem _ hc)⟩

end MeshRefinement

end Genius
namespace Genius

namespace MeshRefinement

variable {α : Type} [LinearOrderedField α]

theorem flag_elements_by_nelem_target_coarsen_spec {α : Type} (m t cc : Nat) :
    ∀ (l : List (α × Nat)) (s s' : MeshBase × Nat),
      flag_elements_by_nelem_target_coarsen t cc l s = Except.ok s' →
      s'.1.n_elem = s.1.n_elem ∧
      (∀ i, RefineGuarded m (s.1.elem i) (s'.1.elem i)) ∧
      (∀ i, (s'.1.elem i).children = (s.1.elem i).children) ∧
      s.2 ≤ s'.2 ∧
      n_flagged s'.1 RefinementState.REFINE ≤ n_flagged s.1 RefinementState.REFINE ∧
      (Flagged s.1 → Flagged s'.1) ∧
      ((∀ p, p < s.1.n_elem → ∀ c ∈ (s.1.elem p).children, c < s.1.n_elem) →
        s' = s ∨ (s.2 < s'.2 ∧ Flagged s'.1))
  | [], s, s', h => by
    simp only [flag_elements_by_nelem_target_coarsen, Except.ok.injEq] at h
    subst h
    exact ⟨rfl, fun i => refineGuarded_refl _ _, fun _ => rfl, le_refl _, le_refl _,
      fun h => h, fun _ => Or.inl rfl⟩
  | p :: rest, s, s', h => by
    rw [flag_elements_by_nelem_target_coarsen] at h
    by_cases hbreak : s.2 ≥ (cc * t) % 4294967296
    · rw [if_pos hbreak] at h
      cases h
      exact ⟨rfl, fun i => refineGuarded_refl _ _, fun _ => rfl, le_refl _, le_refl _,
        fun h => h, fun _ => Or.inl rfl⟩
    · rw [if_neg hbreak] at h
      simp only at h
      by_cases hpid : p.2 < s.1.n_elem
      · rw [if_pos hpid] at h
        obtain ⟨h1, h2, h3, h4, h5, h6, h7⟩ :=
          flag_elements_by_nelem_target_coarsen_spec m t cc rest _ s' h
        obtain ⟨k1, k2, k3, k4, k5, k6, k7⟩ :=
          flag_elements_by_nelem_target_children_spec m (s.1.elem p.2).children s
        refine ⟨h1.trans k1, fun i => refineGuarded_trans (k2 i) (h2 i),
          fun i => (h3 i).trans (k3 i), le_trans k4 h4, le_trans h5 k5, fun hf => h6 (k6 hf),
          fun hch => ?_⟩
        have hch1 : ∀ q, q < (flag_elements_by_nelem_target_children
            (s.1.elem p.2).children s).1.n_elem →
            ∀ c ∈ ((flag_elements_by_nelem_target_children
              (s.1.elem p.2).children s).1.elem q).children,
            c < (flag_elements_by_nelem_target_children
              (s.1.elem p.2).children s).1.n_elem := by
          intro q hq c hc
          rw [k1] at hq ⊢
          rw [k3 q] at hc
          exact hch q hq c hc
        rcases k7 (hch p.2 hpid) with k7 | k7
        · rw [k7] at h7
          exact h7 hch
        · right
          rcases h7 hch1 with h7 | h7
          · rw [h7]
            exact k7
          · exact ⟨lt_trans k7.1 h7.1, h7.2⟩
      · rw [if_neg hpid] at h
        cases h

theorem flag_elements_by_nelem_target_refine_returns {α : Type} (m rc : Nat) :
    ∀ (l : List (α × Nat)) (s : MeshBase × Nat), (∀ p ∈ l, p.2 < s.1.n_elem) →
      ∃ s', flag_elements_by_nelem_target_refine m rc l s = Except.ok s'
  | [], s, _ => ⟨s, rfl⟩
  | p :: rest, s, hl => by
    rw [flag_elements_by_nelem_target_refine]
    by_cases hbreak : s.2 ≥ rc
    · rw [if_pos hbreak]
      exact ⟨s, rfl⟩
    · rw [if_neg hbreak]
      simp only
      rw [if_pos (hl p (List.mem_cons_self _ _))]
      have hrest : ∀ q ∈ rest, q.2 < s.1.n_elem :=
        fun q hq => hl q (List.mem_cons_of_mem _ hq)
      split_ifs
      · exact flag_elements_by_nelem_target_refine_returns m rc rest _ hrest
      · exact flag_elements_by_nelem_target_refine_returns m rc rest _ hrest

theorem flag_elements_by_nelem_target_coarsen_returns {α : Type} (t cc : Nat) :
    ∀ (l : List (α × Nat)) (s : MeshBase × Nat), (∀ p ∈ l, p.2 < s.1.n_elem) →
      ∃ s', flag_elements_by_nelem_target_coarsen t cc l s = Except.ok s'
  | [], s, _ => ⟨s, rfl⟩
  | p :: rest, s, hl => by
    rw [flag_elements_by_nelem_target_coarsen]
    by_cases hbreak : s.2 ≥ (cc * t) % 4294967296
    · rw [if_pos hbreak]
      exact ⟨s, rfl⟩
    · rw [if_neg hbreak]
      simp only
      rw [if_pos (hl p (List.mem_cons_self _ _))]
      apply flag_elements_by_nelem_target_coarsen_returns t cc rest
      intro q hq
      rw [(flag_elements_by_nelem_target_children_spec 0 (s.1.elem p.2).children s).1]
      exact hl q (List.mem_cons_of_mem _ hq)

theorem flag_elements_by_nelem_target_errors_ids {α : Type} (error_per_cell : List α) :
    ∀ (ids : List Nat) (acc out : List (α × Nat)),
      flag_elements_by_nelem_target_errors error_per_cell ids acc = Except.ok out →
      out.map Prod.snd = acc.map Prod.snd ++ ids
  | [], acc, out, h => by
    simp only [flag_elements_by_nelem_target_errors, Except.ok.injEq] at h
    subst h
    simp
  | id :: rest, acc, out, h => by
    rw [flag_elements_by_nelem_target_errors] at h
    split at h
    · split at h
      · cases h
      · have ih := flag_elements_by_nelem_target_errors_ids error_per_cell rest _ out h
        rw [ih]
        simp
    · cases h

theorem flag_elements_by_nelem_target_errors_returns {α : Type} (error_per_cell : List α) :
    ∀ (ids : List Nat) (acc : List (α × Nat)), (∀ id ∈ ids, id < error_per_cell.length) →
      ∃ out, flag_elements_by_nelem_target_errors error_per_cell ids acc = Except.ok out
  | [], acc, _ => ⟨acc, rfl⟩
  | id :: rest, acc, hl => by
    have hid : id < error_per_cell.length := hl id (List.mem_cons_self _ _)
    rw [flag_elements_by_nelem_target_errors, if_pos hid]
    have hread : read_error error_per_cell id = Except.ok (error_per_cell.get ⟨id, hid⟩) := by
      unfold read_error
      rw [List.getElem?_eq_getElem hid]
      rfl
    rw [hread]
    exact flag_elements_by_nelem_target_errors_returns error_per_cell rest _
      fun q hq => hl q (List.mem_cons_of_mem _ hq)

theorem flag_elements_by_nelem_target_parents_lt (error_per_parent : List α) :
    ∀ p ∈ flag_elements_by_nelem_target_parents error_per_parent,
      p.2 < error_per_parent.length := by
  intro p hp
  unfold flag_elements_by_nelem_target_parents at hp
  have hz := (List.mem_filter.mp hp).1
  have := (List.of_mem_zip (show (p.1, p.2) ∈ _ from hz)).2
  exact List.mem_range.mp this

theorem flag_elements_by_nelem_target_trade_fuel (max_elem_coarsen max_elem_refine : Nat)
    (sorted_error sorted_parent_error : List (α × Nat)) (coarsen_threshold : α) :
    ∀ (rounds : Nat) (counts : Nat × Nat), max_elem_refine - counts.2 ≤ rounds →
      flag_elements_by_nelem_target_trade max_elem_coarsen max_elem_refine sorted_error
          sorted_parent_error coarsen_threshold rounds counts
        = flag_elements_by_nelem_target_trade max_elem_coarsen max_elem_refine sorted_error
          sorted_parent_error coarsen_threshold (max_elem_refine - counts.2) counts
  | 0, counts, h => by
    have : max_elem_refine - counts.2 = 0 := by omega
    rw [this]
  | rounds + 1, counts, h => by
    by_cases hlt : counts.2 < max_elem_refine
    · have hfuel : max_elem_refine - counts.2 = (max_elem_refine - (counts.2 + 1)) + 1 := by
        omega
      rw [hfuel, flag_elements_by_nelem_target_trade, flag_elements_by_nelem_target_trade]
      have ih := flag_elements_by_nelem_target_trade_fuel max_elem_coarsen max_elem_refine
        sorted_error sorted_parent_error coarsen_threshold rounds
        (counts.1 + 1, counts.2 + 1) (by simp only; omega)
      simp only at ih
      rw [ih]
    · have hfuel : max_elem_refine - counts.2 = 0 := by omega
      rw [hfuel, flag_elements_by_nelem_target_trade, flag_elements_by_nelem_target_trade,
        if_neg (fun hc => hlt hc.2)]

theorem twotodim_succ (dim : Nat) : twotodim (dim + 1) = (twotodim dim * 2) % 4294967296 := by
  unfold twotodim
  rw [List.range_succ, List.foldl_append]
  rfl

theorem twotodim_sub_one_ne_zero (dim : Nat) (h : 1 ≤ dim) :
    (twotodim dim + 4294967295) % 4294967296 ≠ 0 := by
  obtain ⟨d, rfl⟩ : ∃ d, dim = d + 1 := ⟨dim - 1, by omega⟩
  rw [twotodim_succ]
  omega

theorem clean_refinement_flags_level (mesh : MeshBase) (i : Nat) :
    ((clean_refinement_flags mesh).elem i).level = (mesh.elem i).level := by
  unfold clean_refinement_flags
  simp only
  split_ifs <;> rfl

theorem clean_refinement_flags_children (mesh : MeshBase) (i : Nat) :
    ((clean_refinement_flags mesh).elem i).children = (mesh.elem i).children := by
  unfold clean_refinement_flags
  simp only
  split_ifs <;> rfl

theorem clean_refinement_flags_active (mesh : MeshBase) (i : Nat) :
    ((clean_refinement_flags mesh).elem i).active = (mesh.elem i).active := by
  unfold clean_refinement_flags
  simp only
  split_ifs <;> rfl

theorem clean_refinement_flags_flag (mesh : MeshBase) (i : Nat) (hi : i < mesh.n_elem) :
    ((clean_refinement_flags mesh).elem i).refinement_flag = RefinementState.DO_NOTHING ∨
      ((clean_refinement_flags mesh).elem i).refinement_flag = RefinementState.INACTIVE := by
  unfold clean_refinement_flags
  simp only [if_pos hi]
  split_ifs
  · exact Or.inl rfl
  · exact Or.inr rfl

theorem clean_refinement_flags_outside (mesh : MeshBase) (i : Nat) (hi : ¬ i < mesh.n_elem) :
    (clean_refinement_flags mesh).elem i = mesh.elem i := by
  unfold clean_refinement_flags
  simp only [if_neg hi]

theorem clean_refinement_flags_active_elements (mesh : MeshBase) :
    (clean_refinement_flags mesh).active_elements = mesh.active_elements := by
  unfold MeshBase.active_elements
  apply List.filter_congr
  intro i _
  rw [clean_refinement_flags_active]

theorem clean_refinement_flags_not_flagged (mesh : MeshBase) :
    ¬ Flagged (clean_refinement_flags mesh) := by
  rintro ⟨i, hi, hf⟩
  rcases clean_refinement_flags_flag mesh i hi with h | h <;> rw [h] at hf <;>
    rcases hf with hf | hf <;> cases hf

theorem n_flagged_eq_zero_iff (mesh : MeshBase) (flag : RefinementState) :
    n_flagged mesh flag = 0 ↔ ∀ i, i < mesh.n_elem → (mesh.elem i).refinement_flag ≠ flag := by
  unfold n_flagged
  rw [List.countP_eq_zero]
  constructor
  · intro h i hi
    simpa using h i (List.mem_range.mpr hi)
  · intro h i hi
    simpa using h i (List.mem_range.mp hi)

theorem active_elements_lt (mesh : MeshBase) (i : Nat) (hi : i ∈ mesh.active_elements) :
    i < mesh.n_elem :=
  List.mem_range.mp (List.mem_filter.mp hi).1

theorem refineChangesBelow_of_guarded {m : Nat} {mesh mesh' : MeshBase}
    (hg : ∀ i, RefineGuarded m (mesh.elem i) (mesh'.elem i)) :
    RefineChangesBelow m mesh mesh' := by
  intro i
  refine ⟨(hg i).1, fun h hne => ?_⟩
  rcases (hg i).2 h with h' | h'
  · exact absurd h' hne
  · rw [(hg i).1]
    exact h'

theorem refine_below_after_clean {m : Nat} {mesh mesh' : MeshBase}
    (hn : mesh'.n_elem = mesh.n_elem)
    (hg : ∀ i, RefineGuarded m ((clean_refinement_flags mesh).elem i) (mesh'.elem i)) :
    RefineChangesBelow m mesh mesh' ∧ RefineFlagsBelow m mesh' := by
  have key : ∀ i, i < mesh.n_elem → (mesh'.elem i).refinement_flag = RefinementState.REFINE →
      (mesh'.elem i).level < m := by
    intro i hi h
    rcases (hg i).2 h with h' | h'
    · rcases clean_refinement_flags_flag mesh i hi with hc | hc <;> rw [hc] at h' <;> cases h'
    · rw [(hg i).1]
      exact h'
  refine ⟨fun i => ⟨(hg i).1.trans (clean_refinement_flags_level mesh i), fun h hne => ?_⟩,
    fun i hi h => key i (hn ▸ hi) h⟩
  by_cases hi : i < mesh.n_elem
  · exact key i hi h
  · have hg' := hg i
    rw [clean_refinement_flags_outside mesh i hi] at hg'
    rcases hg'.2 h with h' | h'
    · exact absurd h' hne
    · rw [hg'.1]
      exact h'

end MeshRefinement

end Genius
namespace Genius

namespace MeshRefinement

variable {α : Type} [LinearOrderedField α]

theorem flag_elements_by_error_fraction_guarded
    (create_parent_error_vector : MeshBase → List α → List α × α × α)
    (self : MeshRefinement α) (mesh : MeshBase) (error_per_cell : List α)
    (refine_frac coarsen_frac : α) (max_l : Nat) (self' : MeshRefinement α)
    (mesh' : MeshBase)
    (h : flag_elements_by_error_fraction create_parent_error_vector self mesh error_per_cell
      refine_frac coarsen_frac max_l = Except.ok (self', mesh')) :
    self' = take_arguments self refine_frac coarsen_frac max_l ∧
      RefineChangesBelow self'._max_h_level mesh mesh' ∧
      RefineFlagsBelow self'._max_h_level mesh' := by
  unfold flag_elements_by_error_fraction at h
  simp only at h
  split_ifs at h
  all_goals
    split at h
    · cases h
    · split at h
      · cases h
      · rename_i hrun
        cases h
        obtain ⟨hn, hg⟩ := flag_active_elements_guarded _ _
          (flag_elements_by_error_fraction_elem_guarded _ _ _ _ _ _) _ _ _ hrun
        exact ⟨rfl, refine_below_after_clean hn hg⟩

theorem flag_elements_by_error_tolerance_guarded (sqrt : α → α)
    (create_parent_error_vector : MeshBase → List α → List α × α × α)
    (self : MeshRefinement α) (mesh : MeshBase) (error_per_cell_in : List α)
    (self' : MeshRefinement α) (mesh' : MeshBase)
    (h : flag_elements_by_error_tolerance sqrt create_parent_error_vector self mesh
      error_per_cell_in = Except.ok (self', mesh')) :
    self' = self ∧ RefineChangesBelow self'._max_h_level mesh mesh' := by
  unfold flag_elements_by_error_tolerance at h
  simp only at h
  split_ifs at h
  all_goals
    split at h
    · cases h
    · rename_i hrun
      cases h
      obtain ⟨_, hg⟩ := flag_active_elements_guarded _ _
        (flag_elements_by_error_threshold_elem_guarded sqrt self mesh _ _ _ _) _ _ _ hrun
      exact ⟨rfl, refineChangesBelow_of_guarded hg⟩

theorem flag_elements_by_error_threshold_guarded (sqrt : α → α)
    (create_parent_error_vector : MeshBase → List α → List α × α × α)
    (self : MeshRefinement α) (mesh : MeshBase) (error_per_cell_in : List α)
    (refine_threshold coarsen_threshold : α) (max_level : Nat)
    (self' : MeshRefinement α) (mesh' : MeshBase)
    (h : flag_elements_by_error_threshold sqrt create_parent_error_vector self mesh
      error_per_cell_in refine_threshold coarsen_threshold max_level
      = Except.ok (self', mesh')) :
    self'._max_h_level
        = (if self._use_member_parameters then self._max_h_level else max_level) ∧
      RefineChangesBelow self'._max_h_level mesh mesh' := by
  unfold flag_elements_by_error_threshold at h
  simp only at h
  split at h
  · cases h
  · rename_i hrun
    cases h
    obtain ⟨_, hg⟩ := flag_active_elements_guarded _ _
      (flag_elements_by_error_threshold_elem_guarded sqrt _ mesh _ _ _ _) _ _ _ hrun
    refine ⟨?_, refineChangesBelow_of_guarded hg⟩
    cases self._use_member_parameters <;> rfl

theorem flag_elements_by_mean_stddev_guarded (sqrt : α → α) (mean variance : List α → α)
    (self : MeshRefinement α) (mesh : MeshBase) (error_per_cell : List α)
    (refine_frac coarsen_frac : α) (max_l : Nat) (self' : MeshRefinement α)
    (mesh' : MeshBase)
    (h : flag_elements_by_mean_stddev sqrt mean variance self mesh error_per_cell
      refine_frac coarsen_frac max_l = Except.ok (self', mesh')) :
    self' = take_arguments self refine_frac coarsen_frac max_l ∧
      RefineChangesBelow self'._max_h_level mesh mesh' := by
  unfold flag_elements_by_mean_stddev at h
  simp only at h
  split_ifs at h
  all_goals
    split at h
    · cases h
    · rename_i hrun
      cases h
      obtain ⟨_, hg⟩ := flag_active_elements_guarded _ _
        (flag_elements_by_mean_stddev_elem_guarded _ _ _ _) _ _ _ hrun
      exact ⟨rfl, refineChangesBelow_of_guarded hg⟩

theorem flag_elements_by_elem_fraction_guarded [FloorSemiring α]
    (create_parent_error_vector : MeshBase → List α → List α × α × α)
    (self : MeshRefinement α) (mesh : MeshBase) (mesh_dimension : Nat)
    (error_per_cell : List α) (refine_frac coarsen_frac : α) (max_l : Nat)
    (self' : MeshRefinement α) (mesh' : MeshBase)
    (h : flag_elements_by_elem_fraction create_parent_error_vector self mesh mesh_dimension
      error_per_cell refine_frac coarsen_frac max_l = Except.ok (self', mesh')) :
    self' = take_arguments self refine_frac coarsen_frac max_l ∧
      RefineChangesBelow self'._max_h_level mesh mesh' ∧
      RefineFlagsBelow self'._max_h_level mesh' := by
  unfold flag_elements_by_elem_fraction at h
  simp only at h
  split_ifs at h
  all_goals
    split at h
    · cases h
    · split at h
      · cases h
      · split at h
        · cases h
        · split at h
          · cases h
          · rename_i hrun
            cases h
            obtain ⟨hn, hg⟩ := flag_active_elements_guarded _ _
              (flag_elements_by_elem_fraction_elem_guarded _ _ _ _ _ _ _) _ _ _ hrun
            exact ⟨rfl, refine_below_after_clean hn hg⟩

end MeshRefinement

end Genius
namespace Genius

namespace MeshRefinement

variable {α : Type} [LinearOrderedField α]

theorem flag_elements_by_nelem_target_loops_spec {α : Type} (m t mc cc rc : Nat)
    (sorted_error sorted_parent_error : List (α × Nat)) (mesh : MeshBase) (ret : Bool)
    (mesh' : MeshBase)
    (h : flag_elements_by_nelem_target_loops m t mc cc rc sorted_error sorted_parent_error
      mesh = Except.ok (ret, mesh')) :
    mesh'.n_elem = mesh.n_elem ∧
      (∀ i, RefineGuarded m (mesh.elem i) (mesh'.elem i)) ∧
      n_flagged mesh' RefinementState.REFINE ≤ n_flagged mesh RefinementState.REFINE + rc ∧
      ((∀ p, p < mesh.n_elem → ∀ c ∈ (mesh.elem p).children, c < mesh.n_elem) →
        ¬ Flagged mesh → (ret = true ↔ ¬ Flagged mesh')) := by
  unfold flag_elements_by_nelem_target_loops at h
  split at h
  · cases h
  · rename_i refined hrefined
    simp only at h
    split at h
    · cases h
    · rename_i coarsened hcoarsened
      cases h
      obtain ⟨r1, r2, r3, r4, r5, r6, r7⟩ :=
        flag_elements_by_nelem_target_refine_spec m rc _ _ _ hrefined
      obtain ⟨c1, c2, c3, c4, c5, c6, c7⟩ :=
        flag_elements_by_nelem_target_coarsen_spec m _ _ _ _ _ hcoarsened
      simp only at r1 r2 r3 r4 r5 r6 r7 c1 c2 c3 c4 c5 c6 c7
      have hrc : refined.2 ≤ rc := by
        have := r5
        rw [max_eq_right (Nat.zero_le _)] at this
        exact this
      refine ⟨c1.trans r1, fun i => refineGuarded_trans (r2 i) (c2 i), by omega,
        fun hch hnf => ?_⟩
      have hch1 : ∀ p, p < refined.1.n_elem → ∀ c ∈ (refined.1.elem p).children,
          c < refined.1.n_elem := by
        intro p hp c hc
        rw [r1] at hp ⊢
        rw [r3 p] at hc
        exact hch p hp c hc
      rw [decide_eq_true_iff]
      constructor
      · rintro ⟨hc0, hr0⟩
        have hr : refined = (mesh, 0) := by
          rcases r7 with r7 | r7
          · exact r7
          · omega
        have hc : coarsened = (refined.1, 0) := by
          rcases c7 hch1 with c7 | c7
          · exact c7
          · omega
        rw [hc, hr]
        exact hnf
      · intro hnf'
        constructor
        · by_contra hne
          rcases c7 hch1 with c7 | c7
          · rw [c7] at hne
            exact hne rfl
          · exact hnf' c7.2
        · by_contra hne
          rcases r7 with r7 | r7
          · rw [r7] at hne
            exact hne rfl
          · exact hnf' (c6 r7.2)

theorem flag_elements_by_nelem_target_counts_le (n_elem_new divisor max_elem_coarsen
    max_elem_refine : Nat) (sorted_error sorted_parent_error : List (α × Nat))
    (coarsen_threshold : α) :
    (flag_elements_by_nelem_target_counts n_elem_new divisor max_elem_coarsen max_elem_refine
      sorted_error sorted_parent_error coarsen_threshold).2 ≤ max_elem_refine := by
  unfold flag_elements_by_nelem_target_counts
  simp only
  split_ifs <;> omega

theorem flag_elements_by_nelem_target_run [FloorSemiring α]
    (create_parent_error_vector : MeshBase → List α → List α × α × α)
    (self : MeshRefinement α) (mesh : MeshBase) (mesh_dimension : Nat)
    (error_per_cell : List α) (ret : Bool) (mesh' : MeshBase)
    (h : flag_elements_by_nelem_target create_parent_error_vector self mesh mesh_dimension
      error_per_cell = Except.ok (ret, mesh')) :
    mesh'.n_elem = mesh.n_elem ∧
      (∀ i, RefineGuarded self._max_h_level ((clean_refinement_flags mesh).elem i)
        (mesh'.elem i)) ∧
      n_flagged mesh' RefinementState.REFINE
        ≤ uadd (Nat.floor (self._refine_fraction * (mesh.active_elements.length : α))) 1 ∧
      ((∀ p, p < mesh.n_elem → ∀ c ∈ (mesh.elem p).children, c < mesh.n_elem) →
        (ret = true ↔ ¬ Flagged mesh')) := by
  unfold flag_elements_by_nelem_target at h
  split at h
  · cases h
  split at h
  · cases h
  split at h
  · cases h
  simp only at h
  split at h
  · cases h
  split at h
  · cases h
  obtain ⟨l1, l2, l3, l4⟩ := flag_elements_by_nelem_target_loops_spec _ _ _ _ _ _ _ _ _ _ h
  have hcount := @flag_elements_by_nelem_target_counts_le α _
    ((self._nelem_target + 4294967296 - mesh.active_elements.length % 4294967296)
      % 4294967296)
    ((twotodim mesh_dimension + 4294967295) % 4294967296)
    (uadd (Nat.floor (self._coarsen_fraction * (mesh.active_elements.length : α))) 1)
    (uadd (Nat.floor (self._refine_fraction * (mesh.active_elements.length : α))) 1)
  have hzero : n_flagged (clean_refinement_flags mesh) RefinementState.REFINE = 0 := by
    rw [n_flagged_eq_zero_iff]
    intro i hi hf
    exact clean_refinement_flags_not_flagged mesh ⟨i, hi, Or.inl hf⟩
  refine ⟨l1, l2, ?_, fun hch => l4 ?_ (clean_refinement_flags_not_flagged mesh)⟩
  · rw [hzero, zero_add] at l3
    exact le_trans l3 (hcount _ _ _)
  · intro p hp c hc
    rw [clean_refinement_flags_children] at hc
    exact hch p hp c hc

end MeshRefinement

end Genius
namespace Genius

namespace MeshRefinement

variable {α : Type} [LinearOrderedField α]

theorem flag_elements_by_nelem_target_loops_returns {α : Type} (m t mc cc rc : Nat)
    (sorted_error sorted_parent_error : List (α × Nat)) (mesh : MeshBase)
    (herr : ∀ p ∈ sorted_error, p.2 < mesh.n_elem)
    (hpar : ∀ p ∈ sorted_parent_error, p.2 < mesh.n_elem) :
    ∃ r, flag_elements_by_nelem_target_loops m t mc cc rc sorted_error sorted_parent_error
      mesh = Except.ok r := by
  unfold flag_elements_by_nelem_target_loops
  obtain ⟨refined, hrefined⟩ :=
    flag_elements_by_nelem_target_refine_returns m rc sorted_error (mesh, 0) herr
  rw [hrefined]
  simp only
  have hn := (flag_elements_by_nelem_target_refine_spec m rc _ _ _ hrefined).1
  simp only at hn
  obtain ⟨coarsened, hcoarsened⟩ :=
    flag_elements_by_nelem_target_coarsen_returns t
      (if (if cc < rc - refined.2 then 0 else cc - (rc - refined.2)) > mc then mc
        else if cc < rc - refined.2 then 0 else cc - (rc - refined.2))
      sorted_parent_error (refined.1, 0) (fun p hp => by rw [hn]; exact hpar p hp)
  rw [hcoarsened]
  exact ⟨_, rfl⟩

theorem flag_elements_by_nelem_target_returns [FloorSemiring α]
    (create_parent_error_vector : MeshBase → List α → List α × α × α)
    (self : MeshRefinement α) (mesh : MeshBase) (mesh_dimension : Nat)
    (error_per_cell : List α) (hdim : 1 ≤ mesh_dimension)
    (hparents : self._coarsen_by_parents = true)
    (hrf : self._refine_fraction ≥ 0 ∧ self._refine_fraction ≤ 1)
    (hcf : self._coarsen_fraction ≥ 0 ∧ self._coarsen_fraction ≤ 1)
    (hcells : mesh.n_elem ≤ error_per_cell.length)
    (hsize : (create_parent_error_vector (clean_refinement_flags mesh) error_per_cell).1.length
      ≤ mesh.n_elem) :
    ∃ r, flag_elements_by_nelem_target create_parent_error_vector self mesh mesh_dimension
      error_per_cell = Except.ok r := by
  unfold flag_elements_by_nelem_target
  rw [if_neg (not_not.mpr hrf), if_neg (not_not.mpr hcf), hparents]
  simp only [Bool.not_true, Bool.false_eq_true, if_false]
  obtain ⟨unsorted, hunsorted⟩ :=
    flag_elements_by_nelem_target_errors_returns error_per_cell
      (clean_refinement_flags mesh).active_elements []
      (fun id hid => lt_of_lt_of_le (active_elements_lt _ id hid) hcells)
  rw [hunsorted]
  simp only
  rw [if_neg (twotodim_sub_one_ne_zero mesh_dimension hdim)]
  apply flag_elements_by_nelem_target_loops_returns
  · intro p hp
    rw [List.mem_reverse, (List.perm_insertionSort _ _).mem_iff] at hp
    have hids := flag_elements_by_nelem_target_errors_ids error_per_cell _ _ _ hunsorted
    have hmem : p.2 ∈ unsorted.map Prod.snd := List.mem_map_of_mem _ hp
    rw [hids, List.map_nil, List.nil_append] at hmem
    exact active_elements_lt _ _ hmem
  · intro p hp
    rw [(List.perm_insertionSort _ _).mem_iff] at hp
    exact lt_of_lt_of_le (flag_elements_by_nelem_target_parents_lt _ p hp) hsize

/-- C28: none of the six flagging strategies sets the flag `REFINE` on an element whose
level is at or above `_max_h_level`.  For every mesh, error vector and parameter choice,
when a strategy returns, no level has changed and every element whose h-refinement flag the
call changed to `REFINE` has a level below the `_max_h_level` of the object after the call;
after the three strategies that clean the flags first, every element of the mesh flagged
`REFINE` has such a level. -/
theorem flagging_strategies_respect_max_h_level [FloorSemiring α] (sqrt : α → α)
    (mean variance : List α → α)
    (create_parent_error_vector : MeshBase → List α → List α × α × α)
    (self : MeshRefinement α) (mesh : MeshBase) (mesh_dimension : Nat)
    (error_per_cell : List α) (refine_frac coarsen_frac refine_threshold
      coarsen_threshold : α) (max_l : Nat) :
    (∀ self' mesh', flag_elements_by_error_fraction create_parent_error_vector self mesh
        error_per_cell refine_frac coarsen_frac max_l = Except.ok (self', mesh') →
      self' = take_arguments self refine_frac coarsen_frac max_l ∧
        RefineChangesBelow self'._max_h_level mesh mesh' ∧
        RefineFlagsBelow self'._max_h_level mesh') ∧
    (∀ self' mesh', flag_elements_by_error_tolerance sqrt create_parent_error_vector self
        mesh error_per_cell = Except.ok (self', mesh') →
      self' = self ∧ RefineChangesBelow self'._max_h_level mesh mesh') ∧
    (∀ self' mesh', flag_elements_by_error_threshold sqrt create_parent_error_vector self
        mesh error_per_cell refine_threshold coarsen_threshold max_l
        = Except.ok (self', mesh') →
      self'._max_h_level
          = (if self._use_member_parameters then self._max_h_level else max_l) ∧
        RefineChangesBelow self'._max_h_level mesh mesh') ∧
    (∀ ret mesh', flag_elements_by_nelem_target create_parent_error_vector self mesh
        mesh_dimension error_per_cell = Except.ok (ret, mesh') →
      RefineChangesBelow self._max_h_level mesh mesh' ∧
        RefineFlagsBelow self._max_h_level mesh') ∧
    (∀ self' mesh', flag_elements_by_elem_fraction create_parent_error_vector self mesh
        mesh_dimension error_per_cell refine_frac coarsen_frac max_l
        = Except.ok (self', mesh') →
      self' = take_arguments self refine_frac coarsen_frac max_l ∧
        RefineChangesBelow self'._max_h_level mesh mesh' ∧
        RefineFlagsBelow self'._max_h_level mesh') ∧
    (∀ self' mesh', flag_elements_by_mean_stddev sqrt mean variance self mesh error_per_cell
        refine_frac coarsen_frac max_l = Except.ok (self', mesh') →
      self' = take_arguments self refine_frac coarsen_frac max_l ∧
        RefineChangesBelow self'._max_h_level mesh mesh') := by
  refine ⟨fun self' mesh' h => flag_elements_by_error_fraction_guarded _ _ _ _ _ _ _ _ _ h,
    fun self' mesh' h => flag_elements_by_error_tolerance_guarded _ _ _ _ _ _ _ h,
    fun self' mesh' h => flag_elements_by_error_threshold_guarded _ _ _ _ _ _ _ _ _ _ h,
    fun ret mesh' h => ?_,
    fun self' mesh' h => flag_elements_by_elem_fraction_guarded _ _ _ _ _ _ _ _ _ _ h,
    fun self' mesh' h => flag_elements_by_mean_stddev_guarded _ _ _ _ _ _ _ _ _ _ _ h⟩
  obtain ⟨hn, hg, _, _⟩ := flag_elements_by_nelem_target_run _ _ _ _ _ _ _ h
  exact refine_below_after_clean hn hg

/-- C22: `flag_elements_by_nelem_target` respects its refinement cap.  On a mesh whose
child pointers point into the mesh, every run that returns has flagged at most
`max_elem_refine = floor(_refine_fraction * n_active_elem) + 1` elements `REFINE` (the sum
is the 32-bit one of the code), no element flagged `REFINE` has a level at or above
`_max_h_level`, and the returned flag is true if and only if no element is flagged `REFINE`
and no element is flagged `COARSEN`; and the run returns for a mesh of dimension at least
one when coarsening by parents, with both fractions in `[0,1]`, an error vector that covers
the mesh and a parent error vector no longer than the mesh. -/
theorem flag_elements_by_nelem_target_respects_cap [FloorSemiring α]
    (create_parent_error_vector : MeshBase → List α → List α × α × α)
    (self : MeshRefinement α) (mesh : MeshBase) (mesh_dimension : Nat)
    (error_per_cell : List α)
    (hchildren : ∀ p, p < mesh.n_elem → ∀ c ∈ (mesh.elem p).children, c < mesh.n_elem) :
    (∀ ret mesh', flag_elements_by_nelem_target create_parent_error_vector self mesh
        mesh_dimension error_per_cell = Except.ok (ret, mesh') →
      mesh'.n_elem = mesh.n_elem ∧
        n_flagged mesh' RefinementState.REFINE
          ≤ uadd (Nat.floor (self._refine_fraction * (mesh.active_elements.length : α))) 1 ∧
        n_flagged mesh' RefinementState.REFINE
          ≤ Nat.floor (self._refine_fraction * (mesh.active_elements.length : α)) + 1 ∧
        (∀ i, i < mesh.n_elem →
          (mesh'.elem i).refinement_flag = RefinementState.REFINE →
          (mesh'.elem i).level = (mesh.elem i).level ∧
            (mesh.elem i).level < self._max_h_level) ∧
        (ret = true ↔
          n_flagged mesh' RefinementState.REFINE = 0 ∧
            n_flagged mesh' RefinementState.COARSEN = 0)) ∧
    (1 ≤ mesh_dimension → self._coarsen_by_parents = true →
      self._refine_fraction ≥ 0 ∧ self._refine_fraction ≤ 1 →
      self._coarsen_fraction ≥ 0 ∧ self._coarsen_fraction ≤ 1 →
      mesh.n_elem ≤ error_per_cell.length →
      (create_parent_error_vector (clean_refinement_flags mesh) error_per_cell).1.length
        ≤ mesh.n_elem →
      ∃ ret mesh', flag_elements_by_nelem_target create_parent_error_vector self mesh
        mesh_dimension error_per_cell = Except.ok (ret, mesh')) := by
  constructor
  · intro ret mesh' h
    obtain ⟨hn, hg, hcount, hret⟩ := flag_elements_by_nelem_target_run _ _ _ _ _ _ _ h
    have hbelow := (refine_below_after_clean hn hg).1
    refine ⟨hn, hcount, le_trans hcount ?_, fun i hi hf => ?_, ?_⟩
    · unfold uadd
      exact Nat.mod_le _ _
    · refine ⟨(hbelow i).1, ?_⟩
      rcases (hg i).2 hf with h' | h'
      · rcases clean_refinement_flags_flag mesh i hi with hc | hc <;> rw [hc] at h' <;>
          cases h'
      · rw [clean_refinement_flags_level] at h'
        exact h'
    · rw [hret hchildren, n_flagged_eq_zero_iff, n_flagged_eq_zero_iff]
      constructor
      · intro hnf
        exact ⟨fun i hi hf => hnf ⟨i, hi, Or.inl hf⟩, fun i hi hf => hnf ⟨i, hi, Or.inr hf⟩⟩
      · rintro ⟨hr, hc⟩ ⟨i, hi, hf | hf⟩
        · exact hr i hi hf
        · exact hc i hi hf
  · intro hdim hparents hrf hcf hcells hsize
    obtain ⟨r, hr⟩ := flag_elements_by_nelem_target_returns create_parent_error_vector self
      mesh mesh_dimension error_per_cell hdim hparents hrf hcf hcells hsize
    exact ⟨r.1, r.2, hr⟩

end MeshRefinement

end Genius
namespace Genius

namespace MeshRefinement

theorem flag_elements_by_nelem_target_respects_cap_witness :
    (∀ p, p < sample_flagging_mesh.n_elem →
      ∀ c ∈ (sample_flagging_mesh.elem p).children, c < sample_flagging_mesh.n_elem) ∧
    ∃ ret mesh', flag_elements_by_nelem_target sample_parent_error_vector
        (sample_refinement true) sample_flagging_mesh 1 [1, 2, 3, 4] = Except.ok (ret, mesh') ∧
      n_flagged mesh' RefinementState.REFINE
        ≤ Nat.floor ((sample_refinement true)._refine_fraction
            * (sample_flagging_mesh.active_elements.length : ℚ)) + 1 ∧
      (ret = true ↔
        n_flagged mesh' RefinementState.REFINE = 0 ∧
          n_flagged mesh' RefinementState.COARSEN = 0) := by
  have hch : ∀ p, p < sample_flagging_mesh.n_elem →
      ∀ c ∈ (sample_flagging_mesh.elem p).children, c < sample_flagging_mesh.n_elem := by
    decide
  have hthm := flag_elements_by_nelem_target_respects_cap sample_parent_error_vector
    (sample_refinement true) sample_flagging_mesh 1 [1, 2, 3, 4] hch
  obtain ⟨ret, mesh', hrun⟩ := hthm.2 (by decide) rfl (by norm_num [sample_refinement])
    (by norm_num [sample_refinement]) (by decide) (by decide)
  obtain ⟨_, _, h3, _, h5⟩ := hthm.1 ret mesh' hrun
  exact ⟨hch, ret, mesh', hrun, h3, h5⟩

theorem flagging_strategies_respect_max_h_level_witness :
    (∃ self' mesh', flag_elements_by_error_fraction sample_parent_error_vector
        (sample_refinement true) sample_flagging_mesh [1, 2, 3, 4] (1 / 2) (1 / 2) 1
        = Except.ok (self', mesh') ∧
      RefineFlagsBelow 1 mesh') ∧
    (∃ self' mesh', flag_elements_by_error_tolerance (fun x => x) sample_parent_error_vector
        (sample_refinement true) sample_flagging_mesh [1, 2, 3, 4] = Except.ok (self', mesh') ∧
      RefineChangesBelow 1 sample_flagging_mesh mesh') ∧
    (∃ self' mesh', flag_elements_by_error_threshold (fun x => x) sample_parent_error_vector
        (sample_refinement true) sample_flagging_mesh [1, 2, 3, 4] 2 1 1
        = Except.ok (self', mesh') ∧
      RefineChangesBelow 1 sample_flagging_mesh mesh') ∧
    (∃ ret mesh', flag_elements_by_nelem_target sample_parent_error_vector
        (sample_refinement true) sample_flagging_mesh 1 [1, 2, 3, 4] = Except.ok (ret, mesh') ∧
      RefineFlagsBelow 1 mesh') ∧
    (∃ self' mesh', flag_elements_by_elem_fraction sample_parent_error_vector
        (sample_refinement true) sample_flagging_mesh 1 [1, 2, 3, 4] (1 / 2) (1 / 2) 1
        = Except.ok (self', mesh') ∧
      RefineFlagsBelow 1 mesh') ∧
    (∃ self' mesh', flag_elements_by_mean_stddev (fun x => x) (fun _ => 2) (fun _ => 1)
        (sample_refinement true) sample_flagging_mesh [1, 2, 3, 4] (1 / 2) (1 / 2) 1
        = Except.ok (self', mesh') ∧
      RefineChangesBelow 1 sample_flagging_mesh mesh') := by
  have hthm := flagging_strategies_respect_max_h_level (fun x => x) (fun _ => 2)
    (fun _ => 1) sample_parent_error_vector (sample_refinement true) sample_flagging_mesh 1
    [1, 2, 3, 4] (1 / 2) (1 / 2) 2 1 1
  obtain ⟨t1, t2, t3, t4, t5, t6⟩ := hthm
  have r1 : ∃ r, flag_elements_by_error_fraction sample_parent_error_vector
      (sample_refinement true) sample_flagging_mesh [1, 2, 3, 4] (1 / 2) (1 / 2) 1
      = Except.ok r := by
    norm_num [flag_elements_by_error_fraction, take_arguments, sample_refinement,
      MeshBase.active_elements, sample_flagging_mesh, flag_active_elements,
      flag_elements_by_error_fraction_elem, flag_elements_by_error_fraction_coarsen,
      flag_elements_by_error_fraction_range, read_error, List.range, List.range.loop,
      clean_refinement_flags, Elem.set_refinement_flag, Elem.set_p_refinement_flag,
      sample_parent_error_vector]
  have r2 : ∃ r, flag_elements_by_error_tolerance (fun x => x) sample_parent_error_vector
      (sample_refinement true) sample_flagging_mesh [1, 2, 3, 4] = Except.ok r := by
    norm_num [flag_elements_by_error_tolerance, sample_refinement,
      MeshBase.active_elements, sample_flagging_mesh, flag_active_elements,
      flag_elements_by_error_threshold_elem, coarsen_by_parent_error, read_error, List.range,
      List.range.loop, Elem.set_refinement_flag, sample_parent_error_vector]
  have r3 : ∃ r, flag_elements_by_error_threshold (fun x => x) sample_parent_error_vector
      (sample_refinement true) sample_flagging_mesh [1, 2, 3, 4] 2 1 1 = Except.ok r := by
    norm_num [flag_elements_by_error_threshold, sample_refinement,
      MeshBase.active_elements, sample_flagging_mesh, flag_active_elements,
      flag_elements_by_error_threshold_elem, coarsen_by_parent_error, read_error, List.range,
      List.range.loop, Elem.set_refinement_flag, sample_parent_error_vector]
  have r4 := flag_elements_by_nelem_target_returns sample_parent_error_vector
    (sample_refinement true) sample_flagging_mesh 1 [1, 2, 3, 4] (by decide) rfl
    (by norm_num [sample_refinement]) (by norm_num [sample_refinement]) (by decide)
    (by decide)
  have r5 : ∃ r, flag_elements_by_elem_fraction sample_parent_error_vector
      (sample_refinement true) sample_flagging_mesh 1 [1, 2, 3, 4] (1 / 2) (1 / 2) 1
      = Except.ok r := by
    norm_num [flag_elements_by_elem_fraction, take_arguments, sample_refinement,
      MeshBase.active_elements, sample_flagging_mesh, flag_active_elements,
      flag_elements_by_elem_fraction_elem, flag_elements_by_elem_fraction_coarsen_parent,
      flag_elements_by_elem_fraction_coarsen_cell, flag_elements_by_elem_fraction_refine,
      flag_elements_by_elem_fraction_errors, flag_elements_by_elem_fraction_bottom_error,
      flag_elements_by_elem_fraction_top_error, twotodim, read_error, List.range,
      List.range.loop, clean_refinement_flags, Elem.set_refinement_flag,
      Elem.set_p_refinement_flag, sample_parent_error_vector, List.insertionSort,
      List.orderedInsert]
  have r6 : ∃ r, flag_elements_by_mean_stddev (fun x => x) (fun _ => 2) (fun _ => 1)
      (sample_refinement true) sample_flagging_mesh [1, 2, 3, 4] (1 / 2) (1 / 2) 1
      = Except.ok r := by
    norm_num [flag_elements_by_mean_stddev, take_arguments, sample_refinement,
      MeshBase.active_elements, sample_flagging_mesh, flag_active_elements,
      flag_elements_by_mean_stddev_elem, read_error, List.range, List.range.loop]
  obtain ⟨⟨s1, m1⟩, r1⟩ := r1
  obtain ⟨⟨s2, m2⟩, r2⟩ := r2
  obtain ⟨⟨s3, m3⟩, r3⟩ := r3
  obtain ⟨⟨s4, m4⟩, r4⟩ := r4
  obtain ⟨⟨s5, m5⟩, r5⟩ := r5
  obtain ⟨⟨s6, m6⟩, r6⟩ := r6
  have e1 := t1 s1 m1 r1
  have e2 := t2 s2 m2 r2
  have e3 := t3 s3 m3 r3
  have e4 := t4 s4 m4 r4
  have e5 := t5 s5 m5 r5
  have e6 := t6 s6 m6 r6
  refine ⟨⟨s1, m1, r1, ?_⟩, ⟨s2, m2, r2, ?_⟩, ⟨s3, m3, r3, ?_⟩, ⟨s4, m4, r4, e4.2⟩,
    ⟨s5, m5, r5, ?_⟩, ⟨s6, m6, r6, ?_⟩⟩
  · have := e1.2.2
    rw [e1.1] at this
    exact this
  · have := e2.2
    rw [e2.1] at this
    exact this
  · have := e3.2
    rw [e3.1] at this
    exact this
  · have := e5.2.2
    rw [e5.1] at this
    exact this
  · have := e6.2
    rw [e6.1] at this
    exact this

end MeshRefinement

end Genius
namespace Genius

namespace MeshRefinement

/-- C21 (code bug): `flag_elements_by_elem_fraction` does not flag the top `n_elem_refine`
elements.  On the mesh of four active elements of level `0` with the errors `1, 2, 3, 4`,
`_max_h_level = 1` and the refine fraction `1/2`, `n_elem_refine` is `2`, but the run
flags the element of error `4` only: `top_error` is read at the index
`sorted_error.size() - n_elem_refine + 1 = 3`. -/
theorem flag_elements_by_elem_fraction_flags_too_few :
    Nat.floor ((1 / 2 : ℚ) * (sample_uniform_mesh.n_elem : ℚ)) = 2 ∧
      (flag_elements_by_elem_fraction sample_parent_error_vector (sample_refinement false)
          sample_uniform_mesh 1 [1, 2, 3, 4] (1 / 2) 0 1).map
          (fun r => refinement_flags r.2)
        = Except.ok [RefinementState.DO_NOTHING, RefinementState.DO_NOTHING,
            RefinementState.DO_NOTHING, RefinementState.REFINE] := by
  constructor
  · norm_num [sample_uniform_mesh]
  · norm_num [flag_elements_by_elem_fraction, take_arguments, sample_refinement,
      MeshBase.active_elements, sample_uniform_mesh, flag_active_elements,
      flag_elements_by_elem_fraction_elem, flag_elements_by_elem_fraction_coarsen_parent,
      flag_elements_by_elem_fraction_coarsen_cell, flag_elements_by_elem_fraction_refine,
      flag_elements_by_elem_fraction_errors, flag_elements_by_elem_fraction_bottom_error,
      flag_elements_by_elem_fraction_top_error, read_error, List.range,
      List.range.loop, clean_refinement_flags, Elem.set_refinement_flag,
      Elem.set_p_refinement_flag, List.insertionSort, List.orderedInsert, Except.map,
      refinement_flags, Function.update]

/-- C25 (code bug): the reads of `sorted_error` in `flag_elements_by_elem_fraction` leave
the vector.  With two active elements and the refine fraction `1/2`, `n_elem_refine` is `1`
and `top_error` is read at the index `2 - 1 + 1 = 2` of a vector of length `2`; with one
inactive and one active element and the coarsen fraction `1`, `n_elem_coarsen` is `2`
(`_mesh.n_elem()` counts the inactive element) and `bottom_error` is read at the index `1`
of a vector of length `1`. -/
theorem flag_elements_by_elem_fraction_reads_out_of_range :
    flag_elements_by_elem_fraction sample_parent_error_vector (sample_refinement false)
        sample_mesh 1 [1, 2] (1 / 2) 0 3
      = Except.error Fault.index_out_of_range ∧
    flag_elements_by_elem_fraction sample_parent_error_vector (sample_refinement false)
        sample_refined_mesh 1 [1, 2] 0 1 3
      = Except.error Fault.index_out_of_range := by
  constructor
  · norm_num [flag_elements_by_elem_fraction, take_arguments, sample_refinement,
      MeshBase.active_elements, sample_mesh,
      flag_elements_by_elem_fraction_errors, flag_elements_by_elem_fraction_bottom_error,
      flag_elements_by_elem_fraction_top_error, read_error, List.range,
      List.range.loop, clean_refinement_flags, Elem.set_refinement_flag,
      Elem.set_p_refinement_flag, List.insertionSort, List.orderedInsert]
  · norm_num [flag_elements_by_elem_fraction, take_arguments, sample_refinement,
      MeshBase.active_elements, sample_refined_mesh,
      flag_elements_by_elem_fraction_errors, flag_elements_by_elem_fraction_bottom_error,
      flag_elements_by_elem_fraction_top_error, read_error, List.range,
      List.range.loop, clean_refinement_flags, Elem.set_refinement_flag,
      Elem.set_p_refinement_flag, List.insertionSort, List.orderedInsert]

end MeshRefinement

end Genius

namespace Genius

namespace MeshRefinement

theorem keepsRefine_refl (e : Elem) : KeepsRefine e e :=
  ⟨rfl, rfl, rfl, fun h => h, fun h => h⟩

theorem keepsRefine_trans {a b c : Elem} (h1 : KeepsRefine a b) (h2 : KeepsRefine b c) :
    KeepsRefine a c :=
  ⟨h2.1.trans h1.1, h2.2.1.trans h1.2.1, h2.2.2.1.trans h1.2.2.1,
    fun h => h2.2.2.2.1 (h1.2.2.2.1 h), fun h => h1.2.2.2.2 (h2.2.2.2.2 h)⟩

theorem keepsRefine_update (mesh : MeshBase) (a : Nat) (e : Elem)
    (he : KeepsRefine (mesh.elem a) e) (i : Nat) :
    KeepsRefine (mesh.elem i) (Function.update mesh.elem a e i) := by
  by_cases hia : i = a
  · subst hia
    simpa only [Function.update_same] using he
  · simpa only [Function.update_noteq hia] using keepsRefine_refl _

theorem islandNeighbors_stable {mesh mesh' : MeshBase} {i : Nat}
    (hk : ∀ j, KeepsRefine (mesh.elem j) (mesh'.elem j)) (h : IslandNeighbors mesh i) :
    IslandNeighbors mesh' i := by
  intro nb hnb
  rw [(hk i).2.2.1] at hnb
  obtain ⟨j, hj, hlev, hci, hact⟩ := h nb hnb
  refine ⟨j, hj, ?_, fun hc => hci ((hk j).2.2.2.2 hc), ?_⟩
  · rw [(hk j).1, (hk i).1]
    exact hlev
  · rw [(hk j).2.1]
    rcases hact with hact | hact
    · exact Or.inl hact
    · exact Or.inr ⟨hact.1, (hk j).2.2.2.1 hact.2⟩

theorem eliminate_unrefined_patches_neighbors_spec
    (min_new_p_level_by_neighbor : MeshBase → Nat → Nat → Nat → Nat) (mesh : MeshBase)
    (elem my_level my_new_p_level : Nat) :
    ∀ (l : List (Option Nat)) (flags out : Bool × Bool),
      eliminate_unrefined_patches_neighbors min_new_p_level_by_neighbor mesh elem my_level
        my_new_p_level l flags = Except.ok out →
      (out.1 = true → flags.1 = true ∧ ∀ nb ∈ l, ∃ j, nb = some j ∧
        eliminate_unrefined_patches_h_test true my_level (mesh.elem j) = false) ∧
      (none ∈ l → out = (false, false))
  | [], flags, out, h => by
    simp only [eliminate_unrefined_patches_neighbors, Except.ok.injEq] at h
    subst h
    exact ⟨fun h1 => ⟨h1, fun nb hnb => absurd hnb (List.not_mem_nil nb)⟩,
      fun hn => absurd hn (List.not_mem_nil _)⟩
  | none :: rest, flags, out, h => by
    simp only [eliminate_unrefined_patches_neighbors, Except.ok.injEq] at h
    subst h
    exact ⟨fun h1 => absurd h1 (by simp), fun _ => rfl⟩
  | some nb :: rest, (hf, pf), out, h => by
    rw [eliminate_unrefined_patches_neighbors] at h
    simp only at h
    have hmem : ∀ {P : Option Nat → Prop}, P (some nb) → (∀ x ∈ rest, P x) →
        ∀ x ∈ some nb :: rest, P x := by
      intro P h0 hr x hx
      rcases List.mem_cons.mp hx with hx | hx
      · rw [hx]
        exact h0
      · exact hr x hx
    have hnone : none ∈ some nb :: rest → none ∈ rest := by
      intro hx
      rcases List.mem_cons.mp hx with hx | hx
      · cases hx
      · exact hx
    cases ht : eliminate_unrefined_patches_h_test hf my_level (mesh.elem nb) with
    | true =>
      rw [ht] at h
      simp only [if_true, true_and] at h
      cases pf with
      | false =>
        simp only [if_true] at h
        cases h
        exact ⟨fun h1 => absurd h1 (by simp), fun _ => rfl⟩
      | true =>
        simp only [Bool.true_eq_false, if_false, if_true] at h
        split at h
        · cases h
        · split at h
          · cases h
            exact ⟨fun h1 => absurd h1 (by simp), fun _ => rfl⟩
          · obtain ⟨i1, i2⟩ := eliminate_unrefined_patches_neighbors_spec
              min_new_p_level_by_neighbor mesh elem my_level my_new_p_level rest _ out h
            exact ⟨fun h1 => absurd (i1 h1).1 (by simp), fun hn => i2 (hnone hn)⟩
    | false =>
      rw [ht] at h
      simp only [Bool.false_eq_true, false_and, if_false] at h
      have hstep : ∀ p', eliminate_unrefined_patches_neighbors min_new_p_level_by_neighbor
          mesh elem my_level my_new_p_level rest (hf, p') = Except.ok out →
          (out.1 = true → hf = true ∧ ∀ x ∈ some nb :: rest, ∃ j, x = some j ∧
            eliminate_unrefined_patches_h_test true my_level (mesh.elem j) = false) ∧
          (none ∈ some nb :: rest → out = (false, false)) := by
        intro p' hrec
        obtain ⟨i1, i2⟩ := eliminate_unrefined_patches_neighbors_spec
          min_new_p_level_by_neighbor mesh elem my_level my_new_p_level rest _ out hrec
        refine ⟨fun h1 => ?_, fun hn => i2 (hnone hn)⟩
        obtain ⟨hh, hrest⟩ := i1 h1
        simp only at hh
        subst hh
        exact ⟨rfl, hmem ⟨nb, rfl, ht⟩ hrest⟩
      cases pf with
      | false =>
        simp only [Bool.false_eq_true, if_false] at h
        exact hstep _ h
      | true =>
        simp only [if_true] at h
        split at h
        · cases h
        · split at h
          · split at h
            · rename_i hhf
              cases h
              subst hhf
              exact ⟨fun h1 => absurd h1 (by simp), fun _ => rfl⟩
            · exact hstep _ h
          · exact hstep _ h

end MeshRefinement

end Genius
namespace Genius

namespace MeshRefinement

theorem eliminate_unrefined_patches_children_spec :
    ∀ (cs : List Nat) (mesh mesh' : MeshBase),
      eliminate_unrefined_patches_children cs mesh = Except.ok mesh' →
      mesh'.n_elem = mesh.n_elem ∧
      ∀ i, mesh'.elem i = mesh.elem i ∨
        ((mesh.elem i).refinement_flag = RefinementState.COARSEN ∧
          mesh'.elem i = (mesh.elem i).set_refinement_flag RefinementState.DO_NOTHING)
  | [], mesh, mesh', h => by
    simp only [eliminate_unrefined_patches_children, Except.ok.injEq] at h
    subst h
    exact ⟨rfl, fun i => Or.inl rfl⟩
  | c :: rest, mesh, mesh', h => by
    rw [eliminate_unrefined_patches_children] at h
    split at h
    · rename_i hc
      obtain ⟨h1, h2⟩ := eliminate_unrefined_patches_children_spec rest _ mesh' h
      refine ⟨h1, fun i => ?_⟩
      have hi := h2 i
      simp only at hi
      by_cases hic : i = c
      · subst hic
        simp only [Function.update_same] at hi
        rcases hi with hi | hi
        · exact Or.inr ⟨hc, hi⟩
        · exact absurd hi.1 (by simp [Elem.set_refinement_flag])
      · simp only [Function.update_noteq hic] at hi
        exact hi
    · cases h

theorem keepsRefine_of_reset {e e' : Elem}
    (h : e' = e ∨ (e.refinement_flag = RefinementState.COARSEN ∧
      e' = e.set_refinement_flag RefinementState.DO_NOTHING)) : KeepsRefine e e' := by
  rcases h with h | ⟨hc, h⟩
  · rw [h]
    exact keepsRefine_refl e
  · rw [h]
    exact ⟨rfl, rfl, rfl, fun hr => absurd (hc.symm.trans hr) (by decide),
      fun hr => by simp [Elem.set_refinement_flag] at hr⟩

theorem eliminate_unrefined_patches_flag_h_spec (mesh mesh' : MeshBase) (a : Nat)
    (h : eliminate_unrefined_patches_flag_h mesh a = Except.ok mesh') :
    mesh'.n_elem = mesh.n_elem ∧
    (∀ i, KeepsRefine (mesh.elem i) (mesh'.elem i)) ∧
    (∀ i, i ≠ a → (mesh.elem i).refinement_flag ≠ RefinementState.COARSEN →
      mesh'.elem i = mesh.elem i) ∧
    (∀ i, (mesh.elem i).refinement_flag ≠ RefinementState.REFINE →
      (mesh'.elem i).refinement_flag = RefinementState.REFINE →
      i = a ∧ (mesh.elem a).refinement_flag ≠ RefinementState.COARSEN_INACTIVE) := by
  unfold eliminate_unrefined_patches_flag_h at h
  split at h
  · rename_i hci
    split at h
    · cases h
    · rename_i mesh1 hch
      cases h
      obtain ⟨c1, c2⟩ := eliminate_unrefined_patches_children_spec _ _ _ hch
      have ha : (mesh1.elem a).refinement_flag = RefinementState.COARSEN_INACTIVE := by
        rcases c2 a with h' | ⟨h', _⟩
        · rw [h']
          exact hci
        · rw [hci] at h'
          cases h'
      have hset : KeepsRefine (mesh1.elem a)
          ((mesh1.elem a).set_refinement_flag RefinementState.INACTIVE) :=
        ⟨rfl, rfl, rfl, fun hr => absurd (ha.symm.trans hr) (by decide),
          fun hr => by simp [Elem.set_refinement_flag] at hr⟩
      refine ⟨c1, fun i => ?_, fun i hia hco => ?_, fun i hnr hr => ?_⟩
      · exact keepsRefine_trans (keepsRefine_of_reset (c2 i))
          (keepsRefine_update mesh1 a _ hset i)
      · simp only [Function.update_noteq hia]
        rcases c2 i with h' | ⟨h', _⟩
        · exact h'
        · exact absurd h' hco
      · exfalso
        by_cases hia : i = a
        · subst hia
          simp [Elem.set_refinement_flag] at hr
        · simp only [Function.update_noteq hia] at hr
          rcases c2 i with h' | ⟨_, h'⟩
          · rw [h'] at hr
            exact hnr hr
          · rw [h'] at hr
            simp [Elem.set_refinement_flag] at hr
  · rename_i hci
    cases h
    have hset : KeepsRefine (mesh.elem a)
        ((mesh.elem a).set_refinement_flag RefinementState.REFINE) :=
      ⟨rfl, rfl, rfl, fun _ => rfl, fun hr => by simp [Elem.set_refinement_flag] at hr⟩
    refine ⟨rfl, fun i => keepsRefine_update mesh a _ hset i, fun i hia _ => ?_,
      fun i hnr hr => ?_⟩
    · simp only [Function.update_noteq hia]
    · by_cases hia : i = a
      · exact ⟨hia, hci⟩
      · simp only [Function.update_noteq hia] at hr
        exact absurd hr hnr

theorem eliminate_unrefined_patches_flag_p_spec (mesh : MeshBase) (a : Nat) :
    (eliminate_unrefined_patches_flag_p mesh a).n_elem = mesh.n_elem ∧
    (∀ i, KeepsRefine (mesh.elem i) ((eliminate_unrefined_patches_flag_p mesh a).elem i)) ∧
    (∀ i, i ≠ a → (eliminate_unrefined_patches_flag_p mesh a).elem i = mesh.elem i) ∧
    (∀ i, ((eliminate_unrefined_patches_flag_p mesh a).elem i).refinement_flag
      = (mesh.elem i).refinement_flag) := by
  unfold eliminate_unrefined_patches_flag_p
  split
  all_goals
    refine ⟨rfl, fun i => keepsRefine_update mesh a _ (by exact ⟨rfl, rfl, rfl, fun h => h, fun h => h⟩) i,
      fun i hia => ?_, fun i => ?_⟩
    · simp only [Function.update_noteq hia]
    · by_cases hia : i = a
      · subst hia
        simp only [Function.update_same, Elem.set_p_refinement_flag]
      · simp only [Function.update_noteq hia]

theorem islandNeighbors_of_h_test (mesh : MeshBase) (a : Nat)
    (h : ∀ nb ∈ (mesh.elem a).neighbors, ∃ j, nb = some j ∧
      eliminate_unrefined_patches_h_test true (mesh.elem a).level (mesh.elem j) = false) :
    IslandNeighbors mesh a := by
  intro nb hnb
  obtain ⟨j, hj, ht⟩ := h nb hnb
  unfold eliminate_unrefined_patches_h_test at ht
  simp only [Bool.true_and, Bool.or_eq_false_iff, decide_eq_false_iff_not, not_lt,
    Bool.and_eq_false_iff, ne_eq, not_not] at ht
  obtain ⟨⟨hlev, hact⟩, hci⟩ := ht
  refine ⟨j, hj, hlev, hci, ?_⟩
  rcases hact with hact | hact
  · exact Or.inl hact
  · cases hb : (mesh.elem j).active with
    | false => exact Or.inl rfl
    | true => exact Or.inr ⟨rfl, hact⟩

theorem eliminate_unrefined_patches_test_spec
    (min_new_p_level_by_neighbor : MeshBase → Nat → Nat → Nat → Nat) (mesh : MeshBase)
    (a : Nat) (h_flag_me p_flag_me : Bool) (mesh' : MeshBase) (changed : Bool)
    (h : eliminate_unrefined_patches_test min_new_p_level_by_neighbor mesh a h_flag_me
      p_flag_me = Except.ok (mesh', changed)) :
    mesh'.n_elem = mesh.n_elem ∧
    (∀ i, KeepsRefine (mesh.elem i) (mesh'.elem i)) ∧
    (∀ i, (mesh.elem i).refinement_flag ≠ RefinementState.REFINE →
      (mesh'.elem i).refinement_flag = RefinementState.REFINE →
      i = a ∧ h_flag_me = true ∧
        (mesh.elem a).refinement_flag ≠ RefinementState.COARSEN_INACTIVE ∧
        IslandNeighbors mesh a) ∧
    (∀ e, none ∈ (mesh.elem e).neighbors →
      (mesh.elem e).refinement_flag ≠ RefinementState.COARSEN →
      mesh'.elem e = mesh.elem e) := by
  unfold eliminate_unrefined_patches_test at h
  split at h
  · cases h
  · rename_i my_new_p_level _
    split at h
    · cases h
    · rename_i flags hloop
      obtain ⟨n1, n2⟩ := eliminate_unrefined_patches_neighbors_spec _ _ _ _ _ _ _ _ hloop
      split at h
      · cases h
      · rename_i mesh1 hh
        cases h
        have hp := eliminate_unrefined_patches_flag_p_spec mesh1 a
        cases hf1 : flags.1 with
        | false =>
          rw [hf1] at hh
          simp only [Bool.false_eq_true, if_false, Except.ok.injEq] at hh
          subst hh
          cases hf2 : flags.2 with
          | false =>
            rw [if_neg Bool.false_ne_true]
            exact ⟨rfl, fun i => keepsRefine_refl _, fun i hnr hr => absurd hr hnr,
              fun _ _ _ => rfl⟩
          | true =>
            simp only [if_true]
            refine ⟨hp.1, hp.2.1, fun i hnr hr => ?_, fun e hn _ => ?_⟩
            · rw [hp.2.2.2 i] at hr
              exact absurd hr hnr
            · by_cases hea : e = a
              · subst hea
                have := n2 hn
                rw [this] at hf2
                cases hf2
              · exact hp.2.2.1 e hea
        | true =>
          rw [hf1] at hh
          simp only [if_true] at hh
          obtain ⟨g1, g2, g3, g4⟩ := eliminate_unrefined_patches_flag_h_spec _ _ _ hh
          obtain ⟨hh1, hnbs⟩ := n1 hf1
          simp only at hh1
          have hisland := islandNeighbors_of_h_test mesh a hnbs
          have hnone : ∀ e, none ∈ (mesh.elem e).neighbors → e ≠ a := by
            intro e hn hea
            subst hea
            have := n2 hn
            rw [this] at hf1
            cases hf1
          cases hf2 : flags.2 with
          | false =>
            simp only [Bool.false_eq_true, if_false]
            refine ⟨g1, g2, fun i hnr hr => ?_, fun e hn hco => g3 e (hnone e hn) hco⟩
            obtain ⟨hia, hci⟩ := g4 i hnr hr
            exact ⟨hia, hh1, hci, hisland⟩
          | true =>
            simp only [if_true]
            refine ⟨hp.1.trans g1, fun i => keepsRefine_trans (g2 i) (hp.2.1 i),
              fun i hnr hr => ?_, fun e hn hco => ?_⟩
            · rw [hp.2.2.2 i] at hr
              obtain ⟨hia, hci⟩ := g4 i hnr hr
              exact ⟨hia, hh1, hci, hisland⟩
            · rw [hp.2.2.1 e (hnone e hn)]
              exact g3 e (hnone e hn) hco

theorem eliminate_unrefined_patches_elem_spec
    (min_new_p_level_by_neighbor : MeshBase → Nat → Nat → Nat → Nat) (mesh : MeshBase)
    (id : Nat) (mesh' : MeshBase) (changed : Bool)
    (h : eliminate_unrefined_patches_elem min_new_p_level_by_neighbor mesh id
      = Except.ok (mesh', changed)) :
    mesh'.n_elem = mesh.n_elem ∧
    (∀ i, KeepsRefine (mesh.elem i) (mesh'.elem i)) ∧
    (∀ i, (mesh.elem i).refinement_flag ≠ RefinementState.REFINE →
      (mesh'.elem i).refinement_flag = RefinementState.REFINE →
      i = id ∧ (mesh.elem i).refinement_flag ≠ RefinementState.COARSEN ∧
        IslandNeighbors mesh i) ∧
    (∀ e, none ∈ (mesh.elem e).neighbors →
      (mesh.elem e).refinement_flag ≠ RefinementState.COARSEN →
      mesh'.elem e = mesh.elem e) := by
  have hsame : mesh.n_elem = mesh.n_elem ∧
      (∀ i, KeepsRefine (mesh.elem i) (mesh.elem i)) ∧
      (∀ i, (mesh.elem i).refinement_flag ≠ RefinementState.REFINE →
        (mesh.elem i).refinement_flag = RefinementState.REFINE →
        i = id ∧ (mesh.elem i).refinement_flag ≠ RefinementState.COARSEN ∧
          IslandNeighbors mesh i) ∧
      (∀ e, none ∈ (mesh.elem e).neighbors →
        (mesh.elem e).refinement_flag ≠ RefinementState.COARSEN →
        mesh.elem e = mesh.elem e) :=
    ⟨rfl, fun i => keepsRefine_refl _, fun i hnr hr => absurd hr hnr, fun _ _ _ => rfl⟩
  unfold eliminate_unrefined_patches_elem at h
  simp only at h
  split at h
  · split at h
    · cases h
      exact hsame
    · obtain ⟨t1, t2, t3, t4⟩ := eliminate_unrefined_patches_test_spec _ _ _ _ _ _ _ h
      refine ⟨t1, t2, fun i hnr hr => ?_, t4⟩
      exact absurd (t3 i hnr hr).2.1 (by simp)
  · rename_i hnotrefine
    split at h
    · split at h
      · cases h
      · rename_i parent _
        split at h
        · cases h
          exact hsame
        · rename_i hci
          obtain ⟨t1, t2, t3, t4⟩ := eliminate_unrefined_patches_test_spec _ _ _ _ _ _ _ h
          refine ⟨t1, t2, fun i hnr hr => ?_, t4⟩
          exact absurd (not_not.mp hci) (t3 i hnr hr).2.2.1
    · rename_i hnotcoarsen
      obtain ⟨t1, t2, t3, t4⟩ := eliminate_unrefined_patches_test_spec _ _ _ _ _ _ _ h
      refine ⟨t1, t2, fun i hnr hr => ?_, t4⟩
      obtain ⟨hia, _, _, hisland⟩ := t3 i hnr hr
      subst hia
      exact ⟨rfl, hnotcoarsen, hisland⟩

theorem eliminate_unrefined_patches_loop_spec
    (min_new_p_level_by_neighbor : MeshBase → Nat → Nat → Nat → Nat) :
    ∀ (ids : List Nat) (s s' : MeshBase × Bool),
      eliminate_unrefined_patches_loop min_new_p_level_by_neighbor ids s = Except.ok s' →
      s'.1.n_elem = s.1.n_elem ∧
      (∀ i, KeepsRefine (s.1.elem i) (s'.1.elem i)) ∧
      (∀ i, (s.1.elem i).refinement_flag ≠ RefinementState.REFINE →
        (s'.1.elem i).refinement_flag = RefinementState.REFINE →
        i ∈ ids ∧ IslandNeighbors s'.1 i) ∧
      (∀ e, none ∈ (s.1.elem e).neighbors →
        (s.1.elem e).refinement_flag ≠ RefinementState.COARSEN →
        s'.1.elem e = s.1.elem e)
  | [], s, s', h => by
    simp only [eliminate_unrefined_patches_loop, Except.ok.injEq] at h
    subst h
    exact ⟨rfl, fun i => keepsRefine_refl _, fun i hnr hr => absurd hr hnr,
      fun _ _ _ => rfl⟩
  | id :: rest, s, s', h => by
    rw [eliminate_unrefined_patches_loop] at h
    split at h
    · cases h
    · rename_i r hstep
      obtain ⟨e1, e2, e3, e4⟩ :=
        eliminate_unrefined_patches_elem_spec min_new_p_level_by_neighbor s.1 id r.1 r.2 hstep
      obtain ⟨l1, l2, l3, l4⟩ :=
        eliminate_unrefined_patches_loop_spec min_new_p_level_by_neighbor rest _ s' h
      simp only at l1 l2 l3 l4
      refine ⟨l1.trans e1, fun i => keepsRefine_trans (e2 i) (l2 i), fun i hnr hr => ?_,
        fun e hn hco => ?_⟩
      · by_cases hmid : (r.1.elem i).refinement_flag = RefinementState.REFINE
        · obtain ⟨hid, _, hisland⟩ := e3 i hnr hmid
          exact ⟨hid ▸ List.mem_cons_self _ _,
            islandNeighbors_stable l2 (islandNeighbors_stable e2 hisland)⟩
        · obtain ⟨hmem, hisland⟩ := l3 i hmid hr
          exact ⟨List.mem_cons_of_mem _ hmem, hisland⟩
      · have h1 := e4 e hn hco
        rw [l4 e (by rw [h1]; exact hn) (by rw [h1]; exact hco), h1]

end MeshRefinement

end Genius
namespace Genius

namespace MeshRefinement

/-- C24: `eliminate_unrefined_patches` only refines true islands.  In a run that
returns, every element whose h-refinement flag was not `REFINE` before the call (so every
element flagged `DO_NOTHING`) and is `REFINE` after it is an active element of the mesh all
of whose neighbors are non-null, have a level at least the element's level, are not
flagged `COARSEN_INACTIVE`, and are inactive or active and flagged `REFINE`, in the mesh
after the call; the same holds in the mesh before the step of the loop that sets the flag,
for every step from every mesh; and an active element with a null neighbor that is not
flagged `COARSEN` keeps its h-flag and its p-flag. -/
theorem eliminate_unrefined_patches_refines_islands_only
    (min_new_p_level_by_neighbor : MeshBase → Nat → Nat → Nat → Nat) (mesh : MeshBase)
    (ret : Bool) (mesh' : MeshBase)
    (h : eliminate_unrefined_patches min_new_p_level_by_neighbor mesh
      = Except.ok (ret, mesh')) :
    (∀ i, (mesh.elem i).refinement_flag ≠ RefinementState.REFINE →
      (mesh'.elem i).refinement_flag = RefinementState.REFINE →
      i < mesh.n_elem ∧ (mesh.elem i).active = true ∧ IslandNeighbors mesh' i) ∧
    (∀ m id m1 changed,
      eliminate_unrefined_patches_elem min_new_p_level_by_neighbor m id
        = Except.ok (m1, changed) →
      ∀ i, (m.elem i).refinement_flag ≠ RefinementState.REFINE →
        (m1.elem i).refinement_flag = RefinementState.REFINE →
        i = id ∧ IslandNeighbors m i ∧ IslandNeighbors m1 i) ∧
    (∀ i, (mesh.elem i).active = true → none ∈ (mesh.elem i).neighbors →
      (mesh.elem i).refinement_flag ≠ RefinementState.COARSEN →
      (mesh'.elem i).refinement_flag = (mesh.elem i).refinement_flag ∧
        (mesh'.elem i).p_refinement_flag = (mesh.elem i).p_refinement_flag) := by
  unfold eliminate_unrefined_patches at h
  split at h
  · cases h
  · rename_i s hloop
    cases h
    obtain ⟨_, l2, l3, l4⟩ := eliminate_unrefined_patches_loop_spec _ _ _ _ hloop
    simp only at l2 l3 l4
    refine ⟨fun i hnr hr => ?_, fun m id m1 changed hstep i hnr hr => ?_,
      fun i _ hn hco => ?_⟩
    · obtain ⟨hmem, hisland⟩ := l3 i hnr hr
      have hmem' := List.mem_filter.mp hmem
      exact ⟨List.mem_range.mp hmem'.1, hmem'.2, hisland⟩
    · obtain ⟨e1, e2, e3, e4⟩ := eliminate_unrefined_patches_elem_spec _ _ _ _ _ hstep
      obtain ⟨hid, _, hisland⟩ := e3 i hnr hr
      exact ⟨hid, hisland, islandNeighbors_stable e2 hisland⟩
    · rw [l4 i hn hco]
      exact ⟨rfl, rfl⟩

/-- The statement C24 at the sample mesh: the island `0` between the two elements flagged
`REFINE` is flagged `REFINE`, and the element `1` on the boundary keeps its flags. -/
theorem eliminate_unrefined_patches_refines_islands_only_witness :
    ∃ m', eliminate_unrefined_patches (fun _ _ _ _ => 0) sample_island_mesh
        = Except.ok (true, m') ∧
      (sample_island_mesh.elem 0).refinement_flag ≠ RefinementState.REFINE ∧
      (m'.elem 0).refinement_flag = RefinementState.REFINE ∧
      IslandNeighbors m' 0 ∧
      (sample_island_mesh.elem 1).active = true ∧
      none ∈ (sample_island_mesh.elem 1).neighbors ∧
      (sample_island_mesh.elem 1).refinement_flag ≠ RefinementState.COARSEN ∧
      (m'.elem 1).refinement_flag = (sample_island_mesh.elem 1).refinement_flag ∧
      (m'.elem 1).p_refinement_flag = (sample_island_mesh.elem 1).p_refinement_flag :=
  ⟨_, rfl, by decide, rfl,
    ((eliminate_unrefined_patches_refines_islands_only (fun _ _ _ _ => 0) sample_island_mesh
      true _ rfl).1 0 (by decide) rfl).2.2,
    rfl, by decide, by decide,
    (eliminate_unrefined_patches_refines_islands_only (fun _ _ _ _ => 0) sample_island_mesh
      true _ rfl).2.2 1 rfl (by decide) (by decide)⟩

end MeshRefinement

end Genius
